import Mathlib

/-! Bonjour (mDNS responder for the Spark Core): shallow embedding.

Source: `firmware/Bonjour.cpp`, `firmware/Bonjour.h`.

Conventions of the embedding.

* A byte is a `Nat` (below 256 wherever it is stored through a `uint8_t`).
* A C string is the list of its bytes up to, and without, the terminating NUL.
  A `const uint8_t*` that only ever moves forward through a string is the list
  of the bytes from the pointer to the terminator: `*p` is `cHead p` (the NUL
  when the list is empty), `p++` is `List.tail`.
* `uint16_t` arithmetic is `% 65536`, `uint8_t` is `% 256`, `uint32_t` is
  `% 4294967296`.
* The engine (`BonjourClass`) is an explicit state record. The transport it
  inherits from (`UDP`), the clock and the local address are collaborators
  that are not part of the repository; they appear as fields of the record.
-/

namespace Bonjour

/-! ## Constants of `Bonjour.cpp` / `Bonjour.h` -/

/-- The byte of `'.'`. -/
def DOT : Nat := 46

/-- Bytes of an ASCII string literal. -/
def ascii (s : String) : List Nat := s.toList.map Char.toNat

/-- `#define MDNS_DEFAULT_NAME "myspark"`. -/
def MDNS_DEFAULT_NAME : List Nat := ascii "myspark"

/-- `#define MDNS_TLD ".local"`. -/
def MDNS_TLD : List Nat := ascii ".local"

/-- `#define DNS_SD_SERVICE "_services._dns-sd._udp.local"`. -/
def DNS_SD_SERVICE : List Nat := ascii "_services._dns-sd._udp.local"

/-- `#define MDNS_SERVER_PORT (5353)`. -/
def MDNS_SERVER_PORT : Nat := 5353

/-- `#define MDNS_NQUERY_RESEND_TIME (1000)`. -/
def MDNS_NQUERY_RESEND_TIME : Nat := 1000

/-- `#define MDNS_SQUERY_RESEND_TIME (10000)`. -/
def MDNS_SQUERY_RESEND_TIME : Nat := 10000

/-- `#define MDNS_RESPONSE_TTL (120)`. -/
def MDNS_RESPONSE_TTL : Nat := 120

/-- `#define NumMDNSServiceRecords (8)`. -/
def NumMDNSServiceRecords : Nat := 8

/-- `sizeof(DNSHeader_t)`: the struct is packed, 2 + 1 + 1 + 4 * 2 bytes. -/
def sizeofDNSHeader : Nat := 12

/-- `sizeof(_writeBuffer)`. -/
def sizeofWriteBuffer : Nat := 512

/-- `static IPAddress mdnsMulticastIPAddr(224, 0, 0, 251)`. -/
def mdnsMulticastIPAddr : List Nat := [224, 0, 0, 251]

/-- `enum MDNSPacketType_t`. -/
inductive MDNSPacketType_t where
  | MDNSPacketTypeMyIPAnswer
  | MDNSPacketTypeNoIPv6AddrAvailable
  | MDNSPacketTypeServiceRecord
  | MDNSPacketTypeServiceRecordRelease
  | MDNSPacketTypeNameQuery
  | MDNSPacketTypeServiceQuery
  deriving DecidableEq, Repr

/-- `enum MDNSServiceProtocol_t`. -/
inductive MDNSServiceProtocol_t where
  | MDNSServiceTCP
  | MDNSServiceUDP
  deriving DecidableEq, Repr

/-- `enum MDNSError_t` (the values `_sendMDNSMessage` and `_processMDNSQuery`
return). -/
inductive MDNSError_t where
  | MDNSTryLater
  | MDNSNothingToDo
  | MDNSSuccess
  | MDNSInvalidArgument
  | MDNSOutOfMemory
  | MDNSSocketError
  | MDNSAlreadyProcessingQuery
  | MDNSNotFound
  | MDNSServerError
  | MDNSTimedOut
  deriving DecidableEq, Repr

/-- `struct MDNSServiceRecord_t`. `servName` and `textContent` may be `NULL`. -/
structure MDNSServiceRecord_t where
  port : Nat
  proto : MDNSServiceProtocol_t
  name : List Nat
  servName : Option (List Nat)
  textContent : Option (List Nat)
  deriving DecidableEq, Repr

/-- One datagram handed to the transport: the destination set by the last
`UDP::beginPacket` and the bytes of the `UDP::write` that sent it. -/
structure Datagram where
  ip : List Nat
  port : Nat
  data : List Nat
  deriving DecidableEq, Repr

/-- An invocation of a user callback. `nameFound name ip` is
`_nameFoundCallback(name, ipAddr)`; `serviceFound type proto name ip port txt`
is `_serviceFoundCallback(...)`. A `NULL` argument is `none`. -/
inductive CallbackEvent where
  | nameFound (name : Option (List Nat)) (ip : Option (List Nat))
  | serviceFound (type : List Nat) (proto : MDNSServiceProtocol_t)
      (name : Option (List Nat)) (ip : Option (List Nat)) (port : Nat)
      (txt : Option (List Nat))
  deriving DecidableEq, Repr

/-- The state of `class BonjourClass : public UDP`, with its collaborators.

`_writeBuffer` holds the bytes `_writeBuffer[0 .. _writeOffset)`, so
`_writeOffset` is its length; the bytes of the array past the offset are never
read. `_serviceRecords` has `NumMDNSServiceRecords` entries, `none` for `NULL`.
`_resolveNames`, `_resolveLastSendMillis` and `_resolveTimeouts` are the
two-element arrays, one field per index.

Collaborators: `udpDest` is the destination of the transport's current packet
(`UDP::beginPacket`), `sent` the datagrams `UDP::write` has sent, oldest first,
`now` the value of `millis()`, `localIP` the four bytes of `WiFi.localIP()`,
`mallocPlan` the outcomes of the coming `my_malloc` calls (`false` is a `NULL`
return; an exhausted plan means success), `callbacks` the user callbacks
invoked so far, and `fault` records that the code dereferenced a `NULL`
pointer. -/
structure BonjourClass where
  _writeBuffer : List Nat
  _bonjourName : Option (List Nat)
  _serviceRecords : List (Option MDNSServiceRecord_t)
  _lastAnnounceMillis : Nat
  _resolveNames0 : Option (List Nat)
  _resolveNames1 : Option (List Nat)
  _resolveLastSendMillis0 : Nat
  _resolveLastSendMillis1 : Nat
  _resolveTimeouts0 : Nat
  _resolveTimeouts1 : Nat
  _resolveServiceProto : MDNSServiceProtocol_t
  _nameFoundCallback : Bool
  _serviceFoundCallback : Bool
  udpDest : List Nat × Nat
  sent : List Datagram
  now : Nat
  localIP : List Nat
  mallocPlan : List Bool
  callbacks : List CallbackEvent
  fault : Bool
  deriving DecidableEq, Repr

/-- The state the constructor `BonjourClass::BonjourClass()` leaves, for a
given local address and clock. -/
def BonjourClass.init (ip : List Nat) (now : Nat) : BonjourClass :=
  { _writeBuffer := [], _bonjourName := none,
    _serviceRecords := List.replicate NumMDNSServiceRecords none,
    _lastAnnounceMillis := 0,
    _resolveNames0 := none, _resolveNames1 := none,
    _resolveLastSendMillis0 := 0, _resolveLastSendMillis1 := 0,
    _resolveTimeouts0 := 0, _resolveTimeouts1 := 0,
    _resolveServiceProto := MDNSServiceProtocol_t.MDNSServiceTCP,
    _nameFoundCallback := false, _serviceFoundCallback := false,
    udpDest := ([], 0), sent := [], now := now, localIP := ip,
    mallocPlan := [], callbacks := [], fault := false }

/-! ## C string helpers -/

/-- `*p` for a pointer into a C string: the first byte, the NUL at the end. -/
def cHead (p : List Nat) : Nat := p.headD 0

/-- `strlen`: the number of bytes before the first NUL. -/
def strlen : List Nat → Nat
  | [] => 0
  | b :: rest => if b = 0 then 0 else strlen rest + 1

/-- Big-endian bytes of a 16-bit value: what `*(uint16_t*)p = htons(v)` stores
at `p[0]`, `p[1]`. -/
def be16 (v : Nat) : List Nat := [(v % 65536) / 256, v % 256]

/-- Big-endian bytes of a 32-bit value: what `*(uint32_t*)p = htonl(v)` stores
at `p[0..3]`. -/
def be32 (v : Nat) : List Nat :=
  [(v % 4294967296) / 16777216, (v / 65536) % 256, (v / 256) % 256, v % 256]

/-- Store `bytes` into `buf` from index `i` on (`buf[i] = ..; buf[i+1] = ..`). -/
def poke (buf : List Nat) (i : Nat) : List Nat → List Nat
  | [] => buf
  | b :: rest => poke (buf.set i b) (i + 1) rest

/-! ## The send buffer: `beginPacket`, `write`, `endPacket` -/

/-- `UDP::write(buffer, size)` of the transport: sends `data` as one datagram
to the destination of the current packet. -/
def udpWrite (st : BonjourClass) (data : List Nat) : BonjourClass :=
  { st with sent := st.sent ++ [{ ip := st.udpDest.1, port := st.udpDest.2, data := data }] }

/-- `BonjourClass::endPacket`: hands the first `_writeOffset` bytes of the
buffer to the transport and resets the offset. -/
def endPacket (st : BonjourClass) : BonjourClass :=
  { udpWrite st st._writeBuffer with _writeBuffer := [] }

/-- `BonjourClass::beginPacket`: sends the previous packet if one is pending,
resets the offset and opens a packet to `ip:port` on the transport. -/
def beginPacket (st : BonjourClass) (ip : List Nat) (port : Nat) : BonjourClass :=
  let st := if st._writeBuffer.length > 0 then endPacket st else st
  { st with _writeBuffer := [], udpDest := (ip, port) }

/-- `BonjourClass::write(buffer, len)`: copies at most the free space of the
buffer. `data` is the `len` bytes at `buffer`. -/
def write (st : BonjourClass) (data : List Nat) : BonjourClass :=
  let empty := sizeofWriteBuffer - st._writeBuffer.length
  { st with _writeBuffer := st._writeBuffer ++ data.take empty }

/-! ## Name codec -/

/-- The writer's working state: the engine, the running `ptr` (a `uint16_t`
the callers pass by pointer) and the scratch buffer `buf` (the caller's
`DNSHeader_t`, `bufSize` bytes). -/
structure Writer where
  st : BonjourClass
  ptr : Nat
  buf : List Nat
  deriving DecidableEq, Repr

/-- `write((uint8_t*)buf, n); ptr += n;`. -/
def Writer.emit (w : Writer) (n : Nat) : Writer :=
  { w with st := write w.st (w.buf.take n), ptr := (w.ptr + n) % 65536 }

/-- The scan `while (0 != *p2 && '.' != *p2) { p2++; c++; }` of
`_writeDNSName`, returning `c`. -/
def scanLabel : List Nat → Nat → Nat
  | [], c => c
  | b :: rest, c => if b ≠ 0 ∧ b ≠ DOT then scanLabel rest (c + 1) else c

/-- The loop `while ('.' == *p1) p1++;` of `_writeDNSName`. -/
def skipDots : List Nat → List Nat
  | [] => []
  | b :: rest => if b = DOT then skipDots rest else b :: rest

/-- The copy loop of `_writeDNSName`,
`while (i-- > 0) { *p3++ = *p1++; if (--len <= 0) { write(buf, bufSize); ptr += bufSize; len = bufSize; p3 = buf; } }`,
with `p3` as an index into `buf`. Returns `p1`, `len` and the writer. -/
def copyLabel (bufSize : Nat) : Nat → List Nat → Nat → Nat → Writer → List Nat × Nat × Writer
  | 0, p1, _, len, w => (p1, len, w)
  | i + 1, p1, p3, len, w =>
    let w := { w with buf := w.buf.set p3 (cHead p1) }
    if len - 1 ≤ 0 then
      copyLabel bufSize i p1.tail 0 bufSize (w.emit bufSize)
    else
      copyLabel bufSize i p1.tail (p3 + 1) (len - 1) w

/-- The outer loop `while (*p1) { ... }` of `_writeDNSName`; every pass
consumes at least one byte of the name, `fuel` bounds the passes. -/
def writeLabels (bufSize : Nat) : Nat → List Nat → Writer → Writer
  | 0, _, w => w
  | fuel + 1, p1, w =>
    if cHead p1 = 0 then w
    else
      let c := scanLabel p1 1
      let i := c - 1
      let w := { w with buf := w.buf.set 0 (i % 256) }
      let r := copyLabel bufSize i p1 1 (bufSize - 1) w
      let p1 := skipDots r.1
      let len := r.2.1
      let w := if len ≠ bufSize then r.2.2.emit (bufSize - len) else r.2.2
      writeLabels bufSize fuel p1 w

/-- `BonjourClass::_writeDNSName(name, pPtr, buf, bufSize, zeroTerminate)`. -/
def _writeDNSName (w : Writer) (name : List Nat) (bufSize : Nat) (zeroTerminate : Nat) : Writer :=
  let w := writeLabels bufSize (name.length + 1) name w
  if zeroTerminate ≠ 0 then
    Writer.emit { w with buf := w.buf.set 0 0 } 1
  else w

/-- `memcmp(p, buf, n) == 0` for a pointer `p` into a C string. -/
def memEq (p buf : List Nat) (n : Nat) : Bool :=
  (List.range n).all fun k => p.getD k 0 == buf.getD k 0

/-- `BonjourClass::_matchStringPart(pCmpStr, pCmpLen, buf, dataLen)`: returns
the value of `matches` and the updated `*pCmpStr`, `*pCmpLen`. `dataLen` is positive at
every call. -/
def _matchStringPart (pCmpStr : List Nat) (pCmpLen : Int) (buf : List Nat) (dataLen : Nat) :
    Nat × List Nat × Int :=
  let matched : Nat :=
    if pCmpLen ≥ dataLen then (if memEq pCmpStr buf dataLen then 1 else 0) else 0
  let s := pCmpStr.drop dataLen
  let l := pCmpLen - dataLen
  if cHead s = DOT then (matched, s.tail, l - 1) else (matched, s, l)

/-! ## Record writer -/

/-- `struct DNSHeader_t`, field by field (the values the code assigns; the
counts and the xid are assigned through `htons`). -/
structure DNSHeader_t where
  xid : Nat
  recursionDesired : Nat
  truncated : Nat
  authoritiveAnswer : Nat
  opCode : Nat
  queryResponse : Nat
  responseCode : Nat
  checkingDisabled : Nat
  authenticatedData : Nat
  zReserved : Nat
  recursionAvailable : Nat
  queryCount : Nat
  answerCount : Nat
  authorityCount : Nat
  additionalCount : Nat
  deriving DecidableEq, Repr

/-- `memset(dnsHeader, 0, sizeof(DNSHeader_t))`. -/
def DNSHeader_t.zero : DNSHeader_t :=
  { xid := 0, recursionDesired := 0, truncated := 0, authoritiveAnswer := 0, opCode := 0,
    queryResponse := 0, responseCode := 0, checkingDisabled := 0, authenticatedData := 0,
    zReserved := 0, recursionAvailable := 0, queryCount := 0, answerCount := 0,
    authorityCount := 0, additionalCount := 0 }

/-- The twelve bytes of a packed `DNSHeader_t` whose 16-bit fields were
assigned through `htons`, on the little-endian target: bit-fields are
allocated from the least significant bit of their byte, in declaration
order. -/
def DNSHeader_t.bytes (h : DNSHeader_t) : List Nat :=
  be16 h.xid ++
  [(h.recursionDesired % 2) + 2 * (h.truncated % 2) + 4 * (h.authoritiveAnswer % 2)
      + 8 * (h.opCode % 16) + 128 * (h.queryResponse % 2),
   (h.responseCode % 16) + 16 * (h.checkingDisabled % 2) + 32 * (h.authenticatedData % 2)
      + 64 * (h.zReserved % 2) + 128 * (h.recursionAvailable % 2)] ++
  be16 h.queryCount ++ be16 h.answerCount ++ be16 h.authorityCount ++ be16 h.additionalCount

/-- `DNSOpQuery = 0`. -/
def DNSOpQuery : Nat := 0

/-- The header `_sendMDNSMessage` builds: `memset`, `xid`, `opCode` and the
first `switch (type)`. -/
def buildHeader (xid : Nat) (type : MDNSPacketType_t) : DNSHeader_t :=
  let h := { DNSHeader_t.zero with xid := xid, opCode := DNSOpQuery }
  match type with
  | .MDNSPacketTypeServiceRecordRelease | .MDNSPacketTypeMyIPAnswer =>
    { h with answerCount := 1, queryResponse := 1, authoritiveAnswer := 1 }
  | .MDNSPacketTypeServiceRecord =>
    { h with answerCount := 4, additionalCount := 1, queryResponse := 1, authoritiveAnswer := 1 }
  | .MDNSPacketTypeNameQuery | .MDNSPacketTypeServiceQuery =>
    { h with queryCount := 1 }
  | .MDNSPacketTypeNoIPv6AddrAvailable =>
    { h with queryCount := 1, additionalCount := 1, responseCode := 3, authoritiveAnswer := 1,
             queryResponse := 1 }

/-- The code dereferenced a `NULL` pointer. -/
def Writer.crash (w : Writer) : Writer := { w with st := { w.st with fault := true } }

/-- Assign `bytes` to `buf[i..]`. -/
def Writer.store (w : Writer) (i : Nat) (bytes : List Nat) : Writer :=
  { w with buf := poke w.buf i bytes }

/-- `_serviceRecords[idx]`. -/
def recordAt (st : BonjourClass) (idx : Nat) : Option MDNSServiceRecord_t :=
  st._serviceRecords.getD idx none

/-- `BonjourClass::_postfixForProtocol`. -/
def _postfixForProtocol (proto : MDNSServiceProtocol_t) : Option (List Nat) :=
  match proto with
  | .MDNSServiceTCP => some (ascii "._tcp" ++ MDNS_TLD)
  | .MDNSServiceUDP => some (ascii "._udp" ++ MDNS_TLD)

/-- `BonjourClass::_writeMyIPAnswerRecord(pPtr, buf, bufSize)`. -/
def _writeMyIPAnswerRecord (w : Writer) (bufSize : Nat) : Writer :=
  match w.st._bonjourName with
  | none => w.crash
  | some host =>
    let w := _writeDNSName w host bufSize 1
    let w := w.store 0 [0x00, 0x01, 0x80, 0x01]
    let w := w.emit 4
    let w := w.store 0 (be32 MDNS_RESPONSE_TTL)
    let w := w.store 4 (be16 4)
    let ip := w.st.localIP
    let w := w.store 6 [ip.getD 0 0, ip.getD 1 0, ip.getD 2 0, ip.getD 3 0]
    w.emit 10

/-- `BonjourClass::_writeServiceRecordName(recordIndex, pPtr, buf, bufSize, tld)`. -/
def _writeServiceRecordName (w : Writer) (recordIndex : Nat) (bufSize : Nat) (tld : Nat) : Writer :=
  match recordAt w.st recordIndex with
  | none => w.crash
  | some r =>
    match (if tld ≠ 0 then r.servName else some r.name) with
    | none => w.crash
    | some name =>
      let w := _writeDNSName w name bufSize tld
      if tld = 0 then
        match _postfixForProtocol r.proto with
        | none => w
        | some srv_type => _writeDNSName w srv_type.tail bufSize 1
      else w

/-- `BonjourClass::_writeServiceRecordPTR(recordIndex, pPtr, buf, bufSize, ttl)`. -/
def _writeServiceRecordPTR (w : Writer) (recordIndex : Nat) (bufSize : Nat) (ttl : Nat) : Writer :=
  let w := _writeServiceRecordName w recordIndex bufSize 1
  match recordAt w.st recordIndex with
  | none => w.crash
  | some r =>
    let w := w.store 0 [0x00, 0x0c, 0x00, 0x01]
    let w := w.store 4 (be32 ttl)
    let w := w.store 8 (be16 (strlen r.name + 13))
    let w := w.emit 10
    _writeServiceRecordName w recordIndex bufSize 0

/-- The `case MDNSPacketTypeServiceRecord` body of `_sendMDNSMessage`. -/
def writeServiceRecordBody (w : Writer) (serviceRecord : Nat) : Writer :=
  -- SRV location record
  let w := _writeServiceRecordName w serviceRecord sizeofDNSHeader 0
  match recordAt w.st serviceRecord, w.st._bonjourName with
  | some r, some host =>
    let w := w.store 0 [0x00, 0x21, 0x80, 0x01]
    let w := w.store 4 (be32 MDNS_RESPONSE_TTL)
    let w := w.store 8 (be16 (8 + strlen host))
    let w := w.emit 10
    let w := w.store 0 [0, 0, 0, 0]
    let w := w.store 4 (be16 r.port)
    let w := w.emit 6
    let w := _writeDNSName w host sizeofDNSHeader 1
    -- TXT record
    let w := _writeServiceRecordName w serviceRecord sizeofDNSHeader 0
    let w := w.store 0 [0x00, 0x10, 0x80, 0x01]
    let w := w.store 4 (be32 MDNS_RESPONSE_TTL)
    let w := w.emit 8
    let w :=
      match r.textContent with
      | none => (w.store 0 [0x00, 0x01, 0x00]).emit 3
      | some txt =>
        let slen := strlen txt
        let w := (w.store 0 (be16 slen)).emit 2
        { w with st := write w.st (txt.take slen), ptr := (w.ptr + slen) % 65536 }
    -- PTR record (for the dns-sd service in general)
    let w := _writeDNSName w DNS_SD_SERVICE sizeofDNSHeader 1
    match r.servName with
    | none => w.crash
    | some servName =>
      let w := w.store 0 [0x00, 0x0c, 0x00, 0x01]
      let w := w.store 4 (be32 MDNS_RESPONSE_TTL)
      let dlen := (strlen servName + 2) % 65536
      let w := w.store 8 (be16 dlen)
      let w := w.emit 10
      let w := _writeServiceRecordName w serviceRecord sizeofDNSHeader 1
      -- PTR record (our service)
      let w := _writeServiceRecordPTR w serviceRecord sizeofDNSHeader MDNS_RESPONSE_TTL
      -- finally, our IP address as additional record
      _writeMyIPAnswerRecord w sizeofDNSHeader
  | _, _ => w.crash

/-- The `case MDNSPacketTypeNameQuery: case MDNSPacketTypeServiceQuery:` body
of `_sendMDNSMessage`. -/
def writeQueryBody (w : Writer) (type : MDNSPacketType_t) : Writer :=
  let isService := decide (type = .MDNSPacketTypeServiceQuery)
  match (if isService then w.st._resolveNames1 else w.st._resolveNames0) with
  | none => w.crash
  | some name =>
    let w := _writeDNSName w name sizeofDNSHeader 1
    let w := w.store 0 [0x00]
    let w := w.store 2 [0x00]
    let w := w.store 1 [if isService then 0x0c else 0x01]
    let w := w.store 3 [0x01]
    let w := w.emit sizeofDNSHeader
    if isService then { w with st := { w.st with _resolveLastSendMillis1 := w.st.now } }
    else { w with st := { w.st with _resolveLastSendMillis0 := w.st.now } }

/-- The `case MDNSPacketTypeNoIPv6AddrAvailable` body of `_sendMDNSMessage`. -/
def writeNoIPv6Body (w : Writer) : Writer :=
  match w.st._bonjourName with
  | none => w.crash
  | some host =>
    let w := _writeDNSName w host sizeofDNSHeader 1
    let w := w.store 0 [0x00]
    let w := w.store 2 [0x00]
    let w := w.store 1 [0x1c]
    let w := w.store 3 [0x01]
    let w := w.emit 4
    _writeMyIPAnswerRecord w sizeofDNSHeader

/-- The second `switch (type)` of `_sendMDNSMessage`: "construct the answer
section". -/
def messageBody (w : Writer) (type : MDNSPacketType_t) (serviceRecord : Nat) : Writer :=
  match type with
  | .MDNSPacketTypeMyIPAnswer => _writeMyIPAnswerRecord w sizeofDNSHeader
  | .MDNSPacketTypeServiceRecord => writeServiceRecordBody w serviceRecord
  | .MDNSPacketTypeServiceRecordRelease =>
    _writeServiceRecordPTR w serviceRecord sizeofDNSHeader 0
  | .MDNSPacketTypeNameQuery | .MDNSPacketTypeServiceQuery => writeQueryBody w type
  | .MDNSPacketTypeNoIPv6AddrAvailable => writeNoIPv6Body w

/-- `BonjourClass::_sendMDNSMessage(peerAddress, xid, type, serviceRecord)`.
`peerAddress` is `none` for a `NULL` pointer; the function never reads it. -/
def _sendMDNSMessage (st : BonjourClass) (peerAddress : Option (List Nat)) (xid : Nat)
    (type : MDNSPacketType_t) (serviceRecord : Nat) : BonjourClass × MDNSError_t :=
  let _ := peerAddress
  let dnsHeader := buildHeader xid type
  let st := beginPacket st mdnsMulticastIPAddr MDNS_SERVER_PORT
  let st := write st dnsHeader.bytes
  let w : Writer := { st := st, ptr := sizeofDNSHeader, buf := dnsHeader.bytes }
  let w := messageBody w type serviceRecord
  (endPacket w.st, MDNSError_t.MDNSSuccess)

/-! ## Service table -/

/-- `my_malloc`: takes the next outcome of the allocation plan. -/
def my_malloc (st : BonjourClass) : Bool × BonjourClass :=
  match st.mallocPlan with
  | [] => (true, st)
  | ok :: rest => (ok, { st with mallocPlan := rest })

/-- The loop `while (p > str && '.' != *p--);` of `_findFirstDotFromRight`,
with `p` as an index into `str`; returns the final index. -/
def findDotLoop (str : List Nat) : Nat → Nat
  | 0 => 0
  | p + 1 => if str.getD (p + 1) 0 ≠ DOT then findDotLoop str p else p

/-- `BonjourClass::_findFirstDotFromRight(str)`: the pointer `&p[2]`. For a
string shorter than two bytes without a dot that pointer is past the
terminator; the model then yields the empty string. -/
def _findFirstDotFromRight (str : List Nat) : List Nat :=
  str.drop (findDotLoop str (strlen str) + 2)

/-- `_serviceRecords[idx] = rec`. -/
def setRecord (st : BonjourClass) (idx : Nat) (rec : Option MDNSServiceRecord_t) : BonjourClass :=
  { st with _serviceRecords := st._serviceRecords.set idx rec }

/-- The body of the `for` loop of `addServiceRecord` for the first empty slot
`i`: allocate, fill in, store and announce the record. -/
def addServiceRecordAt (st : BonjourClass) (i : Nat) (name : List Nat) (port : Nat)
    (proto : MDNSServiceProtocol_t) (textContent : Option (List Nat)) : BonjourClass × Nat :=
  let (okRecord, st) := my_malloc st
  if !okRecord then (st, 0)
  else
    let (okName, st) := my_malloc st
    if !okName then (st, 0)
    else
      let wantsText := match textContent with
        | none => false
        | some t => cHead t ≠ 0
      let (okText, st) := if wantsText then my_malloc st else (true, st)
      if !okText then (st, 0)
      else
        let text := if wantsText then textContent.map fun t => t.take (strlen t) else none
        let recName := name.take (strlen name)
        let s := _findFirstDotFromRight recName
        let (okServ, st) := my_malloc st
        let servName :=
          if okServ then
            match _postfixForProtocol proto with
            | some srv_type => some (s.take (strlen s) ++ srv_type)
            | none => some (s.take (strlen s))
          else none
        let record : MDNSServiceRecord_t :=
          { port := port, proto := proto, name := recName, servName := servName,
            textContent := text }
        let st := setRecord st i (some record)
        let r := _sendMDNSMessage st none 0 MDNSPacketType_t.MDNSPacketTypeServiceRecord i
        (r.1, if r.2 = MDNSError_t.MDNSSuccess then 1 else 0)

/-- The index of the first empty slot among the first `n` after `i`, as the
`for` loop of `addServiceRecord` finds it. -/
def firstEmptySlot (st : BonjourClass) : Nat → Nat → Option Nat
  | 0, _ => none
  | n + 1, i => if (recordAt st i).isSome then firstEmptySlot st n (i + 1) else some i

/-- `BonjourClass::addServiceRecord(name, port, proto, textContent)`; a `NULL`
argument is `none`. -/
def addServiceRecord (st : BonjourClass) (name : Option (List Nat)) (port : Nat)
    (proto : MDNSServiceProtocol_t) (textContent : Option (List Nat)) : BonjourClass × Nat :=
  match name with
  | none => (st, 0)
  | some name =>
    if cHead name = 0 ∨ port = 0 then (st, 0)
    else
      match firstEmptySlot st NumMDNSServiceRecords 0 with
      | none => (st, 0)
      | some i => addServiceRecordAt st i name port proto textContent

/-- `BonjourClass::_removeServiceRecord(idx)`. -/
def _removeServiceRecord (st : BonjourClass) (idx : Nat) : BonjourClass :=
  match recordAt st idx with
  | none => st
  | some _ =>
    let st := (_sendMDNSMessage st none 0 MDNSPacketType_t.MDNSPacketTypeServiceRecordRelease idx).1
    setRecord st idx none

/-- The `for` loop of `removeServiceRecord(name, port, proto)` from slot `i`
on, `n` slots to go. The loop reads `_serviceRecords[i]->port` without a
`NULL` test: an empty slot is a fault. -/
def removeServiceRecordLoop (name : Option (List Nat)) (port : Nat)
    (proto : MDNSServiceProtocol_t) : Nat → Nat → BonjourClass → BonjourClass
  | 0, _, st => st
  | n + 1, i, st =>
    match recordAt st i with
    | none => { st with fault := true }
    | some r =>
      let sameName : Bool :=
        match name with
        | none => true
        | some nm => decide (r.name.take (strlen r.name) = nm.take (strlen nm))
      if port = r.port ∧ proto = r.proto ∧ sameName = true then
        _removeServiceRecord st i
      else removeServiceRecordLoop name port proto n (i + 1) st

/-- `BonjourClass::removeServiceRecord(name, port, proto)`. -/
def removeServiceRecord (st : BonjourClass) (name : Option (List Nat)) (port : Nat)
    (proto : MDNSServiceProtocol_t) : BonjourClass :=
  removeServiceRecordLoop name port proto NumMDNSServiceRecords 0 st

/-- The `for` loop of `removeAllServiceRecords` from slot `i` on. -/
def removeAllLoop : Nat → Nat → BonjourClass → BonjourClass
  | 0, _, st => st
  | n + 1, i, st => removeAllLoop n (i + 1) (_removeServiceRecord st i)

/-- `BonjourClass::removeAllServiceRecords()`. -/
def removeAllServiceRecords (st : BonjourClass) : BonjourClass :=
  removeAllLoop NumMDNSServiceRecords 0 st

/-- `BonjourClass::setBonjourName(bonjourName)`. -/
def setBonjourName (st : BonjourClass) (bonjourName : Option (List Nat)) : BonjourClass × Nat :=
  match bonjourName with
  | none => (st, 0)
  | some nm =>
    if cHead nm = 0 then (st, 0)
    else
      let (ok, st) := my_malloc st
      if !ok then ({ st with _bonjourName := none }, 0)
      else ({ st with _bonjourName := some (nm.take (strlen nm) ++ MDNS_TLD) }, 1)

/-! ## Resolver -/

/-- `BonjourClass::_cancelQuery(idx)`. -/
def _cancelQuery (st : BonjourClass) (idx : Nat) : BonjourClass :=
  if idx = 0 then { st with _resolveNames0 := none } else { st with _resolveNames1 := none }

/-- `BonjourClass::_initQuery(idx, name, timeout)`. -/
def _initQuery (st : BonjourClass) (idx : Nat) (name : List Nat) (timeout : Nat) :
    BonjourClass × Nat :=
  let slot := if idx = 0 then st._resolveNames0 else st._resolveNames1
  let callback := if idx = 0 then st._nameFoundCallback else st._serviceFoundCallback
  if slot.isNone ∧ callback = true then
    let deadline := if timeout ≠ 0 then (st.now + timeout) % 4294967296 else 0
    let st :=
      if idx = 0 then { st with _resolveNames0 := some name, _resolveTimeouts0 := deadline }
      else { st with _resolveNames1 := some name, _resolveTimeouts1 := deadline }
    let r := _sendMDNSMessage st none 0
      (if idx = 0 then MDNSPacketType_t.MDNSPacketTypeNameQuery
       else MDNSPacketType_t.MDNSPacketTypeServiceQuery) 0
    (r.1, if r.2 = MDNSError_t.MDNSSuccess then 1 else 0)
  else (st, 0)

/-- `BonjourClass::resolveName(name, timeout)`. -/
def resolveName (st : BonjourClass) (name : List Nat) (timeout : Nat) : BonjourClass × Nat :=
  let st := _cancelQuery st 0
  let (ok, st) := my_malloc st
  if !ok then (st, 0)
  else _initQuery st 0 (name.take (strlen name) ++ MDNS_TLD) timeout

/-- `BonjourClass::startDiscoveringService(serviceName, proto, timeout)`. -/
def startDiscoveringService (st : BonjourClass) (serviceName : List Nat)
    (proto : MDNSServiceProtocol_t) (timeout : Nat) : BonjourClass × Nat :=
  let st := _cancelQuery st 1
  let (ok, st) := my_malloc st
  if !ok then (st, 0)
  else
    let n := serviceName.take (strlen serviceName) ++ (_postfixForProtocol proto).getD []
    let st := { st with _resolveServiceProto := proto }
    _initQuery st 1 n timeout

/-- `BonjourClass::_finishedResolvingName(name, ipAddr)`; `name` is
`_resolveNames[0]` at both call sites. A non-`NULL` name is cut in place at
`*(n-1)`, one byte before what `_findFirstDotFromRight` returns, and handed to
the callback. -/
def _finishedResolvingName (st : BonjourClass) (name : Option (List Nat))
    (ipAddr : Option (List Nat)) : BonjourClass :=
  let st :=
    if st._nameFoundCallback then
      let shown := name.map fun nm => nm.take (findDotLoop nm (strlen nm) + 1)
      { st with callbacks := st.callbacks ++ [CallbackEvent.nameFound shown ipAddr] }
    else st
  { st with _resolveNames0 := none }

/-- The type name handed to the service callback: `_resolveNames[1]` cut at its
first dot (`while (*p && *p != '.') p++; *p = '\0';`). -/
def typeNameOf : List Nat → List Nat
  | [] => []
  | b :: rest => if b ≠ 0 ∧ b ≠ DOT then b :: typeNameOf rest else []

/-- One pass of the resolver loop of `run()` for slot 0, at the clock value
`now` read on entry. -/
def runResolver0 (st : BonjourClass) (now : Nat) : BonjourClass :=
  match st._resolveNames0 with
  | none => st
  | some _ =>
    let st :=
      if (now + 4294967296 - st._resolveLastSendMillis0) % 4294967296 > MDNS_NQUERY_RESEND_TIME
      then (_sendMDNSMessage st none 0 MDNSPacketType_t.MDNSPacketTypeNameQuery 0).1
      else st
    if st._resolveTimeouts0 > 0 ∧ now > st._resolveTimeouts0 then
      let st := _finishedResolvingName st st._resolveNames0 none
      { st with _resolveNames0 := none }
    else st

/-- One pass of the resolver loop of `run()` for slot 1. -/
def runResolver1 (st : BonjourClass) (now : Nat) : BonjourClass :=
  match st._resolveNames1 with
  | none => st
  | some name =>
    let st :=
      if (now + 4294967296 - st._resolveLastSendMillis1) % 4294967296 > MDNS_SQUERY_RESEND_TIME
      then (_sendMDNSMessage st none 0 MDNSPacketType_t.MDNSPacketTypeServiceQuery 0).1
      else st
    if st._resolveTimeouts1 > 0 ∧ now > st._resolveTimeouts1 then
      let st :=
        if st._serviceFoundCallback then
          { st with callbacks := st.callbacks ++
              [CallbackEvent.serviceFound (typeNameOf name) st._resolveServiceProto none none 0
                none] }
        else st
      { st with _resolveNames1 := none }
    else st

/-- The loop `for (int i = 0; i < 2; i++)` of `run()`. -/
def runResolver (st : BonjourClass) (now : Nat) : BonjourClass :=
  runResolver1 (runResolver0 st now) now

/-- The announce loop of `run()` from slot `i` on. -/
def announceLoop : Nat → Nat → BonjourClass → BonjourClass
  | 0, _, st => st
  | n + 1, i, st =>
    match recordAt st i with
    | none => announceLoop n (i + 1) st
    | some _ =>
      announceLoop n (i + 1)
        (_sendMDNSMessage st none 0 MDNSPacketType_t.MDNSPacketTypeServiceRecord i).1

/-- The re-announcement part of `run()`. -/
def runAnnounce (st : BonjourClass) (now : Nat) : BonjourClass :=
  let announceTimeOut := MDNS_RESPONSE_TTL / 2 + MDNS_RESPONSE_TTL / 4
  if (now + 4294967296 - st._lastAnnounceMillis) % 4294967296
      > (1000 * announceTimeOut) % 4294967296 then
    { announceLoop NumMDNSServiceRecords 0 st with _lastAnnounceMillis := now }
  else st

/-! ## Parser: the question walk and the response dispatch -/

/-- One candidate name of the question walk: `servNames[j]` (the cursor, `none`
for `NULL`), `servLens[j]`, `servNamePos[j]`, `servMatches[j]`. -/
structure Candidate where
  servName : Option (List Nat)
  servLen : Int
  servNamePos : Nat
  servMatch : Nat
  deriving DecidableEq, Repr

/-- The candidate for a name, as the walk sets it up for every question. -/
def Candidate.ofName (name : Option (List Nat)) : Candidate :=
  match name with
  | some n => { servName := some n, servLen := strlen n, servNamePos := 0, servMatch := 1 }
  | none => { servName := none, servLen := 0, servNamePos := 0, servMatch := 0 }

/-- The candidates of one question: the host identity, the DNS-SD meta-name
and the service names of the eight slots. A `NULL` host identity is read by
`strlen` in the code; the model takes it as an absent candidate. -/
def initCandidates (st : BonjourClass) : List Candidate :=
  Candidate.ofName st._bonjourName :: Candidate.ofName (some DNS_SD_SERVICE) ::
    (List.range NumMDNSServiceRecords).map fun j =>
      Candidate.ofName ((recordAt st j).bind fun r => r.servName)

/-- `memcpy(buf, ptr + offset, n)`: `n` bytes of the datagram from `offset`;
a byte past the end of the datagram is read as 0. -/
def readBytes (pkt : List Nat) (offset n : Nat) : List Nat :=
  (List.range n).map fun k => pkt.getD (offset + k) 0

/-- The update of one candidate for one chunk:
`if (!recordsAskedFor[j] && servMatches[j]) servMatches[j] &= _matchStringPart(...)`.
A candidate with a `NULL` name has `servMatches[j] = 0` and is never passed on. -/
def matchChunk (asked : Nat) (chunk : List Nat) (c : Candidate) : Candidate :=
  if asked = 0 ∧ c.servMatch ≠ 0 then
    match c.servName with
    | some s =>
      let r := _matchStringPart s c.servLen chunk chunk.length
      { c with servName := some r.2.1, servLen := r.2.2,
               servMatch := Nat.land c.servMatch r.1 }
    | none => c
  else c

/-- The chunk loop of the question walk,
`while (tr > 0) { ir = min(tr, sizeof(DNSHeader_t)); memcpy(buf, ptr+offset, ir); offset += ir; tr -= ir; for (j ...) ... }`;
returns `offset` and the candidates. Every pass lowers `tr`; `fuel` bounds
the passes. -/
def chunkLoop (pkt : List Nat) (asked : List Nat) :
    Nat → Nat → Nat → List Candidate → Nat × List Candidate
  | 0, _, offset, cs => (offset, cs)
  | fuel + 1, tr, offset, cs =>
    if tr > 0 then
      let ir := if tr > sizeofDNSHeader then sizeofDNSHeader else tr
      let chunk := readBytes pkt offset ir
      chunkLoop pkt asked fuel (tr - ir) (offset + ir)
        (List.zipWith (fun a c => matchChunk a chunk c) asked cs)
    else (offset, cs)

/-- The label loop `do { ... } while (rLen > 0 && rLen <= 128);` of the
question walk; returns `offset`, `tLen` and the candidates. Every pass reads
at least one byte; `fuel` bounds the passes. -/
def labelLoop (pkt : List Nat) (asked : List Nat) :
    Nat → Nat → Nat → List Candidate → Nat × Nat × List Candidate
  | 0, offset, tLen, cs => (offset, tLen, cs)
  | fuel + 1, offset, tLen, cs =>
    let rLen := pkt.getD offset 0
    let offset := offset + 1
    let tLen := tLen + 1
    if rLen > 128 then
      -- handle DNS name compression, kinda, sorta
      let b := pkt.getD offset 0
      let cs := cs.map fun c =>
        if c.servNamePos ≠ 0 ∧ c.servNamePos ≠ b then { c with servMatch := 0 } else c
      (offset + 1, tLen + 1, cs)
    else if rLen > 0 then
      let r := chunkLoop pkt asked rLen rLen offset cs
      labelLoop pkt asked fuel r.1 (tLen + rLen) r.2
    else (offset, tLen, cs)

/-- What the walk carries from one question to the next: `offset`,
`recordsAskedFor` and `wantsIPv6Addr`. -/
structure WalkState where
  offset : Nat
  recordsAskedFor : List Nat
  wantsIPv6Addr : Nat
  deriving DecidableEq, Repr

/-- The test of one candidate against the four bytes `buf` after a question
name (index `j`, its flag `asked`): the new flag and whether `wantsIPv6Addr`
is set. -/
def tailFlags (buf : List Nat) (j : Nat) (asked : Nat) (c : Candidate) : Nat × Bool :=
  if asked = 0 ∧ c.servName.isSome ∧ c.servMatch ≠ 0 ∧ c.servLen = 0 then
    if buf.getD 0 0 = 0 ∧ buf.getD 3 0 = 0x01 ∧ (buf.getD 2 0 = 0x00 ∨ buf.getD 2 0 = 0x80) then
      if (j = 0 ∧ buf.getD 1 0 = 0x01) ∨
          (0 < j ∧ (buf.getD 1 0 = 0x0c ∨ buf.getD 1 0 = 0x10 ∨ buf.getD 1 0 = 0x21)) then
        (1, false)
      else if j = 0 ∧ buf.getD 1 0 = 0x1c then (asked, true)
      else (asked, false)
    else (asked, false)
  else (asked, false)

/-- The loop over the candidates after a question name, from index `j` on:
the new `recordsAskedFor` entries and whether `wantsIPv6Addr` is set. (The
loop also stores `servNamePos[j]`; the array is set up anew for every
question and not read in between.) -/
def tailLoop (buf : List Nat) : Nat → List Nat → List Candidate → List Nat × Bool
  | j, a :: asked, c :: cs =>
    let r := tailFlags buf j a c
    let rest := tailLoop buf (j + 1) asked cs
    (r.1 :: rest.1, r.2 || rest.2)
  | _, asked, _ => (asked, false)

/-- One pass of `for (uint16_t i = 0; i < qCnt; i++)`: one question. -/
def questionStep (st : BonjourClass) (pkt : List Nat) (ws : WalkState) : WalkState :=
  let r := labelLoop pkt ws.recordsAskedFor (pkt.length + 1) ws.offset 0 (initCandidates st)
  let buf := readBytes pkt r.1 4
  let t := tailLoop buf 0 ws.recordsAskedFor r.2.2
  { offset := r.1 + 4, recordsAskedFor := t.1,
    wantsIPv6Addr := if t.2 then 1 else ws.wantsIPv6Addr }

/-- The question walk: `qCnt` questions from the state `ws`. -/
def questionWalk (st : BonjourClass) (pkt : List Nat) : Nat → WalkState → WalkState
  | 0, ws => ws
  | n + 1, ws => questionWalk st pkt n (questionStep st pkt ws)

/-- The walk's state before the first question: `offset = sizeof(DNSHeader_t)`
and the flags cleared by `memset`. -/
def WalkState.start : WalkState :=
  { offset := sizeofDNSHeader,
    recordsAskedFor := List.replicate (NumMDNSServiceRecords + 2) 0, wantsIPv6Addr := 0 }

/-- `xid = ntohs(dnsHeader->xid)` of an inbound datagram. -/
def packetXid (pkt : List Nat) : Nat := pkt.getD 0 0 * 256 + pkt.getD 1 0

/-- `qCnt = ntohs(dnsHeader->queryCount)`. -/
def packetQCnt (pkt : List Nat) : Nat := pkt.getD 4 0 * 256 + pkt.getD 5 0

/-- The test of line 558 on an inbound datagram:
`0 == queryResponse && DNSOpQuery == opCode && MDNS_SERVER_PORT == remotePort()`. -/
def isQuery (pkt : List Nat) (remotePort : Nat) : Bool :=
  decide (pkt.getD 2 0 / 128 % 2 = 0 ∧ pkt.getD 2 0 / 8 % 16 = DNSOpQuery ∧
    remotePort = MDNS_SERVER_PORT)

/-- The loop "now, handle the requests" of `_processMDNSQuery` from index `j`
on, `n` entries to go. -/
def respondLoop (xid : Nat) (remoteIP : List Nat) :
    Nat → Nat → List Nat → BonjourClass → BonjourClass
  | 0, _, _, st => st
  | n + 1, j, asked, st =>
    if asked.getD j 0 ≠ 0 then
      if j = 0 then
        respondLoop xid remoteIP n (j + 1) asked
          (_sendMDNSMessage st (some remoteIP) xid MDNSPacketType_t.MDNSPacketTypeMyIPAnswer 0).1
      else if j = 1 then
        respondLoop xid remoteIP n (j + 1)
          (asked.take 2 ++ List.replicate NumMDNSServiceRecords 1) st
      else if (recordAt st (j - 2)).isSome then
        respondLoop xid remoteIP n (j + 1) asked
          (_sendMDNSMessage st (some remoteIP) xid MDNSPacketType_t.MDNSPacketTypeServiceRecord
            (j - 2)).1
      else respondLoop xid remoteIP n (j + 1) asked st
    else respondLoop xid remoteIP n (j + 1) asked st

/-- The end of `_processMDNSQuery` from `IPAddress _remoteIP = remoteIP();`
on: the responses to the flags the walk has set. -/
def respond (st : BonjourClass) (asked : List Nat) (wantsIPv6Addr : Nat) (xid : Nat)
    (remoteIP : List Nat) : BonjourClass :=
  let st := respondLoop xid remoteIP (NumMDNSServiceRecords + 2) 0 asked st
  if wantsIPv6Addr ≠ 0 then
    (_sendMDNSMessage st (some remoteIP) xid
      MDNSPacketType_t.MDNSPacketTypeNoIPv6AddrAvailable 0).1
  else st

/-- The path of `_processMDNSQuery` for an inbound datagram `pkt` from
`remoteIP`, port 5353, with QR = 0 and OPCODE = 0: the question walk and the
responses. -/
def processQuestions (st : BonjourClass) (pkt : List Nat) (remoteIP : List Nat) : BonjourClass :=
  let ws := questionWalk st pkt (packetQCnt pkt) WalkState.start
  respond st ws.recordsAskedFor ws.wantsIPv6Addr (packetXid pkt) remoteIP

/-! ## Reference encoding, following the specification's words -/

/-- Split a name at its dots. -/
def splitLabels : List Nat → List (List Nat)
  | [] => [[]]
  | b :: rest =>
    if b = DOT then [] :: splitLabels rest
    else match splitLabels rest with
      | [] => [[b]]
      | l :: ls => (b :: l) :: ls

/-- The labels joined by single dots. -/
def joinLabels : List (List Nat) → List Nat
  | [] => []
  | [l] => l
  | l :: ls => l ++ DOT :: joinLabels ls

/-- The specification's wire form of a list of labels: for each label one
length byte and the label's bytes. -/
def wireLabels : List (List Nat) → List Nat
  | [] => []
  | l :: ls => (l.length :: l) ++ wireLabels ls

/-- The specification's `write_name`: the labels of the dot-delimited name,
each length-prefixed, and a terminating zero byte if requested. -/
def wireName (name : List Nat) (zeroTerminate : Nat) : List Nat :=
  wireLabels (splitLabels name) ++ (if zeroTerminate ≠ 0 then [0] else [])

/-- A name made of non-empty labels of at most `maxLen` bytes, with no NUL
byte inside. -/
def WellFormedName (maxLen : Nat) (name : List Nat) : Prop :=
  (∀ b ∈ name, b ≠ 0) ∧ ∀ l ∈ splitLabels name, l ≠ [] ∧ l.length ≤ maxLen

instance (maxLen : Nat) (name : List Nat) : Decidable (WellFormedName maxLen name) := by
  unfold WellFormedName; infer_instance

/-- A name made of non-empty dot-separated labels (of any length), with no
NUL byte inside. -/
def NonEmptyLabels (name : List Nat) : Prop :=
  (∀ b ∈ name, b ≠ 0) ∧ ∀ l ∈ splitLabels name, l ≠ []

instance (name : List Nat) : Decidable (NonEmptyLabels name) := by
  unfold NonEmptyLabels; infer_instance

/-- The wire form with the length byte as a `uint8_t` holds it: the label's
byte count modulo 256. It is `wireLabels` when every label is below 256
bytes. -/
def emittedLabels : List (List Nat) → List Nat
  | [] => []
  | l :: ls => ((l.length % 256) :: l) ++ emittedLabels ls

/-- The bytes `_writeDNSName` puts out for a name of non-empty labels. -/
def emittedName (name : List Nat) (zeroTerminate : Nat) : List Nat :=
  emittedLabels (splitLabels name) ++ (if zeroTerminate ≠ 0 then [0] else [])

/-- A fresh writer on a state: `ptr = 0` and a zeroed scratch buffer. -/
def Writer.start (st : BonjourClass) : Writer :=
  { st := st, ptr := 0, buf := List.replicate sizeofDNSHeader 0 }

/-! ## DNS message framing, following the specification's words -/

/-- The bytes behind one DNS name: labels (a length byte of 1 to 63 and that
many bytes) up to the zero byte, or up to a compression pointer (two bytes,
the first at least 0xC0). `none` when the bytes end before the name does or a
length byte is in the reserved range. Every step takes at least one byte;
`fuel` bounds the steps. -/
def skipName : Nat → List Nat → Option (List Nat)
  | 0, _ => none
  | _ + 1, [] => none
  | fuel + 1, b :: rest =>
    if b = 0 then some rest
    else if b ≥ 0xC0 then
      match rest with
      | [] => none
      | _ :: r => some r
    else if b ≥ 64 then none
    else if rest.length < b then none
    else skipName fuel (rest.drop b)

/-- The bytes behind one question: a name, QTYPE and QCLASS. -/
def skipQuestion (bytes : List Nat) : Option (List Nat) :=
  (skipName (bytes.length + 1) bytes).bind fun r =>
    if r.length < 4 then none else some (r.drop 4)

/-- The bytes behind one resource record: a name, TYPE, CLASS, TTL, RDLENGTH
and RDLENGTH bytes of RDATA. -/
def skipRecord (bytes : List Nat) : Option (List Nat) :=
  (skipName (bytes.length + 1) bytes).bind fun r =>
    if r.length < 10 then none
    else
      let rdlength := r.getD 8 0 * 256 + r.getD 9 0
      if (r.drop 10).length < rdlength then none else some ((r.drop 10).drop rdlength)

/-- The bytes behind `n` items, each skipped by `f`. -/
def skipMany (f : List Nat → Option (List Nat)) : Nat → List Nat → Option (List Nat)
  | 0, bytes => some bytes
  | n + 1, bytes => (f bytes).bind (skipMany f n)

/-- The four counts of a DNS header: QDCOUNT, ANCOUNT, NSCOUNT, ARCOUNT. -/
def headerCounts (data : List Nat) : Nat × Nat × Nat × Nat :=
  (data.getD 4 0 * 256 + data.getD 5 0, data.getD 6 0 * 256 + data.getD 7 0,
   data.getD 8 0 * 256 + data.getD 9 0, data.getD 10 0 * 256 + data.getD 11 0)

/-- Parse a datagram as a DNS message: a 12-byte header, QDCOUNT questions,
then ANCOUNT + NSCOUNT + ARCOUNT resource records. Returns the number of bytes
left over behind the last record, `none` when the datagram ends early. The
datagram is a well-framed DNS message when the result is `some 0`. -/
def dnsLeftover (data : List Nat) : Option Nat :=
  if data.length < 12 then none
  else
    let c := headerCounts data
    ((skipMany skipQuestion c.1 (data.drop 12)).bind
      (skipMany skipRecord (c.2.1 + c.2.2.1 + c.2.2.2))).map List.length

/-- The engine named `spark.local` while it looks for `_http._tcp.local`
services. -/
def discoveringState : BonjourClass :=
  { BonjourClass.init [192, 168, 1, 10] 0 with
    _bonjourName := some (ascii "spark.local"),
    _resolveNames1 := some (ascii "_http._tcp.local"), _serviceFoundCallback := true }

/-! ## Auxiliary definitions for the proofs -/

/-- A byte that belongs to a label: neither the terminator nor a dot. -/
def LabelBytes (l : List Nat) : Prop := ∀ b ∈ l, b ≠ 0 ∧ b ≠ DOT

/-- Labels as the encoder expects them: non-empty, without NUL or dot. -/
def GoodLabels (ls : List (List Nat)) : Prop := ∀ l ∈ ls, l ≠ [] ∧ LabelBytes l

/-- What follows the first label in `joinLabels (l :: ls)`. -/
def afterLabel (ls : List (List Nat)) : List Nat :=
  match ls with
  | [] => []
  | _ :: _ => DOT :: joinLabels ls

/-- The writer `w2` is `w1` after the bytes `S` went through `write`, with a
scratch buffer of the right size. -/
def Wrote (w1 w2 : Writer) (S : List Nat) : Prop :=
  w2.st = write w1.st S ∧ w2.buf.length = sizeofDNSHeader

/-- The bytes of the A record `_writeMyIPAnswerRecord` writes for the host
identity `host` and the local address `ip`. -/
def ipAnswerBytes (host ip : List Nat) : List Nat :=
  emittedName host 1 ++ [0x00, 0x01, 0x80, 0x01] ++ be32 MDNS_RESPONSE_TTL ++ be16 4 ++
    [ip.getD 0 0, ip.getD 1 0, ip.getD 2 0, ip.getD 3 0]

/-- The bytes `_writeServiceRecordName` writes for a record: with `tld = 0`
the instance name followed by the protocol postfix, otherwise the service
name. -/
def serviceNameBytes (r : MDNSServiceRecord_t) (tld : Nat) : List Nat :=
  if tld = 0 then
    emittedName r.name 0 ++ emittedName ((_postfixForProtocol r.proto).getD []).tail 1
  else emittedName (r.servName.getD []) 1

/-- The bytes of the PTR record `_writeServiceRecordPTR` writes. -/
def servicePTRBytes (r : MDNSServiceRecord_t) (ttl : Nat) : List Nat :=
  serviceNameBytes r 1 ++ [0x00, 0x0c, 0x00, 0x01] ++ be32 ttl ++ be16 (strlen r.name + 13) ++
    serviceNameBytes r 0

/-- The datagram `beginPacket` sends first when bytes are still pending in the
send buffer. -/
def pendingFlush (st : BonjourClass) : List Datagram :=
  if st._writeBuffer.length > 0 then
    [{ ip := st.udpDest.1, port := st.udpDest.2, data := st._writeBuffer }]
  else []

/-- The writer `_sendMDNSMessage` hands to the body of the message: the packet
begun, the header written, the header's bytes in the scratch buffer. -/
def bodyWriter (st : BonjourClass) (xid : Nat) (type : MDNSPacketType_t) : Writer :=
  { st := write (beginPacket st mdnsMulticastIPAddr MDNS_SERVER_PORT) (buildHeader xid type).bytes,
    ptr := sizeofDNSHeader, buf := (buildHeader xid type).bytes }

/-- A host label: 1 to 63 bytes, none of them NUL or a dot. -/
def HostLabel (h : List Nat) : Prop :=
  h ≠ [] ∧ h.length ≤ 63 ∧ ∀ b ∈ h, b ≠ 0 ∧ b ≠ DOT

instance (h : List Nat) : Decidable (HostLabel h) := by
  unfold HostLabel; infer_instance

/-- A name of eight labels of 63 bytes `'a'`: 511 bytes, 513 on the wire. -/
def eightLongLabels : List Nat := joinLabels (List.replicate 8 (List.replicate 63 97))

/-- The engine right after `begin("spark")` on a node whose address is
192.168.1.10. -/
def sparkState : BonjourClass :=
  { BonjourClass.init [192, 168, 1, 10] 0 with _bonjourName := some (ascii "spark.local") }

/-- The RDLENGTH and RDATA of the TXT record of a service. -/
def txtBytes (r : MDNSServiceRecord_t) : List Nat :=
  match r.textContent with
  | none => [0x00, 0x01, 0x00]
  | some txt => be16 (strlen txt) ++ txt.take (strlen txt)

/-- The SRV record of a ServiceRecord message: owner name, fixed part, RDATA. -/
def srvRecordBytes (r : MDNSServiceRecord_t) (host : List Nat) : List Nat :=
  serviceNameBytes r 0 ++ [0x00, 0x21, 0x80, 0x01] ++ be32 MDNS_RESPONSE_TTL ++
    be16 (8 + strlen host) ++ ([0, 0, 0, 0] ++ be16 r.port ++ emittedName host 1)

/-- The TXT record of a ServiceRecord message. -/
def txtRecordBytes (r : MDNSServiceRecord_t) : List Nat :=
  serviceNameBytes r 0 ++ [0x00, 0x10, 0x80, 0x01] ++ be32 MDNS_RESPONSE_TTL ++ txtBytes r

/-- The PTR record for the DNS-SD meta-name of a ServiceRecord message. -/
def metaPTRBytes (r : MDNSServiceRecord_t) : List Nat :=
  emittedName DNS_SD_SERVICE 1 ++ [0x00, 0x0c, 0x00, 0x01] ++ be32 MDNS_RESPONSE_TTL ++
    be16 ((strlen (r.servName.getD []) + 2) % 65536) ++ serviceNameBytes r 1

/-- The body of a ServiceRecord message: SRV, TXT, meta-PTR, self-PTR and the
additional A record. -/
def serviceRecordBytes (r : MDNSServiceRecord_t) (host ip : List Nat) : List Nat :=
  srvRecordBytes r host ++ txtRecordBytes r ++ metaPTRBytes r ++
    servicePTRBytes r MDNS_RESPONSE_TTL ++ ipAnswerBytes host ip

/-- A service record whose names the encoder can write: instance name and
service name present and made of non-empty labels. -/
def GoodRecord (r : MDNSServiceRecord_t) : Prop :=
  NonEmptyLabels r.name ∧ r.servName.isSome = true ∧ NonEmptyLabels (r.servName.getD [])

instance (r : MDNSServiceRecord_t) : Decidable (GoodRecord r) := by
  unfold GoodRecord; infer_instance

/-- A service `"Living Room Printer._ipp"` on TCP port 631 without text. -/
def printerRecord : MDNSServiceRecord_t :=
  { port := 631, proto := MDNSServiceProtocol_t.MDNSServiceTCP,
    name := ascii "Living Room Printer._ipp", servName := some (ascii "_ipp._tcp.local"),
    textContent := none }

/-- A host identity of seven labels of 63 bytes and `local`: 453 bytes. -/
def longHost : List Nat := joinLabels (List.replicate 7 (List.replicate 63 97)) ++ MDNS_TLD

/-- The engine with the host identity `longHost` and `printerRecord` in slot 0. -/
def longHostState : BonjourClass :=
  { BonjourClass.init [192, 168, 1, 10] 0 with
    _bonjourName := some longHost,
    _serviceRecords := some printerRecord :: List.replicate 7 none }

/-- A service whose instance name has seven labels of 63 bytes (447 bytes). -/
def longRecord : MDNSServiceRecord_t :=
  { port := 80, proto := MDNSServiceProtocol_t.MDNSServiceTCP,
    name := joinLabels (List.replicate 7 (List.replicate 63 97)),
    servName := some (List.replicate 63 97 ++ ascii "._tcp.local"),
    textContent := none }

/-- The engine named `spark.local` with `longRecord` in slot 0. -/
def longRecordState : BonjourClass :=
  { sparkState with _serviceRecords := some longRecord :: List.replicate 7 none }

/-- The engine named `spark.local` while it resolves `peer.local`. -/
def resolvingState : BonjourClass :=
  { sparkState with _resolveNames0 := some (ascii "peer.local"), _nameFoundCallback := true }

/-- The engine named `spark.local` with `printerRecord` in slot 0. -/
def printerState : BonjourClass :=
  { sparkState with _serviceRecords := some printerRecord :: List.replicate 7 none }

/-- The candidate whose cursor stands at `s` with all of `s` still to match. -/
def Candidate.at (s : List Nat) : Candidate :=
  { servName := some s, servLen := (s.length : Int), servNamePos := 0, servMatch := 1 }

/-- A name of one label of 129 bytes. -/
def label129 : List Nat := List.replicate 129 97

/-- A name of nine labels of 63 bytes `'a'`: 575 bytes, 577 on the wire. -/
def nineLongLabels : List Nat := joinLabels (List.replicate 9 (List.replicate 63 97))

/-- The engine `s2` is `s1` after more bytes went into the send buffer: nothing
was sent, the transport's destination is the same, and the buffer of `s1` is
the start of the buffer of `s2`. -/
def Keeps (s1 s2 : BonjourClass) : Prop :=
  s2.sent = s1.sent ∧ s2.udpDest = s1.udpDest ∧ s1._writeBuffer <+: s2._writeBuffer

/-- A datagram to the multicast group 224.0.0.251:5353 whose first two bytes
are the big-endian `xid`. -/
def ToGroup (xid : Nat) (d : Datagram) : Prop :=
  d.ip = mdnsMulticastIPAddr ∧ d.port = MDNS_SERVER_PORT ∧ d.data.take 2 = be16 xid

/-- From `s1` to `s2` the engine has sent only datagrams with the property
`P` (none or more, behind those sent before), and no bytes are pending in the
send buffer of `s2`. -/
def Sends (P : Datagram → Prop) (s1 s2 : BonjourClass) : Prop :=
  s2._writeBuffer = [] ∧ ∃ ds, s2.sent = s1.sent ++ ds ∧ ∀ d ∈ ds, P d

/-- The datagrams sent between the states `s1` and `s2`. -/
def emitted (s1 s2 : BonjourClass) : List Datagram := s2.sent.drop s1.sent.length

/-- The inbound datagram of the host A-query scenario: XID 0x1234, QD = 1,
the question `spark.local` A IN. -/
def scenario1Query : List Nat :=
  [0x12, 0x34, 0, 0, 0, 1, 0, 0, 0, 0, 0, 0,
   5, 0x73, 0x70, 0x61, 0x72, 0x6b, 5, 0x6c, 0x6f, 0x63, 0x61, 0x6c, 0, 0, 1, 0, 1]

/-- The source address of the inbound datagram in the scenarios. -/
def peerIP : List Nat := [192, 168, 1, 20]

/-! ## Auxiliary definitions: what a message leaves untouched, and the plan of the responses -/

/-- The part of the engine no message touches: the engine without the send
buffer, the transport (destination and datagrams sent), the fault mark and
the two resend clocks. -/
def core (st : BonjourClass) : BonjourClass :=
  { st with _writeBuffer := [], udpDest := ([], 0), sent := [], fault := false,
            _resolveLastSendMillis0 := 0, _resolveLastSendMillis1 := 0 }

/-- A property of the engine that is kept by every step a message is made of:
bytes going into the send buffer, a packet begun or ended on the transport, a
fault mark and an update of a resend clock. -/
structure MessageInvariant (P : BonjourClass → Prop) : Prop where
  onWrite : ∀ st d, P st → P (write st d)
  onBegin : ∀ st ip port, P st → P (beginPacket st ip port)
  onEnd : ∀ st, P st → P (endPacket st)
  onFault : ∀ st, P st → P { st with fault := true }
  onClock0 : ∀ st v, P st → P { st with _resolveLastSendMillis0 := v }
  onClock1 : ∀ st v, P st → P { st with _resolveLastSendMillis1 := v }

/-- The engine after the messages `ms` (packet type and service slot) were
sent in order, each by one call of `_sendMDNSMessage`. -/
def sendAll (peer : Option (List Nat)) (xid : Nat) :
    List (MDNSPacketType_t × Nat) → BonjourClass → BonjourClass
  | [], st => st
  | m :: ms, st => sendAll peer xid ms (_sendMDNSMessage st peer xid m.1 m.2).1

/-- The service slots the dispatch loop of `_processMDNSQuery` answers for the
flags `asked`: the occupied slots whose own flag, or the flag of the DNS-SD
meta-name, is set, in increasing order. -/
def serviceSlots (st : BonjourClass) (asked : List Nat) : List Nat :=
  (List.range NumMDNSServiceRecords).filter fun i =>
    (asked.getD 1 0 ≠ 0 ∨ asked.getD (i + 2) 0 ≠ 0) ∧ (recordAt st i).isSome

/-- The messages the end of `_processMDNSQuery` sends for the flags `asked`
and `wantsIPv6Addr`, in order. -/
def respondPlan (st : BonjourClass) (asked : List Nat) (wantsIPv6Addr : Nat) :
    List (MDNSPacketType_t × Nat) :=
  (if asked.getD 0 0 ≠ 0 then [(MDNSPacketType_t.MDNSPacketTypeMyIPAnswer, 0)] else []) ++
  (serviceSlots st asked).map (fun i => (MDNSPacketType_t.MDNSPacketTypeServiceRecord, i)) ++
  (if wantsIPv6Addr ≠ 0 then [(MDNSPacketType_t.MDNSPacketTypeNoIPv6AddrAvailable, 0)] else [])

/-! ## Auxiliary definitions: the question walk on one candidate -/

/-- A string without its dots. -/
def noDots (s : List Nat) : List Nat := s.filter fun b => b ≠ DOT

/-- A candidate of the question walk for the name `S` after the bytes `fed`
(the chunks read so far, without their dots) were compared: either it has
stopped matching, or its cursor stands `k` bytes into `S`, `strlen S - k`
bytes remain, and the `k` bytes behind the cursor are `fed` with dots of `S`
in between. -/
def Fed (S : List Nat) (fed : List Nat) (c : Candidate) : Prop :=
  c.servMatch = 0 ∨
  ∃ k, k ≤ strlen S ∧
    c = { servName := some (S.drop k), servLen := (strlen S : Int) - k, servNamePos := 0,
          servMatch := 1 } ∧
    noDots (S.take k) = fed

/-- The candidate name `S` (absent for `none`) spells the name `H` when the
dots of both are left out. -/
def nameClash (H : List Nat) (S : Option (List Nat)) : Bool :=
  match S with
  | none => false
  | some S => decide (noDots (S.take (strlen S)) = noDots H)

/-- Neither the DNS-SD meta-name nor a service name of the table spells the
name `H` when dots are left out: a question for `H` can match no candidate of
the walk but the host identity. -/
def NoNameClash (st : BonjourClass) (H : List Nat) : Prop :=
  nameClash H (some DNS_SD_SERVICE) = false ∧
  ∀ o ∈ st._serviceRecords, nameClash H (o.bind fun r => r.servName) = false

instance (st : BonjourClass) (H : List Nat) : Decidable (NoNameClash st H) := by
  unfold NoNameClash; infer_instance

/-! ## Auxiliary definitions: the datagrams of the answer messages -/

/-- A predicate on the four bytes after a question name: QTYPE has the high
byte 0 and QCLASS is IN, `00 01`, or IN with the cache-flush bit, `80 01`. -/
def ClassIN (t0 c0 c1 : Nat) : Prop := t0 = 0 ∧ c1 = 0x01 ∧ (c0 = 0x00 ∨ c0 = 0x80)

instance (t0 c0 c1 : Nat) : Decidable (ClassIN t0 c0 c1) := by
  unfold ClassIN; infer_instance

/-- The MyIPAnswer datagram for the host identity `host` and the address `ip`:
to the multicast group, the header and the A record, cut at the size of the
send buffer. -/
def myIPAnswerDatagram (xid : Nat) (host ip : List Nat) : Datagram :=
  { ip := mdnsMulticastIPAddr, port := MDNS_SERVER_PORT,
    data := ((buildHeader xid MDNSPacketType_t.MDNSPacketTypeMyIPAnswer).bytes ++
      ipAnswerBytes host ip).take sizeofWriteBuffer }

/-- The NoIPv6AddrAvailable datagram: the header, the AAAA question for the
host identity and the A record. -/
def noIPv6Datagram (xid : Nat) (host ip : List Nat) : Datagram :=
  { ip := mdnsMulticastIPAddr, port := MDNS_SERVER_PORT,
    data := ((buildHeader xid MDNSPacketType_t.MDNSPacketTypeNoIPv6AddrAvailable).bytes ++
      (emittedName host 1 ++ [0x00, 0x1c, 0x00, 0x01] ++ ipAnswerBytes host ip)).take
        sizeofWriteBuffer }

/-- The ServiceRecord datagram for the record `r`: the header, SRV, TXT,
meta-PTR, self-PTR and the additional A record. -/
def serviceRecordDatagram (xid : Nat) (r : MDNSServiceRecord_t) (host ip : List Nat) :
    Datagram :=
  { ip := mdnsMulticastIPAddr, port := MDNS_SERVER_PORT,
    data := ((buildHeader xid MDNSPacketType_t.MDNSPacketTypeServiceRecord).bytes ++
      serviceRecordBytes r host ip).take sizeofWriteBuffer }

/-- The ServiceRecordRelease datagram for the record `r`: the header and the
self-PTR with TTL 0. -/
def releaseDatagram (xid : Nat) (r : MDNSServiceRecord_t) : Datagram :=
  { ip := mdnsMulticastIPAddr, port := MDNS_SERVER_PORT,
    data := ((buildHeader xid MDNSPacketType_t.MDNSPacketTypeServiceRecordRelease).bytes ++
      servicePTRBytes r 0).take sizeofWriteBuffer }

/-! ## Sample states for the service claims -/

/-- A service `"My Web._http"` on TCP port 80 with the text `path=/`. -/
def webRecord : MDNSServiceRecord_t :=
  { port := 80, proto := MDNSServiceProtocol_t.MDNSServiceTCP,
    name := ascii "My Web._http", servName := some (ascii "_http._tcp.local"),
    textContent := some (ascii "path=/") }

/-- The engine named `spark.local` with `webRecord` in slot 0. -/
def webState : BonjourClass :=
  { sparkState with _serviceRecords := some webRecord :: List.replicate 7 none }

/-- The record `printerRecord` with a text of 500 bytes. -/
def longTextRecord : MDNSServiceRecord_t :=
  { printerRecord with textContent := some (List.replicate 500 97) }

/-- The engine named `spark.local` with `longTextRecord` in slot 0. -/
def longTextState : BonjourClass :=
  { sparkState with _serviceRecords := some longTextRecord :: List.replicate 7 none }

/-- Every record of the service table has names the encoder can write. -/
def GoodTable (st : BonjourClass) : Prop :=
  ∀ o ∈ st._serviceRecords, ∀ r ∈ o, GoodRecord r

instance (st : BonjourClass) : Decidable (GoodTable st) := by
  unfold GoodTable; infer_instance

/-- The datagram of an answer message (MyIPAnswer, NoIPv6AddrAvailable, or
ServiceRecord and ServiceRecordRelease for an occupied slot) in the state
`st`: see `myIPAnswerDatagram` and the definitions after it. Other messages
are not answers; they are given the empty datagram. -/
def planDatagram (st : BonjourClass) (xid : Nat) (m : MDNSPacketType_t × Nat) : Datagram :=
  match m.1, recordAt st m.2 with
  | .MDNSPacketTypeMyIPAnswer, _ =>
    myIPAnswerDatagram xid (st._bonjourName.getD []) st.localIP
  | .MDNSPacketTypeNoIPv6AddrAvailable, _ =>
    noIPv6Datagram xid (st._bonjourName.getD []) st.localIP
  | .MDNSPacketTypeServiceRecord, some r =>
    serviceRecordDatagram xid r (st._bonjourName.getD []) st.localIP
  | .MDNSPacketTypeServiceRecordRelease, some r => releaseDatagram xid r
  | _, _ => { ip := [], port := 0, data := [] }

/-- An inbound datagram with two questions for `spark.local`: A IN, then
AAAA IN (XID 0x1234). -/
def hostTwoQuestions : List Nat :=
  [0x12, 0x34, 0, 0, 0, 2, 0, 0, 0, 0, 0, 0] ++
    wireName (ascii "spark.local") 1 ++ [0, 0x01, 0, 1] ++
    wireName (ascii "spark.local") 1 ++ [0, 0x1c, 0, 1]

/-- The occupied slots of the service table, in increasing order. -/
def occupiedSlots (st : BonjourClass) : List Nat :=
  (List.range NumMDNSServiceRecords).filter fun i => (recordAt st i).isSome

/-- The engine named `spark.local` after `addServiceRecord("printer", 631,
MDNSServiceTCP)` and `addServiceRecord("web", 80, MDNSServiceTCP)`. -/
def twoServicesState : BonjourClass :=
  (addServiceRecord
    (addServiceRecord sparkState (some (ascii "printer")) 631
      MDNSServiceProtocol_t.MDNSServiceTCP none).1
    (some (ascii "web")) 80 MDNSServiceProtocol_t.MDNSServiceTCP none).1

/-- An inbound datagram with the one question `_services._dns-sd._udp.local`
PTR IN (XID 7). -/
def metaQuery : List Nat :=
  [0, 7, 0, 0, 0, 1, 0, 0, 0, 0, 0, 0] ++ wireName DNS_SD_SERVICE 1 ++ [0, 0x0c, 0, 1]

/-! ## The service table: what `addServiceRecord` stores -/

/-- The specification's "rightmost dot-delimited component" of a name. -/
def lastComponent (name : List Nat) : List Nat := (splitLabels name).getLast?.getD []

/-- The record `addServiceRecord(name, port, proto, textContent)` builds when
every allocation succeeds: the copies of the name and of the non-empty text,
and the service name put together from `_findFirstDotFromRight` of the copied
name and `_postfixForProtocol`. -/
def newRecord (name : List Nat) (port : Nat) (proto : MDNSServiceProtocol_t)
    (textContent : Option (List Nat)) : MDNSServiceRecord_t :=
  let recName := name.take (strlen name)
  let s := _findFirstDotFromRight recName
  { port := port, proto := proto, name := recName,
    servName :=
      match _postfixForProtocol proto with
      | some srv_type => some (s.take (strlen s) ++ srv_type)
      | none => some (s.take (strlen s)),
    textContent :=
      match textContent with
      | none => none
      | some t => if cHead t ≠ 0 then some (t.take (strlen t)) else none }

/-- The next `n` allocations succeed. -/
def AllocOK (st : BonjourClass) (n : Nat) : Prop := ∀ b ∈ st.mallocPlan.take n, b = true

instance (st : BonjourClass) (n : Nat) : Decidable (AllocOK st n) := by
  unfold AllocOK; infer_instance

/-- The state after `k` allocations were taken from the plan. -/
def afterAllocs (st : BonjourClass) (k : Nat) : BonjourClass :=
  { st with mallocPlan := st.mallocPlan.drop k }

/-- The number of allocations `addServiceRecord` makes: record, name, the
non-empty text, service name. -/
def allocCount (textContent : Option (List Nat)) : Nat :=
  match textContent with
  | none => 3
  | some t => if cHead t ≠ 0 then 4 else 3

/-- The engine after `begin("spark")` and a successful
`addServiceRecord("My Web._http", 80, MDNSServiceTCP, "path=/")`. -/
def webAdded : BonjourClass :=
  (addServiceRecord sparkState (some (ascii "My Web._http")) 80
    MDNSServiceProtocol_t.MDNSServiceTCP (some (ascii "path=/"))).1

/-- The engine after `begin("spark")` and a successful
`addServiceRecord("printer", 631, MDNSServiceTCP)`: an instance name without a
dot. -/
def printerAdded : BonjourClass :=
  (addServiceRecord sparkState (some (ascii "printer")) 631
    MDNSServiceProtocol_t.MDNSServiceTCP none).1

/-- An inbound datagram with one question: the XID, QD = 1, the name in wire
form, the QTYPE, class IN. -/
def oneQuestion (xid : Nat) (name : List Nat) (qtype : Nat) : List Nat :=
  [xid / 256 % 256, xid % 256, 0, 0, 0, 1, 0, 0, 0, 0, 0, 0] ++ wireName name 1 ++
    [0, qtype, 0, 1]

/-! ## Removing a service -/

/-- The test of the loop of `removeServiceRecord(name, port, proto)` on the
record of a slot: `port == r->port && proto == r->proto && (NULL == name ||
0 == strcmp(r->name, name))`. -/
def slotMatches (name : Option (List Nat)) (port : Nat) (proto : MDNSServiceProtocol_t)
    (r : MDNSServiceRecord_t) : Prop :=
  port = r.port ∧ proto = r.proto ∧
    (match name with
      | none => true
      | some nm => decide (r.name.take (strlen r.name) = nm.take (strlen nm))) = true

instance (name : Option (List Nat)) (port : Nat) (proto : MDNSServiceProtocol_t)
    (r : MDNSServiceRecord_t) : Decidable (slotMatches name port proto r) := by
  unfold slotMatches; infer_instance

/-- The engine after `begin("spark")`, `addServiceRecord("printer", 631, TCP)`,
`addServiceRecord("web", 80, TCP)` and `removeServiceRecord("printer", 631,
TCP)`: slot 0 is empty, slot 1 holds `web`. -/
def gapState : BonjourClass :=
  removeServiceRecord twoServicesState (some (ascii "printer")) 631
    MDNSServiceProtocol_t.MDNSServiceTCP

/-- The engine after `begin("spark")` and `addServiceRecord("x", 1234,
MDNSServiceUDP)`. -/
def xAdded : BonjourClass :=
  (addServiceRecord sparkState (some (ascii "x")) 1234
    MDNSServiceProtocol_t.MDNSServiceUDP none).1

/-- A sequence of `addServiceRecord(name, port, proto, textContent)` calls, one
after the other: the final state and the values the calls returned. -/
def addAll : BonjourClass →
    List (Option (List Nat) × Nat × MDNSServiceProtocol_t × Option (List Nat)) →
    BonjourClass × List Nat
  | st, [] => (st, [])
  | st, c :: cs =>
    let r := addServiceRecord st c.1 c.2.1 c.2.2.1 c.2.2.2
    let rs := addAll r.1 cs
    (rs.1, r.2 :: rs.2)

/-- Eight calls `addServiceRecord("My Web._http", 8000 + k, MDNSServiceTCP)`. -/
def eightCalls : List (Option (List Nat) × Nat × MDNSServiceProtocol_t × Option (List Nat)) :=
  (List.range 8).map fun k =>
    (some (ascii "My Web._http"), 8000 + k, MDNSServiceProtocol_t.MDNSServiceTCP, none)

/-! ## Operations after a removal -/

/-- An operation of the engine that can answer for a service: processing an
inbound query datagram from `remoteIP`, or the re-announcement part of `run()`
at the time `now`. -/
inductive LaterOp where
  | question (pkt remoteIP : List Nat)
  | announce (now : Nat)
  deriving DecidableEq, Repr

/-- The engine after one operation. -/
def LaterOp.apply : LaterOp → BonjourClass → BonjourClass
  | .question pkt remoteIP, st => processQuestions st pkt remoteIP
  | .announce now, st => runAnnounce st now

/-- The engine after a sequence of operations. -/
def applyOps : List LaterOp → BonjourClass → BonjourClass
  | [], st => st
  | op :: ops, st => applyOps ops (op.apply st)

/-- The engine after `removeAllServiceRecords()` on `twoServicesState`. -/
def clearedState : BonjourClass := removeAllServiceRecords twoServicesState


/-! ## Resolver: the public queries -/

/-- `BonjourClass::cancelResolveName()`. -/
def cancelResolveName (st : BonjourClass) : BonjourClass := _cancelQuery st 0

/-- `BonjourClass::stopDiscoveringService()`. -/
def stopDiscoveringService (st : BonjourClass) : BonjourClass := _cancelQuery st 1

/-- `BonjourClass::isResolvingName()`: `(NULL != _resolveNames[0])`. -/
def isResolvingName (st : BonjourClass) : Nat := if st._resolveNames0.isSome then 1 else 0

/-- `BonjourClass::isDiscoveringService()`: `(NULL != _resolveNames[1])`. -/
def isDiscoveringService (st : BonjourClass) : Nat := if st._resolveNames1.isSome then 1 else 0

/-! ## Parser: the answer walk of `_processMDNSQuery` -/

/-- `aCnt = ntohs(dnsHeader->answerCount)`. -/
def packetACnt (pkt : List Nat) : Nat := pkt.getD 6 0 * 256 + pkt.getD 7 0

/-- `aaCnt = ntohs(dnsHeader->authorityCount)`. -/
def packetAACnt (pkt : List Nat) : Nat := pkt.getD 8 0 * 256 + pkt.getD 9 0

/-- `addCnt = ntohs(dnsHeader->additionalCount)`. -/
def packetAddCnt (pkt : List Nat) : Nat := pkt.getD 10 0 * 256 + pkt.getD 11 0

/-- The test of the `else if` that guards the answer walk:
`1 == queryResponse && DNSOpQuery == opCode && MDNS_SERVER_PORT == remotePort()
&& (NULL != _resolveNames[0] || NULL != _resolveNames[1])`. -/
def isResponse (st : BonjourClass) (pkt : List Nat) (remotePort : Nat) : Bool :=
  decide (pkt.getD 2 0 / 128 % 2 = 1 ∧ pkt.getD 2 0 / 8 % 16 = DNSOpQuery ∧
    remotePort = MDNS_SERVER_PORT ∧
    (st._resolveNames0.isSome = true ∨ st._resolveNames1.isSome = true))

/-- One resolver target during one record of the answer walk: `servNames[j]`,
`servLens[j]`, `servNamePos[j]`, `servMatches[j]` (the fields of `Candidate`)
and `partMatched[j]`, `lastWasCompressed[j]`, `servWasCompressed[j]`. -/
structure AnswerCandidate where
  cand : Candidate
  partMatched : Nat
  lastWasCompressed : Nat
  servWasCompressed : Nat
  deriving DecidableEq, Repr

/-- One of the `MDNS_MAX_SERVICES_PER_PACKET` discovered instances:
`ptrNames[k]` (`none` for `NULL`), `ptrOffsets[k]`, `ptrPorts[k]`, `ptrIPs[k]`,
`servTxt[k]`, and the comparison cursor `ptrNamesCmp[k]`, `ptrLensCmp[k]`,
`ptrNamesMatches[k]`. -/
structure PtrSlot where
  ptrName : Option (List Nat)
  ptrOffset : Nat
  ptrPort : Nat
  ptrIP : Nat
  servTxt : Option (List Nat)
  ptrNameCmp : List Nat
  ptrLenCmp : Int
  ptrNameMatch : Nat
  deriving DecidableEq, Repr

/-- A discovered-instance entry with nothing in it (the value the model reads
at an index outside the array). -/
def PtrSlot.unused : PtrSlot :=
  { ptrName := none, ptrOffset := 0, ptrPort := 0, ptrIP := 0, servTxt := none,
    ptrNameCmp := [], ptrLenCmp := 0, ptrNameMatch := 0 }

/-- `#define MDNS_MAX_SERVICES_PER_PACKET (6)`. -/
def MDNS_MAX_SERVICES_PER_PACKET : Nat := 6

/-- What the answer walk carries from one record to the next: the engine,
`offset`, `recordsFound[2]`, `servNamePos[2]`, the discovered instances,
`servIPs[6][5]` and `checkAARecords`. -/
structure AnswerState where
  st : BonjourClass
  offset : Nat
  recordsFound : List Nat
  servNamePos : List Nat
  ptrs : List PtrSlot
  servIPs : List (List Nat)
  checkAARecords : Nat
  deriving DecidableEq, Repr

/-- The discovered instances before the first record: `ptrNames` and `servTxt`
are cleared by `memset`; `ptrPorts` and `ptrIPs` are not initialised and hold
what the stack held (`junkPorts`, `junkIPs`). The other fields are written
before they are read. -/
def initPtrs (junkPorts junkIPs : List Nat) : List PtrSlot :=
  (List.range MDNS_MAX_SERVICES_PER_PACKET).map fun k =>
    { ptrName := none, ptrOffset := 0, ptrPort := junkPorts.getD k 0 % 65536,
      ptrIP := junkIPs.getD k 0 % 256, servTxt := none, ptrNameCmp := [], ptrLenCmp := 0,
      ptrNameMatch := 0 }

/-- The state of the answer walk before the first record. -/
def AnswerState.start (st : BonjourClass) (junkPorts junkIPs : List Nat) : AnswerState :=
  { st := st, offset := sizeofDNSHeader, recordsFound := [0, 0], servNamePos := [0, 0],
    ptrs := initPtrs junkPorts junkIPs,
    servIPs := List.replicate MDNS_MAX_SERVICES_PER_PACKET [0, 0, 0, 0, 0],
    checkAARecords := 0 }

/-- The set-up of resolver target `j` at the start of a record; `pos` is the
value `servNamePos[j]` has kept from the records before. -/
def AnswerCandidate.ofSlot (name : Option (List Nat)) (pos : Nat) : AnswerCandidate :=
  { cand := { Candidate.ofName name with servNamePos := pos },
    partMatched := 0, lastWasCompressed := 0, servWasCompressed := 0 }

/-- The set-up of a discovered instance at the start of a record:
`if (NULL != ptrNames[j]) { ptrNamesCmp[j] = ptrNames[j]; ptrLensCmp[j] =
strlen(ptrNames[j]); ptrNamesMatches[j] = 1; }`. -/
def PtrSlot.startRecord (p : PtrSlot) : PtrSlot :=
  match p.ptrName with
  | some n => { p with ptrNameCmp := n, ptrLenCmp := strlen n, ptrNameMatch := 1 }
  | none => p

/-- What the name loop of one record works on: `offset`, `tLen`,
`firstNamePtrByte`, the two resolver targets and the discovered instances. -/
structure NameWalk where
  offset : Nat
  tLen : Nat
  firstNamePtrByte : Nat
  cands : List AnswerCandidate
  ptrs : List PtrSlot
  deriving DecidableEq, Repr

/-- The update of resolver target `j` for one chunk of a label:
`if (!recordsFound[j] && servMatches[j] && servNames[j]) servMatches[j] &=
_matchStringPart(...); if (!partMatched[j]) partMatched[j] = servMatches[j];
lastWasCompressed[j] = 0;`. -/
def AnswerCandidate.chunk (found : Nat) (chunk : List Nat) (a : AnswerCandidate) :
    AnswerCandidate :=
  let c := matchChunk found chunk a.cand
  { a with cand := c,
           partMatched := if a.partMatched = 0 then c.servMatch else a.partMatched,
           lastWasCompressed := 0 }

/-- The update of a discovered instance for one chunk of `ir` bytes:
`if (NULL != ptrNames[j] && ptrNamesMatches[j]) if (ptrLensCmp[j] >= ir)
ptrNamesMatches[j] &= _matchStringPart(&ptrNamesCmp[j], &ptrLensCmp[j], buf, ir);`. -/
def PtrSlot.chunk (chunk : List Nat) (p : PtrSlot) : PtrSlot :=
  if p.ptrName.isSome ∧ p.ptrNameMatch ≠ 0 then
    if p.ptrLenCmp ≥ (chunk.length : Int) then
      let r := _matchStringPart p.ptrNameCmp p.ptrLenCmp chunk chunk.length
      { p with ptrNameCmp := r.2.1, ptrLenCmp := r.2.2,
               ptrNameMatch := Nat.land p.ptrNameMatch r.1 }
    else p
  else p

/-- The chunk loop of the answer walk, `while (tr > 0) { ... }`. Every pass
lowers `tr`; `fuel` bounds the passes. -/
def answerChunkLoop (pkt : List Nat) (found : List Nat) : Nat → Nat → NameWalk → NameWalk
  | 0, _, nw => nw
  | fuel + 1, tr, nw =>
    if tr > 0 then
      let ir := if tr > sizeofDNSHeader then sizeofDNSHeader else tr
      let chunk := readBytes pkt nw.offset ir
      answerChunkLoop pkt found fuel (tr - ir)
        { nw with offset := nw.offset + ir,
                  cands := List.zipWith (fun f a => a.chunk f chunk) found nw.cands,
                  ptrs := nw.ptrs.map (PtrSlot.chunk chunk) }
    else nw

/-- The update of resolver target `j` for a compression pointer whose second
byte is `b`: `if (servNamePos[j] && servNamePos[j] != buf[0]) servMatches[j] =
0; else servWasCompressed[j] = 1; lastWasCompressed[j] = 1;`. -/
def AnswerCandidate.pointer (b : Nat) (a : AnswerCandidate) : AnswerCandidate :=
  if a.cand.servNamePos ≠ 0 ∧ a.cand.servNamePos ≠ b then
    { a with cand := { a.cand with servMatch := 0 }, lastWasCompressed := 1 }
  else { a with servWasCompressed := 1, lastWasCompressed := 1 }

/-- The name loop `do { ... } while (rLen > 0 && rLen <= 128);` of one record
of the answer walk; `isQuestion` is `i < qCnt`. Every pass reads at least one
byte; `fuel` bounds the passes. -/
def answerNameLoop (pkt : List Nat) (found : List Nat) (isQuestion : Bool) :
    Nat → NameWalk → NameWalk
  | 0, nw => nw
  | fuel + 1, nw =>
    let rLen := pkt.getD nw.offset 0
    let nw := { nw with offset := nw.offset + 1, tLen := nw.tLen + 1 }
    if rLen > 128 then
      -- handle DNS name compression, kinda, sorta...
      let b := pkt.getD nw.offset 0
      { nw with offset := nw.offset + 1, tLen := nw.tLen + 1,
                cands := nw.cands.map (AnswerCandidate.pointer b),
                firstNamePtrByte := if nw.firstNamePtrByte = 0 then b else nw.firstNamePtrByte }
    else if rLen > 0 then
      if isQuestion then
        answerNameLoop pkt found isQuestion fuel { nw with offset := nw.offset + rLen }
      else
        let nw :=
          { nw with firstNamePtrByte :=
              if nw.firstNamePtrByte = 0 then (nw.offset - 1) % 256 else nw.firstNamePtrByte }
        let nw := answerChunkLoop pkt found rLen rLen nw
        answerNameLoop pkt found isQuestion fuel { nw with tLen := nw.tLen + rLen }
    else nw

/-- The test of resolver target `j` after the name of an answer record:
`servNames[j] && ((servMatches[j] && 0 == servLens[j]) || (partMatched[j] &&
lastWasCompressed[j]) || (servWasCompressed[j] && servMatches[j]))`. -/
def AnswerCandidate.hit (a : AnswerCandidate) : Prop :=
  a.cand.servName.isSome = true ∧
    ((a.cand.servMatch ≠ 0 ∧ a.cand.servLen = 0) ∨
     (a.partMatched ≠ 0 ∧ a.lastWasCompressed ≠ 0) ∨
     (a.servWasCompressed ≠ 0 ∧ a.cand.servMatch ≠ 0))

instance (a : AnswerCandidate) : Decidable a.hit := by
  unfold AnswerCandidate.hit; infer_instance

/-- What the code between the name and the end of one record works on: the
walk's state, the first bytes of the scratch buffer `buf`, and
`packetHandled`. -/
structure RecordScan where
  aw : AnswerState
  buf : List Nat
  packetHandled : Bool
  deriving DecidableEq, Repr

/-- The index of the first `NULL` entry of `ptrNames`
(`for (k = 0; k < MDNS_MAX_SERVICES_PER_PACKET; k++) if (NULL == ptrNames[k])
break;`); the length of the list when there is none. -/
def firstFreePtr : List PtrSlot → Nat
  | [] => 0
  | p :: rest => if p.ptrName.isNone then 0 else firstFreePtr rest + 1

/-- The `else if (1 == j)` part of an accepted PTR answer with the data length
`dataLen`: the instance name of the RDATA is copied into the first free entry
of `ptrNames`. The copy has `l - 1` bytes; its last byte is set to NUL only
when the first RDATA byte is at least `l - 1`, otherwise the string is left
without a terminator (the model ends it where the copy ends). `l <= 0` makes
the length of the `memcpy` wrap: a fault. -/
def storePtrName (pkt : List Nat) (dataLen : Nat) (s : RecordScan) : RecordScan :=
  let k := firstFreePtr s.aw.ptrs
  if k < MDNS_MAX_SERVICES_PER_PACKET then
    let l : Int := (dataLen : Int) - 2
    let m := my_malloc s.aw.st
    if m.1 then
      if l ≤ 0 then { s with aw := { s.aw with st := { m.2 with fault := true } } }
      else
        let b0 := pkt.getD s.aw.offset 0
        let copied := readBytes pkt (s.aw.offset + 1) (l.toNat - 1)
        let p := s.aw.ptrs.getD k PtrSlot.unused
        { s with
          aw := { s.aw with
            st := m.2,
            ptrs := s.aw.ptrs.set k
              { p with ptrName := some copied, ptrOffset := s.aw.offset % 65536 },
            checkAARecords := 1 },
          buf := poke s.buf 0 [b0] }
    else { s with aw := { s.aw with st := m.2 } }
  else s

/-- One pass of `for (uint8_t j = 0; j < 2; j++)` for a record of the answer
section: resolver target `j` with its state `a` after the name, `tLen` the
length of the name. -/
def answerCase (pkt : List Nat) (tLen : Nat) (j : Nat) (a : AnswerCandidate)
    (s : RecordScan) : RecordScan :=
  let s :=
    if s.aw.servNamePos.getD j 0 = 0 then
      { s with aw := { s.aw with
          servNamePos := s.aw.servNamePos.set j ((s.aw.offset - 4 - tLen) % 256) } }
    else s
  if a.hit then
    -- somewhat handle compression by guessing
    if s.buf.getD 0 0 = 0 ∧ s.buf.getD 1 0 = (if j = 0 then 0x01 else 0x0c) ∧
        (s.buf.getD 2 0 = 0x00 ∨ s.buf.getD 2 0 = 0x80) ∧ s.buf.getD 3 0 = 0x01 then
      let s := { s with aw := { s.aw with recordsFound := s.aw.recordsFound.set j 1 } }
      let s := { s with buf := poke s.buf 0 (readBytes pkt s.aw.offset 6),
                        aw := { s.aw with offset := s.aw.offset + 6 } }
      let dataLen := s.buf.getD 4 0 * 256 + s.buf.getD 5 0
      let s :=
        if j = 0 ∧ dataLen = 4 then
          let s := { s with buf := poke s.buf 0 (readBytes pkt s.aw.offset 4) }
          { s with aw := { s.aw with
              st := _finishedResolvingName s.aw.st s.aw.st._resolveNames0
                (some (s.buf.take 4)) } }
        else if j = 1 then storePtrName pkt dataLen s
        else s
      { s with aw := { s.aw with offset := s.aw.offset + dataLen }, packetHandled := true }
    else s
  else s

/-- The test of a discovered instance against a record of the additional
section: `ptrNames[j] && ((firstNamePtrByte && firstNamePtrByte ==
ptrOffsets[j]) || (0 == ptrLensCmp[j] && ptrNamesMatches[j]))`. -/
def PtrSlot.hit (firstNamePtrByte : Nat) (p : PtrSlot) : Prop :=
  p.ptrName.isSome = true ∧
    ((firstNamePtrByte ≠ 0 ∧ firstNamePtrByte = p.ptrOffset) ∨
     (p.ptrLenCmp = 0 ∧ p.ptrNameMatch ≠ 0))

instance (f : Nat) (p : PtrSlot) : Decidable (p.hit f) := by
  unfold PtrSlot.hit; infer_instance

/-- The index of the first entry of a list with the property `q`, if any: the
`for (j ...) if (...) { ...; break; }` loops of the additional section. -/
def firstIndex {α : Type} (q : α → Bool) : List α → Option Nat
  | [] => none
  | x :: rest => if q x then some 0 else (firstIndex q rest).map (· + 1)

/-- An SRV record of the additional section (`buf[1] == 0x21`): the port and
the position of the target go to the first discovered instance the record
belongs to. -/
def additionalSRV (pkt : List Nat) (firstNamePtrByte : Nat) (s : RecordScan) : RecordScan :=
  match firstIndex (fun p => decide (PtrSlot.hit firstNamePtrByte p)) s.aw.ptrs with
  | none => s
  | some j =>
    let s := { s with buf := poke s.buf 0 (readBytes pkt s.aw.offset 6),
                      aw := { s.aw with offset := s.aw.offset + 6 } }
    let dataLen := s.buf.getD 4 0 * 256 + s.buf.getD 5 0
    let s :=
      if dataLen ≥ 8 then
        let s := { s with buf := poke s.buf 0 (readBytes pkt s.aw.offset 8) }
        let port := s.buf.getD 4 0 * 256 + s.buf.getD 5 0
        let ip := if s.buf.getD 6 0 > 128 then s.buf.getD 7 0 else (s.aw.offset + 6) % 256
        { s with aw := { s.aw with
            ptrs := s.aw.ptrs.set j
              { s.aw.ptrs.getD j PtrSlot.unused with ptrPort := port, ptrIP := ip } } }
      else s
    { s with aw := { s.aw with offset := s.aw.offset + dataLen }, packetHandled := true }

/-- A TXT record of the additional section (`buf[1] == 0x10`): its bytes are
kept for the first discovered instance the record belongs to. -/
def additionalTXT (pkt : List Nat) (firstNamePtrByte : Nat) (s : RecordScan) : RecordScan :=
  match firstIndex (fun p => decide (PtrSlot.hit firstNamePtrByte p)) s.aw.ptrs with
  | none => s
  | some j =>
    let s := { s with buf := poke s.buf 0 (readBytes pkt s.aw.offset 6),
                      aw := { s.aw with offset := s.aw.offset + 6 } }
    let dataLen := s.buf.getD 4 0 * 256 + s.buf.getD 5 0
    let s :=
      if dataLen > 1 ∧ (s.aw.ptrs.getD j PtrSlot.unused).servTxt.isNone = true then
        let m := my_malloc s.aw.st
        if m.1 then
          { s with aw := { s.aw with
              st := m.2,
              ptrs := s.aw.ptrs.set j
                { s.aw.ptrs.getD j PtrSlot.unused with
                  servTxt := some (readBytes pkt s.aw.offset dataLen) } } }
        else { s with aw := { s.aw with st := m.2 } }
      else s
    { s with aw := { s.aw with offset := s.aw.offset + dataLen }, packetHandled := true }

/-- An A record of the additional section (`buf[1] == 0x01`): the address goes
to the first free entry of `servIPs`, tagged with `firstNamePtrByte` (255 when
that is 0). -/
def additionalA (pkt : List Nat) (firstNamePtrByte : Nat) (s : RecordScan) : RecordScan :=
  match firstIndex (fun e : List Nat => decide (e.getD 0 0 = 0)) s.aw.servIPs with
  | none => s
  | some j =>
    let tag := if firstNamePtrByte ≠ 0 then firstNamePtrByte else 255
    let s := { s with buf := poke s.buf 0 (readBytes pkt s.aw.offset 6),
                      aw := { s.aw with offset := s.aw.offset + 6 } }
    let dataLen := s.buf.getD 4 0 * 256 + s.buf.getD 5 0
    let addr := fun (e : List Nat) =>
      if dataLen = 4 then readBytes pkt s.aw.offset 4 else e.drop 1
    { s with
      aw := { s.aw with
        servIPs := s.aw.servIPs.set j (tag :: addr (s.aw.servIPs.getD j [])),
        offset := s.aw.offset + dataLen },
      packetHandled := true }

/-- The part of one record of the answer walk behind the name, for a record
that is not a question (`else if (i >= qCnt)`), after the `break` test. Of the
scratch buffer only the four bytes just loaded are read before the next
load. -/
def answerBody (pkt : List Nat) (qCnt aCnt aaCnt i : Nat) (nw : NameWalk) (aw : AnswerState) :
    AnswerState :=
  let s : RecordScan :=
    { aw := { aw with offset := nw.offset + 4, ptrs := nw.ptrs },
      buf := readBytes pkt nw.offset 4 ++ List.replicate 8 0, packetHandled := false }
  let dflt : AnswerCandidate := AnswerCandidate.ofSlot none 0
  let s :=
    if i < qCnt + aCnt then
      answerCase pkt nw.tLen 1 (nw.cands.getD 1 dflt)
        (answerCase pkt nw.tLen 0 (nw.cands.getD 0 dflt) s)
    else if i ≥ qCnt + aCnt + aaCnt then
      -- check whether we find a service description
      if s.buf.getD 1 0 = 0x21 then additionalSRV pkt nw.firstNamePtrByte s
      else if s.buf.getD 1 0 = 0x10 then additionalTXT pkt nw.firstNamePtrByte s
      else if s.buf.getD 1 0 = 0x01 then additionalA pkt nw.firstNamePtrByte s
      else s
    else s
  -- eat the answer
  if s.packetHandled then s.aw
  else
    let offset := s.aw.offset + 4
    { s.aw with offset := offset + 2 + (pkt.getD offset 0 * 256 + pkt.getD (offset + 1) 0) }

/-- One pass of `for (uint16_t i = 0; i < qCnt + aCnt + aaCnt + addCnt; i++)`:
one record. The second component tells that the pass left the loop by
`break`. The scratch buffer is loaded anew before each of its uses, so its
bytes from the name loop are not kept. -/
def answerRecord (pkt : List Nat) (qCnt aCnt aaCnt i : Nat) (aw : AnswerState) :
    AnswerState × Bool :=
  let nw0 : NameWalk :=
    { offset := aw.offset, tLen := 0, firstNamePtrByte := 0,
      cands := [AnswerCandidate.ofSlot aw.st._resolveNames0 (aw.servNamePos.getD 0 0),
                AnswerCandidate.ofSlot aw.st._resolveNames1 (aw.servNamePos.getD 1 0)],
      ptrs := aw.ptrs.map PtrSlot.startRecord }
  let nw := answerNameLoop pkt aw.recordsFound (decide (i < qCnt)) (pkt.length + 1) nw0
  if i < qCnt then ({ aw with offset := nw.offset + 4, ptrs := nw.ptrs }, false)
  else if i ≥ qCnt + aCnt ∧ aw.checkAARecords = 0 then
    ({ aw with offset := nw.offset, ptrs := nw.ptrs }, true)
  else (answerBody pkt qCnt aCnt aaCnt i nw aw, false)

/-- The record loop of the answer walk from the value `i` of the loop variable
on. `i` is a `uint16_t` compared with the `int` sum of the four counts: for a
sum above 65535 only a `break` ends the loop. `none`: the loop has not ended
within `fuel` passes. -/
def answerLoop (pkt : List Nat) (qCnt aCnt aaCnt addCnt : Nat) :
    Nat → Nat → AnswerState → Option AnswerState
  | 0, i, aw => if i < qCnt + aCnt + aaCnt + addCnt then none else some aw
  | fuel + 1, i, aw =>
    if i < qCnt + aCnt + aaCnt + addCnt then
      let r := answerRecord pkt qCnt aCnt aaCnt i aw
      if r.2 then some r.1
      else answerLoop pkt qCnt aCnt aaCnt addCnt fuel ((i + 1) % 65536) r.1
    else some aw

/-- The search for the address of a discovered instance: the first entry of
`servIPs` whose tag is `ptrIPs[i]` or 255, otherwise the first entry with a
non-zero tag (`fallbackIpAddr`), otherwise `NULL`. -/
def findServiceIP (ptrIP : Nat) : List (List Nat) → Option (List Nat) → Option (List Nat)
  | [], fallback => fallback
  | e :: rest, fallback =>
    if e.getD 0 0 = ptrIP ∨ e.getD 0 0 = 255 then some (e.drop 1)
    else findServiceIP ptrIP rest
      (if fallback.isNone ∧ e.getD 0 0 ≠ 0 then some (e.drop 1) else fallback)

/-- The delivery of one discovered instance: `if (ipAddr &&
this->_serviceFoundCallback) _serviceFoundCallback(typeName,
_resolveServiceProto, ptrNames[i], ipAddr, ptrPorts[i], servTxt[i]);`. -/
def deliverService (typeName : List Nat) (servIPs : List (List Nat)) (st : BonjourClass)
    (p : PtrSlot) : BonjourClass :=
  match p.ptrName with
  | none => st
  | some name =>
    match findServiceIP p.ptrIP servIPs none with
    | none => st
    | some ip =>
      if st._serviceFoundCallback then
        { st with callbacks := st.callbacks ++
            [CallbackEvent.serviceFound typeName st._resolveServiceProto
              (some (name.take (strlen name))) (some ip) p.ptrPort p.servTxt] }
      else st

/-- The name `_resolveNames[1]` after `*p = '.'`, `p` being where the scan
`while (*p && *p != '.') p++;` has stopped: the byte there is set to a dot.
When the scan has stopped at the terminator, the terminator is overwritten
(the model ends the string behind the dot). -/
def restoreDot (name : List Nat) : List Nat :=
  let k := (typeNameOf name).length
  if k < name.length then name.set k DOT else name ++ [DOT]

/-- "deliver the services discovered in this packet": with `_resolveNames[1]`
cut at its first dot for the time of the callbacks (`*p = '\0'`) and given its
dot back behind them (`*p = '.'`). -/
def deliverServices (aw : AnswerState) : BonjourClass :=
  match aw.st._resolveNames1 with
  | none => aw.st
  | some name =>
    let st := aw.ptrs.foldl (deliverService (typeNameOf name) aw.servIPs) aw.st
    { st with _resolveNames1 := some (restoreDot name) }

/-- The answer walk of `_processMDNSQuery` on the datagram `pkt` and the
delivery behind it. -/
def processAnswers (st : BonjourClass) (pkt : List Nat) (junkPorts junkIPs : List Nat)
    (fuel : Nat) : Option BonjourClass :=
  (answerLoop pkt (packetQCnt pkt) (packetACnt pkt) (packetAACnt pkt) (packetAddCnt pkt) fuel 0
    (AnswerState.start st junkPorts junkIPs)).map deliverServices

/-- An inbound datagram as the transport hands it over: `parsePacket()` and
`read()` give its bytes, `remoteIP()` and `remotePort()` its source. -/
structure Inbound where
  data : List Nat
  remoteIP : List Nat
  remotePort : Nat
  deriving DecidableEq, Repr

/-- `BonjourClass::_processMDNSQuery()` with the datagram the transport has
ready (`none`: `parsePacket()` returns 0). `junkPorts` and `junkIPs` are the
contents of the uninitialised arrays `ptrPorts` and `ptrIPs`. The buffer for
the datagram is allocated without a `NULL` test; `read` into `NULL` is a
fault. `none`: the answer walk has not ended within `fuel` passes. -/
def _processMDNSQuery (st : BonjourClass) (inbound : Option Inbound)
    (junkPorts junkIPs : List Nat) (fuel : Nat) : Option (BonjourClass × MDNSError_t) :=
  match inbound with
  | none => some (st, MDNSError_t.MDNSTryLater)
  | some p =>
    if p.data.length = 0 then some (st, MDNSError_t.MDNSTryLater)
    else
      let m := my_malloc st
      if !m.1 then some ({ m.2 with fault := true }, MDNSError_t.MDNSSuccess)
      else if isQuery p.data p.remotePort then
        some (processQuestions m.2 p.data p.remoteIP, MDNSError_t.MDNSSuccess)
      else if isResponse m.2 p.data p.remotePort then
        (processAnswers m.2 p.data junkPorts junkIPs fuel).map
          fun s => (s, MDNSError_t.MDNSSuccess)
      else some (m.2, MDNSError_t.MDNSSuccess)

/-- `BonjourClass::run()`: the clock is read once on entry (`st.now`), then
the inbound datagram, the resolver slots and the re-announcement are served. -/
def run (st : BonjourClass) (inbound : Option Inbound) (junkPorts junkIPs : List Nat)
    (fuel : Nat) : Option BonjourClass :=
  let now := st.now
  (_processMDNSQuery st inbound junkPorts junkIPs fuel).map fun r =>
    runAnnounce (runResolver r.1 now) now

/-- The clock advances: `millis()` returns `t` from now on. -/
def atTime (st : BonjourClass) (t : Nat) : BonjourClass := { st with now := t }

/-- A property of the engine that is kept by every step of a tick: a message
sent, an allocation taken from the plan, a fault mark, a callback recorded and
a resolver slot set or cleared. -/
structure TickInvariant (P : BonjourClass → Prop) : Prop where
  onSend : ∀ st peer xid type rec, P st → P (_sendMDNSMessage st peer xid type rec).1
  onAlloc : ∀ st plan, P st → P { st with mallocPlan := plan }
  onFault : ∀ st, P st → P { st with fault := true }
  onCallback : ∀ st cbs, P st → P { st with callbacks := cbs }
  onName0 : ∀ st n, P st → P { st with _resolveNames0 := n }
  onName1 : ∀ st n, P st → P { st with _resolveNames1 := n }

/-- A property of the engine that is kept by every step of a message that is
not a question: bytes going into the send buffer, a packet begun or ended on
the transport and a fault mark. -/
structure AnswerInvariant (P : BonjourClass → Prop) : Prop where
  onWrite : ∀ st d, P st → P (write st d)
  onBegin : ∀ st ip port, P st → P (beginPacket st ip port)
  onEnd : ∀ st, P st → P (endPacket st)
  onFault : ∀ st, P st → P { st with fault := true }

/-- The eight bytes a question message sends behind QTYPE and QCLASS: what
`_writeDNSName` has left in the scratch buffer at `buf[4..11]` (the header
bytes `_sendMDNSMessage` put there, overwritten by the labels of `name`). -/
def queryScratch (type : MDNSPacketType_t) (name : List Nat) : List Nat :=
  (_writeDNSName { st := BonjourClass.init [] 0, ptr := sizeofDNSHeader,
                   buf := (buildHeader 0 type).bytes } name sizeofDNSHeader 1).buf.drop 4

/-- The datagram of a NameQuery or ServiceQuery message (XID 0) for the name
`name`: header, encoded name, QTYPE, QCLASS IN and the scratch bytes, to the
multicast group. -/
def queryDatagram (type : MDNSPacketType_t) (name : List Nat) : Datagram :=
  { ip := mdnsMulticastIPAddr, port := MDNS_SERVER_PORT,
    data := ((buildHeader 0 type).bytes ++ (emittedName name 1 ++
      ([0x00, if type = MDNSPacketType_t.MDNSPacketTypeServiceQuery then 0x0c else 0x01,
        0x00, 0x01] ++ queryScratch type name))).take sizeofWriteBuffer }

/-- The resend step of the resolver loop of `run()` for slot 0:
`if (now - _resolveLastSendMillis[0] > MDNS_NQUERY_RESEND_TIME)
_sendMDNSMessage(NULL, 0, MDNSPacketTypeNameQuery, 0);`. -/
def resend0 (st : BonjourClass) (now : Nat) : BonjourClass :=
  if (now + 4294967296 - st._resolveLastSendMillis0) % 4294967296 > MDNS_NQUERY_RESEND_TIME
  then (_sendMDNSMessage st none 0 MDNSPacketType_t.MDNSPacketTypeNameQuery 0).1
  else st

/-- The timeout step of the resolver loop of `run()` for slot 0. -/
def expire0 (st : BonjourClass) (now : Nat) : BonjourClass :=
  if st._resolveTimeouts0 > 0 ∧ now > st._resolveTimeouts0 then
    let st := _finishedResolvingName st st._resolveNames0 none
    { st with _resolveNames0 := none }
  else st

/-- The resend step of the resolver loop of `run()` for slot 1. -/
def resend1 (st : BonjourClass) (now : Nat) : BonjourClass :=
  if (now + 4294967296 - st._resolveLastSendMillis1) % 4294967296 > MDNS_SQUERY_RESEND_TIME
  then (_sendMDNSMessage st none 0 MDNSPacketType_t.MDNSPacketTypeServiceQuery 0).1
  else st

/-- The timeout step of the resolver loop of `run()` for slot 1, `name` being
`_resolveNames[1]`. -/
def expire1 (st : BonjourClass) (now : Nat) (name : List Nat) : BonjourClass :=
  if st._resolveTimeouts1 > 0 ∧ now > st._resolveTimeouts1 then
    let st :=
      if st._serviceFoundCallback then
        { st with callbacks := st.callbacks ++
            [CallbackEvent.serviceFound (typeNameOf name) st._resolveServiceProto none none 0
              none] }
      else st
    { st with _resolveNames1 := none }
  else st

/-- A property of the engine that is kept by every step of the answer walk
and the delivery behind it: an allocation taken from the plan, a fault mark,
the name-found callback with the address of an answer for the name of slot 0,
the delivery of a discovered instance under the type name of slot 1, and the
dot given back to the name of slot 1. -/
structure WalkInvariant (P : BonjourClass → Prop) : Prop where
  onAlloc : ∀ st plan, P st → P { st with mallocPlan := plan }
  onFault : ∀ st, P st → P { st with fault := true }
  onFinished : ∀ st n ip, st._resolveNames0 = some n → P st →
    P (_finishedResolvingName st (some n) (some ip))
  onDeliver : ∀ st name ips p, st._resolveNames1 = some name → P st →
    P (deliverService (typeNameOf name) ips st p)
  onRestore : ∀ st name, st._resolveNames1 = some name → P st →
    P { st with _resolveNames1 := some (restoreDot name) }

/-- The invocations of the service-found callback among the callbacks
invoked. -/
def serviceEvents (cbs : List CallbackEvent) : List CallbackEvent :=
  cbs.filter fun e =>
    match e with
    | CallbackEvent.nameFound _ _ => false
    | CallbackEvent.serviceFound _ _ _ _ _ _ => true

/-- The address argument of a callback invocation (`none` for `NULL`). -/
def CallbackEvent.ip : CallbackEvent → Option (List Nat)
  | CallbackEvent.nameFound _ ip => ip
  | CallbackEvent.serviceFound _ _ _ ip _ _ => ip

/-- The type-name and protocol arguments of an invocation of the service-found
callback. -/
def CallbackEvent.typeProto : CallbackEvent → Option (List Nat × MDNSServiceProtocol_t)
  | CallbackEvent.nameFound _ _ => none
  | CallbackEvent.serviceFound t proto _ _ _ _ => some (t, proto)

/-! ## Sample states for the resolver claims -/

/-- The engine named `spark.local` at the clock value 10000 with both user
callbacks installed. -/
def readyState : BonjourClass :=
  { sparkState with _nameFoundCallback := true, _serviceFoundCallback := true, now := 10000 }

/-- The engine after `resolveName("peer", 5000)` at the clock value 10000. -/
def peerResolving : BonjourClass := (resolveName readyState (ascii "peer") 5000).1

/-- The engine after `startDiscoveringService("_http", MDNSServiceTCP, 5000)` at
the clock value 10000. -/
def httpDiscovering : BonjourClass :=
  (startDiscoveringService readyState (ascii "_http")
    MDNSServiceProtocol_t.MDNSServiceTCP 5000).1

/-- The engine `peerResolving` with the name-found callback taken away
(`setNameResolvedCallback(NULL)`), and a service discovery for `_http` under
way whose callback is taken away as well. -/
def noCallbacks : BonjourClass :=
  { peerResolving with
    _resolveNames1 := some (ascii "_http._tcp.local"),
    _nameFoundCallback := false, _serviceFoundCallback := false }

/-- A PTR answer owned by `_http._tcp.local` (literal labels) for the instance
`MyPrinter`, its RDATA being the label and a pointer to the owner name. The
RDATA starts at offset 40 of a datagram that holds the record behind the
header. -/
def ptrRecord : List Nat :=
  wireName (ascii "_http._tcp.local") 1 ++ [0, 0x0c, 0, 1, 0, 0, 0, 120, 0, 12] ++
    ([9] ++ ascii "MyPrinter" ++ [0xc0, 0x0c])

/-- An SRV record owned by the instance of `ptrRecord` (pointer to offset 40):
port 9100, target `printer.local`. -/
def srvRecord : List Nat :=
  [0xc0, 40, 0, 0x21, 0x80, 1, 0, 0, 0, 120, 0, 21, 0, 0, 0, 0, 0x23, 0x8c] ++
    wireName (ascii "printer.local") 1

/-- A TXT record owned by the instance of `ptrRecord`: `path=/lpr`. -/
def txtRecord : List Nat :=
  [0xc0, 40, 0, 0x10, 0x80, 1, 0, 0, 0, 120, 0, 10, 9] ++ ascii "path=/lpr"

/-- An A record owned by the target of `srvRecord` (pointer to offset 70,
where the target stands in `serviceResponse`): 10.0.0.9. -/
def aRecord : List Nat := [0xc0, 70, 0, 1, 0x80, 1, 0, 0, 0, 120, 0, 4, 10, 0, 0, 9]

/-- A response datagram with the PTR answer and, as additional records, the
SRV, TXT and A records. -/
def serviceResponse : List Nat :=
  [0, 0, 0x84, 0, 0, 0, 0, 1, 0, 0, 0, 3] ++ ptrRecord ++ srvRecord ++ txtRecord ++ aRecord

/-- The engine after `startDiscoveringService("_http._tcp", MDNSServiceTCP,
5000)` at the clock value 10000. -/
def dottedDiscovering : BonjourClass :=
  (startDiscoveringService readyState (ascii "_http._tcp")
    MDNSServiceProtocol_t.MDNSServiceTCP 5000).1

/-- A response datagram with a PTR answer owned by `_http._tcp._tcp.local` for
the instance `MyPrinter` (RDATA at offset 45) and, as additional records, the
SRV record of the instance (target `printer.local` at offset 75) and the A
record of the target, 10.0.0.9. -/
def dottedResponse : List Nat :=
  [0, 0, 0x84, 0, 0, 0, 0, 1, 0, 0, 0, 2] ++
    (wireName (ascii "_http._tcp._tcp.local") 1 ++ [0, 0x0c, 0, 1, 0, 0, 0, 120, 0, 12] ++
      ([9] ++ ascii "MyPrinter" ++ [0xc0, 0x0c])) ++
    ([0xc0, 45, 0, 0x21, 0x80, 1, 0, 0, 0, 120, 0, 21, 0, 0, 0, 0, 0x23, 0x8c] ++
      wireName (ascii "printer.local") 1) ++
    [0xc0, 75, 0, 1, 0x80, 1, 0, 0, 0, 120, 0, 4, 10, 0, 0, 9]

/-! ## The send buffer: sequences of calls -/

/-- The value `write(buffer, len)` returns: `if (len > empty) len = empty; ...
return len;`. -/
def writeReturn (st : BonjourClass) (data : List Nat) : Nat :=
  let empty := sizeofWriteBuffer - st._writeBuffer.length
  if data.length > empty then empty else data.length

/-- A call of one of the three send-buffer methods. -/
inductive BufferCall where
  | beginPacket (ip : List Nat) (port : Nat)
  | write (data : List Nat)
  | endPacket
  deriving DecidableEq, Repr

/-- The engine after one call. -/
def BufferCall.apply : BufferCall → BonjourClass → BonjourClass
  | .beginPacket ip port, st => Bonjour.beginPacket st ip port
  | .write data, st => Bonjour.write st data
  | .endPacket, st => Bonjour.endPacket st

/-- The engine after a sequence of calls. -/
def applyCalls : List BufferCall → BonjourClass → BonjourClass
  | [], st => st
  | c :: cs, st => applyCalls cs (c.apply st)

/-! ## The bytes of the datagram buffer the query path reads -/

/-- The offsets `memcpy(buf, ptr + offset, n)` reads in the datagram buffer. -/
def readOffsets (offset n : Nat) : List Nat := List.range' offset n

/-- The offsets the chunk loop of the question walk reads: `ir` bytes a pass. -/
def chunkLoopReads : Nat → Nat → Nat → List Nat
  | 0, _, _ => []
  | fuel + 1, tr, offset =>
    if tr > 0 then
      let ir := if tr > sizeofDNSHeader then sizeofDNSHeader else tr
      readOffsets offset ir ++ chunkLoopReads fuel (tr - ir) (offset + ir)
    else []

/-- The offsets the label loop of the question walk reads: the length byte
of every pass, then the second byte of a pointer or the chunks of the label.
The loop goes on where `chunkLoop` has stopped. -/
def labelLoopReads (pkt : List Nat) : Nat → Nat → List Nat
  | 0, _ => []
  | fuel + 1, offset =>
    let rLen := pkt.getD offset 0
    if rLen > 128 then [offset, offset + 1]
    else if rLen > 0 then
      offset :: (chunkLoopReads rLen rLen (offset + 1) ++
        labelLoopReads pkt fuel (chunkLoop pkt [] rLen rLen (offset + 1) []).1)
    else [offset]

/-- The offsets one pass of the question loop reads: the name and the four
bytes of QTYPE and QCLASS behind it. -/
def questionStepReads (st : BonjourClass) (pkt : List Nat) (ws : WalkState) : List Nat :=
  labelLoopReads pkt (pkt.length + 1) ws.offset ++
    readOffsets
      (labelLoop pkt ws.recordsAskedFor (pkt.length + 1) ws.offset 0 (initCandidates st)).1 4

/-- The offsets the question walk reads over `n` questions. -/
def questionWalkReads (st : BonjourClass) (pkt : List Nat) : Nat → WalkState → List Nat
  | 0, _ => []
  | n + 1, ws => questionStepReads st pkt ws ++ questionWalkReads st pkt n (questionStep st pkt ws)

/-- The offsets of the datagram buffer (`udp_len` bytes, the length of `pkt`)
that `_processMDNSQuery` reads on the query path: the header,
`memcpy(buf, ptr, sizeof(DNSHeader_t))`, and the question walk. -/
def queryReads (st : BonjourClass) (pkt : List Nat) : List Nat :=
  readOffsets 0 sizeofDNSHeader ++ questionWalkReads st pkt (packetQCnt pkt) WalkState.start

/-! ## Start of the responder -/

/-- `BonjourClass::begin(bonjourName)`. The loop `while (millis() < 5000 &&
!WiFi.ready()) SPARK_WLAN_Loop();` in front only waits; `udpBegin` is what
`UDP::begin(MDNS_SERVER_PORT)` of the transport returns. -/
def begin (st : BonjourClass) (bonjourName : Option (List Nat)) (udpBegin : Nat) :
    BonjourClass × Nat :=
  let r := setBonjourName st bonjourName
  if r.2 ≠ 0 then (r.1, udpBegin) else (r.1, r.2)

/-- `BonjourClass::begin()`: `return begin(MDNS_DEFAULT_NAME);`. -/
def beginDefault (st : BonjourClass) (udpBegin : Nat) : BonjourClass × Nat :=
  begin st (some MDNS_DEFAULT_NAME) udpBegin

/-! ## The labels the encoder writes -/

/-- An inbound query with one question: the name `sp.ark.local` in literal
labels, QTYPE A, QCLASS IN. -/
def splitQuery : List Nat :=
  [0x12, 0x34, 0, 0, 0, 1, 0, 0, 0, 0, 0, 0] ++ wireName (ascii "sp.ark.local") 1 ++ [0, 1, 0, 1]

/-- The engine with the host identity `abcdefghijkl.mnop.local`. -/
def dottedHostState : BonjourClass :=
  { sparkState with _bonjourName := some (ascii "abcdefghijkl.mnop.local") }

/-- An inbound query with one question: the name `abcdefghijklmnop.local`,
whose first label has 16 bytes, QTYPE A, QCLASS IN. -/
def longLabelQuery : List Nat :=
  [0x12, 0x34, 0, 0, 0, 1, 0, 0, 0, 0, 0, 0] ++ wireName (ascii "abcdefghijklmnop.local") 1 ++
    [0, 1, 0, 1]

/-- The inbound query `scenario1Query` cut behind the question name: the four
bytes of QTYPE and QCLASS are missing. -/
def truncatedQuery : List Nat := scenario1Query.take 25

/-- A response datagram with one answer: an A record whose owner name starts
with the byte `0x81`, address 10.0.0.99. -/
def reservedLabelResponse : List Nat :=
  [0, 0, 0x84, 0, 0, 0, 0, 1, 0, 0, 0, 0] ++
    [0x81, 0x0c, 0, 1, 0x80, 1, 0, 0, 0, 120, 0, 4, 10, 0, 0, 99]

/-- The engine `readyState` at the clock value `2^32 - 5000`. -/
def lateState : BonjourClass := { readyState with now := 4294962296 }

/-- The engine `readyState` at the clock value `2^32 - 1000`. -/
def laterState : BonjourClass := { readyState with now := 4294966296 }

/-! ## The records of a response datagram -/

theorem take_sub_take (r : Nat) (S d : List Nat) :
    S.take r ++ d.take (r - (S.take r).length) = (S ++ d).take r := by
  rw [List.take_append_eq_append_take]
  by_cases h : r ≤ S.length
  · simp [List.length_take, Nat.min_eq_left h, Nat.sub_eq_zero_of_le h]
  · have h' : S.length ≤ r := by omega
    simp [List.length_take, Nat.min_eq_right h']

/-- Two `write`s in a row are one `write` of the concatenation. -/
theorem write_write (st : BonjourClass) (S d : List Nat) :
    write (write st S) d = write st (S ++ d) := by
  simp only [write, List.length_append, List.append_assoc]
  congr 2
  rw [← take_sub_take]
  congr 2
  omega

theorem write_nil (st : BonjourClass) : write st [] = st := by
  simp [write]

theorem emit_write (w : Writer) (base : BonjourClass) (S : List Nat) (n : Nat)
    (h : w.st = write base S) :
    (w.emit n).st = write base (S ++ w.buf.take n) ∧ (w.emit n).buf = w.buf := by
  simp only [Writer.emit, h, write_write, and_self]

theorem take_set_self (l : List Nat) (i b : Nat) : (l.set i b).take i = l.take i := by
  induction l generalizing i with
  | nil => simp
  | cons a l ih =>
    cases i with
    | zero => simp
    | succ i => simp [List.set, ih]

theorem take_succ_set (l : List Nat) (i b : Nat) (h : i < l.length) :
    (l.set i b).take (i + 1) = l.take i ++ [b] := by
  rw [List.take_succ, take_set_self]
  simp [List.getElem?_set, h]

theorem scanLabel_label (l rest : List Nat) (c : Nat) (hl : LabelBytes l)
    (hr : cHead rest = 0 ∨ cHead rest = DOT) :
    scanLabel (l ++ rest) c = c + l.length := by
  induction l generalizing c with
  | nil =>
    cases rest with
    | nil => simp [scanLabel]
    | cons b r =>
      simp only [cHead, List.headD_cons] at hr
      simp only [List.nil_append, scanLabel, List.length_nil, Nat.add_zero]
      rcases hr with h | h <;> simp [h]
  | cons b l ih =>
    have hb := hl b (List.mem_cons_self _ _)
    have hl' : LabelBytes l := fun x hx => hl x (List.mem_cons_of_mem _ hx)
    rw [List.cons_append, scanLabel]
    simp only [hb.1, hb.2, ne_eq, not_false_eq_true, and_self, if_true, List.length_cons]
    rw [ih _ hl']; omega

theorem copyLabel_spec (bufSize : Nat) (l rest : List Nat) (p3 len : Nat) (w : Writer)
    (base : BonjourClass) (S : List Nat)
    (hp : p3 + len = bufSize) (hlen : 1 ≤ len) (hbuf : w.buf.length = bufSize)
    (hst : w.st = write base S) :
    (copyLabel bufSize l.length (l ++ rest) p3 len w).1 = rest ∧
    1 ≤ (copyLabel bufSize l.length (l ++ rest) p3 len w).2.1 ∧
    (copyLabel bufSize l.length (l ++ rest) p3 len w).2.1 ≤ bufSize ∧
    (copyLabel bufSize l.length (l ++ rest) p3 len w).2.2.buf.length = bufSize ∧
    ∃ F, (copyLabel bufSize l.length (l ++ rest) p3 len w).2.2.st = write base (S ++ F) ∧
      F ++ (copyLabel bufSize l.length (l ++ rest) p3 len w).2.2.buf.take
        (bufSize - (copyLabel bufSize l.length (l ++ rest) p3 len w).2.1) = w.buf.take p3 ++ l := by
  induction l generalizing p3 len w S with
  | nil =>
    simp only [List.length_nil, copyLabel, List.nil_append, List.append_nil, true_and, hlen, hbuf]
    refine ⟨by omega, [], by simpa using hst, ?_⟩
    have : bufSize - len = p3 := by omega
    simp [this]
  | cons b l ih =>
    have hp3 : p3 < w.buf.length := by omega
    have htake : (w.buf.set p3 b).take (p3 + 1) = w.buf.take p3 ++ [b] := by
      exact take_succ_set _ _ _ hp3
    simp only [List.length_cons, copyLabel, List.cons_append, cHead, List.headD_cons, List.tail_cons]
    by_cases hflush : len - 1 ≤ 0
    · have hl1 : len = 1 := by omega
      have hfull : p3 + 1 = bufSize := by omega
      simp only [hflush, if_true]
      set w1 : Writer := { w with buf := w.buf.set p3 b } with hw1
      have hb1 : w1.buf.length = bufSize := by simp [hw1, hbuf]
      have he := emit_write w1 base S bufSize (by simpa [hw1] using hst)
      have hb2 : (w1.emit bufSize).buf.length = bufSize := by rw [he.2]; exact hb1
      have := ih 0 bufSize (w1.emit bufSize) (S ++ w1.buf.take bufSize) (by omega) (by omega) hb2 he.1
      obtain ⟨h1, h2, h3, h4, F, h5, h6⟩ := this
      refine ⟨h1, h2, h3, h4, w1.buf.take bufSize ++ F, ?_, ?_⟩
      · rw [h5, List.append_assoc]
      · rw [List.append_assoc, h6]
        simp only [List.take_zero, List.nil_append]
        rw [← hfull, htake]; simp
    · simp only [hflush, if_false]
      set w1 : Writer := { w with buf := w.buf.set p3 b } with hw1
      have hb1 : w1.buf.length = bufSize := by simp [hw1, hbuf]
      have := ih (p3 + 1) (len - 1) w1 S (by omega) (by omega) hb1 (by simpa [hw1] using hst)
      obtain ⟨h1, h2, h3, h4, F, h5, h6⟩ := this
      refine ⟨h1, h2, h3, h4, F, h5, ?_⟩
      rw [h6, htake]; simp


theorem joinLabels_cons (l : List Nat) (ls : List (List Nat)) :
    joinLabels (l :: ls) = l ++ afterLabel ls := by
  cases ls <;> simp [joinLabels, afterLabel]

theorem cHead_afterLabel (ls : List (List Nat)) :
    cHead (afterLabel ls) = 0 ∨ cHead (afterLabel ls) = DOT := by
  cases ls <;> simp [afterLabel, cHead]

theorem cHead_joinLabels (l : List Nat) (ls : List (List Nat)) (hl : l ≠ []) :
    cHead (joinLabels (l :: ls)) = cHead l := by
  rw [joinLabels_cons]
  cases l with
  | nil => exact absurd rfl hl
  | cons b l => simp [cHead]

theorem skipDots_afterLabel (ls : List (List Nat)) (h : GoodLabels ls) :
    skipDots (afterLabel ls) = joinLabels ls := by
  cases ls with
  | nil => simp [afterLabel, skipDots, joinLabels]
  | cons l ls =>
    have hl := h l (List.mem_cons_self _ _)
    simp only [afterLabel, skipDots, if_true]
    cases l with
    | nil => exact absurd rfl hl.1
    | cons b l =>
      have hb := hl.2 b (List.mem_cons_self _ _)
      rw [joinLabels_cons]
      simp [skipDots, hb.2]

theorem writeLabels_spec (bufSize : Nat) (h2 : 2 ≤ bufSize) (base : BonjourClass)
    (ls : List (List Nat)) (hls : GoodLabels ls) :
    ∀ (fuel : Nat) (w : Writer) (S : List Nat), ls.length ≤ fuel → w.buf.length = bufSize →
      w.st = write base S →
      (writeLabels bufSize fuel (joinLabels ls) w).st = write base (S ++ emittedLabels ls) ∧
      (writeLabels bufSize fuel (joinLabels ls) w).buf.length = bufSize := by
  induction ls with
  | nil =>
    intro fuel w S hf hb hst
    cases fuel with
    | zero => simp [writeLabels, emittedLabels, hst, hb]
    | succ fuel => simp [writeLabels, joinLabels, cHead, emittedLabels, hst, hb]
  | cons l ls ih =>
    intro fuel w S hf hb hst
    have hl := hls l (List.mem_cons_self _ _)
    have hls' : GoodLabels ls := fun x hx => hls x (List.mem_cons_of_mem _ hx)
    cases fuel with
    | zero => simp at hf
    | succ fuel =>
      have hhead : cHead (joinLabels (l :: ls)) ≠ 0 := by
        rw [cHead_joinLabels l ls hl.1]
        cases l with
        | nil => exact absurd rfl hl.1
        | cons b l => exact (hl.2 b (List.mem_cons_self _ _)).1
      rw [writeLabels]
      simp only [hhead, if_false]
      rw [joinLabels_cons, scanLabel_label l _ 1 hl.2 (cHead_afterLabel ls)]
      have hi : 1 + l.length - 1 = l.length := by omega
      simp only [hi]
      set w1 : Writer := { w with buf := w.buf.set 0 (l.length % 256) } with hw1
      have hb1 : w1.buf.length = bufSize := by simp [hw1, hb]
      obtain ⟨h1, h2', h3, h4, F, h5, h6⟩ :=
        copyLabel_spec bufSize l (afterLabel ls) 1 (bufSize - 1) w1 base S (by omega) (by omega)
          hb1 (by simpa [hw1] using hst)
      have htk : w1.buf.take 1 = [l.length % 256] := by
        have := take_succ_set w.buf 0 (l.length % 256) (by omega)
        simpa [hw1] using this
      rw [htk] at h6
      rw [h1, skipDots_afterLabel ls hls']
      set r := copyLabel bufSize l.length (l ++ afterLabel ls) 1 (bufSize - 1) w1 with hr
      have key : ∀ w' : Writer, w'.buf.length = bufSize →
          w'.st = write base (S ++ ((l.length % 256) :: l)) →
          (writeLabels bufSize fuel (joinLabels ls) w').st
            = write base (S ++ emittedLabels (l :: ls)) ∧
          (writeLabels bufSize fuel (joinLabels ls) w').buf.length = bufSize := by
        intro w' hb' hst'
        have := ih hls' fuel w' (S ++ ((l.length % 256) :: l)) (by simp at hf; omega) hb' hst'
        simpa [emittedLabels, List.append_assoc] using this
      by_cases hne : r.2.1 ≠ bufSize
      · simp only [hne, ne_eq, not_false_eq_true, if_true]
        have he := emit_write r.2.2 base (S ++ F) (bufSize - r.2.1) h5
        apply key
        · rw [he.2]; exact h4
        · rw [he.1, List.append_assoc, h6]; simp
      · simp only [hne, if_false]
        have heq : r.2.1 = bufSize := by simpa using hne
        rw [heq] at h6
        simp only [Nat.sub_self, List.take_zero, List.append_nil] at h6
        apply key _ h4
        rw [h5, h6]; simp

/-! ### From names to labels -/

theorem splitLabels_ne_nil (n : List Nat) : splitLabels n ≠ [] := by
  cases n with
  | nil => simp [splitLabels]
  | cons b rest =>
    simp only [splitLabels]
    split
    · simp
    · split <;> simp

theorem joinLabels_splitLabels (n : List Nat) : joinLabels (splitLabels n) = n := by
  induction n with
  | nil => simp [splitLabels, joinLabels]
  | cons b rest ih =>
    simp only [splitLabels]
    split
    · next h =>
      rw [joinLabels_cons]
      have := splitLabels_ne_nil rest
      cases hs : splitLabels rest with
      | nil => exact absurd hs this
      | cons l ls => rw [hs] at ih; simp [afterLabel, ih, h]
    · cases hs : splitLabels rest with
      | nil => exact absurd hs (splitLabels_ne_nil rest)
      | cons l ls =>
        rw [hs] at ih
        simp only
        rw [joinLabels_cons] at ih ⊢
        simp [ih]

theorem splitLabels_bytes (n : List Nat) :
    ∀ l ∈ splitLabels n, ∀ b ∈ l, b ∈ n ∧ b ≠ DOT := by
  induction n with
  | nil => simp [splitLabels]
  | cons a rest ih =>
    simp only [splitLabels]
    split
    · intro l hl b hb
      simp only [List.mem_cons] at hl
      rcases hl with rfl | hl
      · simp at hb
      · exact ⟨List.mem_cons_of_mem _ (ih l hl b hb).1, (ih l hl b hb).2⟩
    · next hne =>
      cases hs : splitLabels rest with
      | nil => exact absurd hs (splitLabels_ne_nil rest)
      | cons l0 ls =>
        rw [hs] at ih
        intro l hl b hb
        simp only [List.mem_cons] at hl
        rcases hl with rfl | hl
        · simp only [List.mem_cons] at hb
          rcases hb with rfl | hb
          · exact ⟨List.mem_cons_self _ _, hne⟩
          · have := ih l0 (List.mem_cons_self _ _) b hb
            exact ⟨List.mem_cons_of_mem _ this.1, this.2⟩
        · have := ih l (List.mem_cons_of_mem _ hl) b hb
          exact ⟨List.mem_cons_of_mem _ this.1, this.2⟩

theorem splitLabels_length_le (n : List Nat) : (splitLabels n).length ≤ n.length + 1 := by
  induction n with
  | nil => simp [splitLabels]
  | cons b rest ih =>
    simp only [splitLabels]
    split
    · simp only [List.length_cons]; omega
    · cases hs : splitLabels rest with
      | nil => simp
      | cons l ls => rw [hs] at ih; simp only [List.length_cons] at ih ⊢; omega

theorem goodLabels_of_nonEmpty (n : List Nat) (h : NonEmptyLabels n) :
    GoodLabels (splitLabels n) := by
  intro l hl
  refine ⟨h.2 l hl, fun b hb => ?_⟩
  have := splitLabels_bytes n l hl b hb
  exact ⟨h.1 b this.1, this.2⟩

theorem nonEmpty_of_wellFormed {m : Nat} {n : List Nat} (h : WellFormedName m n) :
    NonEmptyLabels n :=
  ⟨h.1, fun l hl => (h.2 l hl).1⟩

theorem emittedLabels_eq_wireLabels (ls : List (List Nat)) (h : ∀ l ∈ ls, l.length < 256) :
    emittedLabels ls = wireLabels ls := by
  induction ls with
  | nil => rfl
  | cons l ls ih =>
    have hl := h l (List.mem_cons_self _ _)
    simp only [emittedLabels, wireLabels, Nat.mod_eq_of_lt hl,
      ih (fun x hx => h x (List.mem_cons_of_mem _ hx))]

/-- Below 256 bytes a label, what the encoder puts out is the specification's
wire form. -/
theorem emittedName_eq_wireName (m : Nat) (hm : m < 256) (name : List Nat) (zeroTerminate : Nat)
    (h : WellFormedName m name) : emittedName name zeroTerminate = wireName name zeroTerminate := by
  unfold emittedName wireName
  rw [emittedLabels_eq_wireLabels _ (fun l hl => by have := (h.2 l hl).2; omega)]

/-- The encoder on a name of non-empty labels pushes exactly `emittedName`
through `write`. -/
theorem writeDNSName_write (w : Writer) (base : BonjourClass) (S : List Nat) (name : List Nat)
    (zeroTerminate : Nat) (hwf : NonEmptyLabels name)
    (hbuf : w.buf.length = sizeofDNSHeader) (hst : w.st = write base S) :
    (_writeDNSName w name sizeofDNSHeader zeroTerminate).st
      = write base (S ++ emittedName name zeroTerminate) ∧
    (_writeDNSName w name sizeofDNSHeader zeroTerminate).buf.length = sizeofDNSHeader := by
  have hgood := goodLabels_of_nonEmpty name hwf
  have hfuel := splitLabels_length_le name
  have := writeLabels_spec sizeofDNSHeader (by decide) base (splitLabels name) hgood
    (name.length + 1) w S hfuel hbuf hst
  rw [joinLabels_splitLabels] at this
  unfold _writeDNSName emittedName
  by_cases hz : zeroTerminate ≠ 0
  · simp only [hz, ne_eq, not_false_eq_true, if_true]
    set w' := writeLabels sizeofDNSHeader (name.length + 1) name w with hw'
    have he := emit_write { w' with buf := w'.buf.set 0 0 } base _ 1 this.1
    constructor
    · rw [he.1]
      have : (w'.buf.set 0 0).take 1 = [0] := by
        have := take_succ_set w'.buf 0 0 (by rw [this.2]; decide)
        simpa using this
      simp [this]
    · rw [he.2]; simpa using this.2
  · simp only [hz, if_false, List.append_nil]
    exact this


/-! ## The record writers as streams of bytes -/

@[simp] theorem write_bonjourName (st : BonjourClass) (d : List Nat) :
    (write st d)._bonjourName = st._bonjourName := rfl

@[simp] theorem write_serviceRecords (st : BonjourClass) (d : List Nat) :
    (write st d)._serviceRecords = st._serviceRecords := rfl

@[simp] theorem write_localIP (st : BonjourClass) (d : List Nat) :
    (write st d).localIP = st.localIP := rfl

@[simp] theorem write_resolveNames0 (st : BonjourClass) (d : List Nat) :
    (write st d)._resolveNames0 = st._resolveNames0 := rfl

@[simp] theorem write_resolveNames1 (st : BonjourClass) (d : List Nat) :
    (write st d)._resolveNames1 = st._resolveNames1 := rfl

@[simp] theorem write_recordAt (st : BonjourClass) (d : List Nat) (i : Nat) :
    recordAt (write st d) i = recordAt st i := rfl

theorem wrote_refl (w : Writer) (h : w.buf.length = sizeofDNSHeader) : Wrote w w [] :=
  ⟨(write_nil _).symm, h⟩

theorem wrote_trans {w1 w2 w3 : Writer} {S T : List Nat} (h1 : Wrote w1 w2 S)
    (h2 : Wrote w2 w3 T) : Wrote w1 w3 (S ++ T) := by
  refine ⟨?_, h2.2⟩
  rw [h2.1, h1.1, write_write]

theorem poke_length (buf : List Nat) (i : Nat) (bytes : List Nat) :
    (poke buf i bytes).length = buf.length := by
  induction bytes generalizing buf i with
  | nil => rfl
  | cons b rest ih => simp [poke, ih]

theorem poke_append (buf : List Nat) (i : Nat) (A B : List Nat) :
    poke (poke buf i A) (i + A.length) B = poke buf i (A ++ B) := by
  induction A generalizing buf i with
  | nil => simp [poke]
  | cons a A ih =>
    rw [List.cons_append, poke, poke, List.length_cons, ← ih]
    congr 1; omega

theorem poke_take (buf : List Nat) (i : Nat) (bytes : List Nat)
    (h : i + bytes.length ≤ buf.length) :
    (poke buf i bytes).take (i + bytes.length) = buf.take i ++ bytes := by
  induction bytes generalizing buf i with
  | nil => simp [poke]
  | cons b rest ih =>
    simp only [poke, List.length_cons] at h ⊢
    have := ih (buf.set i b) (i + 1) (by simp; omega)
    rw [show i + (rest.length + 1) = i + 1 + rest.length by omega, this,
      take_succ_set buf i b (by omega)]
    simp

theorem store_store (w : Writer) (i : Nat) (A B : List Nat) :
    (w.store i A).store (i + A.length) B = w.store i (A ++ B) := by
  simp [Writer.store, poke_append]

theorem wrote_store_emit (w : Writer) (bytes : List Nat) (n : Nat)
    (hb : w.buf.length = sizeofDNSHeader) (hn : bytes.length = n) (hle : n ≤ sizeofDNSHeader) :
    Wrote w ((w.store 0 bytes).emit n) bytes := by
  subst hn
  constructor
  · have := poke_take w.buf 0 bytes (by simpa [hb] using hle)
    simp only [Nat.zero_add, List.take_zero, List.nil_append] at this
    simp [Writer.emit, Writer.store, this]
  · simp [Writer.emit, Writer.store, poke_length, hb]

theorem wrote_writeDNSName (w : Writer) (name : List Nat) (zeroTerminate : Nat)
    (hwf : NonEmptyLabels name) (hb : w.buf.length = sizeofDNSHeader) :
    Wrote w (_writeDNSName w name sizeofDNSHeader zeroTerminate)
      (emittedName name zeroTerminate) := by
  have := writeDNSName_write w w.st [] name zeroTerminate hwf hb (write_nil _).symm
  simpa [Wrote] using this

theorem wrote_writeMyIPAnswerRecord (w : Writer) (host : List Nat)
    (hwf : NonEmptyLabels host) (hb : w.buf.length = sizeofDNSHeader)
    (hhost : w.st._bonjourName = some host) :
    Wrote w (_writeMyIPAnswerRecord w sizeofDNSHeader) (ipAnswerBytes host w.st.localIP) := by
  unfold _writeMyIPAnswerRecord
  simp only [hhost]
  have h1 := wrote_writeDNSName w host 1 hwf hb
  set w1 := _writeDNSName w host sizeofDNSHeader 1 with hw1
  have h2 := wrote_store_emit w1 [0x00, 0x01, 0x80, 0x01] 4 h1.2 rfl (by decide)
  set w2 := (w1.store 0 [0x00, 0x01, 0x80, 0x01]).emit 4 with hw2
  have hip : w2.st.localIP = w.st.localIP := by rw [h2.1, h1.1]; rfl
  have e1 : (w2.store 0 (be32 MDNS_RESPONSE_TTL)).store 4 (be16 4)
      = w2.store 0 (be32 MDNS_RESPONSE_TTL ++ be16 4) := store_store w2 0 _ _
  have hloc : ∀ x : Writer, (x.store 4 (be16 4)).st.localIP = x.st.localIP := fun _ => rfl
  have hloc2 : ∀ x : Writer, (x.store 0 (be32 MDNS_RESPONSE_TTL)).st.localIP = x.st.localIP :=
    fun _ => rfl
  simp only [hloc, hloc2, hip]
  rw [e1]
  have e2 := store_store w2 0 (be32 MDNS_RESPONSE_TTL ++ be16 4)
    [w.st.localIP.getD 0 0, w.st.localIP.getD 1 0, w.st.localIP.getD 2 0, w.st.localIP.getD 3 0]
  simp only [Nat.zero_add] at e2
  have e3 : (be32 MDNS_RESPONSE_TTL ++ be16 4).length = 6 := rfl
  rw [e3] at e2
  rw [e2]
  have h3 := wrote_store_emit w2 (be32 MDNS_RESPONSE_TTL ++ be16 4 ++
    [w.st.localIP.getD 0 0, w.st.localIP.getD 1 0, w.st.localIP.getD 2 0, w.st.localIP.getD 3 0])
    10 h2.2 rfl (by decide)
  have := wrote_trans (wrote_trans h1 h2) h3
  simpa [ipAnswerBytes, List.append_assoc] using this


/-! ## `_sendMDNSMessage` -/

theorem beginPacket_sent (st : BonjourClass) (ip : List Nat) (port : Nat) :
    (beginPacket st ip port).sent = st.sent ++ pendingFlush st := by
  unfold beginPacket pendingFlush
  by_cases h : st._writeBuffer.length > 0
  · simp [h, endPacket, udpWrite]
  · simp [h]

theorem beginPacket_buffer (st : BonjourClass) (ip : List Nat) (port : Nat) :
    (beginPacket st ip port)._writeBuffer = [] := rfl

theorem beginPacket_dest (st : BonjourClass) (ip : List Nat) (port : Nat) :
    (beginPacket st ip port).udpDest = (ip, port) := rfl

theorem beginPacket_bonjourName (st : BonjourClass) (ip : List Nat) (port : Nat) :
    (beginPacket st ip port)._bonjourName = st._bonjourName := by
  unfold beginPacket; split <;> rfl

theorem beginPacket_localIP (st : BonjourClass) (ip : List Nat) (port : Nat) :
    (beginPacket st ip port).localIP = st.localIP := by
  unfold beginPacket; split <;> rfl

theorem beginPacket_serviceRecords (st : BonjourClass) (ip : List Nat) (port : Nat) :
    (beginPacket st ip port)._serviceRecords = st._serviceRecords := by
  unfold beginPacket; split <;> rfl

theorem beginPacket_resolveNames0 (st : BonjourClass) (ip : List Nat) (port : Nat) :
    (beginPacket st ip port)._resolveNames0 = st._resolveNames0 := by
  unfold beginPacket; split <;> rfl

theorem beginPacket_resolveNames1 (st : BonjourClass) (ip : List Nat) (port : Nat) :
    (beginPacket st ip port)._resolveNames1 = st._resolveNames1 := by
  unfold beginPacket; split <;> rfl

theorem headerBytes_length (h : DNSHeader_t) : h.bytes.length = sizeofDNSHeader := rfl

theorem sendMDNSMessage_eq (st : BonjourClass) (peer : Option (List Nat)) (xid : Nat)
    (type : MDNSPacketType_t) (rec : Nat) :
    _sendMDNSMessage st peer xid type rec
      = (endPacket (messageBody (bodyWriter st xid type) type rec).st, MDNSError_t.MDNSSuccess) :=
  rfl

/-- The datagram `_sendMDNSMessage` sends when its body is a stream of bytes
`B`: the header followed by `B`, cut at the size of the send buffer, to the
multicast group. -/
theorem sendMDNSMessage_sent_of_wrote (st : BonjourClass) (peer : Option (List Nat)) (xid : Nat)
    (type : MDNSPacketType_t) (rec : Nat) (B : List Nat)
    (h : Wrote (bodyWriter st xid type) (messageBody (bodyWriter st xid type) type rec) B) :
    (_sendMDNSMessage st peer xid type rec).1.sent
      = st.sent ++ pendingFlush st ++
        [{ ip := mdnsMulticastIPAddr, port := MDNS_SERVER_PORT,
           data := ((buildHeader xid type).bytes ++ B).take sizeofWriteBuffer }] := by
  rw [sendMDNSMessage_eq]
  simp only [endPacket, udpWrite]
  rw [h.1]
  simp only [bodyWriter, write_write]
  simp [write, beginPacket_sent, beginPacket_buffer, beginPacket_dest]

/-! ### Names of the form `label.local` -/

theorem splitLabels_label_dot (l rest : List Nat) (hl : ∀ b ∈ l, b ≠ DOT) :
    splitLabels (l ++ DOT :: rest) = l :: splitLabels rest := by
  induction l with
  | nil => simp [splitLabels]
  | cons b l ih =>
    have hb := hl b (List.mem_cons_self _ _)
    have := ih (fun x hx => hl x (List.mem_cons_of_mem _ hx))
    simp [splitLabels, hb, this]

theorem splitLabels_host (h : List Nat) (hl : ∀ b ∈ h, b ≠ DOT) :
    splitLabels (h ++ MDNS_TLD) = [h, ascii "local"] := by
  have : MDNS_TLD = DOT :: ascii "local" := by decide
  rw [this, splitLabels_label_dot h _ hl]
  have : splitLabels (ascii "local") = [ascii "local"] := by decide
  rw [this]

theorem wellFormed_host (h : List Nat) (hh : HostLabel h) : WellFormedName 63 (h ++ MDNS_TLD) := by
  obtain ⟨hne, hlen, hb⟩ := hh
  constructor
  · intro b hbm
    rcases List.mem_append.1 hbm with h1 | h1
    · exact (hb b h1).1
    · intro h0; subst h0; revert h1; decide
  · rw [splitLabels_host h (fun b hbm => (hb b hbm).2)]
    intro l hl
    simp only [List.mem_cons, List.mem_singleton, List.not_mem_nil, or_false] at hl
    rcases hl with rfl | rfl
    · exact ⟨hne, hlen⟩
    · decide

theorem wireName_host (h : List Nat) (hh : HostLabel h) :
    wireName (h ++ MDNS_TLD) 1 = (h.length :: h) ++ [5, 108, 111, 99, 97, 108, 0] := by
  unfold wireName
  rw [splitLabels_host h (fun b hbm => (hh.2.2 b hbm).2)]
  simp [wireLabels]
  decide


/-! ## Name codec: the claims -/

theorem memEq_iff (p buf : List Nat) (n : Nat) :
    memEq p buf n = true ↔ ∀ k < n, p.getD k 0 = buf.getD k 0 := by
  simp [memEq, List.all_eq_true]

theorem getD_eq_iff_take (p buf : List Nat) (n : Nat) (hp : n ≤ p.length) (hb : buf.length = n) :
    (∀ k < n, p.getD k 0 = buf.getD k 0) ↔ p.take n = buf := by
  constructor
  · intro h
    apply List.ext_getElem
    · simp [hb, hp]
    · intro k h1 h2
      have hk : k < n := by simpa [hb] using h2
      have e1 : p.getD k 0 = p[k] := List.getD_eq_getElem _ _ (by omega)
      have e2 : buf.getD k 0 = buf[k] := List.getD_eq_getElem _ _ h2
      rw [List.getElem_take, ← e1, ← e2]
      exact h k hk
  · intro h k hk
    subst h
    have hk' : k < p.length := by omega
    have e1 : p.getD k 0 = p[k] := List.getD_eq_getElem _ _ hk'
    have e2 : (p.take n).getD k 0 = (p.take n)[k] :=
      List.getD_eq_getElem _ _ (by simp; omega)
    rw [e1, e2, List.getElem_take]

theorem matchStringPart_fst (c : List Nat) (r : Int) (b : List Nat) (n : Nat) :
    (_matchStringPart c r b n).1
      = if r ≥ (n : Int) then (if memEq c b n = true then 1 else 0) else 0 := by
  unfold _matchStringPart
  by_cases hd : cHead (List.drop n c) = DOT <;> simp [hd]

/-- C1 (amended): for every name made of non-empty dot-separated labels of at
most 63 bytes each, `_writeDNSName(name, zeroTerminate)` has on the engine
exactly the effect of one `write` of the concatenation, in order, of (one
length byte equal to the label's byte count, then the label's bytes) for each
label, followed by a single 0x00 byte iff `zeroTerminate` is nonzero. When
that byte sequence fits into the free space of the 512-byte send buffer it is
appended in full, otherwise it is cut at the end of the buffer. Every length
byte is below 0xC0 (no compression pointer), and the chunking through the
12-byte scratch buffer does not change the sequence. -/
theorem C1_writeDNSName_wire (w : Writer) (name : List Nat) (zeroTerminate : Nat)
    (hwf : WellFormedName 63 name) (hbuf : w.buf.length = sizeofDNSHeader) :
    (_writeDNSName w name sizeofDNSHeader zeroTerminate).st
        = write w.st (wireName name zeroTerminate) ∧
    (w.st._writeBuffer.length + (wireName name zeroTerminate).length ≤ sizeofWriteBuffer →
      (_writeDNSName w name sizeofDNSHeader zeroTerminate).st._writeBuffer
        = w.st._writeBuffer ++ wireName name zeroTerminate) ∧
    (∀ l ∈ splitLabels name, l.length < 0xC0) := by
  have h := (wrote_writeDNSName w name zeroTerminate (nonEmpty_of_wellFormed hwf) hbuf).1
  rw [emittedName_eq_wireName 63 (by decide) name zeroTerminate hwf] at h
  refine ⟨h, ?_, ?_⟩
  · intro hroom
    rw [h]
    simp only [write]
    rw [List.take_of_length_le (by omega)]
  · intro l hl
    have := (hwf.2 l hl).2
    omega

/-- Witness for C1: `"foo.bar"` into the empty send buffer. -/
theorem C1_writeDNSName_wire_witness :
    (_writeDNSName (Writer.start sparkState) (ascii "foo.bar") sizeofDNSHeader 1).st._writeBuffer
      = [3, 102, 111, 111, 3, 98, 97, 114, 0] := by
  have h := (C1_writeDNSName_wire (Writer.start sparkState) (ascii "foo.bar") 1
    (by decide) (by decide)).2.1 (by decide)
  rw [h]
  decide

set_option maxRecDepth 100000 in
/-- C1 as stated fails: the name of eight labels of 63 bytes is made of
non-empty labels of at most 63 bytes, its wire form has 513 bytes, and
written into the empty send buffer only 512 bytes arrive. -/
theorem C1_counterexample :
    WellFormedName 63 eightLongLabels ∧
    (_writeDNSName (Writer.start sparkState) eightLongLabels sizeofDNSHeader 1).st._writeBuffer
      ≠ sparkState._writeBuffer ++ wireName eightLongLabels 1 := by
  have hwf : WellFormedName 63 eightLongLabels := by decide
  refine ⟨hwf, ?_⟩
  have h := (wrote_writeDNSName (Writer.start sparkState) eightLongLabels 1
    (nonEmpty_of_wellFormed hwf) (by decide)).1
  rw [emittedName_eq_wireName 63 (by decide) eightLongLabels 1 hwf] at h
  intro hc
  have hlen := congrArg List.length hc
  rw [h] at hlen
  have h1 : (write (Writer.start sparkState).st (wireName eightLongLabels 1))._writeBuffer.length
      ≤ 512 := by
    simp only [write, List.length_append, List.length_take]
    have : (Writer.start sparkState).st._writeBuffer.length = 0 := rfl
    rw [this]
    simp only [sizeofWriteBuffer]
    omega
  have h2 : (sparkState._writeBuffer ++ wireName eightLongLabels 1).length = 513 := by decide
  omega

/-- C3: `_matchStringPart(cursor, remaining, chunk, n)` returns 1 if and only
if `remaining >= n` and the `n` bytes at the cursor equal the chunk (for a
chunk of `n` bytes and a cursor with at least `n` bytes left: iff the chunk is
the next `n` bytes of the candidate); it advances the cursor by `n` and
decrements `remaining` by `n`, and additionally consumes one `'.'` (cursor +1,
remaining -1) when the next candidate byte is `'.'`; when `remaining < n` it
returns 0. -/
theorem C3_matchStringPart (cursor : List Nat) (remaining : Int) (chunk : List Nat) (n : Nat) :
    ((_matchStringPart cursor remaining chunk n).1 = 1 ↔
      (remaining ≥ n ∧ ∀ k < n, cursor.getD k 0 = chunk.getD k 0)) ∧
    (chunk.length = n → n ≤ cursor.length →
      ((_matchStringPart cursor remaining chunk n).1 = 1 ↔
        (remaining ≥ n ∧ cursor.take n = chunk))) ∧
    ((_matchStringPart cursor remaining chunk n).2 =
      if cHead (cursor.drop n) = DOT then (cursor.drop (n + 1), remaining - n - 1)
      else (cursor.drop n, remaining - n)) ∧
    (remaining < n → (_matchStringPart cursor remaining chunk n).1 = 0) := by
  have key : (_matchStringPart cursor remaining chunk n).1 = 1 ↔
      (remaining ≥ n ∧ ∀ k < n, cursor.getD k 0 = chunk.getD k 0) := by
    rw [matchStringPart_fst, ← memEq_iff]
    by_cases hr : remaining ≥ (n : Int)
    · by_cases hm : memEq cursor chunk n = true <;> simp [hr, hm]
    · simp [hr]
  refine ⟨key, ?_, ?_, ?_⟩
  · intro hc hn
    rw [key, getD_eq_iff_take cursor chunk n hn hc]
  · unfold _matchStringPart
    by_cases hd : cHead (cursor.drop n) = DOT
    · simp only [hd, if_true]
      rw [List.tail_drop]
    · simp only [hd, if_false]
  · intro hlt
    rw [matchStringPart_fst]
    have : ¬ remaining ≥ (n : Int) := by omega
    simp [this]

/-- C4: for every host label `h` (no dots, 1..63 bytes), local IPv4 `a.b.c.d`
and 16-bit `xid`, the MyIPAnswer datagram produced by `_sendMDNSMessage` is
exactly: xid big-endian, flags 0x84 0x00, QD=0, AN=1, NS=0, AR=0, then the
encoded name `h.local` with zero terminator, then 00 01 80 01, TTL
00 00 00 78, RDLENGTH 00 04, and RDATA `a b c d`. It is the one datagram the
call sends (after the flush of bytes that were still pending, if any). -/
theorem C4_myIPAnswer_datagram (st : BonjourClass) (peer : Option (List Nat))
    (xid serviceRecord : Nat) (h : List Nat) (a b c d : Nat)
    (hh : HostLabel h) (hxid : xid < 65536)
    (hname : st._bonjourName = some (h ++ MDNS_TLD)) (hip : st.localIP = [a, b, c, d]) :
    (_sendMDNSMessage st peer xid MDNSPacketType_t.MDNSPacketTypeMyIPAnswer serviceRecord).1.sent
      = st.sent ++ pendingFlush st ++
        [{ ip := mdnsMulticastIPAddr, port := MDNS_SERVER_PORT,
           data := [xid / 256, xid % 256, 0x84, 0x00, 0, 0, 0, 1, 0, 0, 0, 0] ++
             (h.length :: h) ++ [5, 108, 111, 99, 97, 108, 0] ++
             [0x00, 0x01, 0x80, 0x01, 0x00, 0x00, 0x00, 0x78, 0x00, 0x04, a, b, c, d] }] := by
  have hw := wrote_writeMyIPAnswerRecord
    (bodyWriter st xid MDNSPacketType_t.MDNSPacketTypeMyIPAnswer) (h ++ MDNS_TLD)
    (nonEmpty_of_wellFormed (wellFormed_host h hh)) rfl
    (by simp [bodyWriter, beginPacket_bonjourName, hname])
  have hs := sendMDNSMessage_sent_of_wrote st peer xid
    MDNSPacketType_t.MDNSPacketTypeMyIPAnswer serviceRecord _ hw
  rw [hs]
  have hip' : (bodyWriter st xid MDNSPacketType_t.MDNSPacketTypeMyIPAnswer).st.localIP
      = [a, b, c, d] := by
    simp [bodyWriter, beginPacket_localIP, hip]
  rw [hip']
  have hhdr : (buildHeader xid MDNSPacketType_t.MDNSPacketTypeMyIPAnswer).bytes
      = [xid / 256, xid % 256, 0x84, 0x00, 0, 0, 0, 1, 0, 0, 0, 0] := by
    simp [buildHeader, DNSHeader_t.bytes, DNSHeader_t.zero, be16, DNSOpQuery,
      Nat.mod_eq_of_lt hxid]
  rw [hhdr]
  simp only [ipAnswerBytes, emittedName_eq_wireName 63 (by decide) _ 1 (wellFormed_host h hh),
    wireName_host h hh]
  have hl := hh.2.1
  rw [List.take_of_length_le]
  · simp [be32, be16, MDNS_RESPONSE_TTL]
  · simp [be32, be16, sizeofWriteBuffer]
    omega

/-- Witness for C4: `h = "spark"`, IP 192.168.1.10, xid 0x1234 gives a
datagram whose RDATA is c0 a8 01 0a. -/
theorem C4_myIPAnswer_datagram_witness :
    (_sendMDNSMessage sparkState (some [192, 168, 1, 20]) 0x1234
        MDNSPacketType_t.MDNSPacketTypeMyIPAnswer 0).1.sent
      = [{ ip := [224, 0, 0, 251], port := 5353,
           data := [0x12, 0x34, 0x84, 0x00, 0, 0, 0, 1, 0, 0, 0, 0,
             5, 0x73, 0x70, 0x61, 0x72, 0x6b, 5, 0x6c, 0x6f, 0x63, 0x61, 0x6c, 0,
             0x00, 0x01, 0x80, 0x01, 0x00, 0x00, 0x00, 0x78, 0x00, 0x04,
             0xc0, 0xa8, 0x01, 0x0a] }] := by
  have h := C4_myIPAnswer_datagram sparkState (some [192, 168, 1, 20]) 0x1234 0 (ascii "spark")
    192 168 1 10 (by decide) (by decide) (by decide) (by decide)
  rw [h]
  decide


/-! ## Service records as streams of bytes -/

theorem wrote_recordAt {w1 w2 : Writer} {S : List Nat} (h : Wrote w1 w2 S) (i : Nat) :
    recordAt w2.st i = recordAt w1.st i := by rw [h.1]; rfl

theorem wrote_bonjourName {w1 w2 : Writer} {S : List Nat} (h : Wrote w1 w2 S) :
    w2.st._bonjourName = w1.st._bonjourName := by rw [h.1]; rfl

theorem wrote_localIP {w1 w2 : Writer} {S : List Nat} (h : Wrote w1 w2 S) :
    w2.st.localIP = w1.st.localIP := by rw [h.1]; rfl

theorem wrote_store2_emit (w : Writer) (A B : List Nat) (n : Nat)
    (hb : w.buf.length = sizeofDNSHeader) (hA : A.length = 4) (hn : (A ++ B).length = n)
    (hle : n ≤ sizeofDNSHeader) :
    Wrote w (((w.store 0 A).store 4 B).emit n) (A ++ B) := by
  have e := store_store w 0 A B
  rw [Nat.zero_add, hA] at e
  rw [e]
  exact wrote_store_emit w (A ++ B) n hb hn hle

theorem wrote_store3_emit (w : Writer) (A B C : List Nat) (n : Nat)
    (hb : w.buf.length = sizeofDNSHeader) (hA : A.length = 4) (hB : B.length = 4)
    (hn : (A ++ B ++ C).length = n) (hle : n ≤ sizeofDNSHeader) :
    Wrote w ((((w.store 0 A).store 4 B).store 8 C).emit n) (A ++ B ++ C) := by
  have e := store_store w 0 A B
  rw [Nat.zero_add, hA] at e
  rw [e]
  have e2 := store_store w 0 (A ++ B) C
  rw [Nat.zero_add, List.length_append, hA, hB] at e2
  rw [e2]
  exact wrote_store_emit w (A ++ B ++ C) n hb hn hle

theorem protoSuffix_nonEmpty (proto : MDNSServiceProtocol_t) :
    NonEmptyLabels ((_postfixForProtocol proto).getD []).tail := by
  cases proto <;> decide

theorem wellFormed_mono {m n : Nat} {name : List Nat} (h : WellFormedName m name) (hmn : m ≤ n) :
    WellFormedName n name :=
  ⟨h.1, fun l hl => ⟨(h.2 l hl).1, Nat.le_trans (h.2 l hl).2 hmn⟩⟩

theorem goodRecord_names {r : MDNSServiceRecord_t} (h : GoodRecord r) :
    NonEmptyLabels r.name ∧ ∃ sn, r.servName = some sn ∧ NonEmptyLabels sn := by
  obtain ⟨h1, h2, h3⟩ := h
  cases hs : r.servName with
  | none => simp [hs] at h2
  | some sn => exact ⟨h1, sn, rfl, by simpa [hs] using h3⟩

theorem wrote_writeServiceRecordName (w : Writer) (idx tld : Nat) (r : MDNSServiceRecord_t)
    (hb : w.buf.length = sizeofDNSHeader) (hr : recordAt w.st idx = some r)
    (hgood : GoodRecord r) :
    Wrote w (_writeServiceRecordName w idx sizeofDNSHeader tld) (serviceNameBytes r tld) := by
  obtain ⟨hname, sn, hsn, hsnwf⟩ := goodRecord_names hgood
  unfold _writeServiceRecordName serviceNameBytes
  simp only [hr]
  by_cases ht : tld = 0
  · subst ht
    simp only [ne_eq, not_true_eq_false, if_false, if_true]
    have h1 := wrote_writeDNSName w r.name 0 hname hb
    have h2 := wrote_writeDNSName (_writeDNSName w r.name sizeofDNSHeader 0)
      ((_postfixForProtocol r.proto).getD []).tail 1 (protoSuffix_nonEmpty r.proto) h1.2
    cases hp : r.proto <;> simp only [hp, _postfixForProtocol, Option.getD_some] at h2 ⊢ <;>
      exact wrote_trans h1 h2
  · simp only [ht, ne_eq, not_false_eq_true, if_true, if_false, hsn, Option.getD_some]
    have h1 := wrote_writeDNSName w sn tld hsnwf hb
    have e : emittedName sn tld = emittedName sn 1 := by simp [emittedName, ht]
    rw [e] at h1
    exact h1

theorem wrote_writeServiceRecordPTR (w : Writer) (idx ttl : Nat) (r : MDNSServiceRecord_t)
    (hb : w.buf.length = sizeofDNSHeader) (hr : recordAt w.st idx = some r)
    (hgood : GoodRecord r) :
    Wrote w (_writeServiceRecordPTR w idx sizeofDNSHeader ttl) (servicePTRBytes r ttl) := by
  unfold _writeServiceRecordPTR
  have h1 := wrote_writeServiceRecordName w idx 1 r hb hr hgood
  set w1 := _writeServiceRecordName w idx sizeofDNSHeader 1 with hw1
  have hr1 : recordAt w1.st idx = some r := by rw [wrote_recordAt h1]; exact hr
  simp only [hr1]
  have h2 := wrote_store3_emit w1 [0x00, 0x0c, 0x00, 0x01] (be32 ttl) (be16 (strlen r.name + 13))
    10 h1.2 rfl rfl rfl (by decide)
  set w2 := (((w1.store 0 [0x00, 0x0c, 0x00, 0x01]).store 4 (be32 ttl)).store 8
    (be16 (strlen r.name + 13))).emit 10 with hw2
  have hr2 : recordAt w2.st idx = some r := by rw [wrote_recordAt h2]; exact hr1
  have h3 := wrote_writeServiceRecordName w2 idx 0 r h2.2 hr2 hgood
  have := wrote_trans (wrote_trans h1 h2) h3
  simpa [servicePTRBytes, List.append_assoc] using this


theorem wrote_txt (w : Writer) (r : MDNSServiceRecord_t) (hb : w.buf.length = sizeofDNSHeader) :
    Wrote w
      (match r.textContent with
        | none => (w.store 0 [0x00, 0x01, 0x00]).emit 3
        | some txt =>
          { (w.store 0 (be16 (strlen txt))).emit 2 with
            st := write ((w.store 0 (be16 (strlen txt))).emit 2).st (txt.take (strlen txt)),
            ptr := (((w.store 0 (be16 (strlen txt))).emit 2).ptr + strlen txt) % 65536 })
      (txtBytes r) := by
  unfold txtBytes
  cases r.textContent with
  | none => exact wrote_store_emit w _ 3 hb rfl (by decide)
  | some txt =>
    simp only
    have h1 := wrote_store_emit w (be16 (strlen txt)) 2 hb rfl (by decide)
    refine ⟨?_, h1.2⟩
    simp only [h1.1, write_write]

theorem nonEmpty_DNS_SD : NonEmptyLabels DNS_SD_SERVICE := by decide

/-- The body of a ServiceRecord message, as one stream of bytes. -/
theorem wrote_writeServiceRecordBody (w : Writer) (idx : Nat) (r : MDNSServiceRecord_t)
    (host : List Nat) (hb : w.buf.length = sizeofDNSHeader) (hr : recordAt w.st idx = some r)
    (hgood : GoodRecord r) (hhost : w.st._bonjourName = some host)
    (hwf : NonEmptyLabels host) :
    Wrote w (writeServiceRecordBody w idx) (serviceRecordBytes r host w.st.localIP) := by
  unfold writeServiceRecordBody
  have h1 := wrote_writeServiceRecordName w idx 0 r hb hr hgood
  set w1 := _writeServiceRecordName w idx sizeofDNSHeader 0 with hw1
  have hr1 : recordAt w1.st idx = some r := by rw [wrote_recordAt h1]; exact hr
  have hh1 : w1.st._bonjourName = some host := by rw [wrote_bonjourName h1]; exact hhost
  simp only [hr1, hh1]
  have h2 := wrote_store3_emit w1 [0x00, 0x21, 0x80, 0x01] (be32 MDNS_RESPONSE_TTL)
    (be16 (8 + strlen host)) 10 h1.2 rfl rfl rfl (by decide)
  set w2 := (((w1.store 0 [0x00, 0x21, 0x80, 0x01]).store 4 (be32 MDNS_RESPONSE_TTL)).store 8
    (be16 (8 + strlen host))).emit 10 with hw2
  have h3 := wrote_store2_emit w2 [0, 0, 0, 0] (be16 r.port) 6 h2.2 rfl rfl (by decide)
  set w3 := ((w2.store 0 [0, 0, 0, 0]).store 4 (be16 r.port)).emit 6 with hw3
  have h4 := wrote_writeDNSName w3 host 1 hwf h3.2
  set w4 := _writeDNSName w3 host sizeofDNSHeader 1 with hw4
  have h14 := wrote_trans (wrote_trans (wrote_trans h1 h2) h3) h4
  have hr4 : recordAt w4.st idx = some r := by rw [wrote_recordAt h14]; exact hr
  have h5 := wrote_writeServiceRecordName w4 idx 0 r h4.2 hr4 hgood
  set w5 := _writeServiceRecordName w4 idx sizeofDNSHeader 0 with hw5
  have h6 := wrote_store2_emit w5 [0x00, 0x10, 0x80, 0x01] (be32 MDNS_RESPONSE_TTL) 8 h5.2
    rfl rfl (by decide)
  set w6 := ((w5.store 0 [0x00, 0x10, 0x80, 0x01]).store 4 (be32 MDNS_RESPONSE_TTL)).emit 8
    with hw6
  have h7 := wrote_txt w6 r h6.2
  set w7 := (match r.textContent with
        | none => (w6.store 0 [0x00, 0x01, 0x00]).emit 3
        | some txt =>
          { (w6.store 0 (be16 (strlen txt))).emit 2 with
            st := write ((w6.store 0 (be16 (strlen txt))).emit 2).st (txt.take (strlen txt)),
            ptr := (((w6.store 0 (be16 (strlen txt))).emit 2).ptr + strlen txt) % 65536 })
    with hw7
  have h8 := wrote_writeDNSName w7 DNS_SD_SERVICE 1 nonEmpty_DNS_SD h7.2
  set w8 := _writeDNSName w7 DNS_SD_SERVICE sizeofDNSHeader 1 with hw8
  obtain ⟨hname, sn, hsn, hsnwf⟩ := goodRecord_names hgood
  simp only [hsn]
  have h9 := wrote_store3_emit w8 [0x00, 0x0c, 0x00, 0x01] (be32 MDNS_RESPONSE_TTL)
    (be16 ((strlen sn + 2) % 65536)) 10 h8.2 rfl rfl rfl (by decide)
  set w9 := (((w8.store 0 [0x00, 0x0c, 0x00, 0x01]).store 4 (be32 MDNS_RESPONSE_TTL)).store 8
    (be16 ((strlen sn + 2) % 65536))).emit 10 with hw9
  have h19 := wrote_trans (wrote_trans (wrote_trans (wrote_trans (wrote_trans h14 h5) h6) h7) h8) h9
  have hr9 : recordAt w9.st idx = some r := by rw [wrote_recordAt h19]; exact hr
  have h10 := wrote_writeServiceRecordName w9 idx 1 r h9.2 hr9 hgood
  set w10 := _writeServiceRecordName w9 idx sizeofDNSHeader 1 with hw10
  have h110 := wrote_trans h19 h10
  have hr10 : recordAt w10.st idx = some r := by rw [wrote_recordAt h110]; exact hr
  have h11 := wrote_writeServiceRecordPTR w10 idx MDNS_RESPONSE_TTL r h10.2 hr10 hgood
  set w11 := _writeServiceRecordPTR w10 idx sizeofDNSHeader MDNS_RESPONSE_TTL with hw11
  have h111 := wrote_trans h110 h11
  have hh11 : w11.st._bonjourName = some host := by rw [wrote_bonjourName h111]; exact hhost
  have h12 := wrote_writeMyIPAnswerRecord w11 host hwf h11.2 hh11
  rw [wrote_localIP h111] at h12
  have := wrote_trans h111 h12
  simpa [serviceRecordBytes, srvRecordBytes, txtRecordBytes, metaPTRBytes, hsn,
    List.append_assoc] using this


/-! ## Lengths -/

theorem strlen_eq_length (s : List Nat) (h : ∀ b ∈ s, b ≠ 0) : strlen s = s.length := by
  induction s with
  | nil => rfl
  | cons b s ih =>
    have hb := h b (List.mem_cons_self _ _)
    simp [strlen, hb, ih (fun x hx => h x (List.mem_cons_of_mem _ hx))]

theorem emittedLabels_length (ls : List (List Nat)) (h : ls ≠ []) :
    (emittedLabels ls).length = (joinLabels ls).length + 1 := by
  induction ls with
  | nil => exact absurd rfl h
  | cons l ls ih =>
    cases ls with
    | nil => simp [emittedLabels, joinLabels]
    | cons l2 ls =>
      have := ih (by simp)
      rw [joinLabels_cons]
      simp only [emittedLabels, afterLabel, List.length_append, List.length_cons] at this ⊢
      omega

/-- The encoded name is one byte longer than the name, plus the terminator. -/
theorem emittedName_length (name : List Nat) (zeroTerminate : Nat) :
    (emittedName name zeroTerminate).length
      = name.length + 1 + (if zeroTerminate ≠ 0 then 1 else 0) := by
  unfold emittedName
  rw [List.length_append, emittedLabels_length _ (splitLabels_ne_nil name),
    joinLabels_splitLabels]
  split <;> simp

theorem serviceNameBytes_length_zero (r : MDNSServiceRecord_t) :
    (serviceNameBytes r 0).length = r.name.length + 13 := by
  unfold serviceNameBytes
  simp only [if_true, List.length_append, emittedName_length]
  cases r.proto <;> simp [_postfixForProtocol, ascii, MDNS_TLD]

theorem serviceNameBytes_length_one (r : MDNSServiceRecord_t) (sn : List Nat)
    (h : r.servName = some sn) : (serviceNameBytes r 1).length = sn.length + 2 := by
  unfold serviceNameBytes
  simp [h, emittedName_length]

/-! ## The question messages -/

theorem poke_query (buf : List Nat) (t : Nat) (h : buf.length = sizeofDNSHeader) :
    poke (poke (poke (poke buf 0 [0x00]) 2 [0x00]) 1 [t]) 3 [0x01]
      = [0x00, t, 0x00, 0x01] ++ buf.drop 4 := by
  match buf, h with
  | b0 :: b1 :: b2 :: b3 :: rest, _ => simp [poke]

theorem endPacket_sent (s : BonjourClass) :
    (endPacket s).sent = s.sent ++ [⟨s.udpDest.1, s.udpDest.2, s._writeBuffer⟩] := rfl

/-- The datagram of a NameQuery or ServiceQuery message: header, encoded name,
QTYPE and QCLASS, and then the eight bytes that were left in the scratch
buffer behind them, because the code writes `sizeof(DNSHeader_t)` bytes of the
scratch buffer instead of four. -/
theorem sendQuery_sent (st : BonjourClass) (peer : Option (List Nat)) (xid rec : Nat)
    (type : MDNSPacketType_t) (name : List Nat)
    (htype : type = MDNSPacketType_t.MDNSPacketTypeNameQuery ∨
      type = MDNSPacketType_t.MDNSPacketTypeServiceQuery)
    (hname : (if type = MDNSPacketType_t.MDNSPacketTypeServiceQuery then st._resolveNames1
      else st._resolveNames0) = some name)
    (hwf : NonEmptyLabels name) :
    ∃ junk : List Nat, junk.length = 8 ∧
      (_sendMDNSMessage st peer xid type rec).1.sent
        = st.sent ++ pendingFlush st ++
          [{ ip := mdnsMulticastIPAddr, port := MDNS_SERVER_PORT,
             data := ((buildHeader xid type).bytes ++ (emittedName name 1 ++
               ([0x00, if type = MDNSPacketType_t.MDNSPacketTypeServiceQuery then 0x0c else 0x01,
                 0x00, 0x01] ++ junk))).take sizeofWriteBuffer }] := by
  have h1 := wrote_writeDNSName (bodyWriter st xid type) name 1 hwf rfl
  refine ⟨(_writeDNSName (bodyWriter st xid type) name sizeofDNSHeader 1).buf.drop 4, ?_, ?_⟩
  · rw [List.length_drop, h1.2]; rfl
  · have hlen : ∀ t : Nat, (([0x00, t, 0x00, 0x01] ++
        (_writeDNSName (bodyWriter st xid type) name sizeofDNSHeader 1).buf.drop 4 :
          List Nat)).take sizeofDNSHeader
        = [0x00, t, 0x00, 0x01] ++
          (_writeDNSName (bodyWriter st xid type) name sizeofDNSHeader 1).buf.drop 4 := by
      intro t
      apply List.take_of_length_le
      have := h1.2
      simp only [List.length_append, List.length_cons, List.length_nil, List.length_drop, this]
      decide
    rw [sendMDNSMessage_eq]
    rcases htype with h | h <;> subst h
    · have hn : (bodyWriter st xid MDNSPacketType_t.MDNSPacketTypeNameQuery).st._resolveNames0
          = some name := by
        simpa [bodyWriter, beginPacket_resolveNames0] using hname
      simp only [messageBody, writeQueryBody, hn, decide_False, Bool.false_eq_true, if_false,
        endPacket_sent, Writer.emit, Writer.store, poke_query _ _ h1.2, hlen, reduceCtorEq]
      rw [h1.1]
      simp only [bodyWriter, write_write]
      simp [write, beginPacket_sent, beginPacket_buffer, beginPacket_dest, List.append_assoc]
    · have hn : (bodyWriter st xid MDNSPacketType_t.MDNSPacketTypeServiceQuery).st._resolveNames1
          = some name := by
        simpa [bodyWriter, beginPacket_resolveNames1] using hname
      simp only [messageBody, writeQueryBody, hn, decide_True, if_true,
        endPacket_sent, Writer.emit, Writer.store, poke_query _ _ h1.2, hlen]
      rw [h1.1]
      simp only [bodyWriter, write_write]
      simp [write, beginPacket_sent, beginPacket_buffer, beginPacket_dest, List.append_assoc]


/-! ## Service messages: the datagrams -/

theorem be16_of_lt (v : Nat) (h : v < 65536) : be16 v = [v / 256, v % 256] := by
  simp [be16, Nat.mod_eq_of_lt h]

theorem bodyWriter_recordAt (st : BonjourClass) (xid : Nat) (type : MDNSPacketType_t) (i : Nat) :
    recordAt (bodyWriter st xid type).st i = recordAt st i := by
  simp [bodyWriter, recordAt, beginPacket_serviceRecords]

theorem bodyWriter_bonjourName (st : BonjourClass) (xid : Nat) (type : MDNSPacketType_t) :
    (bodyWriter st xid type).st._bonjourName = st._bonjourName := by
  simp [bodyWriter, beginPacket_bonjourName]

theorem bodyWriter_localIP (st : BonjourClass) (xid : Nat) (type : MDNSPacketType_t) :
    (bodyWriter st xid type).st.localIP = st.localIP := by
  simp [bodyWriter, beginPacket_localIP]

/-- The ServiceRecord datagram. -/
theorem sendServiceRecord_sent (st : BonjourClass) (peer : Option (List Nat)) (xid idx : Nat)
    (r : MDNSServiceRecord_t) (host : List Nat) (hr : recordAt st idx = some r)
    (hgood : GoodRecord r) (hhost : st._bonjourName = some host) (hwf : NonEmptyLabels host) :
    (_sendMDNSMessage st peer xid MDNSPacketType_t.MDNSPacketTypeServiceRecord idx).1.sent
      = st.sent ++ pendingFlush st ++
        [{ ip := mdnsMulticastIPAddr, port := MDNS_SERVER_PORT,
           data := ((buildHeader xid MDNSPacketType_t.MDNSPacketTypeServiceRecord).bytes ++
             serviceRecordBytes r host st.localIP).take sizeofWriteBuffer }] := by
  have hw := wrote_writeServiceRecordBody
    (bodyWriter st xid MDNSPacketType_t.MDNSPacketTypeServiceRecord) idx r host rfl
    (by rw [bodyWriter_recordAt]; exact hr) hgood
    (by rw [bodyWriter_bonjourName]; exact hhost) hwf
  rw [bodyWriter_localIP] at hw
  exact sendMDNSMessage_sent_of_wrote st peer xid _ idx _ hw

/-- The ServiceRecordRelease datagram. -/
theorem sendServiceRelease_sent (st : BonjourClass) (peer : Option (List Nat)) (xid idx : Nat)
    (r : MDNSServiceRecord_t) (hr : recordAt st idx = some r) (hgood : GoodRecord r) :
    (_sendMDNSMessage st peer xid MDNSPacketType_t.MDNSPacketTypeServiceRecordRelease idx).1.sent
      = st.sent ++ pendingFlush st ++
        [{ ip := mdnsMulticastIPAddr, port := MDNS_SERVER_PORT,
           data := ((buildHeader xid MDNSPacketType_t.MDNSPacketTypeServiceRecordRelease).bytes ++
             servicePTRBytes r 0).take sizeofWriteBuffer }] := by
  have hw := wrote_writeServiceRecordPTR
    (bodyWriter st xid MDNSPacketType_t.MDNSPacketTypeServiceRecordRelease) idx 0 r rfl
    (by rw [bodyWriter_recordAt]; exact hr) hgood
  exact sendMDNSMessage_sent_of_wrote st peer xid _ idx _ hw

/-- C8 (what the code does): for every active resolver slot whose name is made
of non-empty labels and fits the send buffer, the NameQuery (resp.
ServiceQuery) datagram consists of the 12-byte header with QDCOUNT=1 and QR=0,
the encoded query name with zero terminator, the four bytes 00 01 00 01
(resp. 00 0c 00 01), and then eight more bytes: the claim's "nothing after
them" fails, the datagram is always eight bytes longer. -/
theorem C8_query_datagram (st : BonjourClass) (peer : Option (List Nat)) (xid rec : Nat)
    (type : MDNSPacketType_t) (name : List Nat)
    (htype : type = MDNSPacketType_t.MDNSPacketTypeNameQuery ∨
      type = MDNSPacketType_t.MDNSPacketTypeServiceQuery)
    (hname : (if type = MDNSPacketType_t.MDNSPacketTypeServiceQuery then st._resolveNames1
      else st._resolveNames0) = some name)
    (hwf : NonEmptyLabels name) (hxid : xid < 65536)
    (hfit : sizeofDNSHeader + (emittedName name 1).length + 12 ≤ sizeofWriteBuffer) :
    ∃ junk : List Nat, junk.length = 8 ∧
      (_sendMDNSMessage st peer xid type rec).1.sent
        = st.sent ++ pendingFlush st ++
          [{ ip := mdnsMulticastIPAddr, port := MDNS_SERVER_PORT,
             data := [xid / 256, xid % 256, 0x00, 0x00, 0, 1, 0, 0, 0, 0, 0, 0] ++
               emittedName name 1 ++
               [0x00, if type = MDNSPacketType_t.MDNSPacketTypeServiceQuery then 0x0c else 0x01,
                 0x00, 0x01] ++ junk }] := by
  obtain ⟨junk, hj, hs⟩ := sendQuery_sent st peer xid rec type name htype hname hwf
  refine ⟨junk, hj, ?_⟩
  rw [hs]
  have hhdr : (buildHeader xid type).bytes
      = [xid / 256, xid % 256, 0x00, 0x00, 0, 1, 0, 0, 0, 0, 0, 0] := by
    rcases htype with h | h <;> subst h <;>
      simp [buildHeader, DNSHeader_t.bytes, DNSHeader_t.zero, be16, DNSOpQuery,
        Nat.mod_eq_of_lt hxid]
  rw [hhdr, List.take_of_length_le]
  · simp [List.append_assoc]
  · simp only [List.length_append, List.length_cons, List.length_nil, hj]
    simp only [sizeofDNSHeader, sizeofWriteBuffer] at hfit ⊢
    omega

set_option maxRecDepth 100000 in
/-- Witness for C8, the failing input: the question for `peer.local` is
followed by the eight bytes 61 6c 00 00 00 00 00 00. -/
theorem C8_query_datagram_witness :
    (_sendMDNSMessage resolvingState none 0 MDNSPacketType_t.MDNSPacketTypeNameQuery 0).1.sent
      = [{ ip := [224, 0, 0, 251], port := 5353,
           data := [0, 0, 0, 0, 0, 1, 0, 0, 0, 0, 0, 0,
             4, 0x70, 0x65, 0x65, 0x72, 5, 0x6c, 0x6f, 0x63, 0x61, 0x6c, 0,
             0x00, 0x01, 0x00, 0x01,
             0x61, 0x6c, 0x00, 0x00, 0x00, 0x00, 0x00, 0x00] }] := by
  obtain ⟨junk, _, _⟩ := C8_query_datagram resolvingState none 0 0
    MDNSPacketType_t.MDNSPacketTypeNameQuery (ascii "peer.local") (Or.inl rfl) (by decide)
    (by decide) (by decide) (by decide)
  decide

/-- C9 (amended): in every emitted ServiceRecord that fits the 512-byte send
buffer, for every host identity with non-empty dot-separated labels, the SRV
record's RDLENGTH field equals 8 + strlen(host identity including the .local
suffix) and equals the number of RDATA bytes written for it (2 priority +
2 weight + 2 port + encoded zero-terminated target name), which are followed
by the TXT record. -/
theorem C9_srv_rdlength (st : BonjourClass) (peer : Option (List Nat)) (xid idx : Nat)
    (r : MDNSServiceRecord_t) (host : List Nat) (hr : recordAt st idx = some r)
    (hgood : GoodRecord r) (hhost : st._bonjourName = some host) (hwf : NonEmptyLabels host)
    (hfit : sizeofDNSHeader + (serviceRecordBytes r host st.localIP).length
      ≤ sizeofWriteBuffer) :
    (_sendMDNSMessage st peer xid MDNSPacketType_t.MDNSPacketTypeServiceRecord idx).1.sent
      = st.sent ++ pendingFlush st ++
        [{ ip := mdnsMulticastIPAddr, port := MDNS_SERVER_PORT,
           data := (buildHeader xid MDNSPacketType_t.MDNSPacketTypeServiceRecord).bytes ++
             (serviceNameBytes r 0 ++ [0x00, 0x21, 0x80, 0x01, 0x00, 0x00, 0x00, 0x78]) ++
             [(8 + strlen host) / 256, (8 + strlen host) % 256] ++
             ([0, 0, 0, 0] ++ be16 r.port ++ emittedName host 1) ++
             (txtRecordBytes r ++ metaPTRBytes r ++ servicePTRBytes r MDNS_RESPONSE_TTL ++
               ipAnswerBytes host st.localIP) }] ∧
    ([0, 0, 0, 0] ++ be16 r.port ++ emittedName host 1).length = 8 + strlen host ∧
    8 + strlen host < 65536 := by
  have hlen : strlen host = host.length := strlen_eq_length host hwf.1
  have hrd : ([0, 0, 0, 0] ++ be16 r.port ++ emittedName host 1).length = 8 + strlen host := by
    simp [emittedName_length, be16, hlen]; omega
  have hsmall : 8 + strlen host < 65536 := by
    have : (srvRecordBytes r host).length ≤ (serviceRecordBytes r host st.localIP).length := by
      simp only [serviceRecordBytes, List.length_append]; omega
    have h2 : 8 + strlen host ≤ (srvRecordBytes r host).length := by
      rw [← hrd]; simp only [srvRecordBytes, List.length_append]; omega
    simp only [sizeofDNSHeader, sizeofWriteBuffer] at hfit
    omega
  refine ⟨?_, hrd, hsmall⟩
  rw [sendServiceRecord_sent st peer xid idx r host hr hgood hhost hwf,
    List.take_of_length_le (by simpa [headerBytes_length] using hfit)]
  simp [serviceRecordBytes, srvRecordBytes, be16_of_lt _ hsmall, be32, MDNS_RESPONSE_TTL,
    List.append_assoc]

set_option maxRecDepth 100000 in
/-- Witness for C9: `printerRecord` announced by `spark.local`; the SRV
RDLENGTH is 00 13 (19 = 8 + 11). -/
theorem C9_srv_rdlength_witness :
    8 + strlen (ascii "spark.local") = 19 ∧
    ((_sendMDNSMessage printerState none 0
        MDNSPacketType_t.MDNSPacketTypeServiceRecord 0).1.sent.map fun d =>
      ((d.data.drop 57).take 2, ((d.data.drop 59).take 19).drop 6)) =
      [([0, 19], [5, 0x73, 0x70, 0x61, 0x72, 0x6b, 5, 0x6c, 0x6f, 0x63, 0x61, 0x6c, 0])] := by
  have h := (C9_srv_rdlength printerState none 0 0 printerRecord (ascii "spark.local") rfl
    (by decide) rfl (by decide) (by decide)).1
  refine ⟨by decide, ?_⟩
  rw [h]
  decide

set_option maxRecDepth 100000 in
/-- C9 as stated fails: with the host identity `longHost` (non-empty labels of
63 bytes, 453 bytes long) the ServiceRecord for `printerRecord` is cut at 512
bytes; its SRV RDLENGTH field (offset 57) says 01 cd = 461 = 8 + 453, and only
453 bytes follow it in the datagram. -/
theorem C9_counterexample :
    NonEmptyLabels longHost ∧ 8 + strlen longHost = 461 ∧
    ((_sendMDNSMessage longHostState none 0
        MDNSPacketType_t.MDNSPacketTypeServiceRecord 0).1.sent.map fun d =>
      (d.data.length, (d.data.drop 57).take 2, (d.data.drop 59).length)) =
      [(512, [1, 205], 453)] := by
  decide


/-- C10 (amended): in every emitted self-PTR, in a ServiceRecordRelease and in
a ServiceRecord that fit the 512-byte send buffer, the RDLENGTH field equals
strlen(instance_name) + 13 and equals the number of RDATA bytes written by
`_writeServiceRecordName(idx, tld=0)`, for every instance name with non-empty
dot-separated labels; likewise the meta-PTR RDLENGTH strlen(service_name) + 2
equals the bytes written for its target (for a service name with non-empty
labels). -/
theorem C10_ptr_rdlength (st : BonjourClass) (peer : Option (List Nat)) (xid idx : Nat)
    (r : MDNSServiceRecord_t) (sn : List Nat) (hr : recordAt st idx = some r)
    (hgood : GoodRecord r) (hsn : r.servName = some sn) :
    (sizeofDNSHeader + (servicePTRBytes r 0).length ≤ sizeofWriteBuffer →
      (_sendMDNSMessage st peer xid MDNSPacketType_t.MDNSPacketTypeServiceRecordRelease idx).1.sent
        = st.sent ++ pendingFlush st ++
          [{ ip := mdnsMulticastIPAddr, port := MDNS_SERVER_PORT,
             data := (buildHeader xid MDNSPacketType_t.MDNSPacketTypeServiceRecordRelease).bytes ++
               (serviceNameBytes r 1 ++ [0x00, 0x0c, 0x00, 0x01, 0x00, 0x00, 0x00, 0x00]) ++
               [(strlen r.name + 13) / 256, (strlen r.name + 13) % 256] ++
               serviceNameBytes r 0 }]) ∧
    (∀ host, st._bonjourName = some host → NonEmptyLabels host →
      sizeofDNSHeader + (serviceRecordBytes r host st.localIP).length ≤ sizeofWriteBuffer →
      (_sendMDNSMessage st peer xid MDNSPacketType_t.MDNSPacketTypeServiceRecord idx).1.sent
        = st.sent ++ pendingFlush st ++
          [{ ip := mdnsMulticastIPAddr, port := MDNS_SERVER_PORT,
             data := (buildHeader xid MDNSPacketType_t.MDNSPacketTypeServiceRecord).bytes ++
               (srvRecordBytes r host ++ txtRecordBytes r) ++
               (emittedName DNS_SD_SERVICE 1 ++ [0x00, 0x0c, 0x00, 0x01, 0x00, 0x00, 0x00, 0x78]) ++
               [(strlen sn + 2) / 256, (strlen sn + 2) % 256] ++
               serviceNameBytes r 1 ++
               (serviceNameBytes r 1 ++ [0x00, 0x0c, 0x00, 0x01, 0x00, 0x00, 0x00, 0x78]) ++
               [(strlen r.name + 13) / 256, (strlen r.name + 13) % 256] ++
               serviceNameBytes r 0 ++
               ipAnswerBytes host st.localIP }]) ∧
    (serviceNameBytes r 0).length = strlen r.name + 13 ∧
    (serviceNameBytes r 1).length = strlen sn + 2 := by
  obtain ⟨hname, sn', hsn', hsnwf⟩ := goodRecord_names hgood
  have e : sn' = sn := by rw [hsn] at hsn'; exact (Option.some.inj hsn').symm
  subst e
  have hl0 : strlen r.name = r.name.length := strlen_eq_length _ hname.1
  have hl1 : strlen sn' = sn'.length := strlen_eq_length _ hsnwf.1
  have h0 : (serviceNameBytes r 0).length = strlen r.name + 13 := by
    rw [serviceNameBytes_length_zero, hl0]
  have h1 : (serviceNameBytes r 1).length = strlen sn' + 2 := by
    rw [serviceNameBytes_length_one r sn' hsn, hl1]
  refine ⟨?_, ?_, h0, h1⟩
  · intro hfit
    have hsmall : strlen r.name + 13 < 65536 := by
      have : (serviceNameBytes r 0).length ≤ (servicePTRBytes r 0).length := by
        simp only [servicePTRBytes, List.length_append]; omega
      simp only [sizeofDNSHeader, sizeofWriteBuffer] at hfit
      omega
    rw [sendServiceRelease_sent st peer xid idx r hr hgood,
      List.take_of_length_le (by simpa [headerBytes_length] using hfit)]
    simp [servicePTRBytes, be16_of_lt _ hsmall, be32, List.append_assoc]
  · intro host hhost hwf hfit
    have hle : (metaPTRBytes r).length + (servicePTRBytes r MDNS_RESPONSE_TTL).length
        ≤ (serviceRecordBytes r host st.localIP).length := by
      simp only [serviceRecordBytes, List.length_append]; omega
    have hsmall0 : strlen r.name + 13 < 65536 := by
      have : (serviceNameBytes r 0).length ≤ (servicePTRBytes r MDNS_RESPONSE_TTL).length := by
        simp only [servicePTRBytes, List.length_append]; omega
      simp only [sizeofDNSHeader, sizeofWriteBuffer] at hfit
      omega
    have hsmall1 : strlen sn' + 2 < 65536 := by
      have : (serviceNameBytes r 1).length ≤ (metaPTRBytes r).length := by
        simp only [metaPTRBytes, List.length_append]; omega
      simp only [sizeofDNSHeader, sizeofWriteBuffer] at hfit
      omega
    rw [sendServiceRecord_sent st peer xid idx r host hr hgood hhost hwf,
      List.take_of_length_le (by simpa [headerBytes_length] using hfit)]
    simp [serviceRecordBytes, metaPTRBytes, servicePTRBytes, hsn, Nat.mod_eq_of_lt hsmall1,
      be16_of_lt _ hsmall0, be16_of_lt _ hsmall1, be32, MDNS_RESPONSE_TTL, List.append_assoc]

set_option maxRecDepth 100000 in
/-- Witness for C10: the goodbye for `printerRecord`; the RDLENGTH of the
self-PTR is 00 25 (37 = 24 + 13) and 37 bytes of RDATA end the datagram. -/
theorem C10_ptr_rdlength_witness :
    strlen printerRecord.name + 13 = 37 ∧
    ((_sendMDNSMessage printerState none 0
        MDNSPacketType_t.MDNSPacketTypeServiceRecordRelease 0).1.sent.map fun d =>
      ((d.data.drop 37).take 2, (d.data.drop 39).length)) = [([0, 37], 37)] := by
  have h := (C10_ptr_rdlength printerState none 0 0 printerRecord (ascii "_ipp._tcp.local") rfl
    (by decide) rfl).1 (by decide)
  refine ⟨by decide, ?_⟩
  rw [h]
  decide

set_option maxRecDepth 100000 in
/-- C10 as stated fails: for `longRecord`, whose instance name has seven
non-empty labels of 63 bytes (447 bytes), the ServiceRecordRelease is cut at
512 bytes; the RDLENGTH field of its self-PTR (offset 96) says 01 cc = 460 =
447 + 13, and only 414 bytes follow it in the datagram. -/
theorem C10_counterexample :
    NonEmptyLabels longRecord.name ∧ strlen longRecord.name + 13 = 460 ∧
    ((_sendMDNSMessage longRecordState none 0
        MDNSPacketType_t.MDNSPacketTypeServiceRecordRelease 0).1.sent.map fun d =>
      (d.data.length, (d.data.drop 96).take 2, (d.data.drop 98).length)) =
      [(512, [1, 204], 414)] := by
  decide


/-! ## Round trip through the question walk -/

theorem readBytes_eq (pkt : List Nat) (off n : Nat) (h : off + n ≤ pkt.length) :
    readBytes pkt off n = (pkt.drop off).take n := by
  apply List.ext_getElem
  · simp [readBytes]; omega
  · intro k h1 h2
    have hk : k < n := by simpa [readBytes] using h1
    simp only [readBytes, List.getElem_map, List.getElem_range, List.getElem_take,
      List.getElem_drop]
    exact List.getD_eq_getElem _ _ (by omega)

theorem readBytes_length (pkt : List Nat) (off n : Nat) : (readBytes pkt off n).length = n := by
  simp [readBytes]

theorem memEq_append (c r : List Nat) : memEq (c ++ r) c c.length = true := by
  rw [memEq_iff]
  intro k hk
  rw [List.getD_eq_getElem _ _ (by simp; omega), List.getD_eq_getElem _ _ hk,
    List.getElem_append_left hk]

theorem matchStringPart_append (c r : List Nat) (n : Int) (hn : n ≥ (c.length : Int)) :
    _matchStringPart (c ++ r) n c c.length
      = if cHead r = DOT then (1, r.tail, n - c.length - 1) else (1, r, n - c.length) := by
  simp only [_matchStringPart, memEq_append, hn, if_true, List.drop_left]

theorem land_one_one : Nat.land 1 1 = 1 := by decide

theorem matchChunk_at (c r : List Nat) :
    matchChunk 0 c (Candidate.at (c ++ r))
      = if cHead r = DOT then Candidate.at r.tail else Candidate.at r := by
  have hge : (((c ++ r).length : Nat) : Int) ≥ (c.length : Int) := by
    simp only [List.length_append]; omega
  simp only [matchChunk, Candidate.at, ne_eq, one_ne_zero, not_false_eq_true, and_self, if_true,
    matchStringPart_append _ _ _ hge]
  by_cases h : cHead r = DOT
  · have hr : r ≠ [] := by
      intro h0; subst h0; exact absurd h (by decide)
    have hl : r.tail.length + 1 = r.length := by
      cases r with
      | nil => exact absurd rfl hr
      | cons b r => simp
    simp only [h, if_true, land_one_one, List.length_append, Candidate.mk.injEq, true_and,
      and_true]
    push_cast; omega
  · simp only [h, if_false, land_one_one, List.length_append, Candidate.mk.injEq, true_and,
      and_true]
    push_cast; omega

/-- One chunk of a label against the cursor: the chunk matches, the cursor
moves behind it and, at the end of the label, over the dot. -/
theorem matchChunk_label (c l2 : List Nat) (ls : List (List Nat)) (hc : LabelBytes (c ++ l2)) :
    matchChunk 0 c (Candidate.at (c ++ (l2 ++ afterLabel ls)))
      = if l2 = [] then Candidate.at (joinLabels ls)
        else Candidate.at (l2 ++ afterLabel ls) := by
  rw [matchChunk_at]
  by_cases hl2 : l2 = []
  · subst hl2
    simp only [List.nil_append, if_true]
    cases ls with
    | nil =>
      have h0 : cHead (afterLabel []) ≠ DOT := by decide
      rw [if_neg h0]; rfl
    | cons l ls =>
      have h1 : cHead (afterLabel (l :: ls)) = DOT := rfl
      rw [if_pos h1]; rfl
  · have hhead : cHead (l2 ++ afterLabel ls) ≠ DOT := by
      cases l2 with
      | nil => exact absurd rfl hl2
      | cons b l2 =>
        simp only [cHead, List.cons_append, List.headD_cons]
        exact (hc b (by simp)).2
    rw [if_neg hhead, if_neg hl2]

theorem chunkLoop_zero (pkt asked : List Nat) (fuel off : Nat) (cs : List Candidate) :
    chunkLoop pkt asked fuel 0 off cs = (off, cs) := by
  cases fuel <;> simp [chunkLoop]

/-- The chunk loop over what is left of a label: every chunk matches, and the
cursor ends behind the label and its dot. -/
theorem chunkLoop_label (pkt : List Nat) (ls : List (List Nat)) (T : List Nat) :
    ∀ (fuel : Nat) (l2 : List Nat) (off : Nat), l2 ≠ [] → LabelBytes l2 →
      pkt.drop off = l2 ++ T → l2.length ≤ fuel →
      chunkLoop pkt [0] fuel l2.length off [Candidate.at (l2 ++ afterLabel ls)]
        = (off + l2.length, [Candidate.at (joinLabels ls)]) := by
  intro fuel
  induction fuel with
  | zero =>
    intro l2 off hne _ _ hf
    cases l2 with
    | nil => exact absurd rfl hne
    | cons b l2 => simp at hf
  | succ fuel ih =>
    intro l2 off hne hlb hdrop hf
    have hpos : l2.length > 0 := List.length_pos.mpr hne
    have hlen : pkt.length - off = l2.length + T.length := by
      have := congrArg List.length hdrop
      simpa using this
    obtain ⟨ir, hir⟩ : ∃ ir, ir = (if l2.length > sizeofDNSHeader then sizeofDNSHeader
        else l2.length) := ⟨_, rfl⟩
    have hir1 : ir ≤ l2.length := by
      rw [hir]; split <;> omega
    have hir0 : 0 < ir := by
      rw [hir]; split
      · decide
      · omega
    have hchunk : readBytes pkt off ir = l2.take ir := by
      rw [readBytes_eq pkt off ir (by omega), hdrop, List.take_append_of_le_length hir1]
    have hsplit : l2 ++ afterLabel ls = l2.take ir ++ (l2.drop ir ++ afterLabel ls) := by
      rw [← List.append_assoc, List.take_append_drop]
    have htl : (l2.take ir).length = ir := by
      rw [List.length_take]; omega
    have hlb2 : LabelBytes (l2.take ir ++ l2.drop ir) := by
      rw [List.take_append_drop]; exact hlb
    rw [chunkLoop, if_pos hpos]
    simp only [← hir, hchunk, List.zipWith_cons_cons, List.zipWith_nil_right]
    rw [hsplit, matchChunk_label _ _ _ hlb2]
    by_cases hd : l2.drop ir = []
    · have : l2.length ≤ ir := by
        have := congrArg List.length hd
        simp at this; omega
      have h0 : l2.length - ir = 0 := by omega
      rw [if_pos hd, h0, chunkLoop_zero]
      have : ir = l2.length := by omega
      rw [this]
    · rw [if_neg hd]
      have hdl : (l2.drop ir).length = l2.length - ir := by simp
      have := ih (l2.drop ir) (off + ir) hd
        (fun b hb => hlb b (List.mem_of_mem_drop hb))
        (by rw [← List.drop_drop, hdrop, List.drop_append_of_le_length hir1])
        (by omega)
      rw [hdl] at this
      rw [this]
      congr 1
      omega

/-- The label loop over the wire form of a name's labels and the terminator:
all labels match, the cursor ends at the end of the name. -/
theorem labelLoop_labels (pkt : List Nat) (T : List Nat) :
    ∀ (ls : List (List Nat)) (fuel off tLen : Nat), GoodLabels ls →
      (∀ l ∈ ls, l.length ≤ 128) →
      pkt.drop off = wireLabels ls ++ 0 :: T → ls.length < fuel →
      labelLoop pkt [0] fuel off tLen [Candidate.at (joinLabels ls)]
        = (off + (wireLabels ls).length + 1, tLen + (wireLabels ls).length + 1,
            [Candidate.at []]) := by
  intro ls
  induction ls with
  | nil =>
    intro fuel off tLen _ _ hdrop hf
    cases fuel with
    | zero => simp at hf
    | succ fuel =>
      have hget : pkt.getD off 0 = 0 := by
        have := congrArg (fun l => l.getD 0 0) hdrop
        simpa [wireLabels, List.getD_eq_getElem?_getD] using this
      rw [labelLoop]
      simp only [hget, if_neg (show ¬ 0 > 128 by omega), if_neg (show ¬ 0 > 0 by omega),
        wireLabels, joinLabels, List.length_nil, Nat.add_zero]
  | cons l ls ih =>
    intro fuel off tLen hg hlen hdrop hf
    cases fuel with
    | zero => simp at hf
    | succ fuel =>
      have hl := hg l (List.mem_cons_self _ _)
      have hl128 := hlen l (List.mem_cons_self _ _)
      have hpos : l.length > 0 := List.length_pos.mpr hl.1
      have hget : pkt.getD off 0 = l.length := by
        have := congrArg (fun l => l.getD 0 0) hdrop
        simpa [wireLabels, List.getD_eq_getElem?_getD] using this
      have hdrop1 : pkt.drop (off + 1) = l ++ (wireLabels ls ++ 0 :: T) := by
        rw [← List.drop_drop, hdrop]
        simp [wireLabels]
      have hch := chunkLoop_label pkt ls (wireLabels ls ++ 0 :: T) l.length l (off + 1)
        hl.1 hl.2 hdrop1 (le_refl _)
      rw [joinLabels_cons] at *
      rw [labelLoop]
      simp only [hget, if_neg (show ¬ l.length > 128 by omega), if_pos hpos, hch]
      have hdrop2 : pkt.drop (off + 1 + l.length) = wireLabels ls ++ 0 :: T := by
        rw [← List.drop_drop, hdrop1, List.drop_left]
      rw [ih fuel (off + 1 + l.length) (tLen + 1 + l.length)
        (fun x hx => hg x (List.mem_cons_of_mem _ hx))
        (fun x hx => hlen x (List.mem_cons_of_mem _ hx)) hdrop2
        (by simp at hf; omega)]
      simp only [wireLabels, List.length_append, List.length_cons, Prod.mk.injEq, and_true]
      constructor <;> omega

theorem candidate_ofName (name : List Nat) (h : ∀ b ∈ name, b ≠ 0) :
    Candidate.ofName (some name) = Candidate.at name := by
  simp only [Candidate.ofName, Candidate.at, strlen_eq_length name h]

/-- C2 (amended): round trip. For every name of non-empty dot-separated labels
of at most 128 bytes each whose encoding (`strlen(name) + 2` bytes) fits the
empty 512-byte send buffer: the bytes `_writeDNSName(name, 1)` produces,
placed anywhere in a datagram and walked by the parser's label loop (each
literal label in chunks of at most 12 bytes through `_matchStringPart`)
against one candidate cursor initialised to `(name, strlen(name))`, leave the
match flag at 1 (every chunk returned 1), the cursor at the end of the name
and the remaining counter at exactly 0 when the terminating zero byte is
reached; the walk stops right behind that byte, having counted the
`strlen(name) + 2` bytes of the encoding. Any fuel above the number of bytes
of the name plus one is enough. -/
theorem C2_roundtrip (w : Writer) (name pre rest : List Nat) (fuel : Nat)
    (hwf : WellFormedName 128 name) (hbuf : w.buf.length = sizeofDNSHeader)
    (hempty : w.st._writeBuffer = []) (hfit : name.length + 2 ≤ sizeofWriteBuffer)
    (hfuel : name.length + 1 < fuel) :
    labelLoop (pre ++ (_writeDNSName w name sizeofDNSHeader 1).st._writeBuffer ++ rest) [0]
        fuel pre.length 0 [Candidate.ofName (some name)]
      = (pre.length + (name.length + 2), name.length + 2,
          [{ servName := some [], servLen := 0, servNamePos := 0, servMatch := 1 }]) := by
  have hne := nonEmpty_of_wellFormed hwf
  have h := (wrote_writeDNSName w name 1 hne hbuf).1
  have hlen := emittedName_length name 1
  simp only [ne_eq, one_ne_zero, not_false_eq_true, if_true] at hlen
  have hbytes : (_writeDNSName w name sizeofDNSHeader 1).st._writeBuffer
      = wireLabels (splitLabels name) ++ [0] := by
    rw [h]
    simp only [write, hempty, List.nil_append, List.length_nil]
    rw [List.take_of_length_le (by rw [hlen]; omega),
      emittedName_eq_wireName 128 (by decide) name 1 hwf]
    simp [wireName]
  have hwl : (wireLabels (splitLabels name)).length = name.length + 1 := by
    have := congrArg List.length
      (emittedName_eq_wireName 128 (by decide) name 1 hwf)
    rw [hlen] at this
    simp [wireName] at this
    omega
  have hdrop : (pre ++ (wireLabels (splitLabels name) ++ [0]) ++ rest).drop pre.length
      = wireLabels (splitLabels name) ++ 0 :: rest := by
    rw [List.append_assoc, List.drop_left]
    simp
  have hgo := labelLoop_labels (pre ++ (wireLabels (splitLabels name) ++ [0]) ++ rest) rest
    (splitLabels name) fuel pre.length 0 (goodLabels_of_nonEmpty name hne)
    (fun l hl => (hwf.2 l hl).2) hdrop
    (by have := splitLabels_length_le name; omega)
  rw [joinLabels_splitLabels] at hgo
  rw [hbytes, candidate_ofName name hwf.1, hgo, hwl]
  simp only [Candidate.at, Prod.mk.injEq, List.length_nil, Nat.cast_zero, and_true]
  constructor <;> omega

/-- Witness for C2: `"foo.bar"`, its encoding behind a 12-byte header and
followed by QTYPE/QCLASS. -/
theorem C2_roundtrip_witness :
    labelLoop (List.replicate 12 0 ++
        (_writeDNSName (Writer.start sparkState) (ascii "foo.bar") sizeofDNSHeader 1).st._writeBuffer
        ++ [0, 1, 0, 1]) [0] 22 12 0 [Candidate.ofName (some (ascii "foo.bar"))]
      = (21, 9, [{ servName := some [], servLen := 0, servNamePos := 0, servMatch := 1 }]) :=
  C2_roundtrip (Writer.start sparkState) (ascii "foo.bar") (List.replicate 12 0) [0, 1, 0, 1] 22
    (by decide) (by decide) (by decide) (by decide) (by decide)

set_option maxRecDepth 100000 in
/-- C2 as stated fails. The name of one label of 129 bytes is made of
non-empty labels; the walk takes its length byte 129 for a compression
pointer, reads one more byte and stops with all 129 bytes of the candidate
still to match. The name of nine labels of 63 bytes is made of non-empty
labels; of its 577 encoded bytes only 512 are in the send buffer, and the walk
reaches a zero byte behind them with 63 bytes of the candidate left. -/
theorem C2_counterexample :
    (NonEmptyLabels label129 ∧
      labelLoop ((_writeDNSName (Writer.start sparkState) label129 sizeofDNSHeader 1).st._writeBuffer
          ++ [0, 1, 0, 1]) [0] 600 0 0 [Candidate.ofName (some label129)]
        = (2, 2, [{ servName := some label129, servLen := 129, servNamePos := 0,
                    servMatch := 1 }])) ∧
    (WellFormedName 63 nineLongLabels ∧
      (labelLoop ((_writeDNSName (Writer.start sparkState) nineLongLabels sizeofDNSHeader 1).st._writeBuffer
          ++ [0, 1, 0, 1]) [0] 600 0 0 [Candidate.ofName (some nineLongLabels)]).2.2.map
            Candidate.servLen = [63]) := by
  refine ⟨⟨by decide, by decide⟩, ⟨by decide, by decide⟩⟩


/-! ## What every message leaves on the transport -/

theorem keeps_refl (s : BonjourClass) : Keeps s s := ⟨rfl, rfl, List.prefix_refl _⟩

theorem keeps_trans {s1 s2 s3 : BonjourClass} (h1 : Keeps s1 s2) (h2 : Keeps s2 s3) :
    Keeps s1 s3 :=
  ⟨h2.1.trans h1.1, h2.2.1.trans h1.2.1, h1.2.2.trans h2.2.2⟩

theorem keeps_write (s : BonjourClass) (st : BonjourClass) (d : List Nat) (h : Keeps s st) :
    Keeps s (write st d) :=
  keeps_trans h ⟨rfl, rfl, List.prefix_append _ _⟩

theorem keeps_emit (s : BonjourClass) (w : Writer) (n : Nat) (h : Keeps s w.st) :
    Keeps s (w.emit n).st :=
  keeps_write s w.st _ h

theorem keeps_store (s : BonjourClass) (w : Writer) (i : Nat) (b : List Nat)
    (h : Keeps s w.st) : Keeps s (w.store i b).st := h

theorem keeps_crash (s : BonjourClass) (w : Writer) (h : Keeps s w.st) :
    Keeps s w.crash.st := h

theorem keeps_copyLabel (s : BonjourClass) (bufSize : Nat) :
    ∀ (i : Nat) (p1 : List Nat) (p3 len : Nat) (w : Writer), Keeps s w.st →
      Keeps s (copyLabel bufSize i p1 p3 len w).2.2.st := by
  intro i
  induction i with
  | zero => intro p1 p3 len w h; exact h
  | succ i ih =>
    intro p1 p3 len w h
    rw [copyLabel]
    split
    · exact ih _ _ _ _ (keeps_emit s _ _ h)
    · exact ih _ _ _ _ h

theorem keeps_writeLabels (s : BonjourClass) (bufSize : Nat) :
    ∀ (fuel : Nat) (p1 : List Nat) (w : Writer), Keeps s w.st →
      Keeps s (writeLabels bufSize fuel p1 w).st := by
  intro fuel
  induction fuel with
  | zero => intro p1 w h; exact h
  | succ fuel ih =>
    intro p1 w h
    rw [writeLabels]
    split
    · exact h
    · apply ih
      have hc := keeps_copyLabel s bufSize (scanLabel p1 1 - 1) p1 1 (bufSize - 1)
        { w with buf := w.buf.set 0 ((scanLabel p1 1 - 1) % 256) } h
      split
      · exact keeps_emit s _ _ hc
      · exact hc

theorem keeps_writeDNSName (s : BonjourClass) (w : Writer) (name : List Nat)
    (bufSize zeroTerminate : Nat) (h : Keeps s w.st) :
    Keeps s (_writeDNSName w name bufSize zeroTerminate).st := by
  have h1 := keeps_writeLabels s bufSize (name.length + 1) name w h
  unfold _writeDNSName
  split
  · exact keeps_emit s { writeLabels bufSize (name.length + 1) name w with
      buf := (writeLabels bufSize (name.length + 1) name w).buf.set 0 0 } 1 h1
  · exact h1

theorem keeps_writeMyIPAnswerRecord (s : BonjourClass) (w : Writer) (bufSize : Nat)
    (h : Keeps s w.st) : Keeps s (_writeMyIPAnswerRecord w bufSize).st := by
  unfold _writeMyIPAnswerRecord
  split
  · exact h
  · dsimp only
    apply keeps_emit
    apply keeps_store
    apply keeps_store
    apply keeps_store
    apply keeps_emit
    apply keeps_store
    exact keeps_writeDNSName s _ _ _ _ h

theorem keeps_writeServiceRecordName (s : BonjourClass) (w : Writer) (idx bufSize tld : Nat)
    (h : Keeps s w.st) : Keeps s (_writeServiceRecordName w idx bufSize tld).st := by
  unfold _writeServiceRecordName
  split
  · exact h
  · split
    · exact h
    · next name _ =>
      have h1 := keeps_writeDNSName s w name bufSize tld h
      dsimp only
      split
      · split
        · exact h1
        · exact keeps_writeDNSName s _ _ _ _ h1
      · exact h1

theorem keeps_writeServiceRecordPTR (s : BonjourClass) (w : Writer) (idx bufSize ttl : Nat)
    (h : Keeps s w.st) : Keeps s (_writeServiceRecordPTR w idx bufSize ttl).st := by
  unfold _writeServiceRecordPTR
  have h1 := keeps_writeServiceRecordName s w idx bufSize 1 h
  dsimp only
  split
  · exact h1
  · apply keeps_writeServiceRecordName
    apply keeps_emit
    apply keeps_store
    apply keeps_store
    apply keeps_store
    exact h1

theorem keeps_writeServiceRecordBody (s : BonjourClass) (w : Writer) (idx : Nat)
    (h : Keeps s w.st) : Keeps s (writeServiceRecordBody w idx).st := by
  unfold writeServiceRecordBody
  have h1 := keeps_writeServiceRecordName s w idx sizeofDNSHeader 0 h
  dsimp only
  split
  · next r host _ _ =>
    split
    · apply keeps_crash
      apply keeps_writeDNSName
      split
      · apply keeps_emit
        apply keeps_store
        apply keeps_emit
        apply keeps_store
        apply keeps_store
        apply keeps_writeServiceRecordName
        apply keeps_writeDNSName
        apply keeps_emit
        apply keeps_store
        apply keeps_store
        apply keeps_emit
        apply keeps_store
        apply keeps_store
        apply keeps_store
        exact h1
      · apply keeps_write
        apply keeps_emit
        apply keeps_store
        apply keeps_emit
        apply keeps_store
        apply keeps_store
        apply keeps_writeServiceRecordName
        apply keeps_writeDNSName
        apply keeps_emit
        apply keeps_store
        apply keeps_store
        apply keeps_emit
        apply keeps_store
        apply keeps_store
        apply keeps_store
        exact h1
    · apply keeps_writeMyIPAnswerRecord
      apply keeps_writeServiceRecordPTR
      apply keeps_writeServiceRecordName
      apply keeps_emit
      apply keeps_store
      apply keeps_store
      apply keeps_store
      apply keeps_writeDNSName
      split
      · apply keeps_emit
        apply keeps_store
        apply keeps_emit
        apply keeps_store
        apply keeps_store
        apply keeps_writeServiceRecordName
        apply keeps_writeDNSName
        apply keeps_emit
        apply keeps_store
        apply keeps_store
        apply keeps_emit
        apply keeps_store
        apply keeps_store
        apply keeps_store
        exact h1
      · apply keeps_write
        apply keeps_emit
        apply keeps_store
        apply keeps_emit
        apply keeps_store
        apply keeps_store
        apply keeps_writeServiceRecordName
        apply keeps_writeDNSName
        apply keeps_emit
        apply keeps_store
        apply keeps_store
        apply keeps_emit
        apply keeps_store
        apply keeps_store
        apply keeps_store
        exact h1
  · exact h1

theorem keeps_writeQueryBody (s : BonjourClass) (w : Writer) (type : MDNSPacketType_t)
    (h : Keeps s w.st) : Keeps s (writeQueryBody w type).st := by
  unfold writeQueryBody
  dsimp only
  split
  · exact h
  · next name _ =>
    have h1 : ∀ b : Nat, Keeps s (Writer.emit (Writer.store (Writer.store (Writer.store
        (Writer.store (_writeDNSName w name sizeofDNSHeader 1) 0 [0x00]) 2 [0x00]) 1 [b]) 3
        [0x01]) sizeofDNSHeader).st := by
      intro b
      apply keeps_emit
      apply keeps_store
      apply keeps_store
      apply keeps_store
      apply keeps_store
      exact keeps_writeDNSName s _ _ _ _ h
    split
    · exact ⟨(h1 0x0c).1, (h1 0x0c).2.1, (h1 0x0c).2.2⟩
    · exact ⟨(h1 0x01).1, (h1 0x01).2.1, (h1 0x01).2.2⟩

theorem keeps_writeNoIPv6Body (s : BonjourClass) (w : Writer)
    (h : Keeps s w.st) : Keeps s (writeNoIPv6Body w).st := by
  unfold writeNoIPv6Body
  split
  · exact h
  · dsimp only
    apply keeps_writeMyIPAnswerRecord
    apply keeps_emit
    apply keeps_store
    apply keeps_store
    apply keeps_store
    apply keeps_store
    exact keeps_writeDNSName s _ _ _ _ h

theorem keeps_messageBody (s : BonjourClass) (w : Writer) (type : MDNSPacketType_t) (idx : Nat)
    (h : Keeps s w.st) : Keeps s (messageBody w type idx).st := by
  cases type
  · exact keeps_writeMyIPAnswerRecord s w _ h
  · exact keeps_writeNoIPv6Body s w h
  · exact keeps_writeServiceRecordBody s w idx h
  · exact keeps_writeServiceRecordPTR s w idx _ _ h
  · exact keeps_writeQueryBody s w _ h
  · exact keeps_writeQueryBody s w _ h

theorem headerBytes_take (xid : Nat) (type : MDNSPacketType_t) :
    (buildHeader xid type).bytes.take 2 = be16 xid := by
  cases type <;> rfl

/-- Every call of `_sendMDNSMessage` sends the pending bytes, if any, and then
exactly one datagram: to the multicast group, port 5353, starting with the
twelve bytes of the header. It leaves the send buffer empty. -/
theorem sendMDNSMessage_datagram (st : BonjourClass) (peer : Option (List Nat)) (xid : Nat)
    (type : MDNSPacketType_t) (rec : Nat) :
    (_sendMDNSMessage st peer xid type rec).1._writeBuffer = [] ∧
    ∃ body, (_sendMDNSMessage st peer xid type rec).1.sent
      = st.sent ++ pendingFlush st ++
        [{ ip := mdnsMulticastIPAddr, port := MDNS_SERVER_PORT,
           data := (buildHeader xid type).bytes ++ body }] := by
  have hk := keeps_messageBody (bodyWriter st xid type).st (bodyWriter st xid type) type rec
    (keeps_refl _)
  obtain ⟨hs, hd, body, hb⟩ := hk
  have hbuf : (bodyWriter st xid type).st._writeBuffer = (buildHeader xid type).bytes := by
    simp only [bodyWriter, write, beginPacket_buffer, List.nil_append, List.length_nil]
    exact List.take_of_length_le (by rw [headerBytes_length]; decide)
  have hsent : (bodyWriter st xid type).st.sent = st.sent ++ pendingFlush st := by
    simp only [bodyWriter, write, beginPacket_sent]
  have hdest : (bodyWriter st xid type).st.udpDest = (mdnsMulticastIPAddr, MDNS_SERVER_PORT) := by
    simp only [bodyWriter, write, beginPacket_dest]
  rw [sendMDNSMessage_eq]
  refine ⟨rfl, body, ?_⟩
  simp only [endPacket, udpWrite, hs, hd, hsent, hdest, ← hb, hbuf]

theorem sends_refl (P : Datagram → Prop) (s : BonjourClass) (h : s._writeBuffer = []) :
    Sends P s s :=
  ⟨h, [], by simp, by simp⟩

theorem sends_trans {P : Datagram → Prop} {s1 s2 s3 : BonjourClass} (h1 : Sends P s1 s2)
    (h2 : Sends P s2 s3) : Sends P s1 s3 := by
  obtain ⟨_, d1, e1, p1⟩ := h1
  obtain ⟨b2, d2, e2, p2⟩ := h2
  refine ⟨b2, d1 ++ d2, by rw [e2, e1, List.append_assoc], ?_⟩
  intro d hd
  rcases List.mem_append.1 hd with h | h
  · exact p1 d h
  · exact p2 d h

theorem sends_of_eq {P : Datagram → Prop} {s1 s2 s3 : BonjourClass} (h : Sends P s1 s2)
    (hb : s3._writeBuffer = s2._writeBuffer) (hs : s3.sent = s2.sent) : Sends P s1 s3 := by
  obtain ⟨b, ds, e, p⟩ := h
  exact ⟨hb.trans b, ds, hs.trans e, p⟩

theorem sends_sendMDNSMessage (s st : BonjourClass) (peer : Option (List Nat)) (xid : Nat)
    (type : MDNSPacketType_t) (rec : Nat) (h : Sends (ToGroup xid) s st) :
    Sends (ToGroup xid) s (_sendMDNSMessage st peer xid type rec).1 := by
  apply sends_trans h
  obtain ⟨hb, body, hs⟩ := sendMDNSMessage_datagram st peer xid type rec
  have hp : pendingFlush st = [] := by simp [pendingFlush, h.1]
  refine ⟨hb, [(⟨mdnsMulticastIPAddr, MDNS_SERVER_PORT,
    (buildHeader xid type).bytes ++ body⟩ : Datagram)], by rw [hs, hp, List.append_nil], ?_⟩
  intro d hd
  rw [List.mem_singleton] at hd
  subst hd
  refine ⟨rfl, rfl, ?_⟩
  show ((buildHeader xid type).bytes ++ body).take 2 = be16 xid
  rw [List.take_append_of_le_length (by rw [headerBytes_length]; decide), headerBytes_take]

theorem emitted_of_sends {P : Datagram → Prop} {s1 s2 : BonjourClass} (h : Sends P s1 s2) :
    ∀ d ∈ emitted s1 s2, P d := by
  obtain ⟨_, ds, e, p⟩ := h
  intro d hd
  apply p
  simpa [emitted, e] using hd


/-! ## Responses and unsolicited messages -/

theorem sends_respondLoop (s : BonjourClass) (xid : Nat) (remoteIP : List Nat) :
    ∀ (n j : Nat) (asked : List Nat) (st : BonjourClass), Sends (ToGroup xid) s st →
      Sends (ToGroup xid) s (respondLoop xid remoteIP n j asked st) := by
  intro n
  induction n with
  | zero => intro j asked st h; exact h
  | succ n ih =>
    intro j asked st h
    rw [respondLoop]
    split
    · split
      · exact ih _ _ _ (sends_sendMDNSMessage s st _ xid _ _ h)
      · split
        · exact ih _ _ _ h
        · split
          · exact ih _ _ _ (sends_sendMDNSMessage s st _ xid _ _ h)
          · exact ih _ _ _ h
    · exact ih _ _ _ h

theorem sends_respond (st : BonjourClass) (asked : List Nat) (wants xid : Nat)
    (remoteIP : List Nat) (h : st._writeBuffer = []) :
    Sends (ToGroup xid) st (respond st asked wants xid remoteIP) := by
  have h1 := sends_respondLoop st xid remoteIP (NumMDNSServiceRecords + 2) 0 asked st
    (sends_refl _ st h)
  unfold respond
  dsimp only
  split
  · exact sends_sendMDNSMessage st _ _ xid _ _ h1
  · exact h1

theorem sends_my_malloc {P : Datagram → Prop} (s st : BonjourClass) (h : Sends P s st) :
    Sends P s (my_malloc st).2 := by
  unfold my_malloc
  split
  · exact h
  · exact sends_of_eq h rfl rfl

theorem sends_removeServiceRecord (s st : BonjourClass) (idx : Nat)
    (h : Sends (ToGroup 0) s st) : Sends (ToGroup 0) s (_removeServiceRecord st idx) := by
  unfold _removeServiceRecord
  split
  · exact h
  · exact sends_of_eq (sends_sendMDNSMessage s st none 0 _ idx h) rfl rfl

theorem sends_removeServiceRecordLoop (s : BonjourClass) (name : Option (List Nat)) (port : Nat)
    (proto : MDNSServiceProtocol_t) :
    ∀ (n i : Nat) (st : BonjourClass), Sends (ToGroup 0) s st →
      Sends (ToGroup 0) s (removeServiceRecordLoop name port proto n i st) := by
  intro n
  induction n with
  | zero => intro i st h; exact h
  | succ n ih =>
    intro i st h
    rw [removeServiceRecordLoop]
    split
    · exact sends_of_eq h rfl rfl
    · dsimp only
      split
      · exact sends_removeServiceRecord s st i h
      · exact ih _ _ h

theorem sends_removeAllLoop (s : BonjourClass) :
    ∀ (n i : Nat) (st : BonjourClass), Sends (ToGroup 0) s st →
      Sends (ToGroup 0) s (removeAllLoop n i st) := by
  intro n
  induction n with
  | zero => intro i st h; exact h
  | succ n ih =>
    intro i st h
    rw [removeAllLoop]
    exact ih _ _ (sends_removeServiceRecord s st i h)

theorem sends_announceLoop (s : BonjourClass) :
    ∀ (n i : Nat) (st : BonjourClass), Sends (ToGroup 0) s st →
      Sends (ToGroup 0) s (announceLoop n i st) := by
  intro n
  induction n with
  | zero => intro i st h; exact h
  | succ n ih =>
    intro i st h
    rw [announceLoop]
    split
    · exact ih _ _ h
    · exact ih _ _ (sends_sendMDNSMessage s st none 0 _ i h)

theorem sends_runAnnounce (st : BonjourClass) (now : Nat) (h : st._writeBuffer = []) :
    Sends (ToGroup 0) st (runAnnounce st now) := by
  unfold runAnnounce
  dsimp only
  split
  · exact sends_of_eq (sends_announceLoop st _ _ st (sends_refl _ st h)) rfl rfl
  · exact sends_refl _ st h

theorem sends_finishedResolvingName {P : Datagram → Prop} (s st : BonjourClass)
    (name ip : Option (List Nat)) (h : Sends P s st) :
    Sends P s (_finishedResolvingName st name ip) := by
  unfold _finishedResolvingName
  dsimp only
  split
  · exact sends_of_eq h rfl rfl
  · exact sends_of_eq h rfl rfl

theorem sends_resolverTail0 {P : Datagram → Prop} (s st : BonjourClass) (now : Nat)
    (h : Sends P s st) :
    Sends P s (if st._resolveTimeouts0 > 0 ∧ now > st._resolveTimeouts0 then
      { _finishedResolvingName st st._resolveNames0 none with _resolveNames0 := none }
      else st) := by
  split
  · exact sends_of_eq (sends_finishedResolvingName s st _ none h) rfl rfl
  · exact h

theorem sends_resolverTail1 {P : Datagram → Prop} (s st : BonjourClass) (now : Nat)
    (name : List Nat) (h : Sends P s st) :
    Sends P s (if st._resolveTimeouts1 > 0 ∧ now > st._resolveTimeouts1 then
      { (if st._serviceFoundCallback then
          { st with callbacks := st.callbacks ++
              [CallbackEvent.serviceFound (typeNameOf name) st._resolveServiceProto none none 0
                none] }
        else st) with _resolveNames1 := none }
      else st) := by
  split
  · split
    · exact sends_of_eq h rfl rfl
    · exact sends_of_eq h rfl rfl
  · exact h

theorem sends_runResolver0 (s st : BonjourClass) (now : Nat) (h : Sends (ToGroup 0) s st) :
    Sends (ToGroup 0) s (runResolver0 st now) := by
  unfold runResolver0
  split
  · exact h
  · apply sends_resolverTail0
    split
    · exact sends_sendMDNSMessage s st none 0 _ 0 h
    · exact h

theorem sends_runResolver1 (s st : BonjourClass) (now : Nat) (h : Sends (ToGroup 0) s st) :
    Sends (ToGroup 0) s (runResolver1 st now) := by
  unfold runResolver1
  split
  · exact h
  · apply sends_resolverTail1
    split
    · exact sends_sendMDNSMessage s st none 0 _ 0 h
    · exact h

theorem sends_runResolver (st : BonjourClass) (now : Nat) (h : st._writeBuffer = []) :
    Sends (ToGroup 0) st (runResolver st now) :=
  sends_runResolver1 st _ now (sends_runResolver0 st st now (sends_refl _ st h))

theorem sends_initQuery (s st : BonjourClass) (idx : Nat) (name : List Nat) (timeout : Nat)
    (h : Sends (ToGroup 0) s st) : Sends (ToGroup 0) s (_initQuery st idx name timeout).1 := by
  unfold _initQuery
  dsimp only
  by_cases hi : idx = 0
  · simp only [hi, if_true]
    split
    · refine sends_sendMDNSMessage s _ none 0 _ 0 ?_
      exact sends_of_eq h rfl rfl
    · exact h
  · simp only [hi, if_false]
    split
    · refine sends_sendMDNSMessage s _ none 0 _ 0 ?_
      exact sends_of_eq h rfl rfl
    · exact h

theorem sends_cancelQuery {P : Datagram → Prop} (s st : BonjourClass) (idx : Nat)
    (h : Sends P s st) : Sends P s (_cancelQuery st idx) := by
  unfold _cancelQuery
  split
  · exact sends_of_eq h rfl rfl
  · exact sends_of_eq h rfl rfl

theorem sends_resolveName (st : BonjourClass) (name : List Nat) (timeout : Nat)
    (h : st._writeBuffer = []) : Sends (ToGroup 0) st (resolveName st name timeout).1 := by
  have h1 := sends_my_malloc st _ (sends_cancelQuery st st 0 (sends_refl (ToGroup 0) st h))
  unfold resolveName
  dsimp only
  rcases hm : my_malloc (_cancelQuery st 0) with ⟨ok, st1⟩
  rw [hm] at h1
  dsimp only at h1 ⊢
  split
  · exact h1
  · exact sends_initQuery st st1 0 _ timeout h1

theorem sends_startDiscoveringService (st : BonjourClass) (serviceName : List Nat)
    (proto : MDNSServiceProtocol_t) (timeout : Nat) (h : st._writeBuffer = []) :
    Sends (ToGroup 0) st (startDiscoveringService st serviceName proto timeout).1 := by
  have h1 := sends_my_malloc st _ (sends_cancelQuery st st 1 (sends_refl (ToGroup 0) st h))
  unfold startDiscoveringService
  dsimp only
  rcases hm : my_malloc (_cancelQuery st 1) with ⟨ok, st1⟩
  rw [hm] at h1
  dsimp only at h1 ⊢
  split
  · exact h1
  · refine sends_initQuery st _ 1 _ timeout ?_
    exact sends_of_eq h1 rfl rfl

theorem sends_addTail (s st3 : BonjourClass) (ok3 : Bool) (i : Nat) (name : List Nat)
    (port : Nat) (proto : MDNSServiceProtocol_t) (text : Option (List Nat))
    (h3 : Sends (ToGroup 0) s st3) :
    Sends (ToGroup 0) s
      (if (!ok3) = true then (st3, 0)
       else
        ((_sendMDNSMessage
            (setRecord (my_malloc st3).2 i
              (some
                { port := port, proto := proto, name := List.take (strlen name) name,
                  servName :=
                    if (my_malloc st3).1 = true then
                      match _postfixForProtocol proto with
                      | some srv_type =>
                        some
                          (List.take (strlen (_findFirstDotFromRight (List.take (strlen name) name)))
                              (_findFirstDotFromRight (List.take (strlen name) name)) ++
                            srv_type)
                      | none =>
                        some
                          (List.take (strlen (_findFirstDotFromRight (List.take (strlen name) name)))
                            (_findFirstDotFromRight (List.take (strlen name) name)))
                    else none,
                  textContent := text }))
            none 0 MDNSPacketType_t.MDNSPacketTypeServiceRecord i).1,
          (if (_sendMDNSMessage
            (setRecord (my_malloc st3).2 i
              (some
                { port := port, proto := proto, name := List.take (strlen name) name,
                  servName :=
                    if (my_malloc st3).1 = true then
                      match _postfixForProtocol proto with
                      | some srv_type =>
                        some
                          (List.take (strlen (_findFirstDotFromRight (List.take (strlen name) name)))
                              (_findFirstDotFromRight (List.take (strlen name) name)) ++
                            srv_type)
                      | none =>
                        some
                          (List.take (strlen (_findFirstDotFromRight (List.take (strlen name) name)))
                            (_findFirstDotFromRight (List.take (strlen name) name)))
                    else none,
                  textContent := text }))
            none 0 MDNSPacketType_t.MDNSPacketTypeServiceRecord i).2 = MDNSError_t.MDNSSuccess
           then 1 else 0))).1 := by
  by_cases hok : (!ok3) = true
  · rw [if_pos hok]; exact h3
  · rw [if_neg hok]
    refine sends_sendMDNSMessage s _ none 0 _ i ?_
    exact sends_of_eq (sends_my_malloc s st3 h3) rfl rfl

theorem sends_addServiceRecordAt (s st : BonjourClass) (i : Nat) (name : List Nat) (port : Nat)
    (proto : MDNSServiceProtocol_t) (txt : Option (List Nat)) (h : Sends (ToGroup 0) s st) :
    Sends (ToGroup 0) s (addServiceRecordAt st i name port proto txt).1 := by
  unfold addServiceRecordAt
  have h1 := sends_my_malloc s st h
  rcases hm1 : my_malloc st with ⟨ok1, st1⟩
  rw [hm1] at h1
  dsimp only at h1 ⊢
  split
  · exact h1
  · have h2 := sends_my_malloc s st1 h1
    rcases hm2 : my_malloc st1 with ⟨ok2, st2⟩
    rw [hm2] at h2
    dsimp only at h2 ⊢
    split
    · exact h2
    · cases txt with
      | none =>
        simp only [Bool.false_eq_true, if_false]
        exact sends_addTail s st2 true i name port proto _ h2
      | some t =>
        by_cases ht : cHead t = 0
        · simp only [ht, ne_eq, not_true_eq_false, decide_False, Bool.false_eq_true, if_false]
          exact sends_addTail s st2 true i name port proto _ h2
        · simp only [ht, ne_eq, not_false_eq_true, decide_True, if_true]
          exact sends_addTail s (my_malloc st2).2 (my_malloc st2).1 i name port proto _
            (sends_my_malloc s st2 h2)

theorem sends_addServiceRecord (st : BonjourClass) (name : Option (List Nat)) (port : Nat)
    (proto : MDNSServiceProtocol_t) (txt : Option (List Nat)) (h : st._writeBuffer = []) :
    Sends (ToGroup 0) st (addServiceRecord st name port proto txt).1 := by
  unfold addServiceRecord
  split
  · exact sends_refl _ st h
  · split
    · exact sends_refl _ st h
    · split
      · exact sends_refl _ st h
      · exact sends_addServiceRecordAt st st _ _ _ _ _ (sends_refl _ st h)


/-! ## Claims on the destination and the XID of emitted datagrams -/

/-- C5 (amended): for every inbound query datagram, whatever its source
endpoint, each response datagram the responder emits is addressed to the
multicast group 224.0.0.251, port 5353 (the engine has no bytes pending in
its send buffer when the query arrives). -/
theorem C5_responses_to_group (st : BonjourClass) (pkt remoteIP : List Nat)
    (hempty : st._writeBuffer = []) (d : Datagram)
    (hd : d ∈ emitted st (processQuestions st pkt remoteIP)) :
    d.ip = mdnsMulticastIPAddr ∧ d.port = MDNS_SERVER_PORT := by
  have h := emitted_of_sends
    (sends_respond st (questionWalk st pkt (packetQCnt pkt) WalkState.start).recordsAskedFor
      (questionWalk st pkt (packetQCnt pkt) WalkState.start).wantsIPv6Addr (packetXid pkt)
      remoteIP hempty) d hd
  exact ⟨h.1, h.2.1⟩

/-- Witness for C5: the host A-query for `spark.local` from 192.168.1.20 is
answered by one datagram, to 224.0.0.251:5353. -/
theorem C5_responses_to_group_witness :
    emitted sparkState (processQuestions sparkState scenario1Query peerIP)
      = [⟨[224, 0, 0, 251], 5353,
          [0x12, 0x34, 0x84, 0, 0, 0, 0, 1, 0, 0, 0, 0,
           5, 0x73, 0x70, 0x61, 0x72, 0x6b, 5, 0x6c, 0x6f, 0x63, 0x61, 0x6c, 0,
           0, 1, 0x80, 1, 0, 0, 0, 120, 0, 4, 192, 168, 1, 10]⟩] ∧
    (⟨[224, 0, 0, 251], 5353,
          [0x12, 0x34, 0x84, 0, 0, 0, 0, 1, 0, 0, 0, 0,
           5, 0x73, 0x70, 0x61, 0x72, 0x6b, 5, 0x6c, 0x6f, 0x63, 0x61, 0x6c, 0,
           0, 1, 0x80, 1, 0, 0, 0, 120, 0, 4, 192, 168, 1, 10]⟩ : Datagram).ip
      = mdnsMulticastIPAddr :=
  ⟨by decide,
   (C5_responses_to_group sparkState scenario1Query peerIP rfl _ (by decide)).1⟩

/-- C5 as stated fails: the host A-query for `spark.local` arrives from
192.168.1.20 and is recognised; the one response datagram is addressed to
224.0.0.251, not to the source of the query. -/
theorem C5_counterexample :
    (questionWalk sparkState scenario1Query (packetQCnt scenario1Query)
        WalkState.start).recordsAskedFor.getD 0 0 = 1 ∧
    (emitted sparkState (processQuestions sparkState scenario1Query peerIP)).map Datagram.ip
      = [[224, 0, 0, 251]] ∧
    [224, 0, 0, 251] ≠ peerIP := by
  decide

/-- C6: from a state with no bytes pending in the send buffer, every datagram
emitted in response to an inbound query carries in its first two bytes the
16-bit XID of that query, big-endian; and every unsolicited datagram carries
XID 0: the announcement of `addServiceRecord`, the periodic re-announcement of
`run`, the goodbye of `_removeServiceRecord`, `removeServiceRecord` and
`removeAllServiceRecords`, the question of `resolveName` and
`startDiscoveringService` and its resending by `run`. -/
theorem C6_xid (st : BonjourClass) (hempty : st._writeBuffer = []) :
    (∀ (pkt remoteIP : List Nat), ∀ d ∈ emitted st (processQuestions st pkt remoteIP),
      d.data.take 2 = be16 (packetXid pkt)) ∧
    (∀ (name : Option (List Nat)) (port : Nat) (proto : MDNSServiceProtocol_t)
        (txt : Option (List Nat)),
      ∀ d ∈ emitted st (addServiceRecord st name port proto txt).1, d.data.take 2 = [0, 0]) ∧
    (∀ (now : Nat), ∀ d ∈ emitted st (runAnnounce st now), d.data.take 2 = [0, 0]) ∧
    (∀ (idx : Nat), ∀ d ∈ emitted st (_removeServiceRecord st idx), d.data.take 2 = [0, 0]) ∧
    (∀ (name : Option (List Nat)) (port : Nat) (proto : MDNSServiceProtocol_t),
      ∀ d ∈ emitted st (removeServiceRecord st name port proto), d.data.take 2 = [0, 0]) ∧
    (∀ d ∈ emitted st (removeAllServiceRecords st), d.data.take 2 = [0, 0]) ∧
    (∀ (name : List Nat) (timeout : Nat),
      ∀ d ∈ emitted st (resolveName st name timeout).1, d.data.take 2 = [0, 0]) ∧
    (∀ (name : List Nat) (proto : MDNSServiceProtocol_t) (timeout : Nat),
      ∀ d ∈ emitted st (startDiscoveringService st name proto timeout).1,
        d.data.take 2 = [0, 0]) ∧
    (∀ (now : Nat), ∀ d ∈ emitted st (runResolver st now), d.data.take 2 = [0, 0]) := by
  have h0 := sends_refl (ToGroup 0) st hempty
  refine ⟨?_, ?_, ?_, ?_, ?_, ?_, ?_, ?_, ?_⟩
  · intro pkt remoteIP d hd
    exact (emitted_of_sends (sends_respond st _ _ (packetXid pkt) remoteIP hempty) d hd).2.2
  · intro name port proto txt d hd
    exact (emitted_of_sends (sends_addServiceRecord st name port proto txt hempty) d hd).2.2
  · intro now d hd
    exact (emitted_of_sends (sends_runAnnounce st now hempty) d hd).2.2
  · intro idx d hd
    exact (emitted_of_sends (sends_removeServiceRecord st st idx h0) d hd).2.2
  · intro name port proto d hd
    exact (emitted_of_sends (sends_removeServiceRecordLoop st name port proto _ _ st h0) d hd).2.2
  · intro d hd
    exact (emitted_of_sends (sends_removeAllLoop st _ _ st h0) d hd).2.2
  · intro name timeout d hd
    exact (emitted_of_sends (sends_resolveName st name timeout hempty) d hd).2.2
  · intro name proto timeout d hd
    exact (emitted_of_sends (sends_startDiscoveringService st name proto timeout hempty) d hd).2.2
  · intro now d hd
    exact (emitted_of_sends (sends_runResolver st now hempty) d hd).2.2

/-- Witness for C6: the response to the host A-query with XID 0x1234 starts
with `12 34`; the announcement of a service added to the engine starts with
`00 00`. -/
theorem C6_xid_witness :
    (∀ d ∈ emitted sparkState (processQuestions sparkState scenario1Query peerIP),
      d.data.take 2 = [0x12, 0x34]) ∧
    (emitted sparkState (processQuestions sparkState scenario1Query peerIP)).length = 1 ∧
    (∀ d ∈ emitted sparkState (addServiceRecord sparkState (some (ascii "My Web._http")) 80
        MDNSServiceProtocol_t.MDNSServiceTCP (some (ascii "path=/"))).1,
      d.data.take 2 = [0, 0]) ∧
    (emitted sparkState (addServiceRecord sparkState (some (ascii "My Web._http")) 80
        MDNSServiceProtocol_t.MDNSServiceTCP (some (ascii "path=/"))).1).length = 1 :=
  ⟨(C6_xid sparkState rfl).1 scenario1Query peerIP, by decide,
   (C6_xid sparkState rfl).2.1 _ _ _ _, by decide⟩


/-! ## Framing of the emitted datagrams as DNS messages -/

theorem skipName_labels :
    ∀ (ls : List (List Nat)) (fuel : Nat) (rest : List Nat),
      (∀ l ∈ ls, l ≠ [] ∧ l.length ≤ 63) → ls.length < fuel →
      skipName fuel (emittedLabels ls ++ 0 :: rest) = some rest := by
  intro ls
  induction ls with
  | nil =>
    intro fuel rest _ hf
    cases fuel with
    | zero => simp at hf
    | succ fuel => simp [emittedLabels, skipName]
  | cons l ls ih =>
    intro fuel rest hl hf
    cases fuel with
    | zero => simp at hf
    | succ fuel =>
      have h1 := hl l (List.mem_cons_self _ _)
      have hpos : 0 < l.length := List.length_pos.mpr h1.1
      have hmod : l.length % 256 = l.length := Nat.mod_eq_of_lt (by omega)
      have hcons : emittedLabels (l :: ls) ++ 0 :: rest
          = l.length :: (l ++ (emittedLabels ls ++ 0 :: rest)) := by
        simp [emittedLabels, hmod]
      rw [hcons]
      simp only [skipName]
      rw [if_neg (by omega), if_neg (by omega), if_neg (by omega),
        if_neg (by simp only [List.length_append]; omega), List.drop_left]
      exact ih fuel rest (fun x hx => hl x (List.mem_cons_of_mem _ hx))
        (by simp at hf; omega)

/-- Skipping an encoded, zero-terminated name of labels of 1 to 63 bytes
leaves what follows it. -/
theorem skipName_emittedName (name rest : List Nat) (fuel : Nat) (hwf : WellFormedName 63 name)
    (hf : name.length + 1 < fuel) :
    skipName fuel (emittedName name 1 ++ rest) = some rest := by
  have := skipName_labels (splitLabels name) fuel rest hwf.2
    (by have := splitLabels_length_le name; omega)
  rw [← this]
  simp [emittedName]

theorem queryHeader_bytes (xid : Nat) (type : MDNSPacketType_t)
    (htype : type = MDNSPacketType_t.MDNSPacketTypeNameQuery ∨
      type = MDNSPacketType_t.MDNSPacketTypeServiceQuery) :
    (buildHeader xid type).bytes = be16 xid ++ [0x00, 0x00, 0, 1, 0, 0, 0, 0, 0, 0] := by
  rcases htype with h | h <;> subst h <;>
    simp [buildHeader, DNSHeader_t.bytes, DNSHeader_t.zero, be16, DNSOpQuery]

/-- A question followed by `junk`, behind a header with the counts
(1, 0, 0, 0): the parse leaves `junk` over. -/
theorem dnsLeftover_question (x0 x1 f0 f1 t0 t1 c0 c1 : Nat) (name junk : List Nat)
    (hwf : WellFormedName 63 name) :
    headerCounts ([x0, x1, f0, f1, 0, 1, 0, 0, 0, 0, 0, 0] ++
      (emittedName name 1 ++ ([t0, t1, c0, c1] ++ junk))) = (1, 0, 0, 0) ∧
    dnsLeftover ([x0, x1, f0, f1, 0, 1, 0, 0, 0, 0, 0, 0] ++
      (emittedName name 1 ++ ([t0, t1, c0, c1] ++ junk))) = some junk.length := by
  constructor
  · simp [headerCounts]
  · have hlen := emittedName_length name 1
    have hs := skipName_emittedName name ([t0, t1, c0, c1] ++ junk)
      ((emittedName name 1 ++ ([t0, t1, c0, c1] ++ junk)).length + 1) hwf
      (by simp only [List.length_append, hlen]; omega)
    have hq : skipQuestion (emittedName name 1 ++ ([t0, t1, c0, c1] ++ junk)) = some junk := by
      simp only [skipQuestion, hs, Option.some_bind]
      simp
    have hdrop : ([x0, x1, f0, f1, 0, 1, 0, 0, 0, 0, 0, 0] ++
        (emittedName name 1 ++ ([t0, t1, c0, c1] ++ junk))).drop 12
        = emittedName name 1 ++ ([t0, t1, c0, c1] ++ junk) := rfl
    have hc : headerCounts ([x0, x1, f0, f1, 0, 1, 0, 0, 0, 0, 0, 0] ++
        (emittedName name 1 ++ ([t0, t1, c0, c1] ++ junk))) = (1, 0, 0, 0) := by
      simp [headerCounts]
    have h1 : skipMany skipQuestion 1 (emittedName name 1 ++ ([t0, t1, c0, c1] ++ junk))
        = some junk := by
      show (skipQuestion _).bind (skipMany skipQuestion 0) = some junk
      rw [hq]; rfl
    unfold dnsLeftover
    rw [if_neg (by simp)]
    dsimp only
    rw [hc, hdrop]
    dsimp only
    rw [h1]
    rfl

/-- For every active resolver slot whose name is made of non-empty labels of at
most 63 bytes and fits the send buffer, the NameQuery (resp. ServiceQuery)
datagram has the header counts (1, 0, 0, 0) and, parsed as a DNS message (one
question, no resource records), leaves exactly eight bytes over behind the
question. -/
theorem framing_query (st : BonjourClass) (peer : Option (List Nat)) (xid rec : Nat)
    (type : MDNSPacketType_t) (name : List Nat)
    (htype : type = MDNSPacketType_t.MDNSPacketTypeNameQuery ∨
      type = MDNSPacketType_t.MDNSPacketTypeServiceQuery)
    (hname : (if type = MDNSPacketType_t.MDNSPacketTypeServiceQuery then st._resolveNames1
      else st._resolveNames0) = some name)
    (hwf : WellFormedName 63 name)
    (hfit : sizeofDNSHeader + (name.length + 2) + 12 ≤ sizeofWriteBuffer) :
    ∃ d : Datagram,
      (_sendMDNSMessage st peer xid type rec).1.sent = st.sent ++ pendingFlush st ++ [d] ∧
      headerCounts d.data = (1, 0, 0, 0) ∧ dnsLeftover d.data = some 8 := by
  obtain ⟨junk, hj, hs⟩ := sendQuery_sent st peer xid rec type name htype hname
    (nonEmpty_of_wellFormed hwf)
  have hlen := emittedName_length name 1
  simp only [ne_eq, one_ne_zero, not_false_eq_true, if_true] at hlen
  rw [List.take_of_length_le (by
    simp only [List.length_append, headerBytes_length, hlen, hj, List.length_cons,
      List.length_nil]
    simp only [sizeofDNSHeader, sizeofWriteBuffer] at hfit ⊢
    omega)] at hs
  rw [queryHeader_bytes xid type htype] at hs
  refine ⟨_, hs, ?_⟩
  have h := dnsLeftover_question ((xid % 65536) / 256) (xid % 256) 0 0 0x00
    (if type = MDNSPacketType_t.MDNSPacketTypeServiceQuery then 0x0c else 0x01) 0x00 0x01
    name junk hwf
  rw [hj] at h
  exact h


/-! ## Framing of the answer messages -/

theorem emittedLabels_append (a b : List (List Nat)) :
    emittedLabels (a ++ b) = emittedLabels a ++ emittedLabels b := by
  induction a with
  | nil => rfl
  | cons l a ih => simp [emittedLabels, ih]

theorem emittedLabels_length_ge (ls : List (List Nat)) :
    ls.length ≤ (emittedLabels ls).length := by
  induction ls with
  | nil => simp
  | cons l ls ih => simp [emittedLabels]; omega

/-- Skipping a resource record whose owner name is a list of labels of 1 to 63
bytes, with eight bytes of TYPE, CLASS and TTL, an RDLENGTH of `n` and `n`
bytes of RDATA, leaves what follows the record. -/
theorem skipRecord_labels (ls : List (List Nat)) (hl : ∀ l ∈ ls, l ≠ [] ∧ l.length ≤ 63)
    (a b c d e f g h n : Nat) (rdata rest : List Nat) (hn : rdata.length = n)
    (hn2 : n < 65536) :
    skipRecord (emittedLabels ls ++ 0 :: a :: b :: c :: d :: e :: f :: g :: h ::
      (n % 65536 / 256) :: (n % 256) :: (rdata ++ rest)) = some rest := by
  have hs := skipName_labels ls
    ((emittedLabels ls ++ 0 :: a :: b :: c :: d :: e :: f :: g :: h ::
      (n % 65536 / 256) :: (n % 256) :: (rdata ++ rest)).length + 1)
    (a :: b :: c :: d :: e :: f :: g :: h :: (n % 65536 / 256) :: (n % 256) :: (rdata ++ rest))
    hl (by have := emittedLabels_length_ge ls; simp only [List.length_append]; omega)
  unfold skipRecord
  rw [hs]
  have hval : n % 65536 / 256 * 256 + n % 256 = n := by omega
  simp only [Option.some_bind, List.length_cons, List.length_append, List.getD_cons_succ,
    List.getD_cons_zero, hval, List.drop_succ_cons, List.drop_zero]
  rw [if_neg (by omega), if_neg (by omega), ← hn, List.drop_left]

theorem skipRecord_ipAnswer (host ip rest : List Nat) (hwf : WellFormedName 63 host) :
    skipRecord (ipAnswerBytes host ip ++ rest) = some rest := by
  have h := skipRecord_labels (splitLabels host) hwf.2 0x00 0x01 0x80 0x01 0 0 0 120 4
    [ip.getD 0 0, ip.getD 1 0, ip.getD 2 0, ip.getD 3 0] rest rfl (by decide)
  rw [← h]
  simp [ipAnswerBytes, emittedName, be32, be16, MDNS_RESPONSE_TTL]

theorem protoLabels_bound (proto : MDNSServiceProtocol_t) :
    ∀ l ∈ splitLabels ((_postfixForProtocol proto).getD []).tail, l ≠ [] ∧ l.length ≤ 63 := by
  cases proto <;> decide

theorem serviceNameBytes_zero (r : MDNSServiceRecord_t) :
    serviceNameBytes r 0
      = emittedLabels (splitLabels r.name ++
          splitLabels ((_postfixForProtocol r.proto).getD []).tail) ++ [0] := by
  simp [serviceNameBytes, emittedName, emittedLabels_append]

theorem serviceLabels_bound (r : MDNSServiceRecord_t) (hname : WellFormedName 63 r.name) :
    ∀ l ∈ splitLabels r.name ++ splitLabels ((_postfixForProtocol r.proto).getD []).tail,
      l ≠ [] ∧ l.length ≤ 63 := by
  intro l hl
  rcases List.mem_append.1 hl with h | h
  · exact hname.2 l h
  · exact protoLabels_bound r.proto l h

theorem skipRecord_servicePTR (r : MDNSServiceRecord_t) (sn : List Nat) (ttl : Nat)
    (rest : List Nat) (hname : WellFormedName 63 r.name) (hsn : r.servName = some sn)
    (hsnwf : WellFormedName 63 sn) (hsmall : r.name.length + 13 < 65536) :
    skipRecord (servicePTRBytes r ttl ++ rest) = some rest := by
  have hlen : strlen r.name = r.name.length := strlen_eq_length _ hname.1
  have h := skipRecord_labels (splitLabels sn) hsnwf.2 0x00 0x0c 0x00 0x01
    (ttl % 4294967296 / 16777216) (ttl / 65536 % 256) (ttl / 256 % 256) (ttl % 256)
    (strlen r.name + 13) (serviceNameBytes r 0) rest
    (by rw [serviceNameBytes_length_zero, hlen]) (by omega)
  rw [← h]
  simp [servicePTRBytes, serviceNameBytes, hsn, emittedName, be32, be16]

theorem skipRecord_srv (r : MDNSServiceRecord_t) (host rest : List Nat)
    (hname : WellFormedName 63 r.name) (hwf : WellFormedName 63 host)
    (hsmall : 8 + host.length < 65536) :
    skipRecord (srvRecordBytes r host ++ rest) = some rest := by
  have hlen : strlen host = host.length := strlen_eq_length _ hwf.1
  have h := skipRecord_labels _ (serviceLabels_bound r hname) 0x00 0x21 0x80 0x01 0 0 0 120
    (8 + strlen host) ([0, 0, 0, 0] ++ be16 r.port ++ emittedName host 1) rest
    (by simp [emittedName_length, be16, hlen]; omega) (by omega)
  rw [← h]
  simp [srvRecordBytes, serviceNameBytes_zero, be32, be16, MDNS_RESPONSE_TTL]

theorem strlen_le_length (s : List Nat) : strlen s ≤ s.length := by
  induction s with
  | nil => simp [strlen]
  | cons b s ih =>
    simp only [strlen]
    split
    · simp
    · simp; omega

theorem skipRecord_txt (r : MDNSServiceRecord_t) (rest : List Nat)
    (hname : WellFormedName 63 r.name)
    (hsmall : ∀ txt, r.textContent = some txt → strlen txt < 65536) :
    skipRecord (txtRecordBytes r ++ rest) = some rest := by
  cases htxt : r.textContent with
  | none =>
    have h := skipRecord_labels _ (serviceLabels_bound r hname) 0x00 0x10 0x80 0x01 0 0 0 120
      1 [0] rest rfl (by decide)
    rw [← h]
    simp [txtRecordBytes, txtBytes, htxt, serviceNameBytes_zero, be32, MDNS_RESPONSE_TTL]
  | some txt =>
    have h := skipRecord_labels _ (serviceLabels_bound r hname) 0x00 0x10 0x80 0x01 0 0 0 120
      (strlen txt) (txt.take (strlen txt)) rest
      (by rw [List.length_take]; have := strlen_le_length txt; omega) (hsmall txt htxt)
    rw [← h]
    simp [txtRecordBytes, txtBytes, htxt, serviceNameBytes_zero, be32, be16, MDNS_RESPONSE_TTL]

theorem wellFormed_DNS_SD : WellFormedName 63 DNS_SD_SERVICE := by decide

theorem skipRecord_metaPTR (r : MDNSServiceRecord_t) (sn rest : List Nat)
    (hsn : r.servName = some sn) (hsnwf : WellFormedName 63 sn)
    (hsmall : sn.length + 2 < 65536) :
    skipRecord (metaPTRBytes r ++ rest) = some rest := by
  have hlen : strlen sn = sn.length := strlen_eq_length _ hsnwf.1
  have h := skipRecord_labels (splitLabels DNS_SD_SERVICE) wellFormed_DNS_SD.2
    0x00 0x0c 0x00 0x01 0 0 0 120
    ((strlen sn + 2) % 65536) (serviceNameBytes r 1) rest
    (by rw [serviceNameBytes_length_one r sn hsn, hlen, Nat.mod_eq_of_lt hsmall])
    (Nat.mod_lt _ (by decide))
  rw [← h]
  simp [metaPTRBytes, emittedName, hsn, be32, be16, MDNS_RESPONSE_TTL]

theorem wrote_writeNoIPv6Body (w : Writer) (host : List Nat) (hwf : NonEmptyLabels host)
    (hb : w.buf.length = sizeofDNSHeader) (hhost : w.st._bonjourName = some host) :
    Wrote w (writeNoIPv6Body w)
      (emittedName host 1 ++ [0x00, 0x1c, 0x00, 0x01] ++ ipAnswerBytes host w.st.localIP) := by
  unfold writeNoIPv6Body
  simp only [hhost]
  have h1 := wrote_writeDNSName w host 1 hwf hb
  have h2 : Wrote (_writeDNSName w host sizeofDNSHeader 1)
      (Writer.emit (((((_writeDNSName w host sizeofDNSHeader 1).store 0 [0x00]).store 2
        [0x00]).store 1 [0x1c]).store 3 [0x01]) 4) [0x00, 0x1c, 0x00, 0x01] := by
    constructor
    · simp only [Writer.emit, Writer.store, poke_query _ _ h1.2]
      rfl
    · simp only [Writer.emit, Writer.store, poke_length]
      exact h1.2
  have h12 := wrote_trans h1 h2
  have h3 := wrote_writeMyIPAnswerRecord _ host hwf h2.2
    (by rw [wrote_bonjourName h12]; exact hhost)
  rw [wrote_localIP h12] at h3
  exact wrote_trans h12 h3

/-- The MyIPAnswer datagram. -/
theorem sendMyIPAnswer_sent (st : BonjourClass) (peer : Option (List Nat)) (xid rec : Nat)
    (host : List Nat) (hhost : st._bonjourName = some host) (hwf : NonEmptyLabels host) :
    (_sendMDNSMessage st peer xid MDNSPacketType_t.MDNSPacketTypeMyIPAnswer rec).1.sent
      = st.sent ++ pendingFlush st ++
        [{ ip := mdnsMulticastIPAddr, port := MDNS_SERVER_PORT,
           data := ((buildHeader xid MDNSPacketType_t.MDNSPacketTypeMyIPAnswer).bytes ++
             ipAnswerBytes host st.localIP).take sizeofWriteBuffer }] := by
  have hw := wrote_writeMyIPAnswerRecord
    (bodyWriter st xid MDNSPacketType_t.MDNSPacketTypeMyIPAnswer) host hwf rfl
    (by rw [bodyWriter_bonjourName]; exact hhost)
  rw [bodyWriter_localIP] at hw
  exact sendMDNSMessage_sent_of_wrote st peer xid _ rec _ hw

/-- The NoIPv6AddrAvailable datagram. -/
theorem sendNoIPv6_sent (st : BonjourClass) (peer : Option (List Nat)) (xid rec : Nat)
    (host : List Nat) (hhost : st._bonjourName = some host) (hwf : NonEmptyLabels host) :
    (_sendMDNSMessage st peer xid MDNSPacketType_t.MDNSPacketTypeNoIPv6AddrAvailable rec).1.sent
      = st.sent ++ pendingFlush st ++
        [{ ip := mdnsMulticastIPAddr, port := MDNS_SERVER_PORT,
           data := ((buildHeader xid MDNSPacketType_t.MDNSPacketTypeNoIPv6AddrAvailable).bytes ++
             (emittedName host 1 ++ [0x00, 0x1c, 0x00, 0x01] ++
               ipAnswerBytes host st.localIP)).take sizeofWriteBuffer }] := by
  have hw := wrote_writeNoIPv6Body
    (bodyWriter st xid MDNSPacketType_t.MDNSPacketTypeNoIPv6AddrAvailable) host hwf rfl
    (by rw [bodyWriter_bonjourName]; exact hhost)
  rw [bodyWriter_localIP] at hw
  exact sendMDNSMessage_sent_of_wrote st peer xid _ rec _ hw

/-- The parse of a datagram with an explicit header. -/
theorem dnsLeftover_eq (x0 x1 f0 f1 q0 q1 a0 a1 n0 n1 r0 r1 : Nat) (body : List Nat) :
    headerCounts (x0 :: x1 :: f0 :: f1 :: q0 :: q1 :: a0 :: a1 :: n0 :: n1 :: r0 :: r1 :: body)
      = (q0 * 256 + q1, a0 * 256 + a1, n0 * 256 + n1, r0 * 256 + r1) ∧
    dnsLeftover (x0 :: x1 :: f0 :: f1 :: q0 :: q1 :: a0 :: a1 :: n0 :: n1 :: r0 :: r1 :: body)
      = ((skipMany skipQuestion (q0 * 256 + q1) body).bind
          (skipMany skipRecord (a0 * 256 + a1 + (n0 * 256 + n1) + (r0 * 256 + r1)))).map
            List.length := by
  have hc : headerCounts
      (x0 :: x1 :: f0 :: f1 :: q0 :: q1 :: a0 :: a1 :: n0 :: n1 :: r0 :: r1 :: body)
      = (q0 * 256 + q1, a0 * 256 + a1, n0 * 256 + n1, r0 * 256 + r1) := rfl
  refine ⟨hc, ?_⟩
  unfold dnsLeftover
  rw [if_neg (by simp)]
  dsimp only
  rw [hc]
  rfl

theorem answerHeader_bytes (xid : Nat) :
    (buildHeader xid MDNSPacketType_t.MDNSPacketTypeMyIPAnswer).bytes
      = be16 xid ++ [0x84, 0x00, 0, 0, 0, 1, 0, 0, 0, 0] ∧
    (buildHeader xid MDNSPacketType_t.MDNSPacketTypeServiceRecordRelease).bytes
      = be16 xid ++ [0x84, 0x00, 0, 0, 0, 1, 0, 0, 0, 0] ∧
    (buildHeader xid MDNSPacketType_t.MDNSPacketTypeServiceRecord).bytes
      = be16 xid ++ [0x84, 0x00, 0, 0, 0, 4, 0, 0, 0, 1] ∧
    (buildHeader xid MDNSPacketType_t.MDNSPacketTypeNoIPv6AddrAvailable).bytes
      = be16 xid ++ [0x84, 0x03, 0, 1, 0, 0, 0, 0, 0, 1] := by
  refine ⟨?_, ?_, ?_, ?_⟩ <;>
    simp [buildHeader, DNSHeader_t.bytes, DNSHeader_t.zero, be16, DNSOpQuery]

theorem skipMany_step (f : List Nat → Option (List Nat)) (n : Nat) (b rest : List Nat)
    (h : f b = some rest) : skipMany f (n + 1) b = skipMany f n rest := by
  simp [skipMany, h]

/-- A datagram of `q` questions and `a + r` records behind a header with the
counts (q, a, 0, r), for counts below 256. -/
theorem dnsLeftover_counts (xid f0 f1 q a r : Nat) (body mid : List Nat)
    (hq : skipMany skipQuestion q body = some mid)
    (hr : skipMany skipRecord (a + r) mid = some []) :
    headerCounts (be16 xid ++ [f0, f1, 0, q, 0, a, 0, 0, 0, r] ++ body) = (q, a, 0, r) ∧
    dnsLeftover (be16 xid ++ [f0, f1, 0, q, 0, a, 0, 0, 0, r] ++ body) = some 0 := by
  have h := dnsLeftover_eq (xid % 65536 / 256) (xid % 256) f0 f1 0 q 0 a 0 0 0 r body
  simp only [Nat.zero_mul, Nat.zero_add, Nat.add_zero] at h
  have e : be16 xid ++ [f0, f1, 0, q, 0, a, 0, 0, 0, r] ++ body
      = (xid % 65536 / 256) :: (xid % 256) :: f0 :: f1 :: 0 :: q :: 0 :: a :: 0 :: 0 :: 0 :: r ::
        body := rfl
  rw [e]
  refine ⟨h.1, ?_⟩
  rw [h.2, hq]
  simp only [Option.some_bind, hr, Option.map_some', List.length_nil]

/-- A MyIPAnswer datagram that fits the send buffer, for a host identity of
labels of 1 to 63 bytes, carries the counts (0, 1, 0, 0) and parses as a DNS
message with no bytes left over. -/
theorem framing_myIPAnswer (st : BonjourClass) (peer : Option (List Nat)) (xid rec : Nat)
    (host : List Nat) (hhost : st._bonjourName = some host) (hwf : WellFormedName 63 host)
    (hfit : sizeofDNSHeader + (ipAnswerBytes host st.localIP).length ≤ sizeofWriteBuffer) :
    ∃ d : Datagram,
      (_sendMDNSMessage st peer xid MDNSPacketType_t.MDNSPacketTypeMyIPAnswer rec).1.sent
        = st.sent ++ pendingFlush st ++ [d] ∧
      headerCounts d.data = (0, 1, 0, 0) ∧ dnsLeftover d.data = some 0 := by
  have hs := sendMyIPAnswer_sent st peer xid rec host hhost (nonEmpty_of_wellFormed hwf)
  rw [List.take_of_length_le (by simpa [headerBytes_length] using hfit),
    (answerHeader_bytes xid).1] at hs
  refine ⟨_, hs, ?_⟩
  apply dnsLeftover_counts xid 0x84 0x00 0 1 0 _ _ rfl
  have h1 := skipRecord_ipAnswer host st.localIP [] hwf
  rw [List.append_nil] at h1
  rw [skipMany_step _ 0 _ _ h1]
  rfl

/-- A NoIPv6AddrAvailable datagram that fits the send buffer, for a host
identity of labels of 1 to 63 bytes, carries the counts (1, 0, 0, 1) and
parses as a DNS message with no bytes left over. -/
theorem framing_noIPv6 (st : BonjourClass) (peer : Option (List Nat)) (xid rec : Nat)
    (host : List Nat) (hhost : st._bonjourName = some host) (hwf : WellFormedName 63 host)
    (hfit : sizeofDNSHeader + (emittedName host 1).length + 4 +
      (ipAnswerBytes host st.localIP).length ≤ sizeofWriteBuffer) :
    ∃ d : Datagram,
      (_sendMDNSMessage st peer xid MDNSPacketType_t.MDNSPacketTypeNoIPv6AddrAvailable rec).1.sent
        = st.sent ++ pendingFlush st ++ [d] ∧
      headerCounts d.data = (1, 0, 0, 1) ∧ dnsLeftover d.data = some 0 := by
  have hs := sendNoIPv6_sent st peer xid rec host hhost (nonEmpty_of_wellFormed hwf)
  rw [List.take_of_length_le (by
      simp only [List.length_append, headerBytes_length, List.length_cons, List.length_nil]
      omega),
    (answerHeader_bytes xid).2.2.2] at hs
  refine ⟨_, hs, ?_⟩
  have hlen := emittedName_length host 1
  have hn := skipName_emittedName host ([0x00, 0x1c, 0x00, 0x01] ++ ipAnswerBytes host st.localIP)
    ((emittedName host 1 ++ [0x00, 0x1c, 0x00, 0x01] ++ ipAnswerBytes host st.localIP).length + 1)
    hwf (by simp only [List.length_append, hlen]; omega)
  have hq : skipQuestion (emittedName host 1 ++ [0x00, 0x1c, 0x00, 0x01] ++
      ipAnswerBytes host st.localIP) = some (ipAnswerBytes host st.localIP) := by
    unfold skipQuestion
    rw [List.append_assoc] at hn ⊢
    rw [hn]
    simp
  apply dnsLeftover_counts xid 0x84 0x03 1 0 1 _ (ipAnswerBytes host st.localIP)
  · rw [skipMany_step _ 0 _ _ hq]; rfl
  · have h1 := skipRecord_ipAnswer host st.localIP [] hwf
    rw [List.append_nil] at h1
    rw [show 0 + 1 = 0 + 1 from rfl, skipMany_step _ 0 _ _ h1]
    rfl

theorem goodRecord_of_wellFormed (r : MDNSServiceRecord_t) (sn : List Nat)
    (hname : WellFormedName 63 r.name) (hsn : r.servName = some sn)
    (hsnwf : WellFormedName 63 sn) : GoodRecord r := by
  refine ⟨nonEmpty_of_wellFormed hname, by simp [hsn], ?_⟩
  rw [hsn]
  exact nonEmpty_of_wellFormed hsnwf

/-- A ServiceRecordRelease datagram that fits the send buffer, for a record
whose instance and service names are made of labels of 1 to 63 bytes, carries
the counts (0, 1, 0, 0) and parses as a DNS message with no bytes left over. -/
theorem framing_release (st : BonjourClass) (peer : Option (List Nat)) (xid idx : Nat)
    (r : MDNSServiceRecord_t) (sn : List Nat) (hr : recordAt st idx = some r)
    (hname : WellFormedName 63 r.name) (hsn : r.servName = some sn)
    (hsnwf : WellFormedName 63 sn)
    (hfit : sizeofDNSHeader + (servicePTRBytes r 0).length ≤ sizeofWriteBuffer) :
    ∃ d : Datagram,
      (_sendMDNSMessage st peer xid MDNSPacketType_t.MDNSPacketTypeServiceRecordRelease idx).1.sent
        = st.sent ++ pendingFlush st ++ [d] ∧
      headerCounts d.data = (0, 1, 0, 0) ∧ dnsLeftover d.data = some 0 := by
  have hs := sendServiceRelease_sent st peer xid idx r hr
    (goodRecord_of_wellFormed r sn hname hsn hsnwf)
  rw [List.take_of_length_le (by simpa [headerBytes_length] using hfit),
    (answerHeader_bytes xid).2.1] at hs
  refine ⟨_, hs, ?_⟩
  have hsmall : r.name.length + 13 < 65536 := by
    have h0 := serviceNameBytes_length_zero r
    simp only [servicePTRBytes, List.length_append, h0, sizeofWriteBuffer] at hfit
    omega
  apply dnsLeftover_counts xid 0x84 0x00 0 1 0 _ _ rfl
  have h1 := skipRecord_servicePTR r sn 0 [] hname hsn hsnwf hsmall
  rw [List.append_nil] at h1
  rw [skipMany_step _ 0 _ _ h1]
  rfl

theorem txtBytes_length (r : MDNSServiceRecord_t) (txt : List Nat)
    (h : r.textContent = some txt) : (txtBytes r).length = 2 + strlen txt := by
  have := strlen_le_length txt
  simp [txtBytes, h, be16]
  omega

/-- A ServiceRecord datagram that fits the send buffer, for a host identity
and a record whose names are made of labels of 1 to 63 bytes, carries the
counts (0, 4, 0, 1) and parses as a DNS message with no bytes left over. -/
theorem framing_serviceRecord (st : BonjourClass) (peer : Option (List Nat)) (xid idx : Nat)
    (r : MDNSServiceRecord_t) (sn host : List Nat) (hr : recordAt st idx = some r)
    (hname : WellFormedName 63 r.name) (hsn : r.servName = some sn)
    (hsnwf : WellFormedName 63 sn) (hhost : st._bonjourName = some host)
    (hwf : WellFormedName 63 host)
    (hfit : sizeofDNSHeader + (serviceRecordBytes r host st.localIP).length
      ≤ sizeofWriteBuffer) :
    ∃ d : Datagram,
      (_sendMDNSMessage st peer xid MDNSPacketType_t.MDNSPacketTypeServiceRecord idx).1.sent
        = st.sent ++ pendingFlush st ++ [d] ∧
      headerCounts d.data = (0, 4, 0, 1) ∧ dnsLeftover d.data = some 0 := by
  have hs := sendServiceRecord_sent st peer xid idx r host hr
    (goodRecord_of_wellFormed r sn hname hsn hsnwf) hhost (nonEmpty_of_wellFormed hwf)
  rw [List.take_of_length_le (by simpa [headerBytes_length] using hfit),
    (answerHeader_bytes xid).2.2.1] at hs
  refine ⟨_, hs, ?_⟩
  have hl0 := serviceNameBytes_length_zero r
  have hl1 := serviceNameBytes_length_one r sn hsn
  have hlh := emittedName_length host 1
  have hfit2 := hfit
  simp only [serviceRecordBytes, srvRecordBytes, txtRecordBytes, metaPTRBytes, servicePTRBytes,
    ipAnswerBytes, List.length_append, hl0, hl1, hlh, sizeofWriteBuffer, sizeofDNSHeader]
    at hfit2
  have htxt : ∀ txt, r.textContent = some txt → strlen txt < 65536 := by
    intro txt ht
    have := txtBytes_length r txt ht
    omega
  apply dnsLeftover_counts xid 0x84 0x00 0 4 1 _ _ rfl
  have e : serviceRecordBytes r host st.localIP
      = srvRecordBytes r host ++ (txtRecordBytes r ++ (metaPTRBytes r ++
          (servicePTRBytes r MDNS_RESPONSE_TTL ++ (ipAnswerBytes host st.localIP ++ [])))) := by
    simp only [serviceRecordBytes, List.append_assoc, List.append_nil]
  rw [e]
  rw [skipMany_step _ 4 _ _ (skipRecord_srv r host _ hname hwf (by omega)),
    skipMany_step _ 3 _ _ (skipRecord_txt r _ hname htxt),
    skipMany_step _ 2 _ _ (skipRecord_metaPTR r sn _ hsn hsnwf (by omega)),
    skipMany_step _ 1 _ _ (skipRecord_servicePTR r sn _ _ hname hsn hsnwf (by omega)),
    skipMany_step _ 0 _ _ (skipRecord_ipAnswer host st.localIP [] hwf)]
  rfl

/-- C7 (what the code does): for every packet type and every state in which
the referenced names are made of labels of 1 to 63 bytes and the datagram fits
the 512-byte send buffer, the datagram written by `_sendMDNSMessage` carries
the header counts MyIPAnswer and ServiceRecordRelease (0,1,0,0), ServiceRecord
(0,4,0,1), NameQuery/ServiceQuery (1,0,0,0), NoIPv6 (1,0,0,1). For MyIPAnswer,
ServiceRecordRelease, ServiceRecord and NoIPv6 it parses as a DNS message of
that many questions and resource records with no bytes left over. For
NameQuery and ServiceQuery it does not: behind the one question exactly eight
bytes are left over. -/
theorem C7_framing (st : BonjourClass) (peer : Option (List Nat)) (xid idx : Nat) :
    (∀ host, st._bonjourName = some host → WellFormedName 63 host →
      sizeofDNSHeader + (ipAnswerBytes host st.localIP).length ≤ sizeofWriteBuffer →
      ∃ d : Datagram,
        (_sendMDNSMessage st peer xid MDNSPacketType_t.MDNSPacketTypeMyIPAnswer idx).1.sent
          = st.sent ++ pendingFlush st ++ [d] ∧
        headerCounts d.data = (0, 1, 0, 0) ∧ dnsLeftover d.data = some 0) ∧
    (∀ r sn, recordAt st idx = some r → WellFormedName 63 r.name → r.servName = some sn →
      WellFormedName 63 sn →
      sizeofDNSHeader + (servicePTRBytes r 0).length ≤ sizeofWriteBuffer →
      ∃ d : Datagram,
        (_sendMDNSMessage st peer xid
            MDNSPacketType_t.MDNSPacketTypeServiceRecordRelease idx).1.sent
          = st.sent ++ pendingFlush st ++ [d] ∧
        headerCounts d.data = (0, 1, 0, 0) ∧ dnsLeftover d.data = some 0) ∧
    (∀ r sn host, recordAt st idx = some r → WellFormedName 63 r.name →
      r.servName = some sn → WellFormedName 63 sn → st._bonjourName = some host →
      WellFormedName 63 host →
      sizeofDNSHeader + (serviceRecordBytes r host st.localIP).length ≤ sizeofWriteBuffer →
      ∃ d : Datagram,
        (_sendMDNSMessage st peer xid MDNSPacketType_t.MDNSPacketTypeServiceRecord idx).1.sent
          = st.sent ++ pendingFlush st ++ [d] ∧
        headerCounts d.data = (0, 4, 0, 1) ∧ dnsLeftover d.data = some 0) ∧
    (∀ host, st._bonjourName = some host → WellFormedName 63 host →
      sizeofDNSHeader + (emittedName host 1).length + 4 +
        (ipAnswerBytes host st.localIP).length ≤ sizeofWriteBuffer →
      ∃ d : Datagram,
        (_sendMDNSMessage st peer xid
            MDNSPacketType_t.MDNSPacketTypeNoIPv6AddrAvailable idx).1.sent
          = st.sent ++ pendingFlush st ++ [d] ∧
        headerCounts d.data = (1, 0, 0, 1) ∧ dnsLeftover d.data = some 0) ∧
    (∀ type name,
      type = MDNSPacketType_t.MDNSPacketTypeNameQuery ∨
        type = MDNSPacketType_t.MDNSPacketTypeServiceQuery →
      (if type = MDNSPacketType_t.MDNSPacketTypeServiceQuery then st._resolveNames1
        else st._resolveNames0) = some name →
      WellFormedName 63 name →
      sizeofDNSHeader + (name.length + 2) + 12 ≤ sizeofWriteBuffer →
      ∃ d : Datagram,
        (_sendMDNSMessage st peer xid type idx).1.sent = st.sent ++ pendingFlush st ++ [d] ∧
        headerCounts d.data = (1, 0, 0, 0) ∧ dnsLeftover d.data = some 8) := by
  refine ⟨?_, ?_, ?_, ?_, ?_⟩
  · intro host h1 h2 h3
    exact framing_myIPAnswer st peer xid idx host h1 h2 h3
  · intro r sn h1 h2 h3 h4 h5
    exact framing_release st peer xid idx r sn h1 h2 h3 h4 h5
  · intro r sn host h1 h2 h3 h4 h5 h6 h7
    exact framing_serviceRecord st peer xid idx r sn host h1 h2 h3 h4 h5 h6 h7
  · intro host h1 h2 h3
    exact framing_noIPv6 st peer xid idx host h1 h2 h3
  · intro type name h1 h2 h3 h4
    exact framing_query st peer xid idx type name h1 h2 h3 h4

set_option maxRecDepth 100000 in
/-- Witness for C7: the five cases on sample states. The answer to the host
A-query, the goodbye and the announcement of `printerRecord` and the NoIPv6
answer parse with nothing left over; the question for `peer.local` sent by
`resolveName`, the failing input, leaves eight bytes over. -/
theorem C7_framing_witness :
    (∃ d : Datagram,
      (_sendMDNSMessage sparkState none 0x1234
          MDNSPacketType_t.MDNSPacketTypeMyIPAnswer 0).1.sent
        = sparkState.sent ++ pendingFlush sparkState ++ [d] ∧
      headerCounts d.data = (0, 1, 0, 0) ∧ dnsLeftover d.data = some 0) ∧
    (∃ d : Datagram,
      (_sendMDNSMessage printerState none 0
          MDNSPacketType_t.MDNSPacketTypeServiceRecordRelease 0).1.sent
        = printerState.sent ++ pendingFlush printerState ++ [d] ∧
      headerCounts d.data = (0, 1, 0, 0) ∧ dnsLeftover d.data = some 0) ∧
    (∃ d : Datagram,
      (_sendMDNSMessage printerState none 0
          MDNSPacketType_t.MDNSPacketTypeServiceRecord 0).1.sent
        = printerState.sent ++ pendingFlush printerState ++ [d] ∧
      headerCounts d.data = (0, 4, 0, 1) ∧ dnsLeftover d.data = some 0) ∧
    (∃ d : Datagram,
      (_sendMDNSMessage sparkState none 0x1234
          MDNSPacketType_t.MDNSPacketTypeNoIPv6AddrAvailable 0).1.sent
        = sparkState.sent ++ pendingFlush sparkState ++ [d] ∧
      headerCounts d.data = (1, 0, 0, 1) ∧ dnsLeftover d.data = some 0) ∧
    (∃ d : Datagram,
      (_sendMDNSMessage resolvingState none 0
          MDNSPacketType_t.MDNSPacketTypeNameQuery 0).1.sent
        = resolvingState.sent ++ pendingFlush resolvingState ++ [d] ∧
      headerCounts d.data = (1, 0, 0, 0) ∧ dnsLeftover d.data = some 8) :=
  ⟨(C7_framing sparkState none 0x1234 0).1 (ascii "spark.local") rfl (by decide) (by decide),
   (C7_framing printerState none 0 0).2.1 printerRecord (ascii "_ipp._tcp.local") rfl
     (by decide) rfl (by decide) (by decide),
   (C7_framing printerState none 0 0).2.2.1 printerRecord (ascii "_ipp._tcp.local")
     (ascii "spark.local") rfl (by decide) rfl (by decide) rfl (by decide) (by decide),
   (C7_framing sparkState none 0x1234 0).2.2.2.1 (ascii "spark.local") rfl (by decide)
     (by decide),
   (C7_framing resolvingState none 0 0).2.2.2.2 MDNSPacketType_t.MDNSPacketTypeNameQuery
     (ascii "peer.local") (Or.inl rfl) (by decide) (by decide) (by decide)⟩


/-! ## What a message leaves untouched -/

theorem inv_emit {P : BonjourClass → Prop} (hP : MessageInvariant P) (w : Writer) (n : Nat) (h : P w.st) :
    P (w.emit n).st :=
  hP.onWrite w.st _ h

theorem inv_store {P : BonjourClass → Prop} (w : Writer) (i : Nat) (b : List Nat) (h : P w.st) :
    P (w.store i b).st := h

theorem inv_crash {P : BonjourClass → Prop} (hP : MessageInvariant P) (w : Writer) (h : P w.st) : P w.crash.st :=
  hP.onFault w.st h

theorem inv_copyLabel {P : BonjourClass → Prop} (hP : MessageInvariant P) (bufSize : Nat) :
    ∀ (i : Nat) (p1 : List Nat) (p3 len : Nat) (w : Writer), P w.st →
      P (copyLabel bufSize i p1 p3 len w).2.2.st := by
  intro i
  induction i with
  | zero => intro p1 p3 len w h; exact h
  | succ i ih =>
    intro p1 p3 len w h
    rw [copyLabel]
    split
    · exact ih _ _ _ _ (inv_emit hP _ _ h)
    · exact ih _ _ _ _ h

theorem inv_writeLabels {P : BonjourClass → Prop} (hP : MessageInvariant P) (bufSize : Nat) :
    ∀ (fuel : Nat) (p1 : List Nat) (w : Writer), P w.st →
      P (writeLabels bufSize fuel p1 w).st := by
  intro fuel
  induction fuel with
  | zero => intro p1 w h; exact h
  | succ fuel ih =>
    intro p1 w h
    rw [writeLabels]
    split
    · exact h
    · apply ih
      have hc := inv_copyLabel hP bufSize (scanLabel p1 1 - 1) p1 1 (bufSize - 1)
        { w with buf := w.buf.set 0 ((scanLabel p1 1 - 1) % 256) } h
      split
      · exact inv_emit hP _ _ hc
      · exact hc

theorem inv_writeDNSName {P : BonjourClass → Prop} (hP : MessageInvariant P) (w : Writer) (name : List Nat)
    (bufSize zeroTerminate : Nat) (h : P w.st) :
    P (_writeDNSName w name bufSize zeroTerminate).st := by
  have h1 := inv_writeLabels hP bufSize (name.length + 1) name w h
  unfold _writeDNSName
  split
  · exact inv_emit hP { writeLabels bufSize (name.length + 1) name w with
      buf := (writeLabels bufSize (name.length + 1) name w).buf.set 0 0 } 1 h1
  · exact h1

theorem inv_writeMyIPAnswerRecord {P : BonjourClass → Prop} (hP : MessageInvariant P) (w : Writer) (bufSize : Nat)
    (h : P w.st) : P (_writeMyIPAnswerRecord w bufSize).st := by
  unfold _writeMyIPAnswerRecord
  split
  · exact inv_crash hP w h
  · dsimp only
    apply inv_emit hP
    apply inv_store
    apply inv_store
    apply inv_store
    apply inv_emit hP
    apply inv_store
    exact inv_writeDNSName hP _ _ _ _ h

theorem inv_writeServiceRecordName {P : BonjourClass → Prop} (hP : MessageInvariant P) (w : Writer)
    (idx bufSize tld : Nat) (h : P w.st) :
    P (_writeServiceRecordName w idx bufSize tld).st := by
  unfold _writeServiceRecordName
  split
  · exact inv_crash hP w h
  · split
    · exact inv_crash hP w h
    · next name _ =>
      have h1 := inv_writeDNSName hP w name bufSize tld h
      dsimp only
      split
      · split
        · exact h1
        · exact inv_writeDNSName hP _ _ _ _ h1
      · exact h1

theorem inv_writeServiceRecordPTR {P : BonjourClass → Prop} (hP : MessageInvariant P) (w : Writer)
    (idx bufSize ttl : Nat) (h : P w.st) :
    P (_writeServiceRecordPTR w idx bufSize ttl).st := by
  unfold _writeServiceRecordPTR
  have h1 := inv_writeServiceRecordName hP w idx bufSize 1 h
  dsimp only
  split
  · exact inv_crash hP _ h1
  · apply inv_writeServiceRecordName hP
    apply inv_emit hP
    apply inv_store
    apply inv_store
    apply inv_store
    exact h1

theorem inv_writeServiceRecordBody {P : BonjourClass → Prop} (hP : MessageInvariant P)
    (w : Writer) (idx : Nat) (h : P w.st) : P (writeServiceRecordBody w idx).st := by
  unfold writeServiceRecordBody
  have h1 := inv_writeServiceRecordName hP w idx sizeofDNSHeader 0 h
  dsimp only
  split
  · next r host _ _ =>
    split
    · apply inv_crash hP
      apply inv_writeDNSName hP
      split
      ·
        apply inv_emit hP
        apply inv_store
        apply inv_emit hP
        apply inv_store
        apply inv_store
        apply inv_writeServiceRecordName hP
        apply inv_writeDNSName hP
        apply inv_emit hP
        apply inv_store
        apply inv_store
        apply inv_emit hP
        apply inv_store
        apply inv_store
        apply inv_store
        exact h1
      · apply hP.onWrite
        apply inv_emit hP
        apply inv_store
        apply inv_emit hP
        apply inv_store
        apply inv_store
        apply inv_writeServiceRecordName hP
        apply inv_writeDNSName hP
        apply inv_emit hP
        apply inv_store
        apply inv_store
        apply inv_emit hP
        apply inv_store
        apply inv_store
        apply inv_store
        exact h1
    · apply inv_writeMyIPAnswerRecord hP
      apply inv_writeServiceRecordPTR hP
      apply inv_writeServiceRecordName hP
      apply inv_emit hP
      apply inv_store
      apply inv_store
      apply inv_store
      apply inv_writeDNSName hP
      split
      ·
        apply inv_emit hP
        apply inv_store
        apply inv_emit hP
        apply inv_store
        apply inv_store
        apply inv_writeServiceRecordName hP
        apply inv_writeDNSName hP
        apply inv_emit hP
        apply inv_store
        apply inv_store
        apply inv_emit hP
        apply inv_store
        apply inv_store
        apply inv_store
        exact h1
      · apply hP.onWrite
        apply inv_emit hP
        apply inv_store
        apply inv_emit hP
        apply inv_store
        apply inv_store
        apply inv_writeServiceRecordName hP
        apply inv_writeDNSName hP
        apply inv_emit hP
        apply inv_store
        apply inv_store
        apply inv_emit hP
        apply inv_store
        apply inv_store
        apply inv_store
        exact h1
  · exact inv_crash hP _ h1

theorem inv_writeQueryBody {P : BonjourClass → Prop} (hP : MessageInvariant P) (w : Writer)
    (type : MDNSPacketType_t) (h : P w.st) : P (writeQueryBody w type).st := by
  unfold writeQueryBody
  dsimp only
  split
  · exact inv_crash hP w h
  · next name _ =>
    have h1 : ∀ b : Nat, P (Writer.emit (Writer.store (Writer.store (Writer.store
        (Writer.store (_writeDNSName w name sizeofDNSHeader 1) 0 [0x00]) 2 [0x00]) 1 [b]) 3
        [0x01]) sizeofDNSHeader).st := by
      intro b
      apply inv_emit hP
      apply inv_store
      apply inv_store
      apply inv_store
      apply inv_store
      exact inv_writeDNSName hP _ _ _ _ h
    split
    · exact hP.onClock1 _ _ (h1 0x0c)
    · exact hP.onClock0 _ _ (h1 0x01)

theorem inv_writeNoIPv6Body {P : BonjourClass → Prop} (hP : MessageInvariant P) (w : Writer)
    (h : P w.st) : P (writeNoIPv6Body w).st := by
  unfold writeNoIPv6Body
  split
  · exact inv_crash hP w h
  · dsimp only
    apply inv_writeMyIPAnswerRecord hP
    apply inv_emit hP
    apply inv_store
    apply inv_store
    apply inv_store
    apply inv_store
    exact inv_writeDNSName hP _ _ _ _ h

theorem inv_messageBody {P : BonjourClass → Prop} (hP : MessageInvariant P) (w : Writer)
    (type : MDNSPacketType_t) (idx : Nat) (h : P w.st) : P (messageBody w type idx).st := by
  cases type
  · exact inv_writeMyIPAnswerRecord hP w _ h
  · exact inv_writeNoIPv6Body hP w h
  · exact inv_writeServiceRecordBody hP w idx h
  · exact inv_writeServiceRecordPTR hP w idx _ _ h
  · exact inv_writeQueryBody hP w _ h
  · exact inv_writeQueryBody hP w _ h

/-- Every property kept by the steps of a message is kept by
`_sendMDNSMessage`. -/
theorem inv_sendMDNSMessage {P : BonjourClass → Prop} (hP : MessageInvariant P)
    (st : BonjourClass) (peer : Option (List Nat)) (xid : Nat) (type : MDNSPacketType_t)
    (rec : Nat) (h : P st) : P (_sendMDNSMessage st peer xid type rec).1 := by
  rw [sendMDNSMessage_eq]
  apply hP.onEnd
  apply inv_messageBody hP
  exact hP.onWrite _ _ (hP.onBegin _ _ _ h)

theorem core_invariant (s : BonjourClass) : MessageInvariant (fun st => core st = core s) where
  onWrite := fun _ _ h => h
  onBegin := fun st ip port h => by
    rw [← h]
    unfold beginPacket
    split <;> rfl
  onEnd := fun _ h => h
  onFault := fun _ h => h
  onClock0 := fun _ _ h => h
  onClock1 := fun _ _ h => h

/-- A message changes nothing but the send buffer, the transport, the fault
mark and the resend clocks. -/
theorem core_sendMDNSMessage (st : BonjourClass) (peer : Option (List Nat)) (xid : Nat)
    (type : MDNSPacketType_t) (rec : Nat) :
    core (_sendMDNSMessage st peer xid type rec).1 = core st :=
  inv_sendMDNSMessage (core_invariant st) st peer xid type rec rfl

theorem core_recordAt {s1 s2 : BonjourClass} (h : core s1 = core s2) (i : Nat) :
    recordAt s1 i = recordAt s2 i := by
  have := (congrArg BonjourClass._serviceRecords h : (core s1)._serviceRecords = (core s2)._serviceRecords)
  simp only [core] at this
  simp only [recordAt, this]

theorem core_bonjourName {s1 s2 : BonjourClass} (h : core s1 = core s2) :
    s1._bonjourName = s2._bonjourName := (congrArg BonjourClass._bonjourName h : (core s1)._bonjourName = (core s2)._bonjourName)

theorem core_localIP {s1 s2 : BonjourClass} (h : core s1 = core s2) :
    s1.localIP = s2.localIP := (congrArg BonjourClass.localIP h : (core s1).localIP = (core s2).localIP)

theorem core_serviceRecords {s1 s2 : BonjourClass} (h : core s1 = core s2) :
    s1._serviceRecords = s2._serviceRecords := (congrArg BonjourClass._serviceRecords h : (core s1)._serviceRecords = (core s2)._serviceRecords)


/-! ## The responses as a sequence of messages -/

theorem sendAll_append (peer : Option (List Nat)) (xid : Nat)
    (a b : List (MDNSPacketType_t × Nat)) (st : BonjourClass) :
    sendAll peer xid (a ++ b) st = sendAll peer xid b (sendAll peer xid a st) := by
  induction a generalizing st with
  | nil => rfl
  | cons m a ih =>
    rw [List.cons_append]
    simp only [sendAll]
    exact ih _

theorem core_sendAll (peer : Option (List Nat)) (xid : Nat) (ms : List (MDNSPacketType_t × Nat))
    (st : BonjourClass) : core (sendAll peer xid ms st) = core st := by
  induction ms generalizing st with
  | nil => rfl
  | cons m ms ih =>
    simp only [sendAll]
    rw [ih, core_sendMDNSMessage]

/-- The dispatch loop from a service index on: one ServiceRecord message for
every flagged, occupied slot, in increasing order. -/
theorem respondLoop_services (xid : Nat) (remoteIP : List Nat) :
    ∀ (n j : Nat) (asked : List Nat) (st : BonjourClass), 2 ≤ j →
      respondLoop xid remoteIP n j asked st
        = sendAll (some remoteIP) xid
            (((List.range' (j - 2) n).filter fun i =>
                asked.getD (i + 2) 0 ≠ 0 ∧ (recordAt st i).isSome).map
              fun i => (MDNSPacketType_t.MDNSPacketTypeServiceRecord, i)) st := by
  intro n
  induction n with
  | zero => intro j asked st _; rfl
  | succ n ih =>
    intro j asked st hj
    have hj0 : j ≠ 0 := by omega
    have hj1 : j ≠ 1 := by omega
    have hidx : j - 2 + 2 = j := by omega
    have hnext : j + 1 - 2 = j - 2 + 1 := by omega
    rw [respondLoop, List.range'_succ, List.filter_cons]
    simp only [hidx, hj0, hj1, if_false]
    by_cases ha : asked.getD j 0 ≠ 0
    · by_cases hr : (recordAt st (j - 2)).isSome = true
      · rw [if_pos ha, if_pos hr, ih _ _ _ (by omega), hnext]
        simp only [ha, hr, ne_eq, not_false_eq_true, and_self, decide_True, if_true,
          List.map_cons, sendAll]
        congr 2
        apply List.filter_congr
        intro i _
        rw [core_recordAt (core_sendMDNSMessage st (some remoteIP) xid
          MDNSPacketType_t.MDNSPacketTypeServiceRecord (j - 2)) i]
      · rw [if_pos ha, if_neg hr, ih _ _ _ (by omega), hnext]
        simp only [hr, and_false, decide_False, Bool.false_eq_true, if_false]
    · rw [if_neg ha, ih _ _ _ (by omega), hnext]
      simp only [ha, false_and, decide_False, Bool.false_eq_true, if_false]

theorem getD_take_replicate (asked : List Nat) (h : 2 ≤ asked.length) (i : Nat)
    (hi : i < NumMDNSServiceRecords) :
    (asked.take 2 ++ List.replicate NumMDNSServiceRecords 1).getD (i + 2) 0 = 1 := by
  have hl : (asked.take 2).length = 2 := by rw [List.length_take]; omega
  rw [List.getD_eq_getElem?_getD, List.getElem?_append_right (by omega), hl]
  simp [List.getElem?_replicate, hi]

theorem respondLoop_from_one (st0 st1 : BonjourClass) (asked : List Nat) (xid : Nat)
    (remoteIP : List Nat) (hlen : 2 ≤ asked.length) (hcore : core st1 = core st0) :
    respondLoop xid remoteIP (NumMDNSServiceRecords + 1) 1 asked st1
      = sendAll (some remoteIP) xid ((serviceSlots st0 asked).map
          (fun i => (MDNSPacketType_t.MDNSPacketTypeServiceRecord, i))) st1 := by
  have e1 : List.range' (2 - 2) NumMDNSServiceRecords = List.range NumMDNSServiceRecords := by
    rw [List.range_eq_range']
  rw [respondLoop]
  simp only [one_ne_zero, if_false, if_true]
  by_cases h1 : asked.getD 1 0 ≠ 0
  · rw [if_pos h1, respondLoop_services xid remoteIP _ _ _ _ (le_refl _), e1]
    congr 2
    unfold serviceSlots
    apply List.filter_congr
    intro i hi
    rw [List.mem_range] at hi
    rw [getD_take_replicate asked hlen i hi, core_recordAt hcore]
    simp only [h1, ne_eq, one_ne_zero, not_false_eq_true, true_and, true_or]
  · rw [if_neg h1, respondLoop_services xid remoteIP _ _ _ _ (le_refl _), e1]
    congr 2
    unfold serviceSlots
    apply List.filter_congr
    intro i _
    rw [core_recordAt hcore]
    simp only [h1, false_or]

/-- The end of `_processMDNSQuery` sends exactly the messages of
`respondPlan`, in that order: the MyIPAnswer first, the ServiceRecords in
increasing slot order, the NoIPv6 message last. -/
theorem respond_eq (st : BonjourClass) (asked : List Nat) (wants xid : Nat)
    (remoteIP : List Nat) (hlen : 2 ≤ asked.length) :
    respond st asked wants xid remoteIP
      = sendAll (some remoteIP) xid (respondPlan st asked wants) st := by
  have hloop : respondLoop xid remoteIP (NumMDNSServiceRecords + 2) 0 asked st
      = sendAll (some remoteIP) xid
          ((if asked.getD 0 0 ≠ 0 then [(MDNSPacketType_t.MDNSPacketTypeMyIPAnswer, 0)] else []) ++
            (serviceSlots st asked).map
              (fun i => (MDNSPacketType_t.MDNSPacketTypeServiceRecord, i))) st := by
    have e0 : NumMDNSServiceRecords + 2 = (NumMDNSServiceRecords + 1) + 1 := rfl
    rw [e0, respondLoop, sendAll_append]
    simp only [if_true, Nat.zero_add]
    by_cases h0 : asked.getD 0 0 ≠ 0
    · rw [if_pos h0, if_pos h0]
      exact respondLoop_from_one st _ asked xid remoteIP hlen (core_sendMDNSMessage _ _ _ _ _)
    · rw [if_neg h0, if_neg h0]
      exact respondLoop_from_one st st asked xid remoteIP hlen rfl
  unfold respond respondPlan
  dsimp only
  rw [hloop]
  by_cases hw : wants ≠ 0
  · rw [if_pos hw, if_pos hw]
    exact (sendAll_append (some remoteIP) xid _
      [(MDNSPacketType_t.MDNSPacketTypeNoIPv6AddrAvailable, 0)] st).symm
  · rw [if_neg hw, if_neg hw, List.append_nil]


/-! ## The question walk, candidate by candidate -/

theorem chunkLoop_single (pkt : List Nat) (a : Nat) :
    ∀ (fuel tr off : Nat) (c : Candidate),
      ∃ c', (chunkLoop pkt [a] fuel tr off [c]).2 = [c'] := by
  intro fuel
  induction fuel with
  | zero => intro tr off c; exact ⟨c, rfl⟩
  | succ fuel ih =>
    intro tr off c
    rw [chunkLoop]
    split
    · exact ih _ _ _
    · exact ⟨c, rfl⟩

/-- The chunk loop works on every candidate separately: entry `j` of its
result is what the loop makes of entry `j` alone, and the offset does not
depend on the candidates. -/
theorem chunkLoop_get (pkt : List Nat) :
    ∀ (fuel tr off : Nat) (asked : List Nat) (cs : List Candidate) (j a : Nat) (c : Candidate),
      asked[j]? = some a → cs[j]? = some c →
      (chunkLoop pkt asked fuel tr off cs).1 = (chunkLoop pkt [a] fuel tr off [c]).1 ∧
      (chunkLoop pkt asked fuel tr off cs).2[j]? = (chunkLoop pkt [a] fuel tr off [c]).2[0]? := by
  intro fuel
  induction fuel with
  | zero =>
    intro tr off asked cs j a c _ hc
    exact ⟨rfl, by simpa [chunkLoop] using hc⟩
  | succ fuel ih =>
    intro tr off asked cs j a c ha hc
    rw [chunkLoop, chunkLoop]
    split
    · apply ih _ _ _ _ j a _ ha
      rw [List.getElem?_zipWith, ha, hc]
    · exact ⟨rfl, by simpa using hc⟩

theorem labelLoop_single (pkt : List Nat) (a : Nat) :
    ∀ (fuel off tLen : Nat) (c : Candidate),
      ∃ c', (labelLoop pkt [a] fuel off tLen [c]).2.2 = [c'] := by
  intro fuel
  induction fuel with
  | zero => intro off tLen c; exact ⟨c, rfl⟩
  | succ fuel ih =>
    intro off tLen c
    rw [labelLoop]
    dsimp only
    split
    · exact ⟨_, rfl⟩
    · split
      · obtain ⟨c1, h1⟩ := chunkLoop_single pkt a (pkt.getD off 0) (pkt.getD off 0) (off + 1) c
        rw [h1]
        exact ih _ _ _
      · exact ⟨c, rfl⟩

/-- The label loop works on every candidate separately; the offset and the
length counted do not depend on the candidates. -/
theorem labelLoop_get (pkt : List Nat) :
    ∀ (fuel off tLen : Nat) (asked : List Nat) (cs : List Candidate) (j a : Nat) (c : Candidate),
      asked[j]? = some a → cs[j]? = some c →
      (labelLoop pkt asked fuel off tLen cs).1 = (labelLoop pkt [a] fuel off tLen [c]).1 ∧
      (labelLoop pkt asked fuel off tLen cs).2.1 = (labelLoop pkt [a] fuel off tLen [c]).2.1 ∧
      (labelLoop pkt asked fuel off tLen cs).2.2[j]?
        = (labelLoop pkt [a] fuel off tLen [c]).2.2[0]? := by
  intro fuel
  induction fuel with
  | zero =>
    intro off tLen asked cs j a c _ hc
    exact ⟨rfl, rfl, by simpa [labelLoop] using hc⟩
  | succ fuel ih =>
    intro off tLen asked cs j a c ha hc
    rw [labelLoop, labelLoop]
    dsimp only
    split
    · refine ⟨rfl, rfl, ?_⟩
      simp [List.getElem?_map, hc]
    · split
      · have hch := chunkLoop_get pkt (pkt.getD off 0) (pkt.getD off 0) (off + 1) asked cs j a c
          ha hc
        obtain ⟨c1, h1⟩ := chunkLoop_single pkt a (pkt.getD off 0) (pkt.getD off 0) (off + 1) c
        rw [h1] at hch
        rw [h1, hch.1]
        exact ih _ _ _ _ j a c1 ha (by simpa using hch.2)
      · exact ⟨rfl, rfl, by simpa using hc⟩

theorem tailLoop_length (buf : List Nat) :
    ∀ (asked : List Nat) (cs : List Candidate) (j0 : Nat),
      (tailLoop buf j0 asked cs).1.length = asked.length := by
  intro asked
  induction asked with
  | nil => intro cs j0; simp [tailLoop]
  | cons a asked ih =>
    intro cs j0
    cases cs with
    | nil => simp [tailLoop]
    | cons c cs => simp [tailLoop, ih]

/-- Entry `j` of the flags after the loop over the candidates. -/
theorem tailLoop_get (buf : List Nat) :
    ∀ (asked : List Nat) (cs : List Candidate) (j0 j a : Nat) (c : Candidate),
      asked[j]? = some a → cs[j]? = some c →
      (tailLoop buf j0 asked cs).1[j]? = some (tailFlags buf (j0 + j) a c).1 := by
  intro asked
  induction asked with
  | nil => intro cs j0 j a c ha _; simp at ha
  | cons a0 asked ih =>
    intro cs j0 j a c ha hc
    cases cs with
    | nil => simp at hc
    | cons c0 cs =>
      cases j with
      | zero =>
        simp only [List.getElem?_cons_zero, Option.some.injEq] at ha hc
        subst ha; subst hc
        simp [tailLoop]
      | succ j =>
        simp only [List.getElem?_cons_succ] at ha hc
        have := ih cs (j0 + 1) j a c ha hc
        simp only [tailLoop, List.getElem?_cons_succ, this]
        congr 3
        omega

/-- The loop over the candidates sets `wantsIPv6Addr` exactly when one of the
candidates does. -/
theorem tailLoop_snd (buf : List Nat) :
    ∀ (asked : List Nat) (cs : List Candidate) (j0 : Nat),
      (tailLoop buf j0 asked cs).2 = true ↔
        ∃ j a c, asked[j]? = some a ∧ cs[j]? = some c ∧ (tailFlags buf (j0 + j) a c).2 = true := by
  intro asked
  induction asked with
  | nil =>
    intro cs j0
    simp [tailLoop]
  | cons a0 asked ih =>
    intro cs j0
    cases cs with
    | nil => simp [tailLoop]
    | cons c0 cs =>
      simp only [tailLoop, Bool.or_eq_true, ih cs (j0 + 1)]
      constructor
      · rintro (h | ⟨j, a, c, ha, hc, h⟩)
        · exact ⟨0, a0, c0, by simp, by simp, h⟩
        · refine ⟨j + 1, a, c, by simpa using ha, by simpa using hc, ?_⟩
          rw [show j0 + (j + 1) = j0 + 1 + j by omega]
          exact h
      · rintro ⟨j, a, c, ha, hc, h⟩
        cases j with
        | zero =>
          simp only [List.getElem?_cons_zero, Option.some.injEq] at ha hc
          subst ha; subst hc
          exact Or.inl h
        | succ j =>
          simp only [List.getElem?_cons_succ] at ha hc
          refine Or.inr ⟨j, a, c, ha, hc, ?_⟩
          rw [show j0 + 1 + j = j0 + (j + 1) by omega]
          exact h

/-! ### One candidate against the chunks of a question name -/

theorem strlen_getD (S : List Nat) : S.getD (strlen S) 0 = 0 := by
  induction S with
  | nil => rfl
  | cons b S ih =>
    simp only [strlen]
    split
    · next h => simp [h]
    · simpa using ih

theorem lt_strlen_of_ne (S : List Nat) (j : Nat) (hj : j ≤ strlen S) (h : S.getD j 0 ≠ 0) :
    j < strlen S := by
  rcases Nat.lt_or_ge j (strlen S) with h1 | h1
  · exact h1
  · have : j = strlen S := by omega
    rw [this, strlen_getD] at h
    exact absurd rfl h

theorem cHead_drop (S : List Nat) (m : Nat) : cHead (S.drop m) = S.getD m 0 := by
  simp only [cHead, List.headD_eq_head?_getD, List.head?_drop, List.getD_eq_getElem?_getD]

theorem noDots_append (a b : List Nat) : noDots (a ++ b) = noDots a ++ noDots b := by
  simp [noDots]

theorem noDots_take_succ (S : List Nat) (m : Nat) (h : S.getD m 0 = DOT) :
    noDots (S.take (m + 1)) = noDots (S.take m) := by
  have hm : m < S.length := by
    by_contra hc
    rw [List.getD_eq_default _ _ (by omega)] at h
    exact absurd h (by decide)
  rw [List.take_succ, noDots_append, List.getElem?_eq_getElem hm]
  have : S[m] = DOT := by rw [← h, List.getD_eq_getElem _ _ hm]
  simp [noDots, this]

/-- One chunk against a candidate: the candidate stays in step with the bytes
fed to it. -/
theorem fed_matchChunk (S fed chunk : List Nat) (c : Candidate) (h : Fed S fed c) :
    Fed S (fed ++ noDots chunk) (matchChunk 0 chunk c) := by
  rcases h with h0 | ⟨k, hk, hc, hfed⟩
  · left
    simp only [matchChunk, h0, ne_eq, not_true_eq_false, and_false, if_false]
  · subst hc
    simp only [matchChunk, ne_eq, one_ne_zero, not_false_eq_true, and_self, if_true]
    by_cases hm : (_matchStringPart (S.drop k) ((strlen S : Int) - k) chunk chunk.length).1 = 1
    · -- the chunk matched
      rw [matchStringPart_fst] at hm
      have hge : ((strlen S : Int) - k) ≥ (chunk.length : Int) := by
        by_contra hc
        rw [if_neg hc] at hm
        exact absurd hm (by decide)
      rw [if_pos hge] at hm
      have hmem : memEq (S.drop k) chunk chunk.length = true := by
        by_contra hc
        rw [if_neg hc] at hm
        exact absurd hm (by decide)
      have hlen := strlen_le_length S
      have hkn : k + chunk.length ≤ strlen S := by omega
      have htake : (S.drop k).take chunk.length = chunk :=
        (getD_eq_iff_take (S.drop k) chunk chunk.length (by simp; omega) rfl).1
          ((memEq_iff _ _ _).1 hmem)
      have hfed2 : noDots (S.take (k + chunk.length)) = fed ++ noDots chunk := by
        rw [List.take_add, noDots_append, hfed, htake]
      right
      simp only [_matchStringPart, hge, hmem, if_true, List.drop_drop]
      rw [cHead_drop]
      by_cases hd : S.getD (k + chunk.length) 0 = DOT
      · have hlt := lt_strlen_of_ne S _ hkn (by rw [hd]; decide)
        refine ⟨k + chunk.length + 1, hlt, ?_, ?_⟩
        · simp only [hd, if_true, land_one_one, List.tail_drop, Candidate.mk.injEq, true_and,
            and_true]
          push_cast
          omega
        · rw [noDots_take_succ S _ hd, hfed2]
      · refine ⟨k + chunk.length, hkn, ?_, hfed2⟩
        simp only [hd, if_false, land_one_one, Candidate.mk.injEq, true_and, and_true]
        push_cast
        omega
    · -- the chunk did not match
      left
      have h01 : (_matchStringPart (S.drop k) ((strlen S : Int) - k) chunk chunk.length).1 = 0 := by
        rw [matchStringPart_fst] at hm ⊢
        split
        · split
          · next h1 h2 => rw [if_pos h1, if_pos h2] at hm; exact absurd rfl hm
          · rfl
        · rfl
      show Nat.land 1 _ = 0
      rw [h01]
      decide

theorem matchChunk_asked (a : Nat) (chunk : List Nat) (c : Candidate) (ha : a ≠ 0) :
    matchChunk a chunk c = c := by
  simp [matchChunk, ha]

/-- The chunk loop over what is left of a literal label, for one candidate: the
loop ends behind the label; a candidate whose flag is set is left alone, any
other stays in step with the bytes fed. -/
theorem chunkLoop_fed (pkt T : List Nat) (a : Nat) :
    ∀ (fuel : Nat) (l : List Nat) (off : Nat) (c : Candidate),
      pkt.drop off = l ++ T → l.length ≤ fuel →
      ∃ c', chunkLoop pkt [a] fuel l.length off [c] = (off + l.length, [c']) ∧
        (a ≠ 0 → c' = c) ∧
        (a = 0 → ∀ S fed, Fed S fed c → Fed S (fed ++ noDots l) c') := by
  intro fuel
  induction fuel with
  | zero =>
    intro l off c _ hf
    have hl : l = [] := List.length_eq_zero.mp (by omega)
    subst hl
    exact ⟨c, rfl, fun _ => rfl, fun _ S fed h => by simpa [noDots] using h⟩
  | succ fuel ih =>
    intro l off c hdrop hf
    by_cases hl : l = []
    · subst hl
      refine ⟨c, ?_, fun _ => rfl, fun _ S fed h => by simpa [noDots] using h⟩
      simp [chunkLoop]
    · have hpos : l.length > 0 := List.length_pos.mpr hl
      have hlen : pkt.length - off = l.length + T.length := by
        have := congrArg List.length hdrop
        simpa using this
      obtain ⟨ir, hir⟩ : ∃ ir, ir = (if l.length > sizeofDNSHeader then sizeofDNSHeader
          else l.length) := ⟨_, rfl⟩
      have hir1 : ir ≤ l.length := by
        rw [hir]; split <;> omega
      have hir0 : 0 < ir := by
        rw [hir]; split
        · decide
        · omega
      have hchunk : readBytes pkt off ir = l.take ir := by
        rw [readBytes_eq pkt off ir (by omega), hdrop, List.take_append_of_le_length hir1]
      have hdl : (l.drop ir).length = l.length - ir := by simp
      obtain ⟨c', h1, h2, h3⟩ := ih (l.drop ir) (off + ir) (matchChunk a (l.take ir) c)
        (by rw [← List.drop_drop, hdrop, List.drop_append_of_le_length hir1]) (by omega)
      refine ⟨c', ?_, ?_, ?_⟩
      · rw [chunkLoop, if_pos hpos]
        simp only [← hir, hchunk, List.zipWith_cons_cons, List.zipWith_nil_right]
        rw [hdl] at h1
        rw [h1]
        congr 1
        omega
      · intro ha
        rw [h2 ha, matchChunk_asked a _ c ha]
      · intro ha S fed hfed
        subst ha
        have := h3 rfl S _ (fed_matchChunk S fed (l.take ir) c hfed)
        rw [List.append_assoc, ← noDots_append, List.take_append_drop] at this
        exact this

/-- The label loop over a question name of literal labels, for one candidate:
the loop ends behind the terminator; a candidate whose flag is set is left
alone, any other stays in step with the bytes fed. -/
theorem labelLoop_fed (pkt T : List Nat) (a : Nat) :
    ∀ (L : List (List Nat)) (fuel off tLen : Nat) (c : Candidate),
      (∀ l ∈ L, l ≠ [] ∧ l.length ≤ 128) →
      pkt.drop off = wireLabels L ++ 0 :: T → L.length < fuel →
      ∃ c', labelLoop pkt [a] fuel off tLen [c]
          = (off + (wireLabels L).length + 1, tLen + (wireLabels L).length + 1, [c']) ∧
        (a ≠ 0 → c' = c) ∧
        (a = 0 → ∀ S fed, Fed S fed c → Fed S (fed ++ noDots L.flatten) c') := by
  intro L
  induction L with
  | nil =>
    intro fuel off tLen c _ hdrop hf
    cases fuel with
    | zero => simp at hf
    | succ fuel =>
      have hget : pkt.getD off 0 = 0 := by
        have := congrArg (fun l => l.getD 0 0) hdrop
        simpa [wireLabels, List.getD_eq_getElem?_getD] using this
      refine ⟨c, ?_, fun _ => rfl, fun _ S fed h => by simpa [noDots] using h⟩
      rw [labelLoop]
      simp only [hget, if_neg (show ¬ 0 > 128 by omega), if_neg (show ¬ 0 > 0 by omega),
        wireLabels, List.length_nil, Nat.add_zero]
  | cons l L ih =>
    intro fuel off tLen c hL hdrop hf
    cases fuel with
    | zero => simp at hf
    | succ fuel =>
      have hl := hL l (List.mem_cons_self _ _)
      have hpos : l.length > 0 := List.length_pos.mpr hl.1
      have hget : pkt.getD off 0 = l.length := by
        have := congrArg (fun l => l.getD 0 0) hdrop
        simpa [wireLabels, List.getD_eq_getElem?_getD] using this
      have hdrop1 : pkt.drop (off + 1) = l ++ (wireLabels L ++ 0 :: T) := by
        rw [← List.drop_drop, hdrop]
        simp [wireLabels]
      obtain ⟨c1, hc1, hc1a, hc1b⟩ := chunkLoop_fed pkt (wireLabels L ++ 0 :: T) a l.length l
        (off + 1) c hdrop1 (le_refl _)
      have hdrop2 : pkt.drop (off + 1 + l.length) = wireLabels L ++ 0 :: T := by
        rw [← List.drop_drop, hdrop1, List.drop_left]
      obtain ⟨c2, hc2, hc2a, hc2b⟩ := ih fuel (off + 1 + l.length) (tLen + 1 + l.length) c1
        (fun x hx => hL x (List.mem_cons_of_mem _ hx)) hdrop2 (by simp at hf; omega)
      refine ⟨c2, ?_, ?_, ?_⟩
      · rw [labelLoop]
        simp only [hget, if_neg (show ¬ l.length > 128 by omega), if_pos hpos, hc1, hc2]
        simp only [wireLabels, List.length_append, List.length_cons, Prod.mk.injEq, and_true]
        constructor <;> omega
      · intro ha
        rw [hc2a ha, hc1a ha]
      · intro ha S fed hfed
        have := hc2b ha S _ (hc1b ha S fed hfed)
        rw [List.append_assoc, ← noDots_append] at this
        simpa using this


/-! ## One question of the walk -/

theorem initCandidates_zero (st : BonjourClass) :
    (initCandidates st)[0]? = some (Candidate.ofName st._bonjourName) := rfl

theorem initCandidates_one (st : BonjourClass) :
    (initCandidates st)[1]? = some (Candidate.ofName (some DNS_SD_SERVICE)) := rfl

theorem initCandidates_slot (st : BonjourClass) (i : Nat) (hi : i < NumMDNSServiceRecords) :
    (initCandidates st)[i + 2]?
      = some (Candidate.ofName ((recordAt st i).bind fun r => r.servName)) := by
  simp only [initCandidates, List.getElem?_cons_succ, List.getElem?_map,
    List.getElem?_range hi, Option.map_some']

theorem initCandidates_length (st : BonjourClass) :
    (initCandidates st).length = NumMDNSServiceRecords + 2 := by
  simp [initCandidates]

/-- The flag of candidate `j` after one question: what the tail test makes of
the candidate as the label loop leaves it, taken alone. -/
theorem questionStep_get (st : BonjourClass) (pkt : List Nat) (ws : WalkState) (j a : Nat)
    (c c1 : Candidate) (ha : ws.recordsAskedFor[j]? = some a)
    (hc : (initCandidates st)[j]? = some c)
    (h1 : (labelLoop pkt [a] (pkt.length + 1) ws.offset 0 [c]).2.2 = [c1]) :
    (questionStep st pkt ws).offset
      = (labelLoop pkt [a] (pkt.length + 1) ws.offset 0 [c]).1 + 4 ∧
    (questionStep st pkt ws).recordsAskedFor[j]?
      = some (tailFlags
          (readBytes pkt (labelLoop pkt [a] (pkt.length + 1) ws.offset 0 [c]).1 4) j a c1).1 := by
  have hg := labelLoop_get pkt (pkt.length + 1) ws.offset 0 ws.recordsAskedFor
    (initCandidates st) j a c ha hc
  rw [h1] at hg
  simp only [questionStep]
  refine ⟨by rw [hg.1], ?_⟩
  have := tailLoop_get
    (readBytes pkt (labelLoop pkt ws.recordsAskedFor (pkt.length + 1) ws.offset 0
      (initCandidates st)).1 4) ws.recordsAskedFor
    (labelLoop pkt ws.recordsAskedFor (pkt.length + 1) ws.offset 0 (initCandidates st)).2.2
    0 j a c1 ha (by rw [hg.2.2]; rfl)
  rw [this, hg.1, Nat.zero_add]

theorem questionStep_length (st : BonjourClass) (pkt : List Nat) (ws : WalkState) :
    (questionStep st pkt ws).recordsAskedFor.length = ws.recordsAskedFor.length := by
  simp only [questionStep, tailLoop_length]

theorem tailFlags_snd (buf : List Nat) (j a : Nat) (c : Candidate)
    (h : (tailFlags buf j a c).2 = true) : j = 0 := by
  unfold tailFlags at h
  split at h
  · split at h
    · split at h
      · simp at h
      · split at h
        · next h0 => exact h0.1
        · simp at h
    · simp at h
  · simp at h

/-- Only the host identity, the first candidate, can set `wantsIPv6Addr`. -/
theorem questionStep_wants (st : BonjourClass) (pkt : List Nat) (ws : WalkState) (a : Nat)
    (c c1 : Candidate) (ha : ws.recordsAskedFor[0]? = some a)
    (hc : (initCandidates st)[0]? = some c)
    (h1 : (labelLoop pkt [a] (pkt.length + 1) ws.offset 0 [c]).2.2 = [c1]) :
    (questionStep st pkt ws).wantsIPv6Addr
      = if (tailFlags
          (readBytes pkt (labelLoop pkt [a] (pkt.length + 1) ws.offset 0 [c]).1 4) 0 a c1).2
        then 1 else ws.wantsIPv6Addr := by
  have hg := labelLoop_get pkt (pkt.length + 1) ws.offset 0 ws.recordsAskedFor
    (initCandidates st) 0 a c ha hc
  rw [h1] at hg
  simp only [questionStep]
  have hiff := tailLoop_snd
    (readBytes pkt (labelLoop pkt ws.recordsAskedFor (pkt.length + 1) ws.offset 0
      (initCandidates st)).1 4) ws.recordsAskedFor
    (labelLoop pkt ws.recordsAskedFor (pkt.length + 1) ws.offset 0 (initCandidates st)).2.2 0
  rw [hg.1] at hiff ⊢
  have hc1 : (labelLoop pkt ws.recordsAskedFor (pkt.length + 1) ws.offset 0
      (initCandidates st)).2.2[0]? = some c1 := by rw [hg.2.2]; rfl
  by_cases ht : (tailFlags
      (readBytes pkt (labelLoop pkt [a] (pkt.length + 1) ws.offset 0 [c]).1 4) 0 a c1).2 = true
  · rw [if_pos ht, if_pos]
    exact hiff.2 ⟨0, a, c1, ha, hc1, by simpa using ht⟩
  · rw [if_neg ht, if_neg]
    intro hcon
    obtain ⟨j, a', c', ha', hc', h⟩ := hiff.1 hcon
    have hj : 0 + j = 0 := tailFlags_snd _ _ _ _ h
    have hj0 : j = 0 := by omega
    subst hj0
    rw [ha] at ha'
    rw [hc1] at hc'
    cases ha'
    cases hc'
    exact ht h


/-! ## A question of literal labels -/

theorem wireLabels_length_ge (L : List (List Nat)) : L.length ≤ (wireLabels L).length := by
  induction L with
  | nil => simp
  | cons l L ih => simp [wireLabels]; omega

theorem flatten_splitLabels (N : List Nat) : (splitLabels N).flatten = noDots N := by
  induction N with
  | nil => simp [splitLabels, noDots]
  | cons b N ih =>
    simp only [splitLabels]
    split
    · next hb =>
      rw [List.flatten_cons, List.nil_append, ih]
      simp [noDots, hb]
    · next hb =>
      have hne := splitLabels_ne_nil N
      cases hs : splitLabels N with
      | nil => exact absurd hs hne
      | cons l ls =>
        rw [hs] at ih
        simp only [List.flatten_cons] at ih ⊢
        simp only [noDots, List.filter_cons, hb, ne_eq, not_false_eq_true, decide_True, if_true,
          List.cons_append]
        rw [ih]
        rfl

theorem noDots_noDots (s : List Nat) : noDots (noDots s) = noDots s := by
  simp [noDots]

theorem fed_ofName (S : List Nat) : Fed S [] (Candidate.ofName (some S)) := by
  right
  refine ⟨0, Nat.zero_le _, ?_, by simp [noDots]⟩
  simp [Candidate.ofName]

theorem fed_none (S : List Nat) : Fed S [] (Candidate.ofName none) := Or.inl rfl

/-- A candidate that has stayed in step with bytes that do not spell its name
is not flagged. -/
theorem tailFlags_of_fed (buf : List Nat) (j : Nat) (S fed : List Nat) (c : Candidate)
    (h : Fed S fed c) (hne : noDots (S.take (strlen S)) ≠ fed) :
    tailFlags buf j 0 c = (0, false) := by
  have hno : ¬ (c.servMatch ≠ 0 ∧ c.servLen = 0) := by
    rintro ⟨hm, hl⟩
    rcases h with h0 | ⟨k, hk, hc, hfed⟩
    · exact hm h0
    · subst hc
      have : k = strlen S := by
        simp only at hl
        omega
      subst this
      exact hne hfed
  unfold tailFlags
  rw [if_neg]
  rintro ⟨_, _, hm, hl⟩
  exact hno ⟨hm, hl⟩

theorem tailFlags_asked (buf : List Nat) (j a : Nat) (c : Candidate) (ha : a ≠ 0) :
    tailFlags buf j a c = (a, false) := by
  unfold tailFlags
  rw [if_neg]
  rintro ⟨h, _⟩
  exact ha h

theorem tailFlags_none (buf : List Nat) (j a : Nat) (c : Candidate) (h : c.servMatch = 0) :
    tailFlags buf j a c = (a, false) := by
  unfold tailFlags
  rw [if_neg]
  rintro ⟨_, _, hm, _⟩
  exact hm h

/-- One question of literal labels `L` followed by the four bytes of QTYPE
and QCLASS: the walk moves behind them, and the flag of candidate `j` is what
the tail test makes of the candidate as the label loop leaves it. -/
theorem questionStep_literal (st : BonjourClass) (pkt : List Nat) (ws : WalkState)
    (L : List (List Nat)) (t0 t1 c0 c1 : Nat) (rest : List Nat)
    (hL : ∀ l ∈ L, l ≠ [] ∧ l.length ≤ 128)
    (hshape : pkt.drop ws.offset = wireLabels L ++ 0 :: t0 :: t1 :: c0 :: c1 :: rest)
    (j a : Nat) (c : Candidate)
    (ha : ws.recordsAskedFor[j]? = some a) (hc : (initCandidates st)[j]? = some c) :
    ∃ c', (labelLoop pkt [a] (pkt.length + 1) ws.offset 0 [c]).2.2 = [c'] ∧
      (a ≠ 0 → c' = c) ∧
      (a = 0 → ∀ S fed, Fed S fed c → Fed S (fed ++ noDots L.flatten) c') ∧
      (questionStep st pkt ws).offset = ws.offset + (wireLabels L).length + 1 + 4 ∧
      (questionStep st pkt ws).recordsAskedFor[j]?
        = some (tailFlags [t0, t1, c0, c1] j a c').1 ∧
      (j = 0 → (questionStep st pkt ws).wantsIPv6Addr
        = if (tailFlags [t0, t1, c0, c1] 0 a c').2 then 1 else ws.wantsIPv6Addr) := by
  have hplen : pkt.length - ws.offset = (wireLabels L).length + (5 + rest.length) := by
    have := congrArg List.length hshape
    simp only [List.length_drop, List.length_append, List.length_cons] at this
    omega
  have hfuel : L.length < pkt.length + 1 := by
    have := wireLabels_length_ge L
    omega
  obtain ⟨c', hrun, hca, hcb⟩ := labelLoop_fed pkt (t0 :: t1 :: c0 :: c1 :: rest) a L
    (pkt.length + 1) ws.offset 0 c hL hshape hfuel
  have hbuf : readBytes pkt (ws.offset + (wireLabels L).length + 1) 4 = [t0, t1, c0, c1] := by
    have e : wireLabels L ++ 0 :: t0 :: t1 :: c0 :: c1 :: rest
        = (wireLabels L ++ [0]) ++ (t0 :: t1 :: c0 :: c1 :: rest) := by simp
    rw [readBytes_eq pkt _ 4 (by omega), Nat.add_assoc, ← List.drop_drop, hshape, e,
      List.drop_left' (by simp)]
    rfl
  have h1 : (labelLoop pkt [a] (pkt.length + 1) ws.offset 0 [c]).2.2 = [c'] := by rw [hrun]
  have hoff : (labelLoop pkt [a] (pkt.length + 1) ws.offset 0 [c]).1
      = ws.offset + (wireLabels L).length + 1 := by rw [hrun]
  have hg := questionStep_get st pkt ws j a c c' ha hc h1
  rw [hoff, hbuf] at hg
  refine ⟨c', h1, hca, hcb, hg.1, hg.2, ?_⟩
  intro hj
  subst hj
  have hw := questionStep_wants st pkt ws a c c' ha hc h1
  rw [hoff, hbuf] at hw
  exact hw

/-- The tail test on a candidate that matched the whole question name. -/
theorem tailFlags_matched (t0 t1 c0 c1 j : Nat) :
    tailFlags [t0, t1, c0, c1] j 0 (Candidate.at [])
      = if t0 = 0 ∧ c1 = 0x01 ∧ (c0 = 0x00 ∨ c0 = 0x80) then
          if (j = 0 ∧ t1 = 0x01) ∨ (0 < j ∧ (t1 = 0x0c ∨ t1 = 0x10 ∨ t1 = 0x21)) then (1, false)
          else if j = 0 ∧ t1 = 0x1c then (0, true)
          else (0, false)
        else (0, false) := by
  simp [tailFlags, Candidate.at]

/-- A question for the name `N` against the candidate `N`: the candidate
matches in full. -/
theorem labelLoop_own (pkt : List Nat) (N T : List Nat) (off fuel : Nat)
    (hwf : WellFormedName 128 N)
    (hshape : pkt.drop off = wireLabels (splitLabels N) ++ 0 :: T)
    (hfuel : (splitLabels N).length < fuel) :
    (labelLoop pkt [0] fuel off 0 [Candidate.ofName (some N)]).2.2 = [Candidate.at []] := by
  have h := labelLoop_labels pkt T (splitLabels N) fuel off 0
    (goodLabels_of_nonEmpty N (nonEmpty_of_wellFormed hwf)) (fun l hl => (hwf.2 l hl).2)
    hshape hfuel
  rw [joinLabels_splitLabels] at h
  rw [candidate_ofName N hwf.1, h]

/-- A question for the name `N`: a candidate whose name does not spell `N`
(dots left out) keeps its flag. -/
theorem questionStep_other (st : BonjourClass) (pkt : List Nat) (ws : WalkState)
    (N : List Nat) (t0 t1 c0 c1 : Nat) (rest : List Nat) (hwf : WellFormedName 128 N)
    (hshape : pkt.drop ws.offset
      = wireLabels (splitLabels N) ++ 0 :: t0 :: t1 :: c0 :: c1 :: rest)
    (j a : Nat) (oS : Option (List Nat))
    (ha : ws.recordsAskedFor[j]? = some a)
    (hc : (initCandidates st)[j]? = some (Candidate.ofName oS))
    (hclash : nameClash N oS = false) :
    (questionStep st pkt ws).recordsAskedFor[j]? = some a ∧
    (j = 0 → (questionStep st pkt ws).wantsIPv6Addr = ws.wantsIPv6Addr) := by
  obtain ⟨c', _, hca, hcb, _, hflag, hwants⟩ := questionStep_literal st pkt ws (splitLabels N)
    t0 t1 c0 c1 rest (fun l hl => hwf.2 l hl) hshape j a _ ha hc
  have htf : tailFlags [t0, t1, c0, c1] j a c' = (a, false) := by
    by_cases ha0 : a = 0
    · subst ha0
      cases oS with
      | none =>
        have hfed := hcb rfl DNS_SD_SERVICE [] (fed_none _)
        rcases hfed with h0 | ⟨k, _, hc', _⟩
        · exact tailFlags_none _ _ _ _ h0
        · -- the absent candidate is never touched
          have hfed2 := hcb rfl [] [] (fed_none _)
          rcases hfed2 with h0 | ⟨k2, hk2, hc2, hf2⟩
          · exact tailFlags_none _ _ _ _ h0
          · have hk0 : k2 = 0 := by simpa [strlen] using hk2
            subst hk0
            have hz : noDots ((splitLabels N).flatten) = [] := by
              simpa [noDots] using hf2.symm
            rw [flatten_splitLabels, noDots_noDots] at hz
            have hN : N ≠ [] := by
              intro hn
              have := hwf.2 [] (by rw [hn]; simp [splitLabels])
              exact this.1 rfl
            have hlab := splitLabels_bytes N
            have hne := splitLabels_ne_nil N
            cases hs : splitLabels N with
            | nil => exact absurd hs hne
            | cons l ls =>
              have hl := hwf.2 l (by rw [hs]; exact List.mem_cons_self _ _)
              cases l with
              | nil => exact absurd rfl hl.1
              | cons b l =>
                have hb := hlab (b :: l) (by rw [hs]; exact List.mem_cons_self _ _) b
                  (List.mem_cons_self _ _)
                have : b ∈ noDots N := by
                  simp only [noDots, List.mem_filter, ne_eq, decide_not, Bool.not_eq_eq_eq_not,
                    Bool.not_true, decide_eq_false_iff_not]
                  exact ⟨hb.1, hb.2⟩
                rw [hz] at this
                simp at this
      | some S =>
        have hfed := hcb rfl S [] (fed_ofName S)
        rw [List.nil_append, flatten_splitLabels, noDots_noDots] at hfed
        have hne : noDots (S.take (strlen S)) ≠ noDots N := by
          simpa [nameClash] using hclash
        exact tailFlags_of_fed _ _ S _ c' hfed hne
    · exact tailFlags_asked _ _ _ _ ha0
  refine ⟨by rw [hflag, htf], ?_⟩
  intro hj
  rw [hwants hj]
  subst hj
  rw [htf]
  simp

theorem noClash_slot (st : BonjourClass) (H : List Nat) (h : NoNameClash st H) (i : Nat) :
    nameClash H ((recordAt st i).bind fun r => r.servName) = false := by
  unfold recordAt
  by_cases hi : i < st._serviceRecords.length
  · rw [List.getD_eq_getElem _ _ hi]
    exact h.2 _ (List.getElem_mem _)
  · rw [List.getD_eq_default _ _ (by omega)]
    rfl

/-- One question for the host identity `H`, written as literal labels, in a
state where no other candidate spells `H`: the walk moves behind the
question; if the host's flag is clear and the class is IN (00 01 or 80 01),
QTYPE A sets the host's flag and QTYPE AAAA sets `wantsIPv6Addr`; nothing else
changes. A host flag already set by an earlier question of the datagram makes
the walk skip the question. -/
theorem hostQuestion_step (st : BonjourClass) (pkt : List Nat) (ws : WalkState)
    (H : List Nat) (t0 t1 c0 c1 : Nat) (rest : List Nat)
    (hhost : st._bonjourName = some H) (hwf : WellFormedName 63 H)
    (hclash : NoNameClash st H)
    (hlen : ws.recordsAskedFor.length = NumMDNSServiceRecords + 2)
    (hshape : pkt.drop ws.offset = wireName H 1 ++ t0 :: t1 :: c0 :: c1 :: rest) :
    questionStep st pkt ws
      = { offset := ws.offset + (H.length + 2) + 4,
          recordsAskedFor :=
            if ws.recordsAskedFor.getD 0 0 = 0 ∧
                (t0 = 0 ∧ c1 = 0x01 ∧ (c0 = 0x00 ∨ c0 = 0x80)) ∧ t1 = 0x01
            then ws.recordsAskedFor.set 0 1 else ws.recordsAskedFor,
          wantsIPv6Addr :=
            if ws.recordsAskedFor.getD 0 0 = 0 ∧
                (t0 = 0 ∧ c1 = 0x01 ∧ (c0 = 0x00 ∨ c0 = 0x80)) ∧ t1 = 0x1c
            then 1 else ws.wantsIPv6Addr } := by
  have hwf128 : WellFormedName 128 H := wellFormed_mono hwf (by decide)
  have hshape' : pkt.drop ws.offset
      = wireLabels (splitLabels H) ++ 0 :: t0 :: t1 :: c0 :: c1 :: rest := by
    rw [hshape]; simp [wireName]
  have hwl : (wireLabels (splitLabels H)).length = H.length + 1 := by
    have h1 := emittedName_length H 1
    rw [emittedName_eq_wireName 63 (by decide) H 1 hwf] at h1
    simp [wireName] at h1
    omega
  obtain ⟨a0, ha0⟩ : ∃ a0, ws.recordsAskedFor[0]? = some a0 :=
    ⟨ws.recordsAskedFor[0], List.getElem?_eq_getElem (by rw [hlen]; decide)⟩
  have hgetD : ws.recordsAskedFor.getD 0 0 = a0 := by
    rw [List.getD_eq_getElem?_getD, ha0]; rfl
  -- the host candidate
  have hc0 : (initCandidates st)[0]? = some (Candidate.ofName (some H)) := by
    rw [initCandidates_zero, hhost]
  obtain ⟨c', hrun, hca, _, hoff, hflag, hwants⟩ := questionStep_literal st pkt ws
    (splitLabels H) t0 t1 c0 c1 rest (fun l hl => hwf128.2 l hl) hshape' 0 a0 _ ha0 hc0
  have hplen : (splitLabels H).length < pkt.length + 1 := by
    have h1 := congrArg List.length hshape'
    have h2 := wireLabels_length_ge (splitLabels H)
    simp only [List.length_drop, List.length_append, List.length_cons] at h1
    omega
  have htf : tailFlags [t0, t1, c0, c1] 0 a0 c'
      = (if a0 = 0 ∧ (t0 = 0 ∧ c1 = 0x01 ∧ (c0 = 0x00 ∨ c0 = 0x80)) ∧ t1 = 0x01 then 1 else a0,
         decide (a0 = 0 ∧ (t0 = 0 ∧ c1 = 0x01 ∧ (c0 = 0x00 ∨ c0 = 0x80)) ∧ t1 = 0x1c)) := by
    by_cases h0 : a0 = 0
    · subst h0
      have hown := labelLoop_own pkt H (t0 :: t1 :: c0 :: c1 :: rest) ws.offset (pkt.length + 1)
        hwf128 hshape' hplen
      rw [hrun] at hown
      cases hown
      rw [tailFlags_matched]
      by_cases hin : t0 = 0 ∧ c1 = 0x01 ∧ (c0 = 0x00 ∨ c0 = 0x80)
      · by_cases ht : t1 = 0x01
        · simp [hin, ht]
        · by_cases ht2 : t1 = 0x1c
          · simp [hin, ht2]
          · simp [hin, ht, ht2]
      · simp [hin]
    · rw [tailFlags_asked _ _ _ _ h0]
      simp [h0]
  rw [htf] at hflag
  have hw := hwants rfl
  rw [htf] at hw
  -- assemble
  have hflags : (questionStep st pkt ws).recordsAskedFor
      = if ws.recordsAskedFor.getD 0 0 = 0 ∧
            (t0 = 0 ∧ c1 = 0x01 ∧ (c0 = 0x00 ∨ c0 = 0x80)) ∧ t1 = 0x01
        then ws.recordsAskedFor.set 0 1 else ws.recordsAskedFor := by
    apply List.ext_getElem?
    intro j
    rw [hgetD]
    by_cases hj : j < NumMDNSServiceRecords + 2
    · rcases Nat.eq_zero_or_pos j with hj0 | hjpos
      · subst hj0
        rw [hflag]
        split
        · rw [List.getElem?_set_self (by rw [hlen]; decide)]
        · rw [ha0]
      · -- another candidate
        obtain ⟨aj, haj⟩ : ∃ aj, ws.recordsAskedFor[j]? = some aj := by
          have hjl : j < ws.recordsAskedFor.length := by rw [hlen]; exact hj
          exact ⟨_, List.getElem?_eq_getElem hjl⟩
        have hother : (questionStep st pkt ws).recordsAskedFor[j]? = some aj := by
          rcases Nat.lt_or_ge j 2 with h2 | h2
          · have hj1 : j = 1 := by omega
            subst hj1
            exact (questionStep_other st pkt ws H t0 t1 c0 c1 rest hwf128 hshape' 1 aj _ haj
              (initCandidates_one st) hclash.1).1
          · obtain ⟨i, hi⟩ : ∃ i, j = i + 2 := ⟨j - 2, by omega⟩
            subst hi
            exact (questionStep_other st pkt ws H t0 t1 c0 c1 rest hwf128 hshape' (i + 2) aj _
              haj (initCandidates_slot st i (by omega)) (noClash_slot st H hclash i)).1
        rw [hother]
        split
        · rw [List.getElem?_set_ne (by omega), haj]
        · rw [haj]
    · have h1 : (questionStep st pkt ws).recordsAskedFor[j]? = none :=
        List.getElem?_eq_none (by rw [questionStep_length, hlen]; omega)
      rw [h1]
      split
      · rw [List.getElem?_eq_none (by rw [List.length_set, hlen]; omega)]
      · rw [List.getElem?_eq_none (by rw [hlen]; omega)]
  have hoff' : (questionStep st pkt ws).offset = ws.offset + (H.length + 2) + 4 := by
    rw [hoff, hwl]; omega
  have hw' : (questionStep st pkt ws).wantsIPv6Addr
      = if ws.recordsAskedFor.getD 0 0 = 0 ∧
            (t0 = 0 ∧ c1 = 0x01 ∧ (c0 = 0x00 ∨ c0 = 0x80)) ∧ t1 = 0x1c
        then 1 else ws.wantsIPv6Addr := by
    rw [hw, hgetD]
    simp only [decide_eq_true_eq]
  calc questionStep st pkt ws
      = { offset := (questionStep st pkt ws).offset,
          recordsAskedFor := (questionStep st pkt ws).recordsAskedFor,
          wantsIPv6Addr := (questionStep st pkt ws).wantsIPv6Addr } := rfl
    _ = _ := by rw [hoff', hflags, hw']


/-! ## The datagrams of a sequence of messages -/

theorem pendingFlush_empty (st : BonjourClass) (h : st._writeBuffer = []) :
    pendingFlush st = [] := by
  simp [pendingFlush, h]

theorem sendMDNSMessage_buffer (st : BonjourClass) (peer : Option (List Nat)) (xid : Nat)
    (type : MDNSPacketType_t) (rec : Nat) :
    (_sendMDNSMessage st peer xid type rec).1._writeBuffer = [] :=
  (sendMDNSMessage_datagram st peer xid type rec).1

/-- The datagrams of a sequence of messages, when each message sends the
datagram `f m` from every state that differs from `st` only in what messages
change. -/
theorem sendAll_sent (st : BonjourClass) (peer : Option (List Nat)) (xid : Nat)
    (f : MDNSPacketType_t × Nat → Datagram) :
    ∀ (ms : List (MDNSPacketType_t × Nat)) (st1 : BonjourClass),
      core st1 = core st → st1._writeBuffer = [] →
      (∀ st2 m, core st2 = core st → st2._writeBuffer = [] → m ∈ ms →
        (_sendMDNSMessage st2 peer xid m.1 m.2).1.sent = st2.sent ++ [f m]) →
      (sendAll peer xid ms st1).sent = st1.sent ++ ms.map f ∧
      (sendAll peer xid ms st1)._writeBuffer = [] := by
  intro ms
  induction ms with
  | nil => intro st1 _ hb _; exact ⟨by simp [sendAll], hb⟩
  | cons m ms ih =>
    intro st1 hc hb hf
    have h1 := hf st1 m hc hb (List.mem_cons_self _ _)
    have h2 := ih (_sendMDNSMessage st1 peer xid m.1 m.2).1
      ((core_sendMDNSMessage _ _ _ _ _).trans hc) (sendMDNSMessage_buffer _ _ _ _ _)
      (fun st2 m2 hc2 hb2 hm2 => hf st2 m2 hc2 hb2 (List.mem_cons_of_mem _ hm2))
    simp only [sendAll]
    refine ⟨?_, h2.2⟩
    rw [h2.1, h1]
    simp

theorem emitted_append (s1 s2 : BonjourClass) (ds : List Datagram)
    (h : s2.sent = s1.sent ++ ds) : emitted s1 s2 = ds := by
  simp [emitted, h]

theorem sendAll_emitted (st : BonjourClass) (peer : Option (List Nat)) (xid : Nat)
    (f : MDNSPacketType_t × Nat → Datagram) (ms : List (MDNSPacketType_t × Nat))
    (hb : st._writeBuffer = [])
    (hf : ∀ st2 m, core st2 = core st → st2._writeBuffer = [] → m ∈ ms →
        (_sendMDNSMessage st2 peer xid m.1 m.2).1.sent = st2.sent ++ [f m]) :
    emitted st (sendAll peer xid ms st) = ms.map f :=
  emitted_append _ _ _ (sendAll_sent st peer xid f ms st rfl hb hf).1

/-- The header of every datagram of a sequence of messages is the header of
its message. -/
theorem sendAll_headers (peer : Option (List Nat)) (xid : Nat) :
    ∀ (ms : List (MDNSPacketType_t × Nat)) (st : BonjourClass), st._writeBuffer = [] →
      ∃ ds, (sendAll peer xid ms st).sent = st.sent ++ ds ∧
        ds.map (fun d => d.data.take sizeofDNSHeader)
          = ms.map (fun m => (buildHeader xid m.1).bytes) ∧
        ∀ d ∈ ds, d.ip = mdnsMulticastIPAddr ∧ d.port = MDNS_SERVER_PORT := by
  intro ms
  induction ms with
  | nil => intro st _; exact ⟨[], by simp [sendAll], rfl, by simp⟩
  | cons m ms ih =>
    intro st hb
    obtain ⟨hb1, body, hs⟩ := sendMDNSMessage_datagram st peer xid m.1 m.2
    rw [pendingFlush_empty st hb, List.append_nil] at hs
    obtain ⟨ds, hds, hh, hto⟩ := ih _ hb1
    refine ⟨(⟨mdnsMulticastIPAddr, MDNS_SERVER_PORT,
      (buildHeader xid m.1).bytes ++ body⟩ : Datagram) :: ds, ?_, ?_, ?_⟩
    · simp only [sendAll]
      rw [hds, hs]
      simp
    · simp only [List.map_cons, hh]
      rw [List.take_append_of_le_length (by rw [headerBytes_length]),
        List.take_of_length_le (by rw [headerBytes_length])]
    · intro d hd
      rcases List.mem_cons.1 hd with h | h
      · subst h; exact ⟨rfl, rfl⟩
      · exact hto d h

/-! ### The datagram of each answer message -/

theorem send_myIPAnswer (st : BonjourClass) (peer : Option (List Nat)) (xid rec : Nat)
    (host : List Nat) (hhost : st._bonjourName = some host) (hwf : NonEmptyLabels host)
    (hb : st._writeBuffer = []) :
    (_sendMDNSMessage st peer xid MDNSPacketType_t.MDNSPacketTypeMyIPAnswer rec).1.sent
      = st.sent ++ [myIPAnswerDatagram xid host st.localIP] := by
  rw [sendMyIPAnswer_sent st peer xid rec host hhost hwf, pendingFlush_empty st hb,
    List.append_nil]
  rfl

theorem send_noIPv6 (st : BonjourClass) (peer : Option (List Nat)) (xid rec : Nat)
    (host : List Nat) (hhost : st._bonjourName = some host) (hwf : NonEmptyLabels host)
    (hb : st._writeBuffer = []) :
    (_sendMDNSMessage st peer xid MDNSPacketType_t.MDNSPacketTypeNoIPv6AddrAvailable rec).1.sent
      = st.sent ++ [noIPv6Datagram xid host st.localIP] := by
  rw [sendNoIPv6_sent st peer xid rec host hhost hwf, pendingFlush_empty st hb,
    List.append_nil]
  rfl

theorem send_serviceRecord (st : BonjourClass) (peer : Option (List Nat)) (xid idx : Nat)
    (r : MDNSServiceRecord_t) (host : List Nat) (hr : recordAt st idx = some r)
    (hgood : GoodRecord r) (hhost : st._bonjourName = some host) (hwf : NonEmptyLabels host)
    (hb : st._writeBuffer = []) :
    (_sendMDNSMessage st peer xid MDNSPacketType_t.MDNSPacketTypeServiceRecord idx).1.sent
      = st.sent ++ [serviceRecordDatagram xid r host st.localIP] := by
  rw [sendServiceRecord_sent st peer xid idx r host hr hgood hhost hwf,
    pendingFlush_empty st hb, List.append_nil]
  rfl

theorem send_release (st : BonjourClass) (peer : Option (List Nat)) (xid idx : Nat)
    (r : MDNSServiceRecord_t) (hr : recordAt st idx = some r) (hgood : GoodRecord r)
    (hb : st._writeBuffer = []) :
    (_sendMDNSMessage st peer xid MDNSPacketType_t.MDNSPacketTypeServiceRecordRelease idx).1.sent
      = st.sent ++ [releaseDatagram xid r] := by
  rw [sendServiceRelease_sent st peer xid idx r hr hgood, pendingFlush_empty st hb,
    List.append_nil]
  rfl


/-! ## The TXT record -/

/-- C11 (amended): in every emitted ServiceRecord that fits the 512-byte send
buffer (record and host identity with names of non-empty labels), the TXT
record follows the SRV record and is: the owner name, TYPE 00 10, CLASS 80 01,
TTL 00 00 00 78 (120), and then 00 01 and a single 00 byte when the service
has no text content, and otherwise the 16-bit big-endian byte count of the
stored text followed by exactly those bytes; the meta-PTR, the self-PTR and
the A record follow. -/
theorem C11_txt_record (st : BonjourClass) (peer : Option (List Nat)) (xid idx : Nat)
    (r : MDNSServiceRecord_t) (host : List Nat) (hr : recordAt st idx = some r)
    (hgood : GoodRecord r) (hhost : st._bonjourName = some host) (hwf : NonEmptyLabels host)
    (hfit : sizeofDNSHeader + (serviceRecordBytes r host st.localIP).length
      ≤ sizeofWriteBuffer) :
    (_sendMDNSMessage st peer xid MDNSPacketType_t.MDNSPacketTypeServiceRecord idx).1.sent
      = st.sent ++ pendingFlush st ++
        [{ ip := mdnsMulticastIPAddr, port := MDNS_SERVER_PORT,
           data := (buildHeader xid MDNSPacketType_t.MDNSPacketTypeServiceRecord).bytes ++
             srvRecordBytes r host ++
             (serviceNameBytes r 0 ++ [0x00, 0x10, 0x80, 0x01, 0x00, 0x00, 0x00, 0x78] ++
               (match r.textContent with
                | none => [0x00, 0x01, 0x00]
                | some txt =>
                  [strlen txt / 256, strlen txt % 256] ++ txt.take (strlen txt))) ++
             (metaPTRBytes r ++ servicePTRBytes r MDNS_RESPONSE_TTL ++
               ipAnswerBytes host st.localIP) }] ∧
    (∀ txt, r.textContent = some txt →
      strlen txt < 65536 ∧ (txt.take (strlen txt)).length = strlen txt) := by
  have hs := sendServiceRecord_sent st peer xid idx r host hr hgood hhost hwf
  rw [List.take_of_length_le (by simpa [headerBytes_length] using hfit)] at hs
  have htxt : ∀ txt, r.textContent = some txt →
      strlen txt < 65536 ∧ (txt.take (strlen txt)).length = strlen txt := by
    intro txt ht
    have h1 := txtBytes_length r txt ht
    have h2 := strlen_le_length txt
    refine ⟨?_, by rw [List.length_take]; omega⟩
    simp only [serviceRecordBytes, txtRecordBytes, List.length_append, h1, sizeofWriteBuffer]
      at hfit
    omega
  refine ⟨?_, htxt⟩
  rw [hs]
  cases ht : r.textContent with
  | none =>
    simp [serviceRecordBytes, txtRecordBytes, txtBytes, ht, be32, MDNS_RESPONSE_TTL,
      List.append_assoc]
  | some txt =>
    have h1 := (htxt txt ht).1
    simp [serviceRecordBytes, txtRecordBytes, txtBytes, ht, be32, be16_of_lt _ h1,
      MDNS_RESPONSE_TTL, List.append_assoc]

set_option maxRecDepth 100000 in
/-- Witness for C11: the announcement of `"My Web._http"` with the text
`path=/`; the TXT record holds 00 10 80 01, TTL 120, the count 00 06 and the
six bytes of the text. -/
theorem C11_txt_record_witness :
    ((_sendMDNSMessage webState none 0 MDNSPacketType_t.MDNSPacketTypeServiceRecord 0).1.sent.map
      fun d => (d.data.drop 91).take 16)
      = [[0x00, 0x10, 0x80, 0x01, 0, 0, 0, 120, 0, 6] ++ ascii "path=/"] := by
  have h := (C11_txt_record webState none 0 0 webRecord (ascii "spark.local") rfl (by decide)
    rfl (by decide) (by decide)).1
  rw [h]
  decide

set_option maxRecDepth 100000 in
/-- C11 as stated fails: for `longTextRecord`, whose text has 500 bytes, the
ServiceRecord is cut at 512 bytes; the TXT record (offset 115) says 00 10
80 01, TTL 120, count 01 f4 = 500, and only 387 bytes of the text follow it in
the datagram. -/
theorem C11_counterexample :
    GoodRecord longTextRecord ∧
    longTextRecord.textContent.map strlen = some 500 ∧
    ((_sendMDNSMessage longTextState none 0
        MDNSPacketType_t.MDNSPacketTypeServiceRecord 0).1.sent.map fun d =>
      (d.data.length, (d.data.drop 115).take 10, (d.data.drop 125).length)) =
      [(512, [0x00, 0x10, 0x80, 0x01, 0, 0, 0, 120, 1, 244], 387)] := by
  decide


/-! ## The datagrams of the responses to one inbound query -/

theorem goodTable_recordAt (st : BonjourClass) (h : GoodTable st) (i : Nat)
    (r : MDNSServiceRecord_t) (hr : recordAt st i = some r) : GoodRecord r := by
  unfold recordAt at hr
  by_cases hi : i < st._serviceRecords.length
  · rw [List.getD_eq_getElem _ _ hi] at hr
    exact h _ (List.getElem_mem hi) r (by rw [hr]; rfl)
  · rw [List.getD_eq_default _ _ (by omega)] at hr
    cases hr

theorem questionWalk_length (st : BonjourClass) (pkt : List Nat) :
    ∀ (n : Nat) (ws : WalkState),
      (questionWalk st pkt n ws).recordsAskedFor.length = ws.recordsAskedFor.length := by
  intro n
  induction n with
  | zero => intro ws; rfl
  | succ n ih =>
    intro ws
    rw [questionWalk, ih, questionStep_length]

theorem start_length : WalkState.start.recordsAskedFor.length = NumMDNSServiceRecords + 2 := by
  simp [WalkState.start]

/-- The responses to an inbound query are the messages of `respondPlan` for
the flags the question walk has set, sent in that order. -/
theorem processQuestions_eq (st : BonjourClass) (pkt remoteIP : List Nat) :
    processQuestions st pkt remoteIP
      = sendAll (some remoteIP) (packetXid pkt)
          (respondPlan st (questionWalk st pkt (packetQCnt pkt) WalkState.start).recordsAskedFor
            (questionWalk st pkt (packetQCnt pkt) WalkState.start).wantsIPv6Addr) st := by
  unfold processQuestions
  exact respond_eq st _ _ _ _ (by rw [questionWalk_length, start_length]; decide)

theorem mem_serviceSlots (st : BonjourClass) (asked : List Nat) (i : Nat)
    (h : i ∈ serviceSlots st asked) : (recordAt st i).isSome = true := by
  simp only [serviceSlots, List.mem_filter, decide_eq_true_eq] at h
  exact h.2.2

theorem mem_respondPlan (st : BonjourClass) (asked : List Nat) (wants : Nat)
    (m : MDNSPacketType_t × Nat) (h : m ∈ respondPlan st asked wants) :
    m = (MDNSPacketType_t.MDNSPacketTypeMyIPAnswer, 0) ∨
    m = (MDNSPacketType_t.MDNSPacketTypeNoIPv6AddrAvailable, 0) ∨
    (m.1 = MDNSPacketType_t.MDNSPacketTypeServiceRecord ∧ (recordAt st m.2).isSome = true) := by
  unfold respondPlan at h
  rcases List.mem_append.1 h with h1 | h1
  · rcases List.mem_append.1 h1 with h2 | h2
    · left
      split at h2
      · simpa using h2
      · simp at h2
    · right; right
      obtain ⟨i, hi, rfl⟩ := List.mem_map.1 h2
      exact ⟨rfl, mem_serviceSlots st asked i hi⟩
  · right; left
    split at h1
    · simpa using h1
    · simp at h1

/-- In a state with a host identity and a table the encoder can write, every
answer message sends its datagram. -/
theorem send_plan (st st2 : BonjourClass) (peer : Option (List Nat)) (xid : Nat)
    (host : List Nat) (m : MDNSPacketType_t × Nat)
    (hhost : st._bonjourName = some host) (hwf : NonEmptyLabels host) (hgood : GoodTable st)
    (hcore : core st2 = core st) (hb : st2._writeBuffer = [])
    (hm : m = (MDNSPacketType_t.MDNSPacketTypeMyIPAnswer, 0) ∨
      m = (MDNSPacketType_t.MDNSPacketTypeNoIPv6AddrAvailable, 0) ∨
      (m.1 = MDNSPacketType_t.MDNSPacketTypeServiceRecord ∧
        (recordAt st m.2).isSome = true)) :
    (_sendMDNSMessage st2 peer xid m.1 m.2).1.sent = st2.sent ++ [planDatagram st xid m] := by
  have hh2 : st2._bonjourName = some host := by rw [core_bonjourName hcore, hhost]
  have hip : st2.localIP = st.localIP := core_localIP hcore
  rcases hm with rfl | rfl | ⟨ht, hr⟩
  · rw [send_myIPAnswer st2 peer xid 0 host hh2 hwf hb, hip]
    simp [planDatagram, hhost]
  · rw [send_noIPv6 st2 peer xid 0 host hh2 hwf hb, hip]
    simp [planDatagram, hhost]
  · obtain ⟨t, i⟩ := m
    simp only at ht hr
    subst ht
    obtain ⟨r, hr'⟩ := Option.isSome_iff_exists.1 hr
    have hr2 : recordAt st2 i = some r := by rw [core_recordAt hcore, hr']
    rw [send_serviceRecord st2 peer xid i r host hr2 (goodTable_recordAt st hgood i r hr') hh2
      hwf hb, hip]
    simp [planDatagram, hhost, hr']

/-- The datagrams emitted for one inbound query, in a state with a host
identity and a table the encoder can write and with no bytes pending: one
datagram for every message of `respondPlan`, in order. -/
theorem processQuestions_emitted (st : BonjourClass) (pkt remoteIP host : List Nat)
    (hhost : st._bonjourName = some host) (hwf : NonEmptyLabels host) (hgood : GoodTable st)
    (hb : st._writeBuffer = []) :
    emitted st (processQuestions st pkt remoteIP)
      = (respondPlan st (questionWalk st pkt (packetQCnt pkt) WalkState.start).recordsAskedFor
          (questionWalk st pkt (packetQCnt pkt) WalkState.start).wantsIPv6Addr).map
            (planDatagram st (packetXid pkt)) := by
  rw [processQuestions_eq]
  apply sendAll_emitted st _ _ _ _ hb
  intro st2 m hc hb2 hm
  exact send_plan st st2 _ _ host m hhost hwf hgood hc hb2 (mem_respondPlan st _ _ m hm)


/-! ## Questions for the host identity -/

theorem serviceSlots_nil (st : BonjourClass) (asked : List Nat) (h1 : asked.getD 1 0 = 0)
    (h : ∀ i, i < NumMDNSServiceRecords → asked.getD (i + 2) 0 = 0) :
    serviceSlots st asked = [] := by
  unfold serviceSlots
  rw [List.filter_eq_nil_iff]
  intro i hi
  rw [List.mem_range] at hi
  have h2 := h i hi
  simp only [h1, h2, ne_eq, not_true_eq_false, or_self, false_and, decide_False,
    Bool.false_eq_true, not_false_eq_true]

theorem respondPlan_host (st : BonjourClass) :
    respondPlan st ((List.replicate (NumMDNSServiceRecords + 2) 0).set 0 1) 0
      = [(MDNSPacketType_t.MDNSPacketTypeMyIPAnswer, 0)] := by
  unfold respondPlan
  rw [serviceSlots_nil st _ (by decide) (by
    intro i hi
    simp only [NumMDNSServiceRecords] at hi
    interval_cases i <;> decide)]
  rfl

theorem respondPlan_noIPv6 (st : BonjourClass) :
    respondPlan st (List.replicate (NumMDNSServiceRecords + 2) 0) 1
      = [(MDNSPacketType_t.MDNSPacketTypeNoIPv6AddrAvailable, 0)] := by
  unfold respondPlan
  rw [serviceSlots_nil st _ (by decide) (by
    intro i hi
    simp only [NumMDNSServiceRecords] at hi
    interval_cases i <;> decide)]
  rfl

theorem respondPlan_none (st : BonjourClass) :
    respondPlan st (List.replicate (NumMDNSServiceRecords + 2) 0) 0 = [] := by
  unfold respondPlan
  rw [serviceSlots_nil st _ (by decide) (by
    intro i hi
    simp only [NumMDNSServiceRecords] at hi
    interval_cases i <;> decide)]
  rfl

/-- The walk over a datagram with one question for the host identity. -/
theorem hostQuery_walk (st : BonjourClass) (H : List Nat) (t0 t1 c0 c1 : Nat)
    (rest : List Nat) (hhost : st._bonjourName = some H) (hwf : WellFormedName 63 H)
    (hclash : NoNameClash st H) (x0 x1 f0 f1 n0 n1 n2 n3 n4 n5 : Nat) :
    questionWalk st ([x0, x1, f0, f1, 0, 1, n0, n1, n2, n3, n4, n5] ++ wireName H 1 ++
        t0 :: t1 :: c0 :: c1 :: rest)
      (packetQCnt ([x0, x1, f0, f1, 0, 1, n0, n1, n2, n3, n4, n5] ++ wireName H 1 ++
        t0 :: t1 :: c0 :: c1 :: rest)) WalkState.start
      = { offset := sizeofDNSHeader + (H.length + 2) + 4,
          recordsAskedFor :=
            if ClassIN t0 c0 c1 ∧ t1 = 0x01
            then (List.replicate (NumMDNSServiceRecords + 2) 0).set 0 1
            else List.replicate (NumMDNSServiceRecords + 2) 0,
          wantsIPv6Addr := if ClassIN t0 c0 c1 ∧ t1 = 0x1c then 1 else 0 } := by
  have hq : packetQCnt ([x0, x1, f0, f1, 0, 1, n0, n1, n2, n3, n4, n5] ++ wireName H 1 ++
      t0 :: t1 :: c0 :: c1 :: rest) = 1 := by
    simp [packetQCnt]
  rw [hq]
  show questionStep st _ WalkState.start = _
  have hstep := hostQuestion_step st
    ([x0, x1, f0, f1, 0, 1, n0, n1, n2, n3, n4, n5] ++ wireName H 1 ++
      t0 :: t1 :: c0 :: c1 :: rest) WalkState.start H t0 t1 c0 c1 rest hhost hwf hclash
    start_length (by simp [WalkState.start, sizeofDNSHeader])
  rw [hstep]
  simp [WalkState.start, ClassIN]

/-- The datagrams for a datagram with one question for the host identity. -/
theorem hostQuery_emitted (st : BonjourClass) (H : List Nat) (t0 t1 c0 c1 : Nat)
    (rest : List Nat) (hhost : st._bonjourName = some H) (hwf : WellFormedName 63 H)
    (hclash : NoNameClash st H) (hb : st._writeBuffer = [])
    (x0 x1 f0 f1 n0 n1 n2 n3 n4 n5 : Nat) (remoteIP : List Nat) :
    emitted st (processQuestions st
        ([x0, x1, f0, f1, 0, 1, n0, n1, n2, n3, n4, n5] ++ wireName H 1 ++
          t0 :: t1 :: c0 :: c1 :: rest) remoteIP)
      = if ClassIN t0 c0 c1 ∧ t1 = 0x01 then [myIPAnswerDatagram (x0 * 256 + x1) H st.localIP]
        else if ClassIN t0 c0 c1 ∧ t1 = 0x1c then
          [noIPv6Datagram (x0 * 256 + x1) H st.localIP]
        else [] := by
  have hxid : packetXid ([x0, x1, f0, f1, 0, 1, n0, n1, n2, n3, n4, n5] ++ wireName H 1 ++
      t0 :: t1 :: c0 :: c1 :: rest) = x0 * 256 + x1 := by
    simp [packetXid]
  have hne := nonEmpty_of_wellFormed hwf
  rw [processQuestions_eq, hostQuery_walk st H t0 t1 c0 c1 rest hhost hwf hclash, hxid]
  dsimp only
  by_cases hA : ClassIN t0 c0 c1 ∧ t1 = 0x01
  · have hnot : ¬ (ClassIN t0 c0 c1 ∧ t1 = 0x1c) := by
      rintro ⟨_, h⟩
      rw [hA.2] at h
      exact absurd h (by decide)
    rw [if_pos hA, if_neg hnot, if_pos hA, respondPlan_host]
    apply emitted_append
    simp only [sendAll]
    exact send_myIPAnswer st _ _ 0 H hhost hne hb
  · rw [if_neg hA, if_neg hA]
    by_cases h6 : ClassIN t0 c0 c1 ∧ t1 = 0x1c
    · rw [if_pos h6, if_pos h6, respondPlan_noIPv6]
      apply emitted_append
      simp only [sendAll]
      exact send_noIPv6 st _ _ 0 H hhost hne hb
    · rw [if_neg h6, if_neg h6, respondPlan_none]
      simp [sendAll, emitted]

/-- C12 (what the code does): in a state whose host identity `H` has labels
of 1 to 63 bytes and where no service name and not the DNS-SD meta-name
spells `H` when dots are left out, for a question whose name is `H` written as
literal labels, followed by the bytes `t0 t1` (QTYPE) and `c0 c1` (QCLASS):

* at any place of any inbound query datagram the walk moves behind the
  question; if the host's flag is still clear and QCLASS is 00 01 or 80 01,
  QTYPE A (00 01) sets the host's flag (one MyIPAnswer) and QTYPE AAAA (00 1c)
  sets `wantsIPv6Addr` (one NoIPv6 datagram); every other QTYPE or QCLASS
  changes nothing; and when the host's flag has been set by an earlier
  question of the datagram, the question is skipped, an AAAA question too;
* a datagram with this one question makes the engine emit exactly the
  MyIPAnswer datagram for A, exactly the NoIPv6 datagram for AAAA, and nothing
  otherwise. -/
theorem C12_host_question (st : BonjourClass) (H : List Nat) (t0 t1 c0 c1 : Nat)
    (rest : List Nat) (hhost : st._bonjourName = some H) (hwf : WellFormedName 63 H)
    (hclash : NoNameClash st H) :
    (∀ (pkt : List Nat) (ws : WalkState),
      ws.recordsAskedFor.length = NumMDNSServiceRecords + 2 →
      pkt.drop ws.offset = wireName H 1 ++ t0 :: t1 :: c0 :: c1 :: rest →
      questionStep st pkt ws
        = { offset := ws.offset + (H.length + 2) + 4,
            recordsAskedFor :=
              if ws.recordsAskedFor.getD 0 0 = 0 ∧ ClassIN t0 c0 c1 ∧ t1 = 0x01
              then ws.recordsAskedFor.set 0 1 else ws.recordsAskedFor,
            wantsIPv6Addr :=
              if ws.recordsAskedFor.getD 0 0 = 0 ∧ ClassIN t0 c0 c1 ∧ t1 = 0x1c
              then 1 else ws.wantsIPv6Addr }) ∧
    (st._writeBuffer = [] →
      ∀ (x0 x1 f0 f1 n0 n1 n2 n3 n4 n5 : Nat) (remoteIP : List Nat),
        emitted st (processQuestions st
            ([x0, x1, f0, f1, 0, 1, n0, n1, n2, n3, n4, n5] ++ wireName H 1 ++
              t0 :: t1 :: c0 :: c1 :: rest) remoteIP)
          = if ClassIN t0 c0 c1 ∧ t1 = 0x01 then
              [myIPAnswerDatagram (x0 * 256 + x1) H st.localIP]
            else if ClassIN t0 c0 c1 ∧ t1 = 0x1c then
              [noIPv6Datagram (x0 * 256 + x1) H st.localIP]
            else []) := by
  refine ⟨?_, ?_⟩
  · intro pkt ws hlen hshape
    exact hostQuestion_step st pkt ws H t0 t1 c0 c1 rest hhost hwf hclash hlen hshape
  · intro hb x0 x1 f0 f1 n0 n1 n2 n3 n4 n5 remoteIP
    exact hostQuery_emitted st H t0 t1 c0 c1 rest hhost hwf hclash hb x0 x1 f0 f1 n0 n1 n2 n3
      n4 n5 remoteIP


set_option maxRecDepth 100000 in
/-- Witness for C12: the host A-query for `spark.local` with XID 0x1234 is
answered by exactly the MyIPAnswer datagram; and, the failing input, in a
datagram that asks A and then AAAA for `spark.local` the second question, read
with the host's flag already set, leaves `wantsIPv6Addr` clear. -/
theorem C12_host_question_witness :
    emitted sparkState (processQuestions sparkState
        ([0x12, 0x34, 0, 0, 0, 1, 0, 0, 0, 0, 0, 0] ++ wireName (ascii "spark.local") 1 ++
          [0, 0x01, 0, 1]) peerIP)
      = [myIPAnswerDatagram 0x1234 (ascii "spark.local") [192, 168, 1, 10]] ∧
    (questionStep sparkState hostTwoQuestions
      { offset := 29, recordsAskedFor := (List.replicate 10 0).set 0 1,
        wantsIPv6Addr := 0 }).wantsIPv6Addr = 0 := by
  constructor
  · have h := (C12_host_question sparkState (ascii "spark.local") 0 0x01 0 1 [] rfl
      (by decide) (by decide)).2 rfl 0x12 0x34 0 0 0 0 0 0 0 0 peerIP
    rw [h]
    decide
  · have h := (C12_host_question sparkState (ascii "spark.local") 0 0x1c 0 1 [] rfl
      (by decide) (by decide)).1 hostTwoQuestions
      { offset := 29, recordsAskedFor := (List.replicate 10 0).set 0 1, wantsIPv6Addr := 0 }
      (by decide) (by decide)
    rw [h]
    decide

set_option maxRecDepth 100000 in
/-- The failing input of C12 in full: the datagram that asks A and then AAAA
for `spark.local` is answered by the MyIPAnswer datagram alone; asked in the
other order, or alone, the AAAA question is answered by the NoIPv6 datagram
(QD=1, AR=1, QR=1, AA=1, RCODE=3). -/
theorem hostTwoQuestions_emitted :
    emitted sparkState (processQuestions sparkState hostTwoQuestions peerIP)
      = [myIPAnswerDatagram 0x1234 (ascii "spark.local") [192, 168, 1, 10]] ∧
    emitted sparkState (processQuestions sparkState
        ([0x12, 0x34, 0, 0, 0, 2, 0, 0, 0, 0, 0, 0] ++
          wireName (ascii "spark.local") 1 ++ [0, 0x1c, 0, 1] ++
          wireName (ascii "spark.local") 1 ++ [0, 0x01, 0, 1]) peerIP)
      = [myIPAnswerDatagram 0x1234 (ascii "spark.local") [192, 168, 1, 10],
         noIPv6Datagram 0x1234 (ascii "spark.local") [192, 168, 1, 10]] ∧
    (noIPv6Datagram 0x1234 (ascii "spark.local") [192, 168, 1, 10]).data.take 12
      = [0x12, 0x34, 0x84, 0x03, 0, 1, 0, 0, 0, 0, 0, 1] := by
  refine ⟨by decide, by decide, by decide⟩


/-! ## Questions for the DNS-SD meta-name -/

theorem planDatagram_serviceRecord (st : BonjourClass) (xid i : Nat) (r : MDNSServiceRecord_t)
    (host : List Nat) (hr : recordAt st i = some r) (hhost : st._bonjourName = some host) :
    planDatagram st xid (MDNSPacketType_t.MDNSPacketTypeServiceRecord, i)
      = serviceRecordDatagram xid r host st.localIP := by
  simp [planDatagram, hr, hhost]

theorem findDotLoop_none (str : List Nat) :
    ∀ p, (∀ q, 1 ≤ q → q ≤ p → str.getD q 0 ≠ DOT) → findDotLoop str p = 0 := by
  intro p
  induction p with
  | zero => intro _; rfl
  | succ p ih =>
    intro h
    rw [findDotLoop, if_pos (h (p + 1) (by omega) (le_refl _))]
    exact ih (fun q h1 h2 => h q h1 (by omega))

theorem findDotLoop_dot (str : List Nat) (d : Nat) (hd : str.getD (d + 1) 0 = DOT) :
    ∀ p, d + 1 ≤ p → (∀ q, d + 1 < q → q ≤ p → str.getD q 0 ≠ DOT) →
      findDotLoop str p = d := by
  intro p
  induction p with
  | zero => intro h; omega
  | succ p ih =>
    intro hp h
    rw [findDotLoop]
    by_cases hpd : p = d
    · subst hpd
      rw [if_neg (by rw [hd]; exact fun h => h rfl)]
    · rw [if_pos (h (p + 1) (by omega) (le_refl _))]
      exact ih (by omega) (fun q h1 h2 => h q h1 (by omega))

theorem getD_ne_dot_of_not_mem (l : List Nat) (q : Nat) (h : DOT ∉ l) : l.getD q 0 ≠ DOT := by
  by_cases hq : q < l.length
  · rw [List.getD_eq_getElem _ _ hq]
    intro hc
    exact h (hc ▸ List.getElem_mem hq)
  · rw [List.getD_eq_default _ _ (by omega)]
    decide

/-- `_findFirstDotFromRight` on a name with a dot behind its first byte: the
bytes behind the rightmost dot. -/
theorem findFirstDotFromRight_dot (pre T : List Nat) (hpre : pre ≠ [])
    (hnul : ∀ b ∈ pre ++ DOT :: T, b ≠ 0) (hT : DOT ∉ T) :
    _findFirstDotFromRight (pre ++ DOT :: T) = T := by
  obtain ⟨d, hd⟩ : ∃ d, pre.length = d + 1 :=
    ⟨pre.length - 1, by have := List.length_pos.mpr hpre; omega⟩
  have hlen : strlen (pre ++ DOT :: T) = (pre ++ DOT :: T).length := strlen_eq_length _ hnul
  have hget : ∀ q, (pre ++ DOT :: T).getD (d + 1 + q) 0 = (DOT :: T).getD q 0 := by
    intro q
    rw [List.getD_eq_getElem?_getD, List.getD_eq_getElem?_getD,
      List.getElem?_append_right (by omega)]
    congr 2
    omega
  have hloop : findDotLoop (pre ++ DOT :: T) (pre ++ DOT :: T).length = d := by
    apply findDotLoop_dot _ d (by simpa using hget 0)
    · simp; omega
    · intro q h1 _
      obtain ⟨k, hk⟩ : ∃ k, q = d + 1 + (k + 1) := ⟨q - d - 2, by omega⟩
      rw [hk, hget]
      simpa using getD_ne_dot_of_not_mem T k hT
  unfold _findFirstDotFromRight
  rw [hlen, hloop, show d + 2 = pre.length + 1 by omega, ← List.drop_drop, List.drop_left]
  rfl

/-- `_findFirstDotFromRight` on a name without a dot behind its first byte:
the name without its first two bytes. -/
theorem findFirstDotFromRight_nodot (b : Nat) (rest : List Nat) (hrest : DOT ∉ rest) :
    _findFirstDotFromRight (b :: rest) = rest.tail := by
  have hloop : findDotLoop (b :: rest) (strlen (b :: rest)) = 0 := by
    apply findDotLoop_none
    intro q h1 _
    obtain ⟨k, hk⟩ : ∃ k, q = k + 1 := ⟨q - 1, by omega⟩
    rw [hk]
    simpa using getD_ne_dot_of_not_mem rest k hrest
  unfold _findFirstDotFromRight
  rw [hloop]
  cases rest <;> rfl


/-! ## `addServiceRecord` with every allocation succeeding -/

theorem my_malloc_ok (st : BonjourClass) (k n : Nat) (hok : AllocOK st n) (hk : k < n) :
    my_malloc (afterAllocs st k) = (true, afterAllocs st (k + 1)) := by
  unfold my_malloc
  cases hd : st.mallocPlan.drop k with
  | nil =>
    have h1 : st.mallocPlan.drop (k + 1) = [] := by
      rw [← List.drop_drop 1 k, hd]; rfl
    simp only [afterAllocs, hd, h1]
  | cons b rest =>
    have h1 : st.mallocPlan.drop (k + 1) = rest := by
      rw [← List.drop_drop 1 k, hd]; rfl
    have hb : b = true := by
      apply hok
      have hlt : k < st.mallocPlan.length := by
        by_contra hc
        rw [List.drop_eq_nil_of_le (by omega)] at hd
        cases hd
      have hget : st.mallocPlan[k] = b := by
        have := List.drop_eq_getElem_cons hlt
        rw [hd] at this
        exact (List.cons.inj this).1.symm
      rw [← hget]
      exact List.mem_take_iff_getElem.2 ⟨k, by omega, rfl⟩
    simp only [afterAllocs, hd, h1, hb]

theorem sendMDNSMessage_status (st : BonjourClass) (peer : Option (List Nat)) (xid : Nat)
    (type : MDNSPacketType_t) (rec : Nat) :
    (_sendMDNSMessage st peer xid type rec).2 = MDNSError_t.MDNSSuccess := rfl

/-- The loop body of `addServiceRecord` when the allocations succeed: the
record is stored and announced, the call returns 1. -/
theorem addServiceRecordAt_ok (st : BonjourClass) (i : Nat) (name : List Nat) (port : Nat)
    (proto : MDNSServiceProtocol_t) (txt : Option (List Nat)) (hok : AllocOK st 4) :
    addServiceRecordAt st i name port proto txt
      = ((_sendMDNSMessage
            (setRecord (afterAllocs st (allocCount txt)) i (some (newRecord name port proto txt)))
            none 0 MDNSPacketType_t.MDNSPacketTypeServiceRecord i).1, 1) := by
  have m0 : my_malloc st = (true, afterAllocs st 1) := my_malloc_ok st 0 4 hok (by omega)
  have m1 : my_malloc (afterAllocs st 1) = (true, afterAllocs st 2) :=
    my_malloc_ok st 1 4 hok (by omega)
  have m2 : my_malloc (afterAllocs st 2) = (true, afterAllocs st 3) :=
    my_malloc_ok st 2 4 hok (by omega)
  have m3 : my_malloc (afterAllocs st 3) = (true, afterAllocs st 4) :=
    my_malloc_ok st 3 4 hok (by omega)
  unfold addServiceRecordAt
  rw [m0]
  simp only [Bool.not_true, Bool.false_eq_true, if_false, m1]
  cases txt with
  | none =>
    simp only [Bool.false_eq_true, if_false, Bool.not_true, m2, sendMDNSMessage_status,
      if_true, allocCount, newRecord, Option.map]
    try rfl
  | some t =>
    by_cases ht : cHead t ≠ 0
    · have hd : decide (cHead t ≠ 0) = true := decide_eq_true ht
      simp only [hd, if_true, m2, m3, Bool.not_true, Bool.false_eq_true, if_false,
        sendMDNSMessage_status, allocCount, newRecord, Option.map]
      rw [if_pos ht, if_pos ht]
      try rfl
    · have hd : decide (cHead t ≠ 0) = false := decide_eq_false ht
      simp only [hd, Bool.false_eq_true, if_false, m2, Bool.not_true,
        sendMDNSMessage_status, if_true, allocCount, newRecord, Option.map]
      rw [if_neg ht, if_neg ht]
      try rfl

theorem firstEmptySlot_some (st : BonjourClass) :
    ∀ (n i0 i : Nat), firstEmptySlot st n i0 = some i ↔
      (i0 ≤ i ∧ i < i0 + n ∧ recordAt st i = none ∧
        ∀ j, i0 ≤ j → j < i → (recordAt st j).isSome = true) := by
  intro n
  induction n with
  | zero =>
    intro i0 i
    simp only [firstEmptySlot]
    constructor
    · intro h; cases h
    · rintro ⟨h1, h2, _⟩; omega
  | succ n ih =>
    intro i0 i
    rw [firstEmptySlot]
    by_cases h0 : (recordAt st i0).isSome = true
    · rw [if_pos h0, ih]
      constructor
      · rintro ⟨h1, h2, h3, h4⟩
        refine ⟨by omega, by omega, h3, ?_⟩
        intro j hj1 hj2
        by_cases hj : j = i0
        · rw [hj]; exact h0
        · exact h4 j (by omega) hj2
      · rintro ⟨h1, h2, h3, h4⟩
        have hne : i ≠ i0 := by
          intro hc
          rw [hc] at h3
          rw [h3] at h0
          cases h0
        exact ⟨by omega, by omega, h3, fun j hj1 hj2 => h4 j (by omega) hj2⟩
    · rw [if_neg h0]
      have h0n : recordAt st i0 = none := by
        cases hr : recordAt st i0 with
        | none => rfl
        | some r => rw [hr] at h0; exact absurd rfl h0
      constructor
      · intro h
        cases h
        exact ⟨le_refl _, by omega, h0n, fun j h1 h2 => by omega⟩
      · rintro ⟨h1, h2, h3, h4⟩
        by_cases hi : i = i0
        · rw [hi]
        · exact absurd (h4 i0 (le_refl _) (by omega)) h0

theorem firstEmptySlot_none (st : BonjourClass) :
    ∀ (n i0 : Nat), firstEmptySlot st n i0 = none ↔
      ∀ j, i0 ≤ j → j < i0 + n → (recordAt st j).isSome = true := by
  intro n
  induction n with
  | zero =>
    intro i0
    simp only [firstEmptySlot, true_iff]
    intro j h1 h2
    omega
  | succ n ih =>
    intro i0
    rw [firstEmptySlot]
    by_cases h0 : (recordAt st i0).isSome = true
    · rw [if_pos h0, ih]
      constructor
      · intro h j h1 h2
        by_cases hj : j = i0
        · rw [hj]; exact h0
        · exact h j (by omega) (by omega)
      · intro h j h1 h2
        exact h j (by omega) (by omega)
    · rw [if_neg h0]
      constructor
      · intro h; cases h
      · intro h
        exact absurd (h i0 (le_refl _) (by omega)) h0

theorem recordAt_setRecord (st : BonjourClass) (i j : Nat) (r : Option MDNSServiceRecord_t)
    (hi : i < st._serviceRecords.length) :
    recordAt (setRecord st i r) j = if j = i then r else recordAt st j := by
  unfold recordAt setRecord
  simp only [List.getD_eq_getElem?_getD, List.getElem?_set]
  by_cases hj : j = i
  · rw [if_pos hj, if_pos hj.symm, if_pos hi]
    rfl
  · rw [if_neg hj, if_neg (fun h => hj h.symm)]

theorem recordAt_afterAllocs (st : BonjourClass) (k j : Nat) :
    recordAt (afterAllocs st k) j = recordAt st j := rfl

/-- A successful `addServiceRecord`, step by step. -/
theorem addServiceRecord_eq (st : BonjourClass) (name : List Nat) (port : Nat)
    (proto : MDNSServiceProtocol_t) (txt : Option (List Nat)) (i : Nat)
    (hname : cHead name ≠ 0) (hport : port ≠ 0)
    (hslot : firstEmptySlot st NumMDNSServiceRecords 0 = some i) (hok : AllocOK st 4) :
    addServiceRecord st (some name) port proto txt
      = ((_sendMDNSMessage
            (setRecord (afterAllocs st (allocCount txt)) i (some (newRecord name port proto txt)))
            none 0 MDNSPacketType_t.MDNSPacketTypeServiceRecord i).1, 1) := by
  unfold addServiceRecord
  simp only []
  rw [if_neg (by rintro (h | h); exact hname h; exact hport h), hslot]
  exact addServiceRecordAt_ok st i name port proto txt hok

/-- The table after a successful `addServiceRecord`. -/
theorem addServiceRecord_table (st : BonjourClass) (name : List Nat) (port : Nat)
    (proto : MDNSServiceProtocol_t) (txt : Option (List Nat)) (i : Nat)
    (hname : cHead name ≠ 0) (hport : port ≠ 0)
    (hslot : firstEmptySlot st NumMDNSServiceRecords 0 = some i) (hok : AllocOK st 4)
    (htable : st._serviceRecords.length = NumMDNSServiceRecords) (j : Nat) :
    recordAt (addServiceRecord st (some name) port proto txt).1 j
      = if j = i then some (newRecord name port proto txt) else recordAt st j := by
  rw [addServiceRecord_eq st name port proto txt i hname hport hslot hok]
  have hi : i < NumMDNSServiceRecords := by
    have := (firstEmptySlot_some st _ 0 i).1 hslot
    omega
  rw [core_recordAt (core_sendMDNSMessage _ _ _ _ _) j,
    recordAt_setRecord _ i j _ (by rw [← htable] at hi; exact hi)]
  rfl

/-- The host name, the address and the clock-independent rest after a
successful `addServiceRecord`. -/
theorem addServiceRecord_frame (st : BonjourClass) (name : List Nat) (port : Nat)
    (proto : MDNSServiceProtocol_t) (txt : Option (List Nat)) (i : Nat)
    (hname : cHead name ≠ 0) (hport : port ≠ 0)
    (hslot : firstEmptySlot st NumMDNSServiceRecords 0 = some i) (hok : AllocOK st 4) :
    (addServiceRecord st (some name) port proto txt).1._bonjourName = st._bonjourName ∧
    (addServiceRecord st (some name) port proto txt).1.localIP = st.localIP ∧
    (addServiceRecord st (some name) port proto txt).1._writeBuffer = [] := by
  rw [addServiceRecord_eq st name port proto txt i hname hport hslot hok]
  have hc := core_sendMDNSMessage
    (setRecord (afterAllocs st (allocCount txt)) i (some (newRecord name port proto txt)))
    none 0 MDNSPacketType_t.MDNSPacketTypeServiceRecord i
  exact ⟨(core_bonjourName hc).trans rfl, (core_localIP hc).trans rfl,
    sendMDNSMessage_buffer
      (setRecord (afterAllocs st (allocCount txt)) i (some (newRecord name port proto txt)))
      none 0 MDNSPacketType_t.MDNSPacketTypeServiceRecord i⟩

/-- The one datagram of a successful `addServiceRecord`: the header of a
ServiceRecord with XID 0 and a body, to the multicast group. -/
theorem addServiceRecord_sent (st : BonjourClass) (name : List Nat) (port : Nat)
    (proto : MDNSServiceProtocol_t) (txt : Option (List Nat)) (i : Nat)
    (hname : cHead name ≠ 0) (hport : port ≠ 0)
    (hslot : firstEmptySlot st NumMDNSServiceRecords 0 = some i) (hok : AllocOK st 4)
    (hb : st._writeBuffer = []) :
    ∃ body, emitted st (addServiceRecord st (some name) port proto txt).1
      = [(⟨mdnsMulticastIPAddr, MDNS_SERVER_PORT,
          (buildHeader 0 MDNSPacketType_t.MDNSPacketTypeServiceRecord).bytes ++ body⟩ :
            Datagram)] := by
  rw [addServiceRecord_eq st name port proto txt i hname hport hslot hok]
  obtain ⟨_, body, hs⟩ := sendMDNSMessage_datagram
    (setRecord (afterAllocs st (allocCount txt)) i (some (newRecord name port proto txt)))
    none 0 MDNSPacketType_t.MDNSPacketTypeServiceRecord i
  refine ⟨body, ?_⟩
  have hp : pendingFlush
      (setRecord (afterAllocs st (allocCount txt)) i (some (newRecord name port proto txt)))
        = [] := pendingFlush_empty _ hb
  rw [hp, List.append_nil] at hs
  exact emitted_append _ _ _ hs

/-- The datagram of a successful `addServiceRecord` of a record the encoder
can write. -/
theorem addServiceRecord_datagram (st : BonjourClass) (name : List Nat) (port : Nat)
    (proto : MDNSServiceProtocol_t) (txt : Option (List Nat)) (i : Nat) (host : List Nat)
    (hname : cHead name ≠ 0) (hport : port ≠ 0)
    (hslot : firstEmptySlot st NumMDNSServiceRecords 0 = some i) (hok : AllocOK st 4)
    (htable : st._serviceRecords.length = NumMDNSServiceRecords)
    (hb : st._writeBuffer = []) (hhost : st._bonjourName = some host)
    (hwf : NonEmptyLabels host) (hgood : GoodRecord (newRecord name port proto txt)) :
    emitted st (addServiceRecord st (some name) port proto txt).1
      = [serviceRecordDatagram 0 (newRecord name port proto txt) host st.localIP] := by
  rw [addServiceRecord_eq st name port proto txt i hname hport hslot hok]
  have hi : i < NumMDNSServiceRecords := by
    have := (firstEmptySlot_some st _ 0 i).1 hslot
    omega
  have hs := send_serviceRecord
    (setRecord (afterAllocs st (allocCount txt)) i (some (newRecord name port proto txt)))
    none 0 i (newRecord name port proto txt) host
    (by rw [recordAt_setRecord _ i i _ (by rw [← htable] at hi; exact hi), if_pos rfl])
    hgood hhost hwf hb
  exact emitted_append _ _ _ hs


/-! ## C19: the stored service name -/

theorem splitLabels_append_dot (pre T : List Nat) :
    splitLabels (pre ++ DOT :: T) = splitLabels pre ++ splitLabels T := by
  induction pre with
  | nil => simp [splitLabels]
  | cons b pre ih =>
    rw [List.cons_append]
    by_cases hb : b = DOT
    · simp only [splitLabels, hb, if_true, ih, List.cons_append]
    · simp only [splitLabels, hb, if_false, ih]
      cases hs : splitLabels pre with
      | nil => exact absurd hs (splitLabels_ne_nil pre)
      | cons l ls => rfl

theorem splitLabels_nodot (T : List Nat) (hT : DOT ∉ T) : splitLabels T = [T] := by
  induction T with
  | nil => rfl
  | cons b T ih =>
    have hb : b ≠ DOT := fun h => hT (h ▸ List.mem_cons_self _ _)
    simp only [splitLabels, hb, if_false, ih (fun h => hT (List.mem_cons_of_mem _ h))]

theorem lastComponent_dot (pre T : List Nat) (hT : DOT ∉ T) :
    lastComponent (pre ++ DOT :: T) = T := by
  unfold lastComponent
  rw [splitLabels_append_dot, splitLabels_nodot T hT]
  simp

theorem lastComponent_nodot (T : List Nat) (hT : DOT ∉ T) : lastComponent T = T := by
  unfold lastComponent
  rw [splitLabels_nodot T hT]
  rfl

theorem take_strlen_of_no_nul (s : List Nat) (h : ∀ b ∈ s, b ≠ 0) : s.take (strlen s) = s := by
  rw [strlen_eq_length s h, List.take_length]

/-- The service name `addServiceRecord` stores for a name without NUL. -/
theorem newRecord_servName (name : List Nat) (port : Nat) (proto : MDNSServiceProtocol_t)
    (txt : Option (List Nat)) (hnul : ∀ b ∈ name, b ≠ 0) :
    (newRecord name port proto txt).servName
      = some (_findFirstDotFromRight name ++ (_postfixForProtocol proto).getD []) := by
  have h1 := take_strlen_of_no_nul name hnul
  have h2 : ∀ b ∈ _findFirstDotFromRight name, b ≠ 0 := by
    intro b hb
    exact hnul b (List.mem_of_mem_drop hb)
  have h3 := take_strlen_of_no_nul _ h2
  unfold newRecord
  simp only [h1, h3]
  cases proto <;> rfl

/-- C19 (what the code does): `add_service` stores as service name the bytes
`_findFirstDotFromRight` yields for the instance name, followed by `._tcp.local`
or `._udp.local`. For a name with a dot behind its first byte these bytes are
the rightmost dot-delimited component. For a name without such a dot (a name
without any dot, or whose only dot is its first byte) they are the name
without its first two bytes, and not its rightmost component. -/
theorem C19_service_name (name : List Nat) (port : Nat) (proto : MDNSServiceProtocol_t)
    (txt : Option (List Nat)) (hnul : ∀ b ∈ name, b ≠ 0) :
    (newRecord name port proto txt).servName
      = some (_findFirstDotFromRight name ++
          (match proto with
           | MDNSServiceProtocol_t.MDNSServiceTCP => ascii "._tcp.local"
           | MDNSServiceProtocol_t.MDNSServiceUDP => ascii "._udp.local")) ∧
    (∀ st i, cHead name ≠ 0 → port ≠ 0 →
      firstEmptySlot st NumMDNSServiceRecords 0 = some i → AllocOK st 4 →
      st._serviceRecords.length = NumMDNSServiceRecords →
      recordAt (addServiceRecord st (some name) port proto txt).1 i
        = some (newRecord name port proto txt)) ∧
    (∀ pre T, name = pre ++ DOT :: T → pre ≠ [] → DOT ∉ T →
      _findFirstDotFromRight name = T ∧ lastComponent name = T) ∧
    (∀ b rest, name = b :: rest → DOT ∉ rest →
      _findFirstDotFromRight name = rest.tail ∧
      lastComponent name = if b = DOT then rest else name) := by
  refine ⟨?_, ?_, ?_, ?_⟩
  · rw [newRecord_servName name port proto txt hnul]
    cases proto <;> rfl
  · intro st i hname hport hslot hok htable
    rw [addServiceRecord_table st name port proto txt i hname hport hslot hok htable i,
      if_pos rfl]
  · intro pre T hn hpre hT
    subst hn
    exact ⟨findFirstDotFromRight_dot pre T hpre hnul hT, lastComponent_dot pre T hT⟩
  · intro b rest hn hrest
    subst hn
    refine ⟨findFirstDotFromRight_nodot b rest hrest, ?_⟩
    by_cases hb : b = DOT
    · rw [if_pos hb, hb]
      exact lastComponent_dot [] rest hrest
    · rw [if_neg hb]
      apply lastComponent_nodot
      intro hm
      rcases List.mem_cons.1 hm with h | h
      · exact hb h.symm
      · exact hrest h

set_option maxRecDepth 100000 in
/-- Witness for C19: `"My Web._http"` on TCP is stored with the service name
`_http._tcp.local`, its rightmost component and the suffix. The failing input
`"printer"` is stored with `inter._tcp.local`, while its rightmost component
is `printer`; `"web"` with `b._tcp.local`. -/
theorem C19_service_name_witness :
    (∀ b ∈ ascii "My Web._http", b ≠ 0) ∧
    (newRecord (ascii "My Web._http") 80 MDNSServiceProtocol_t.MDNSServiceTCP none).servName
      = some (ascii "_http._tcp.local") ∧
    lastComponent (ascii "My Web._http") = ascii "_http" ∧
    recordAt (addServiceRecord sparkState (some (ascii "printer")) 631
        MDNSServiceProtocol_t.MDNSServiceTCP none).1 0
      = some (newRecord (ascii "printer") 631 MDNSServiceProtocol_t.MDNSServiceTCP none) ∧
    (newRecord (ascii "printer") 631 MDNSServiceProtocol_t.MDNSServiceTCP none).servName
      = some (ascii "inter._tcp.local") ∧
    lastComponent (ascii "printer") = ascii "printer" ∧
    (newRecord (ascii "web") 80 MDNSServiceProtocol_t.MDNSServiceTCP none).servName
      = some (ascii "b._tcp.local") := by
  have h := C19_service_name (ascii "My Web._http") 80 MDNSServiceProtocol_t.MDNSServiceTCP none
    (by decide)
  have h2 := C19_service_name (ascii "printer") 631 MDNSServiceProtocol_t.MDNSServiceTCP none
    (by decide)
  refine ⟨by decide, ?_, ?_, ?_, by decide, by decide, by decide⟩
  · rw [h.1]; decide
  · exact (h.2.2.1 (ascii "My Web") (ascii "_http") (by decide) (by decide) (by decide)).2
  · exact h2.2.1 sparkState 0 (by decide) (by decide) (by decide) (by decide) (by decide)


/-! ## C14: a question for a service type -/

/-- A question for the service name of the occupied slot `i` with QTYPE PTR,
TXT or SRV and class IN sets the flag of the slot. -/
theorem serviceQuery_walk (st : BonjourClass) (i : Nat) (r : MDNSServiceRecord_t)
    (S : List Nat) (t1 c0 : Nat) (rest : List Nat)
    (hi : i < NumMDNSServiceRecords) (hr : recordAt st i = some r)
    (hS : r.servName = some S) (hwf : WellFormedName 128 S)
    (ht1 : t1 = 0x0c ∨ t1 = 0x10 ∨ t1 = 0x21) (hc0 : c0 = 0x00 ∨ c0 = 0x80)
    (x0 x1 f0 f1 n0 n1 n2 n3 n4 n5 : Nat) :
    (questionWalk st ([x0, x1, f0, f1, 0, 1, n0, n1, n2, n3, n4, n5] ++
        wireName S 1 ++ 0 :: t1 :: c0 :: 1 :: rest)
      (packetQCnt ([x0, x1, f0, f1, 0, 1, n0, n1, n2, n3, n4, n5] ++
        wireName S 1 ++ 0 :: t1 :: c0 :: 1 :: rest))
      WalkState.start).recordsAskedFor.getD (i + 2) 0 = 1 := by
  generalize hpkt : [x0, x1, f0, f1, 0, 1, n0, n1, n2, n3, n4, n5] ++
    wireName S 1 ++ 0 :: t1 :: c0 :: 1 :: rest = pkt
  have hq : packetQCnt pkt = 1 := by
    rw [← hpkt]; simp [packetQCnt]
  have hshape : pkt.drop WalkState.start.offset
      = wireLabels (splitLabels S) ++ 0 :: 0 :: t1 :: c0 :: 1 :: rest := by
    rw [← hpkt]; simp [WalkState.start, sizeofDNSHeader, wireName]
  rw [hq]
  show (questionStep st pkt WalkState.start).recordsAskedFor.getD (i + 2) 0 = 1
  have hL := fun l hl => hwf.2 l hl
  have hcand : (initCandidates st)[i + 2]? = some (Candidate.ofName (some S)) := by
    rw [initCandidates_slot st i hi, hr]
    simp only [Option.bind, hS]
  have hstart : WalkState.start.recordsAskedFor[i + 2]? = some 0 := by
    simp only [WalkState.start]
    rw [List.getElem?_replicate, if_pos (by omega)]
  obtain ⟨cm, hrun, _, _, _, hflag, _⟩ := questionStep_literal st pkt WalkState.start
    (splitLabels S) 0 t1 c0 1 rest hL hshape (i + 2) 0 _ hstart hcand
  have hplen : (splitLabels S).length < pkt.length + 1 := by
    have h1 := congrArg List.length hshape
    have h2 := wireLabels_length_ge (splitLabels S)
    simp only [List.length_drop, List.length_append, List.length_cons] at h1
    omega
  have hown := labelLoop_own pkt S (0 :: t1 :: c0 :: 1 :: rest)
    WalkState.start.offset (pkt.length + 1) hwf hshape hplen
  rw [hrun] at hown
  cases hown
  have ht : tailFlags [0, t1, c0, 1] (i + 2) 0 (Candidate.at []) = (1, false) := by
    rw [tailFlags_matched, if_pos ⟨rfl, rfl, hc0⟩, if_pos (Or.inr ⟨by omega, ht1⟩)]
  rw [ht] at hflag
  rw [List.getD_eq_getElem?_getD, hflag]
  rfl

theorem mem_respondPlan_slot (st : BonjourClass) (asked : List Nat) (wants i : Nat)
    (hi : i < NumMDNSServiceRecords) (hflag : asked.getD (i + 2) 0 ≠ 0)
    (hr : (recordAt st i).isSome = true) :
    (MDNSPacketType_t.MDNSPacketTypeServiceRecord, i) ∈ respondPlan st asked wants := by
  unfold respondPlan
  apply List.mem_append_left
  apply List.mem_append_right
  apply List.mem_map.2
  refine ⟨i, ?_, rfl⟩
  unfold serviceSlots
  apply List.mem_filter.2
  refine ⟨List.mem_range.2 hi, ?_⟩
  simp only [hr, decide_eq_true_eq, and_true]
  exact Or.inr hflag

theorem wellFormed_serviceName (T : List Nat) (hT : HostLabel T) (proto : MDNSServiceProtocol_t) :
    WellFormedName 63 (T ++ (_postfixForProtocol proto).getD []) := by
  obtain ⟨hne, hlen, hb⟩ := hT
  have hsplit : ∀ p : List Nat, splitLabels (T ++ DOT :: p) = T :: splitLabels p :=
    fun p => splitLabels_label_dot T p (fun b hbm => (hb b hbm).2)
  constructor
  · intro b hbm
    rcases List.mem_append.1 hbm with h1 | h1
    · exact (hb b h1).1
    · intro h0; subst h0; revert h1; cases proto <;> decide
  · have : ∀ p : List Nat, (∀ l ∈ splitLabels p, l ≠ [] ∧ l.length ≤ 63) →
        ∀ l ∈ splitLabels (T ++ DOT :: p), l ≠ [] ∧ l.length ≤ 63 := by
      intro p hp l hl
      rw [hsplit p] at hl
      rcases List.mem_cons.1 hl with rfl | h
      · exact ⟨hne, hlen⟩
      · exact hp l h
    cases proto
    · exact this (ascii "_tcp.local") (by decide)
    · exact this (ascii "_udp.local") (by decide)

/-- A dotted instance name of non-empty labels gives a record the encoder can
write. -/
theorem goodRecord_newRecord (pre T : List Nat) (port : Nat) (proto : MDNSServiceProtocol_t)
    (txt : Option (List Nat)) (hpre : NonEmptyLabels pre) (hT : HostLabel T) :
    GoodRecord (newRecord (pre ++ DOT :: T) port proto txt) := by
  have hnul : ∀ b ∈ pre ++ DOT :: T, b ≠ 0 := by
    intro b hb
    rcases List.mem_append.1 hb with h | h
    · exact hpre.1 b h
    · rcases List.mem_cons.1 h with h | h
      · rw [h]; decide
      · exact (hT.2.2 b h).1
  have hTd : DOT ∉ T := fun h => (hT.2.2 DOT h).2 rfl
  have hpne : pre ≠ [] := by
    intro h
    have := hpre.2 [] (by rw [h]; decide)
    exact this rfl
  have hname : (newRecord (pre ++ DOT :: T) port proto txt).name = pre ++ DOT :: T :=
    take_strlen_of_no_nul _ hnul
  have hserv := newRecord_servName (pre ++ DOT :: T) port proto txt hnul
  rw [findFirstDotFromRight_dot pre T hpne hnul hTd] at hserv
  refine ⟨?_, ?_, ?_⟩
  · rw [hname]
    refine ⟨hnul, ?_⟩
    intro l hl
    rw [splitLabels_append_dot, splitLabels_nodot T hTd] at hl
    rcases List.mem_append.1 hl with h | h
    · exact hpre.2 l h
    · rw [List.mem_singleton.1 h]; exact hT.1
  · rw [hserv]; rfl
  · rw [hserv]
    exact nonEmpty_of_wellFormed (wellFormed_serviceName T hT proto)

theorem goodTable_add (st : BonjourClass) (name : List Nat) (port : Nat)
    (proto : MDNSServiceProtocol_t) (txt : Option (List Nat)) (i : Nat)
    (hname : cHead name ≠ 0) (hport : port ≠ 0)
    (hslot : firstEmptySlot st NumMDNSServiceRecords 0 = some i) (hok : AllocOK st 4)
    (hgood : GoodTable st) (hnew : GoodRecord (newRecord name port proto txt)) :
    GoodTable (addServiceRecord st (some name) port proto txt).1 := by
  rw [addServiceRecord_eq st name port proto txt i hname hport hslot hok]
  intro o ho r hro
  rw [core_serviceRecords (core_sendMDNSMessage _ _ _ _ _)] at ho
  rcases List.mem_or_eq_of_mem_set ho with h | h
  · exact hgood o h r hro
  · rw [h] at hro
    cases hro
    exact hnew

/-- C14 (what the code does): after `add_service` succeeds for an instance
name `pre.T` whose part behind the rightmost dot is a label `T` of 1 to 63
bytes, the stored service name is `T._tcp.local` (or `T._udp.local`), and an
inbound datagram with one question for that name, QTYPE PTR, TXT or SRV, class
IN (with or without the top bit), makes the responder send the ServiceRecord
message of the new slot. When the names in the table can be written, the
ServiceRecord datagram of the new record, with the question's XID, is among
the datagrams emitted. For an instance name without a dot behind its first
byte the stored service name is not built from the whole name, and a question
for `name._tcp.local` elicits nothing (see the witness). -/
theorem C14_service_question (st : BonjourClass) (pre T : List Nat) (port : Nat)
    (proto : MDNSServiceProtocol_t) (txt : Option (List Nat)) (i : Nat)
    (hpre : NonEmptyLabels pre) (hT : HostLabel T) (hport : port ≠ 0)
    (hslot : firstEmptySlot st NumMDNSServiceRecords 0 = some i) (hok : AllocOK st 4)
    (htable : st._serviceRecords.length = NumMDNSServiceRecords) :
    (addServiceRecord st (some (pre ++ DOT :: T)) port proto txt).2 = 1 ∧
    ∀ st1, st1 = (addServiceRecord st (some (pre ++ DOT :: T)) port proto txt).1 →
      ((recordAt st1 i).bind fun r => r.servName)
        = some (T ++ (_postfixForProtocol proto).getD []) ∧
      ∀ (t1 c0 : Nat) (rest : List Nat) (x0 x1 f0 f1 n0 n1 n2 n3 n4 n5 : Nat)
        (remoteIP pkt : List Nat),
        (t1 = 0x0c ∨ t1 = 0x10 ∨ t1 = 0x21) → (c0 = 0x00 ∨ c0 = 0x80) →
        pkt = [x0, x1, f0, f1, 0, 1, n0, n1, n2, n3, n4, n5] ++
          wireName (T ++ (_postfixForProtocol proto).getD []) 1 ++
          0 :: t1 :: c0 :: 1 :: rest →
        (∃ plan, processQuestions st1 pkt remoteIP
            = sendAll (some remoteIP) (x0 * 256 + x1) plan st1 ∧
          (MDNSPacketType_t.MDNSPacketTypeServiceRecord, i) ∈ plan) ∧
        ∀ host, st._bonjourName = some host → NonEmptyLabels host → GoodTable st →
          serviceRecordDatagram (x0 * 256 + x1) (newRecord (pre ++ DOT :: T) port proto txt)
              host st.localIP
            ∈ emitted st1 (processQuestions st1 pkt remoteIP) := by
  have hnul : ∀ b ∈ pre ++ DOT :: T, b ≠ 0 := by
    intro b hb
    rcases List.mem_append.1 hb with h | h
    · exact hpre.1 b h
    · rcases List.mem_cons.1 h with h | h
      · rw [h]; decide
      · exact (hT.2.2 b h).1
  have hTd : DOT ∉ T := fun h => (hT.2.2 DOT h).2 rfl
  have hpne : pre ≠ [] := by
    intro h
    have := hpre.2 [] (by rw [h]; decide)
    exact this rfl
  have hname : cHead (pre ++ DOT :: T) ≠ 0 := by
    cases pre with
    | nil => exact absurd rfl hpne
    | cons b p => exact hnul b (by simp)
  have hi : i < NumMDNSServiceRecords := by
    have := (firstEmptySlot_some st _ 0 i).1 hslot
    omega
  refine ⟨by rw [addServiceRecord_eq st _ port proto txt i hname hport hslot hok], ?_⟩
  intro st1 hst1
  have hrec : recordAt st1 i = some (newRecord (pre ++ DOT :: T) port proto txt) := by
    rw [hst1, addServiceRecord_table st _ port proto txt i hname hport hslot hok htable i,
      if_pos rfl]
  have hserv : (newRecord (pre ++ DOT :: T) port proto txt).servName
      = some (T ++ (_postfixForProtocol proto).getD []) := by
    rw [newRecord_servName _ port proto txt hnul, findFirstDotFromRight_dot pre T hpne hnul hTd]
  refine ⟨by rw [hrec]; exact hserv, ?_⟩
  intro t1 c0 rest x0 x1 f0 f1 n0 n1 n2 n3 n4 n5 remoteIP pkt ht1 hc0 hpkt
  have hwalk := serviceQuery_walk st1 i _ _ t1 c0 rest hi hrec hserv
    (wellFormed_mono (wellFormed_serviceName T hT proto) (by decide)) ht1 hc0
    x0 x1 f0 f1 n0 n1 n2 n3 n4 n5
  rw [← hpkt] at hwalk
  have hxid : packetXid pkt = x0 * 256 + x1 := by
    rw [hpkt]; simp [packetXid]
  have hmem := mem_respondPlan_slot st1
    (questionWalk st1 pkt (packetQCnt pkt) WalkState.start).recordsAskedFor
    (questionWalk st1 pkt (packetQCnt pkt) WalkState.start).wantsIPv6Addr i hi
    (by rw [hwalk]; decide) (by rw [hrec]; rfl)
  refine ⟨⟨_, by rw [processQuestions_eq, hxid], hmem⟩, ?_⟩
  intro host hhost hwf hgood
  obtain ⟨hh, hip, hb⟩ := addServiceRecord_frame st _ port proto txt i hname hport hslot hok
  rw [← hst1] at hh hip hb
  have hgood1 : GoodTable st1 := by
    rw [hst1]
    exact goodTable_add st _ port proto txt i hname hport hslot hok hgood
      (goodRecord_newRecord pre T port proto txt hpre hT)
  rw [processQuestions_emitted st1 pkt remoteIP host (hh.trans hhost) hwf hgood1 hb, hxid]
  apply List.mem_map.2
  refine ⟨_, hmem, ?_⟩
  rw [planDatagram_serviceRecord st1 _ i _ host hrec (hh.trans hhost), hip]

set_option maxRecDepth 100000 in
/-- Witness for C14: after `addServiceRecord("My Web._http", 80, TCP, "path=/")`
a PTR question for `_http._tcp.local` (XID 7) is answered with one datagram,
the ServiceRecord of the new record with XID 7 (245 bytes). The failing input:
after the successful `addServiceRecord("printer", 631, TCP)` a PTR question
for `printer._tcp.local` is answered with nothing, while a question for
`inter._tcp.local` is answered with a ServiceRecord. -/
theorem C14_service_question_witness :
    NonEmptyLabels (ascii "My Web") ∧ HostLabel (ascii "_http") ∧
    serviceRecordDatagram 7
        (newRecord (ascii "My Web._http") 80 MDNSServiceProtocol_t.MDNSServiceTCP
          (some (ascii "path=/")))
        (ascii "spark.local") [192, 168, 1, 10]
      ∈ emitted webAdded
          (processQuestions webAdded (oneQuestion 7 (ascii "_http._tcp.local") 0x0c) peerIP) ∧
    (emitted webAdded
        (processQuestions webAdded (oneQuestion 7 (ascii "_http._tcp.local") 0x0c) peerIP)).map
          (fun d => (d.data.take 12, d.data.length))
      = [([0, 7, 0x84, 0, 0, 0, 0, 4, 0, 0, 0, 1], 245)] ∧
    (addServiceRecord sparkState (some (ascii "printer")) 631
        MDNSServiceProtocol_t.MDNSServiceTCP none).2 = 1 ∧
    emitted printerAdded
        (processQuestions printerAdded (oneQuestion 7 (ascii "printer._tcp.local") 0x0c) peerIP)
      = [] ∧
    (emitted printerAdded
        (processQuestions printerAdded (oneQuestion 7 (ascii "inter._tcp.local") 0x0c)
          peerIP)).map (fun d => d.data.take 12)
      = [[0, 7, 0x84, 0, 0, 0, 0, 4, 0, 0, 0, 1]] := by
  have h := (((C14_service_question sparkState (ascii "My Web") (ascii "_http") 80
    MDNSServiceProtocol_t.MDNSServiceTCP (some (ascii "path=/")) 0
    (by decide) (by decide) (by decide) (by decide) (by decide) (by decide)).2
      webAdded (by decide)).2 0x0c 0 [] 0 7 0 0 0 0 0 0 0 0 peerIP
      (oneQuestion 7 (ascii "_http._tcp.local") 0x0c) (Or.inl rfl) (Or.inl rfl) (by decide)).2
      (ascii "spark.local") rfl (by decide) (by decide)
  exact ⟨by decide, by decide, h, by decide, by decide, by decide, by decide⟩


/-! ## C15: a host question after `add_service` -/

theorem my_malloc_snd (st : BonjourClass) : (my_malloc st).2 = afterAllocs st 1 := by
  unfold my_malloc afterAllocs
  cases h : st.mallocPlan with
  | nil =>
    simp only [List.drop_nil]
    cases st
    simp only at h
    subst h
    rfl
  | cons b rest => rfl

theorem serviceSlots_pairwise (st : BonjourClass) (asked : List Nat) :
    (serviceSlots st asked).Pairwise (fun a b => a < b) :=
  List.Pairwise.filter _ (List.pairwise_lt_range _)

theorem mem_serviceSlots_iff (st : BonjourClass) (asked : List Nat) (i : Nat) :
    i ∈ serviceSlots st asked ↔
      (i < NumMDNSServiceRecords ∧ (asked.getD 1 0 ≠ 0 ∨ asked.getD (i + 2) 0 ≠ 0) ∧
        (recordAt st i).isSome = true) := by
  unfold serviceSlots
  rw [List.mem_filter, List.mem_range]
  simp only [decide_eq_true_eq]

/-- C17: for every state and every inbound query datagram, the call that
processes it sends the messages in this order: the MyIPAnswer if the host flag
is set, then one ServiceRecord for each occupied slot whose own flag or the
meta-name's flag is set, in strictly increasing slot index, then the NoIPv6
message if an AAAA question for the host was seen. With no bytes pending in
the send buffer the datagrams the call emits are, in the same order, one per
message, each with the header of its message and the datagram's XID, each to
the multicast group. -/
theorem C17_response_order (st : BonjourClass) (pkt remoteIP : List Nat) :
    ∃ slots : List Nat,
      slots.Pairwise (fun a b => a < b) ∧
      (∀ i, i ∈ slots ↔
        (i < NumMDNSServiceRecords ∧
          ((questionWalk st pkt (packetQCnt pkt) WalkState.start).recordsAskedFor.getD 1 0 ≠ 0 ∨
            (questionWalk st pkt (packetQCnt pkt) WalkState.start).recordsAskedFor.getD
              (i + 2) 0 ≠ 0) ∧
          (recordAt st i).isSome = true)) ∧
      ∃ plan : List (MDNSPacketType_t × Nat),
        plan
          = (if (questionWalk st pkt (packetQCnt pkt) WalkState.start).recordsAskedFor.getD 0 0
                ≠ 0 then [(MDNSPacketType_t.MDNSPacketTypeMyIPAnswer, 0)] else []) ++
            slots.map (fun i => (MDNSPacketType_t.MDNSPacketTypeServiceRecord, i)) ++
            (if (questionWalk st pkt (packetQCnt pkt) WalkState.start).wantsIPv6Addr ≠ 0 then
              [(MDNSPacketType_t.MDNSPacketTypeNoIPv6AddrAvailable, 0)] else []) ∧
        processQuestions st pkt remoteIP = sendAll (some remoteIP) (packetXid pkt) plan st ∧
        (st._writeBuffer = [] →
          (emitted st (processQuestions st pkt remoteIP)).map
              (fun d => d.data.take sizeofDNSHeader)
            = plan.map (fun m => (buildHeader (packetXid pkt) m.1).bytes) ∧
          ∀ d ∈ emitted st (processQuestions st pkt remoteIP),
            d.ip = mdnsMulticastIPAddr ∧ d.port = MDNS_SERVER_PORT) := by
  refine ⟨serviceSlots st (questionWalk st pkt (packetQCnt pkt) WalkState.start).recordsAskedFor,
    serviceSlots_pairwise _ _, mem_serviceSlots_iff _ _, _, rfl, processQuestions_eq _ _ _, ?_⟩
  intro hb
  obtain ⟨ds, hs, hh, hd⟩ := sendAll_headers (some remoteIP) (packetXid pkt)
    (respondPlan st (questionWalk st pkt (packetQCnt pkt) WalkState.start).recordsAskedFor
      (questionWalk st pkt (packetQCnt pkt) WalkState.start).wantsIPv6Addr) st hb
  have he : emitted st (processQuestions st pkt remoteIP) = ds := by
    rw [processQuestions_eq]
    exact emitted_append _ _ _ hs
  rw [he]
  exact ⟨hh, hd⟩


/-! ## C20: `removeServiceRecord` -/

theorem recordAt_lt_length (st : BonjourClass) (i : Nat) (r : MDNSServiceRecord_t)
    (h : recordAt st i = some r) : i < st._serviceRecords.length := by
  by_contra hc
  unfold recordAt at h
  rw [List.getD_eq_default _ _ (by omega)] at h
  cases h

/-- The table after `_removeServiceRecord(i)`: slot `i` is empty, the other
slots are as before. -/
theorem removeServiceRecord_table (st : BonjourClass) (i j : Nat) :
    recordAt (_removeServiceRecord st i) j = if j = i then none else recordAt st j := by
  unfold _removeServiceRecord
  cases hr : recordAt st i with
  | none =>
    dsimp only
    by_cases hj : j = i
    · rw [if_pos hj, hj, hr]
    · rw [if_neg hj]
  | some r =>
    dsimp only
    have hlen := recordAt_lt_length st i r hr
    have hc := core_sendMDNSMessage st none 0
      MDNSPacketType_t.MDNSPacketTypeServiceRecordRelease i
    rw [recordAt_setRecord _ i j none (by rw [core_serviceRecords hc]; exact hlen)]
    by_cases hj : j = i
    · rw [if_pos hj, if_pos hj]
    · rw [if_neg hj, if_neg hj, core_recordAt hc j]

theorem removeServiceRecord_some (st : BonjourClass) (i : Nat) (r : MDNSServiceRecord_t)
    (hr : recordAt st i = some r) :
    _removeServiceRecord st i
      = setRecord (_sendMDNSMessage st none 0
          MDNSPacketType_t.MDNSPacketTypeServiceRecordRelease i).1 i none := by
  unfold _removeServiceRecord
  rw [hr]

/-- The one datagram of `_removeServiceRecord(i)` on an occupied slot: the
header of a ServiceRecordRelease with XID 0 and a body, to the multicast
group. -/
theorem removeServiceRecord_sent (st : BonjourClass) (i : Nat) (r : MDNSServiceRecord_t)
    (hr : recordAt st i = some r) (hb : st._writeBuffer = []) :
    ∃ body, emitted st (_removeServiceRecord st i)
      = [(⟨mdnsMulticastIPAddr, MDNS_SERVER_PORT,
          (buildHeader 0 MDNSPacketType_t.MDNSPacketTypeServiceRecordRelease).bytes ++ body⟩ :
            Datagram)] := by
  rw [removeServiceRecord_some st i r hr]
  obtain ⟨_, body, hs⟩ := sendMDNSMessage_datagram st none 0
    MDNSPacketType_t.MDNSPacketTypeServiceRecordRelease i
  rw [pendingFlush_empty st hb, List.append_nil] at hs
  exact ⟨body, emitted_append _ _ _ hs⟩

theorem beginPacket_fault (st : BonjourClass) (ip : List Nat) (port : Nat) :
    (beginPacket st ip port).fault = st.fault := by
  unfold beginPacket
  dsimp only
  split <;> rfl

/-- The datagram of `_removeServiceRecord(i)` for a record the encoder can
write, and no fault. -/
theorem removeServiceRecord_datagram (st : BonjourClass) (i : Nat) (r : MDNSServiceRecord_t)
    (hr : recordAt st i = some r) (hgood : GoodRecord r) (hb : st._writeBuffer = []) :
    emitted st (_removeServiceRecord st i) = [releaseDatagram 0 r] ∧
    (_removeServiceRecord st i).fault = st.fault := by
  rw [removeServiceRecord_some st i r hr]
  constructor
  · exact emitted_append _ _ _ (send_release st none 0 i r hr hgood hb)
  · have hw := wrote_writeServiceRecordPTR
      (bodyWriter st 0 MDNSPacketType_t.MDNSPacketTypeServiceRecordRelease) i 0 r rfl
      (by rw [bodyWriter_recordAt]; exact hr) hgood
    show (_sendMDNSMessage st none 0
      MDNSPacketType_t.MDNSPacketTypeServiceRecordRelease i).1.fault = st.fault
    rw [sendMDNSMessage_eq]
    have h1 : (messageBody (bodyWriter st 0 MDNSPacketType_t.MDNSPacketTypeServiceRecordRelease)
        MDNSPacketType_t.MDNSPacketTypeServiceRecordRelease i).st
        = write (bodyWriter st 0 MDNSPacketType_t.MDNSPacketTypeServiceRecordRelease).st
            (servicePTRBytes r 0) := hw.1
    rw [h1]
    show (beginPacket st mdnsMulticastIPAddr MDNS_SERVER_PORT).fault = st.fault
    exact beginPacket_fault _ _ _

/-- The loop of `removeServiceRecord` up to the first slot that is empty or
holds a matching record. -/
theorem removeLoop_spec (name : Option (List Nat)) (port : Nat) (proto : MDNSServiceProtocol_t)
    (st : BonjourClass) :
    ∀ (n i0 i : Nat), i0 ≤ i → i < i0 + n →
      (∀ j, i0 ≤ j → j < i → ∃ r, recordAt st j = some r ∧ ¬ slotMatches name port proto r) →
      removeServiceRecordLoop name port proto n i0 st
        = match recordAt st i with
          | none => { st with fault := true }
          | some r =>
            if slotMatches name port proto r then _removeServiceRecord st i
            else removeServiceRecordLoop name port proto (i0 + n - (i + 1)) (i + 1) st := by
  intro n
  induction n with
  | zero => intro i0 i h1 h2; omega
  | succ n ih =>
    intro i0 i h1 h2 hpre
    by_cases hi : i = i0
    · subst hi
      rw [removeServiceRecordLoop]
      cases hr : recordAt st i with
      | none => rfl
      | some r =>
        dsimp only
        rw [show i + (n + 1) - (i + 1) = n by omega]
        rfl
    · obtain ⟨r0, hr0, hm0⟩ := hpre i0 (le_refl _) (by omega)
      have hstep : removeServiceRecordLoop name port proto (n + 1) i0 st
          = if slotMatches name port proto r0 then _removeServiceRecord st i0
            else removeServiceRecordLoop name port proto n (i0 + 1) st := by
        rw [removeServiceRecordLoop, hr0]
        rfl
      rw [hstep, if_neg hm0, ih (i0 + 1) i (by omega) (by omega)
        (fun j hj1 hj2 => hpre j (by omega) hj2),
        show i0 + 1 + n - (i + 1) = i0 + (n + 1) - (i + 1) by omega]

/-- The loop of `removeServiceRecord` over occupied slots none of which
matches. -/
theorem removeLoop_none (name : Option (List Nat)) (port : Nat) (proto : MDNSServiceProtocol_t)
    (st : BonjourClass) :
    ∀ (n i0 : Nat),
      (∀ j, i0 ≤ j → j < i0 + n →
        ∃ r, recordAt st j = some r ∧ ¬ slotMatches name port proto r) →
      removeServiceRecordLoop name port proto n i0 st = st := by
  intro n
  induction n with
  | zero => intro i0 _; rfl
  | succ n ih =>
    intro i0 hall
    obtain ⟨r0, hr0, hm0⟩ := hall i0 (le_refl _) (by omega)
    have hstep : removeServiceRecordLoop name port proto (n + 1) i0 st
        = if slotMatches name port proto r0 then _removeServiceRecord st i0
          else removeServiceRecordLoop name port proto n (i0 + 1) st := by
      rw [removeServiceRecordLoop, hr0]
      rfl
    rw [hstep, if_neg hm0]
    exact ih (i0 + 1) (fun j h1 h2 => hall j (by omega) (by omega))

/-- C20 (what the code does): `removeServiceRecord(name, port, proto)` reads
the slots from 0 on without testing them for `NULL`. Let slot `i` be the first
slot that is empty or holds a matching record (the slots before it hold
records that do not match). If slot `i` holds a matching record, the call is
`_removeServiceRecord(i)`: it empties slot `i`, leaves the other slots as they
were, and emits exactly one datagram, a ServiceRecordRelease with XID 0 to the
multicast group (for a record with writable names: the header with one answer
and the self-PTR with TTL 0, and no fault). If slot `i` is empty, the call
dereferences `NULL` there: nothing is removed or emitted, whatever the later
slots hold. If all eight slots hold records and none matches, the call changes
nothing. -/
theorem C20_remove_service (st : BonjourClass) (name : Option (List Nat)) (port : Nat)
    (proto : MDNSServiceProtocol_t) (i : Nat) (hi : i < NumMDNSServiceRecords)
    (hpre : ∀ j, j < i → ∃ r, recordAt st j = some r ∧ ¬ slotMatches name port proto r) :
    (∀ r, recordAt st i = some r → slotMatches name port proto r →
      removeServiceRecord st name port proto = _removeServiceRecord st i ∧
      (∀ j, recordAt (removeServiceRecord st name port proto) j
        = if j = i then none else recordAt st j) ∧
      (st._writeBuffer = [] →
        ∃ body, emitted st (removeServiceRecord st name port proto)
          = [(⟨mdnsMulticastIPAddr, MDNS_SERVER_PORT,
              (buildHeader 0 MDNSPacketType_t.MDNSPacketTypeServiceRecordRelease).bytes ++
                body⟩ : Datagram)]) ∧
      (st._writeBuffer = [] → GoodRecord r →
        emitted st (removeServiceRecord st name port proto) = [releaseDatagram 0 r] ∧
        (removeServiceRecord st name port proto).fault = st.fault)) ∧
    (recordAt st i = none →
      removeServiceRecord st name port proto = { st with fault := true }) ∧
    ((∀ j, j < NumMDNSServiceRecords →
        ∃ r, recordAt st j = some r ∧ ¬ slotMatches name port proto r) →
      removeServiceRecord st name port proto = st) := by
  have hloop := removeLoop_spec name port proto st NumMDNSServiceRecords 0 i (Nat.zero_le _)
    (by omega) (fun j _ hj => hpre j hj)
  refine ⟨?_, ?_, ?_⟩
  · intro r hr hm
    have heq : removeServiceRecord st name port proto = _removeServiceRecord st i := by
      unfold removeServiceRecord
      rw [hloop, hr]
      dsimp only
      rw [if_pos hm]
    rw [heq]
    exact ⟨rfl, fun j => removeServiceRecord_table st i j,
      fun hb => removeServiceRecord_sent st i r hr hb,
      fun hb hgood => removeServiceRecord_datagram st i r hr hgood hb⟩
  · intro hr
    unfold removeServiceRecord
    rw [hloop, hr]
  · intro hall
    exact removeLoop_none name port proto st NumMDNSServiceRecords 0
      (fun j _ hj => hall j (by omega))

set_option maxRecDepth 100000 in
/-- Witness for C20: after `addServiceRecord("x", 1234, UDP)` the call
`removeServiceRecord(1234, UDP)` finds the record in slot 0, emits one datagram
with the header of a ServiceRecordRelease and leaves the table empty. The
failing input: in the table with slot 0 empty and `web` (port 80, TCP) in
slot 1, `removeServiceRecord("web", 80, TCP)` dereferences the empty slot 0,
emits nothing and leaves `web` in slot 1. -/
theorem C20_remove_service_witness :
    removeServiceRecord xAdded none 1234 MDNSServiceProtocol_t.MDNSServiceUDP
      = _removeServiceRecord xAdded 0 ∧
    (emitted xAdded
        (removeServiceRecord xAdded none 1234 MDNSServiceProtocol_t.MDNSServiceUDP)).map
          (fun d => (d.ip, d.port, d.data.take 12))
      = [([224, 0, 0, 251], 5353, [0, 0, 0x84, 0, 0, 0, 0, 1, 0, 0, 0, 0])] ∧
    occupiedSlots
      (removeServiceRecord xAdded none 1234 MDNSServiceProtocol_t.MDNSServiceUDP) = [] ∧
    occupiedSlots gapState = [1] ∧
    (recordAt gapState 1).map (fun r => (r.name, r.port, r.proto))
      = some (ascii "web", 80, MDNSServiceProtocol_t.MDNSServiceTCP) ∧
    removeServiceRecord gapState (some (ascii "web")) 80 MDNSServiceProtocol_t.MDNSServiceTCP
      = { gapState with fault := true } ∧
    gapState.fault = false ∧
    emitted gapState
      (removeServiceRecord gapState (some (ascii "web")) 80
        MDNSServiceProtocol_t.MDNSServiceTCP) = [] ∧
    occupiedSlots
      (removeServiceRecord gapState (some (ascii "web")) 80
        MDNSServiceProtocol_t.MDNSServiceTCP) = [1] := by
  have h1 := (C20_remove_service xAdded none 1234 MDNSServiceProtocol_t.MDNSServiceUDP 0
    (by decide) (fun j hj => absurd hj (Nat.not_lt_zero j))).1
    (newRecord (ascii "x") 1234 MDNSServiceProtocol_t.MDNSServiceUDP none)
    (by decide) (by decide)
  have h2 := (C20_remove_service gapState (some (ascii "web")) 80
    MDNSServiceProtocol_t.MDNSServiceTCP 0
    (by decide) (fun j hj => absurd hj (Nat.not_lt_zero j))).2.1 (by decide)
  exact ⟨h1.1, by decide, by decide, by decide, by decide, h2, by decide, by decide, by decide⟩


/-! ## C18: the contract of `addServiceRecord` -/

theorem my_malloc_eq (st : BonjourClass) :
    my_malloc st = ((my_malloc st).1, afterAllocs st 1) := by
  rw [← my_malloc_snd]

theorem afterAllocs_add (st : BonjourClass) (a b : Nat) :
    afterAllocs (afterAllocs st a) b = afterAllocs st (a + b) := by
  unfold afterAllocs
  simp only [List.drop_drop]

/-- A call of the loop body of `addServiceRecord` that returns 1 has stored a
record in slot `i` and announced it. -/
theorem addServiceRecordAt_one (st : BonjourClass) (i : Nat) (name : List Nat) (port : Nat)
    (proto : MDNSServiceProtocol_t) (txt : Option (List Nat))
    (h : (addServiceRecordAt st i name port proto txt).2 = 1) :
    ∃ rec, (addServiceRecordAt st i name port proto txt).1
      = (_sendMDNSMessage (setRecord (afterAllocs st (allocCount txt)) i (some rec))
          none 0 MDNSPacketType_t.MDNSPacketTypeServiceRecord i).1 := by
  unfold addServiceRecordAt at h ⊢
  rw [my_malloc_eq st] at h ⊢
  generalize (my_malloc st).1 = ok1 at h ⊢
  dsimp only at h ⊢
  cases ok1 with
  | false => simp at h
  | true =>
    simp only [Bool.not_true, Bool.false_eq_true, if_false] at h ⊢
    rw [my_malloc_eq (afterAllocs st 1), afterAllocs_add] at h ⊢
    generalize (my_malloc (afterAllocs st 1)).1 = ok2 at h ⊢
    dsimp only at h ⊢
    cases ok2 with
    | false => simp at h
    | true =>
      simp only [Bool.not_true, Bool.false_eq_true, if_false] at h ⊢
      cases txt with
      | none =>
        simp only [Bool.false_eq_true, if_false, Bool.not_true] at h ⊢
        rw [my_malloc_eq (afterAllocs st (1 + 1)), afterAllocs_add]
        exact ⟨_, rfl⟩
      | some t =>
        by_cases ht : cHead t = 0
        · simp only [ht, ne_eq, not_true_eq_false, decide_False, Bool.false_eq_true, if_false,
            Bool.not_true] at h ⊢
          rw [my_malloc_eq (afterAllocs st (1 + 1)), afterAllocs_add]
          simp only [allocCount, ht, ne_eq, not_true_eq_false, if_false]
          exact ⟨_, rfl⟩
        · simp only [ht, ne_eq, not_false_eq_true, decide_True, if_true] at h ⊢
          rw [my_malloc_eq (afterAllocs st (1 + 1)), afterAllocs_add] at h ⊢
          generalize (my_malloc (afterAllocs st (1 + 1))).1 = ok3 at h ⊢
          dsimp only at h ⊢
          cases ok3 with
          | false => simp at h
          | true =>
            simp only [Bool.not_true, Bool.false_eq_true, if_false] at h ⊢
            rw [my_malloc_eq (afterAllocs st (1 + 1 + 1)), afterAllocs_add]
            simp only [allocCount, ht, ne_eq, not_false_eq_true, if_true]
            exact ⟨_, rfl⟩

theorem filter_length_succ (p q : Nat → Bool) (i : Nat) (hpi : p i = false) (hqi : q i = true)
    (hother : ∀ j, j ≠ i → q j = p j) :
    ∀ l : List Nat, l.Nodup → i ∈ l → (l.filter q).length = (l.filter p).length + 1 := by
  intro l
  induction l with
  | nil => intro _ h; cases h
  | cons a l ih =>
    intro hnd hmem
    have hnd1 := List.nodup_cons.1 hnd
    by_cases ha : a = i
    · subst ha
      have hsame : l.filter q = l.filter p := by
        apply List.filter_congr
        intro j hj
        exact hother j (fun h => hnd1.1 (h ▸ hj))
      simp only [List.filter_cons, hpi, hqi, if_true, Bool.false_eq_true, if_false,
        List.length_cons, hsame]
    · have hmem1 : i ∈ l := by
        rcases List.mem_cons.1 hmem with h | h
        · exact absurd h.symm ha
        · exact h
      have := ih hnd1.2 hmem1
      rw [List.filter_cons, List.filter_cons, hother a ha]
      cases hp : p a
      · simpa using this
      · simp only [if_true, List.length_cons, this]

/-- Storing a record in an empty slot raises the number of occupied slots by
one. -/
theorem occupiedSlots_store (st st1 : BonjourClass) (i : Nat) (rec : MDNSServiceRecord_t)
    (hi : i < NumMDNSServiceRecords) (hempty : recordAt st i = none)
    (h : ∀ j, recordAt st1 j = if j = i then some rec else recordAt st j) :
    (occupiedSlots st1).length = (occupiedSlots st).length + 1 := by
  unfold occupiedSlots
  apply filter_length_succ _ _ i
  · simp only [hempty, Option.isSome_none]
  · simp only [h i, if_true, Option.isSome_some]
  · intro j hj
    simp only [h j, if_neg hj]
  · exact List.nodup_range _
  · exact List.mem_range.2 hi

theorem occupiedSlots_full (st : BonjourClass)
    (h : NumMDNSServiceRecords ≤ (occupiedSlots st).length) :
    firstEmptySlot st NumMDNSServiceRecords 0 = none := by
  rw [firstEmptySlot_none]
  intro j _ hj
  have hle := List.length_filter_le (fun i => (recordAt st i).isSome)
    (List.range NumMDNSServiceRecords)
  have heq : ((List.range NumMDNSServiceRecords).filter
      (fun i => (recordAt st i).isSome)).length = (List.range NumMDNSServiceRecords).length := by
    unfold occupiedSlots at h
    rw [List.length_range] at hle ⊢
    omega
  exact List.filter_length_eq_length.1 heq j (List.mem_range.2 (by omega))

/-- A call of `addServiceRecord` that returns 1 has filled the lowest empty
slot and left the other slots as they were. -/
theorem addServiceRecord_one (st : BonjourClass) (name : Option (List Nat)) (port : Nat)
    (proto : MDNSServiceProtocol_t) (txt : Option (List Nat))
    (htable : st._serviceRecords.length = NumMDNSServiceRecords)
    (h : (addServiceRecord st name port proto txt).2 = 1) :
    ∃ i rec, firstEmptySlot st NumMDNSServiceRecords 0 = some i ∧
      (∀ j, recordAt (addServiceRecord st name port proto txt).1 j
        = if j = i then some rec else recordAt st j) ∧
      (addServiceRecord st name port proto txt).1._serviceRecords.length
        = NumMDNSServiceRecords := by
  unfold addServiceRecord at h ⊢
  cases name with
  | none => simp at h
  | some nm =>
    dsimp only at h ⊢
    by_cases hc : cHead nm = 0 ∨ port = 0
    · rw [if_pos hc] at h; simp at h
    · rw [if_neg hc] at h ⊢
      cases hslot : firstEmptySlot st NumMDNSServiceRecords 0 with
      | none => rw [hslot] at h; simp at h
      | some i =>
        rw [hslot] at h
        dsimp only at h ⊢
        obtain ⟨rec, hrec⟩ := addServiceRecordAt_one st i nm port proto txt h
        have hi : i < st._serviceRecords.length := by
          have := (firstEmptySlot_some st _ 0 i).1 hslot
          omega
        have hc1 := core_sendMDNSMessage
          (setRecord (afterAllocs st (allocCount txt)) i (some rec)) none 0
          MDNSPacketType_t.MDNSPacketTypeServiceRecord i
        refine ⟨i, rec, rfl, ?_, ?_⟩
        · intro j
          rw [hrec, core_recordAt hc1 j,
            recordAt_setRecord (afterAllocs st (allocCount txt)) i j _ hi]
          rfl
        · rw [hrec, core_serviceRecords hc1]
          simp only [setRecord, List.length_set]
          exact htable

/-- A sequence of `addServiceRecord` calls that all return 1 raises the number
of occupied slots by the number of calls. -/
theorem addAll_count :
    ∀ (cs : List (Option (List Nat) × Nat × MDNSServiceProtocol_t × Option (List Nat)))
      (st : BonjourClass), st._serviceRecords.length = NumMDNSServiceRecords →
      (∀ r ∈ (addAll st cs).2, r = 1) →
      (occupiedSlots (addAll st cs).1).length = (occupiedSlots st).length + cs.length ∧
      (addAll st cs).1._serviceRecords.length = NumMDNSServiceRecords := by
  intro cs
  induction cs with
  | nil => intro st ht _; exact ⟨rfl, ht⟩
  | cons c cs ih =>
    intro st ht hall
    simp only [addAll] at hall ⊢
    have h1 : (addServiceRecord st c.1 c.2.1 c.2.2.1 c.2.2.2).2 = 1 :=
      hall _ (List.mem_cons_self _ _)
    obtain ⟨i, rec, hslot, htab, hlen⟩ := addServiceRecord_one st _ _ _ _ ht h1
    have hs := (firstEmptySlot_some st _ 0 i).1 hslot
    have hcount := occupiedSlots_store st _ i rec (by omega) hs.2.2.1 htab
    obtain ⟨ih1, ih2⟩ := ih _ hlen (fun r hr => hall r (List.mem_cons_of_mem _ hr))
    refine ⟨?_, ih2⟩
    rw [ih1, hcount, List.length_cons]
    omega

theorem emitted_self (st : BonjourClass) : emitted st st = [] := by
  simp [emitted]

/-- C18: on a table of eight slots, `add_service(name, port, proto, txt)`
returns 0, changes nothing and emits nothing when `name` is null or empty,
when `port` is 0, or when all eight slots are occupied. Otherwise, the
allocations succeeding, it returns 1, stores the record in the lowest empty
slot `i`, leaves every other slot as it was, and (no bytes pending in the send
buffer) emits exactly one datagram: to the multicast group, with the header of
a ServiceRecord with XID 0; for names the encoder can write it is the
ServiceRecord datagram of the new record. After eight calls that returned 1 a
ninth call returns 0 and changes nothing. -/
theorem C18_add_service (st : BonjourClass) (port : Nat) (proto : MDNSServiceProtocol_t)
    (txt : Option (List Nat))
    (htable : st._serviceRecords.length = NumMDNSServiceRecords) :
    (∀ name : Option (List Nat),
      (name = none ∨ (∃ nm, name = some nm ∧ cHead nm = 0) ∨ port = 0 ∨
        (∀ j, j < NumMDNSServiceRecords → (recordAt st j).isSome = true)) →
      addServiceRecord st name port proto txt = (st, 0) ∧
      emitted st (addServiceRecord st name port proto txt).1 = []) ∧
    (∀ (nm : List Nat) (i : Nat), cHead nm ≠ 0 → port ≠ 0 → AllocOK st 4 →
      i < NumMDNSServiceRecords → recordAt st i = none →
      (∀ j, j < i → (recordAt st j).isSome = true) →
      (addServiceRecord st (some nm) port proto txt).2 = 1 ∧
      (∀ j, recordAt (addServiceRecord st (some nm) port proto txt).1 j
        = if j = i then some (newRecord nm port proto txt) else recordAt st j) ∧
      (st._writeBuffer = [] →
        ∃ body, emitted st (addServiceRecord st (some nm) port proto txt).1
          = [(⟨mdnsMulticastIPAddr, MDNS_SERVER_PORT,
              (buildHeader 0 MDNSPacketType_t.MDNSPacketTypeServiceRecord).bytes ++ body⟩ :
                Datagram)]) ∧
      (st._writeBuffer = [] → ∀ host, st._bonjourName = some host → NonEmptyLabels host →
        GoodRecord (newRecord nm port proto txt) →
        emitted st (addServiceRecord st (some nm) port proto txt).1
          = [serviceRecordDatagram 0 (newRecord nm port proto txt) host st.localIP])) ∧
    (∀ (cs : List (Option (List Nat) × Nat × MDNSServiceProtocol_t × Option (List Nat)))
      (name : Option (List Nat)),
      cs.length = NumMDNSServiceRecords → (∀ r ∈ (addAll st cs).2, r = 1) →
      addServiceRecord (addAll st cs).1 name port proto txt = ((addAll st cs).1, 0)) := by
  have hfull : ∀ (s : BonjourClass) (name : Option (List Nat)),
      firstEmptySlot s NumMDNSServiceRecords 0 = none →
      addServiceRecord s name port proto txt = (s, 0) := by
    intro s name hnone
    unfold addServiceRecord
    cases name with
    | none => rfl
    | some nm =>
      dsimp only
      split
      · rfl
      · rw [hnone]
  refine ⟨?_, ?_, ?_⟩
  · intro name hcase
    have heq : addServiceRecord st name port proto txt = (st, 0) := by
      rcases hcase with h | ⟨nm, h, h0⟩ | h | h
      · rw [h]; rfl
      · rw [h]
        unfold addServiceRecord
        dsimp only
        rw [if_pos (Or.inl h0)]
      · unfold addServiceRecord
        cases name with
        | none => rfl
        | some nm =>
          dsimp only
          rw [if_pos (Or.inr h)]
      · exact hfull st name ((firstEmptySlot_none st _ 0).2 (fun j _ hj => h j (by omega)))
    rw [heq]
    exact ⟨rfl, emitted_self st⟩
  · intro nm i hname hport hok hi hempty hpre
    have hslot : firstEmptySlot st NumMDNSServiceRecords 0 = some i :=
      (firstEmptySlot_some st _ 0 i).2 ⟨Nat.zero_le _, by omega, hempty, fun j _ hj => hpre j hj⟩
    refine ⟨by rw [addServiceRecord_eq st nm port proto txt i hname hport hslot hok],
      fun j => addServiceRecord_table st nm port proto txt i hname hport hslot hok htable j,
      fun hb => addServiceRecord_sent st nm port proto txt i hname hport hslot hok hb,
      fun hb host hhost hwf hgood =>
        addServiceRecord_datagram st nm port proto txt i host hname hport hslot hok htable hb
          hhost hwf hgood⟩
  · intro cs name hlen hall
    obtain ⟨hcount, _⟩ := addAll_count cs st htable hall
    apply hfull
    apply occupiedSlots_full
    omega

set_option maxRecDepth 100000 in
/-- Witness for C18 on the engine after `begin("spark")`: `addServiceRecord`
with an empty name or port 0 returns 0 and changes nothing; the first
`addServiceRecord("My Web._http", 80, TCP, "path=/")` returns 1, fills slot 0
and emits one datagram with XID 0, four answers and one additional record;
eight successful calls fill the slots 0 to 7 and the ninth returns 0. -/
theorem C18_add_service_witness :
    sparkState._serviceRecords.length = NumMDNSServiceRecords ∧
    addServiceRecord sparkState (some []) 80 MDNSServiceProtocol_t.MDNSServiceTCP
      (some (ascii "path=/")) = (sparkState, 0) ∧
    (addServiceRecord sparkState (some (ascii "My Web._http")) 80
      MDNSServiceProtocol_t.MDNSServiceTCP (some (ascii "path=/"))).2 = 1 ∧
    occupiedSlots webAdded = [0] ∧
    emitted sparkState webAdded
      = [serviceRecordDatagram 0 webRecord (ascii "spark.local") [192, 168, 1, 10]] ∧
    (emitted sparkState webAdded).map (fun d => (d.ip, d.port, d.data.take 12))
      = [([224, 0, 0, 251], 5353, [0, 0, 0x84, 0, 0, 0, 0, 4, 0, 0, 0, 1])] ∧
    (addAll sparkState eightCalls).2 = [1, 1, 1, 1, 1, 1, 1, 1] ∧
    occupiedSlots (addAll sparkState eightCalls).1 = [0, 1, 2, 3, 4, 5, 6, 7] ∧
    addServiceRecord (addAll sparkState eightCalls).1 (some (ascii "My Web._http")) 80
        MDNSServiceProtocol_t.MDNSServiceTCP (some (ascii "path=/"))
      = ((addAll sparkState eightCalls).1, 0) := by
  have h := C18_add_service sparkState 80 MDNSServiceProtocol_t.MDNSServiceTCP
    (some (ascii "path=/")) (by decide)
  have h1 := (h.1 (some []) (Or.inr (Or.inl ⟨[], rfl, rfl⟩))).1
  have h2 := h.2.1 (ascii "My Web._http") 0 (by decide) (by decide) (by decide) (by decide)
    (by decide) (fun j hj => absurd hj (Nat.not_lt_zero j))
  have h3 := h.2.2 eightCalls (some (ascii "My Web._http")) (by decide) (by decide)
  exact ⟨by decide, h1, h2.1, by decide, by decide, by decide, by decide, by decide, h3⟩


/-! ## C16: a removed service stays silent -/

theorem removeAllLoop_table (j : Nat) :
    ∀ (n i0 : Nat) (st : BonjourClass),
      recordAt (removeAllLoop n i0 st) j
        = if i0 ≤ j ∧ j < i0 + n then none else recordAt st j := by
  intro n
  induction n with
  | zero =>
    intro i0 st
    rw [removeAllLoop, if_neg (by omega)]
  | succ n ih =>
    intro i0 st
    rw [removeAllLoop, ih, removeServiceRecord_table]
    by_cases h1 : i0 + 1 ≤ j ∧ j < i0 + 1 + n
    · rw [if_pos h1, if_pos (by omega)]
    · rw [if_neg h1]
      by_cases h2 : j = i0
      · rw [if_pos h2, if_pos (by omega)]
      · rw [if_neg h2, if_neg (by omega)]

theorem removeAll_table (st : BonjourClass)
    (htable : st._serviceRecords.length ≤ NumMDNSServiceRecords) (j : Nat) :
    recordAt (removeAllServiceRecords st) j = none := by
  unfold removeAllServiceRecords
  rw [removeAllLoop_table]
  by_cases h : 0 ≤ j ∧ j < 0 + NumMDNSServiceRecords
  · rw [if_pos h]
  · rw [if_neg h]
    unfold recordAt
    rw [List.getD_eq_default _ _ (by omega)]

/-- The announce loop of `run()`: one ServiceRecord message for every occupied
slot, in increasing order. -/
theorem announceLoop_eq :
    ∀ (n i : Nat) (st : BonjourClass),
      announceLoop n i st
        = sendAll none 0
            (((List.range' i n).filter fun k => (recordAt st k).isSome).map
              fun k => (MDNSPacketType_t.MDNSPacketTypeServiceRecord, k)) st := by
  intro n
  induction n with
  | zero => intro i st; rfl
  | succ n ih =>
    intro i st
    rw [announceLoop, List.range'_succ, List.filter_cons]
    cases hr : recordAt st i with
    | none =>
      simp only [Option.isSome_none, Bool.false_eq_true, if_false]
      exact ih _ _
    | some r =>
      simp only [Option.isSome_some, if_true, List.map_cons, sendAll]
      rw [ih]
      congr 2
      apply List.filter_congr
      intro k _
      rw [core_recordAt (core_sendMDNSMessage st none 0
        MDNSPacketType_t.MDNSPacketTypeServiceRecord i) k]

theorem runAnnounce_eq (st : BonjourClass) (now : Nat) :
    runAnnounce st now = st ∨
    runAnnounce st now
      = { sendAll none 0 ((occupiedSlots st).map
            fun k => (MDNSPacketType_t.MDNSPacketTypeServiceRecord, k)) st
          with _lastAnnounceMillis := now } := by
  unfold runAnnounce
  dsimp only
  split
  · right
    rw [announceLoop_eq, ← List.range_eq_range']
    rfl
  · left; rfl

theorem recordAt_processQuestions (st : BonjourClass) (pkt remoteIP : List Nat) (j : Nat) :
    recordAt (processQuestions st pkt remoteIP) j = recordAt st j := by
  rw [processQuestions_eq]
  exact core_recordAt (core_sendAll _ _ _ _) j

theorem recordAt_runAnnounce (st : BonjourClass) (now : Nat) (j : Nat) :
    recordAt (runAnnounce st now) j = recordAt st j := by
  rcases runAnnounce_eq st now with h | h
  · rw [h]
  · rw [h]
    exact core_recordAt (core_sendAll none 0 _ st) j

theorem recordAt_applyOps (j : Nat) :
    ∀ (ops : List LaterOp) (st : BonjourClass), recordAt (applyOps ops st) j = recordAt st j := by
  intro ops
  induction ops with
  | nil => intro st; rfl
  | cons op ops ih =>
    intro st
    rw [applyOps, ih]
    cases op with
    | question pkt remoteIP => exact recordAt_processQuestions st pkt remoteIP j
    | announce now => exact recordAt_runAnnounce st now j

theorem not_mem_respondPlan (st : BonjourClass) (asked : List Nat) (wants i : Nat)
    (hempty : recordAt st i = none) :
    (MDNSPacketType_t.MDNSPacketTypeServiceRecord, i) ∉ respondPlan st asked wants := by
  intro hm
  rcases mem_respondPlan st asked wants _ hm with h | h | h
  · cases h
  · cases h
  · rw [hempty] at h
    exact absurd h.2 (by decide)

theorem not_mem_occupied (st : BonjourClass) (i : Nat) (hempty : recordAt st i = none) :
    (MDNSPacketType_t.MDNSPacketTypeServiceRecord, i)
      ∉ (occupiedSlots st).map fun k => (MDNSPacketType_t.MDNSPacketTypeServiceRecord, k) := by
  intro hm
  obtain ⟨k, hk, he⟩ := List.mem_map.1 hm
  have hki : k = i := (Prod.mk.inj he).2
  rw [hki] at hk
  unfold occupiedSlots at hk
  have := (List.mem_filter.1 hk).2
  rw [hempty] at this
  exact absurd this (by decide)

theorem plan_emitted (st : BonjourClass) (peer : Option (List Nat)) (xid : Nat)
    (plan : List (MDNSPacketType_t × Nat)) (host : List Nat)
    (hhost : st._bonjourName = some host) (hwf : NonEmptyLabels host) (hgood : GoodTable st)
    (hb : st._writeBuffer = [])
    (hplan : ∀ m ∈ plan, m = (MDNSPacketType_t.MDNSPacketTypeMyIPAnswer, 0) ∨
      m = (MDNSPacketType_t.MDNSPacketTypeNoIPv6AddrAvailable, 0) ∨
      (m.1 = MDNSPacketType_t.MDNSPacketTypeServiceRecord ∧
        (recordAt st m.2).isSome = true)) :
    emitted st (sendAll peer xid plan st) = plan.map (planDatagram st xid) :=
  sendAll_emitted st peer xid (planDatagram st xid) plan hb
    (fun st2 m hcore hb2 hm => send_plan st st2 peer xid host m hhost hwf hgood hcore hb2
      (hplan m hm))

/-- C16: `_removeServiceRecord(i)`, a `remove_service` call that finds its
match in slot `i`, and `remove_all_services` leave slot `i` empty. While slot
`i` is empty, every sequence of inbound query datagrams and re-announcements
leaves it empty, and each such operation is a sequence of messages without a
ServiceRecord for slot `i`: an inbound datagram, whatever its questions, is
answered with the messages of a plan that does not hold it, and the
re-announcement sends ServiceRecords for the occupied slots only. With names
the encoder can write, the datagrams emitted are those of the plan, built from
the records of the occupied slots. -/
theorem C16_removed_service_silent (st : BonjourClass) (i : Nat) :
    recordAt (_removeServiceRecord st i) i = none ∧
    (∀ (name : Option (List Nat)) (port : Nat) (proto : MDNSServiceProtocol_t)
      (r : MDNSServiceRecord_t), i < NumMDNSServiceRecords →
      (∀ j, j < i → ∃ r1, recordAt st j = some r1 ∧ ¬ slotMatches name port proto r1) →
      recordAt st i = some r → slotMatches name port proto r →
      recordAt (removeServiceRecord st name port proto) i = none) ∧
    (st._serviceRecords.length ≤ NumMDNSServiceRecords →
      recordAt (removeAllServiceRecords st) i = none) ∧
    (recordAt st i = none →
      (∀ ops : List LaterOp, recordAt (applyOps ops st) i = none) ∧
      (∀ pkt remoteIP : List Nat, ∃ plan : List (MDNSPacketType_t × Nat),
        processQuestions st pkt remoteIP = sendAll (some remoteIP) (packetXid pkt) plan st ∧
        (MDNSPacketType_t.MDNSPacketTypeServiceRecord, i) ∉ plan ∧
        ∀ host, st._bonjourName = some host → NonEmptyLabels host → GoodTable st →
          st._writeBuffer = [] →
          emitted st (processQuestions st pkt remoteIP)
            = plan.map (planDatagram st (packetXid pkt))) ∧
      (∀ now : Nat, ∃ plan : List (MDNSPacketType_t × Nat),
        ((runAnnounce st now = st ∧ plan = []) ∨
          runAnnounce st now = { sendAll none 0 plan st with _lastAnnounceMillis := now }) ∧
        (MDNSPacketType_t.MDNSPacketTypeServiceRecord, i) ∉ plan ∧
        ∀ host, st._bonjourName = some host → NonEmptyLabels host → GoodTable st →
          st._writeBuffer = [] →
          emitted st (runAnnounce st now) = plan.map (planDatagram st 0))) := by
  refine ⟨?_, ?_, ?_, ?_⟩
  · rw [removeServiceRecord_table, if_pos rfl]
  · intro name port proto r hi hpre hr hm
    have hloop := removeLoop_spec name port proto st NumMDNSServiceRecords 0 i (Nat.zero_le _)
      (by omega) (fun j _ hj => hpre j hj)
    unfold removeServiceRecord
    rw [hloop, hr]
    dsimp only
    rw [if_pos hm, removeServiceRecord_table, if_pos rfl]
  · intro htable
    exact removeAll_table st htable i
  · intro hempty
    refine ⟨fun ops => by rw [recordAt_applyOps, hempty], ?_, ?_⟩
    · intro pkt remoteIP
      refine ⟨_, processQuestions_eq st pkt remoteIP, not_mem_respondPlan st _ _ i hempty, ?_⟩
      intro host hhost hwf hgood hb
      exact processQuestions_emitted st pkt remoteIP host hhost hwf hgood hb
    · intro now
      rcases runAnnounce_eq st now with h | h
      · refine ⟨[], Or.inl ⟨h, rfl⟩, by simp, ?_⟩
        intro host _ _ _ _
        rw [h]
        exact emitted_self st
      · refine ⟨_, Or.inr h, not_mem_occupied st i hempty, ?_⟩
        intro host hhost hwf hgood hb
        rw [h]
        have := plan_emitted st none 0
          ((occupiedSlots st).map fun k => (MDNSPacketType_t.MDNSPacketTypeServiceRecord, k))
          host hhost hwf hgood hb (by
            intro m hm
            obtain ⟨k, hk, he⟩ := List.mem_map.1 hm
            right; right
            rw [← he]
            unfold occupiedSlots at hk
            exact ⟨rfl, (List.mem_filter.1 hk).2⟩)
        exact this

set_option maxRecDepth 100000 in
/-- After `removeAllServiceRecords()` on the table with `printer` and `web`
(two ServiceRecordRelease datagrams), the table is empty; the meta-name query
and a re-announcement emit nothing, and a host A question is answered with
the MyIPAnswer alone. -/
theorem clearedState_silent :
    (emitted twoServicesState clearedState).map (fun d => d.data.take 12)
      = [[0, 0, 0x84, 0, 0, 0, 0, 1, 0, 0, 0, 0], [0, 0, 0x84, 0, 0, 0, 0, 1, 0, 0, 0, 0]] ∧
    occupiedSlots clearedState = [] ∧
    emitted clearedState (processQuestions clearedState metaQuery peerIP) = [] ∧
    emitted clearedState (runAnnounce clearedState 100000) = [] ∧
    (runAnnounce clearedState 100000)._lastAnnounceMillis = 100000 ∧
    (emitted clearedState (processQuestions clearedState scenario1Query peerIP)).map
        (fun d => d.data.take 12)
      = [[0x12, 0x34, 0x84, 0, 0, 0, 0, 1, 0, 0, 0, 0]] := by
  decide


/-! ## C24, C23: cancelling a query, queries without a callback -/

theorem cancelQuery_zero (st : BonjourClass) :
    _cancelQuery st 0 = { st with _resolveNames0 := none } := rfl

theorem cancelQuery_one (st : BonjourClass) :
    _cancelQuery st 1 = { st with _resolveNames1 := none } := rfl

/-- C24: `cancel_resolve_name` and `stop_service_discovery` clear the name of
their slot and change nothing else: the slot is inactive afterwards, no
datagram is emitted, no callback is invoked, the other slot and the service
table are as they were, and a second call changes nothing. `is_resolving_name`
and `is_discovering_service` are non-zero exactly when the name of their slot
is not `NULL`. -/
theorem C24_cancel (st : BonjourClass) :
    cancelResolveName st = { st with _resolveNames0 := none } ∧
    stopDiscoveringService st = { st with _resolveNames1 := none } ∧
    isResolvingName (cancelResolveName st) = 0 ∧
    isDiscoveringService (stopDiscoveringService st) = 0 ∧
    emitted st (cancelResolveName st) = [] ∧
    emitted st (stopDiscoveringService st) = [] ∧
    (cancelResolveName st).callbacks = st.callbacks ∧
    (stopDiscoveringService st).callbacks = st.callbacks ∧
    ((cancelResolveName st)._resolveNames1 = st._resolveNames1 ∧
      (cancelResolveName st)._resolveTimeouts1 = st._resolveTimeouts1 ∧
      (cancelResolveName st)._resolveLastSendMillis1 = st._resolveLastSendMillis1) ∧
    ((stopDiscoveringService st)._resolveNames0 = st._resolveNames0 ∧
      (stopDiscoveringService st)._resolveTimeouts0 = st._resolveTimeouts0 ∧
      (stopDiscoveringService st)._resolveLastSendMillis0 = st._resolveLastSendMillis0) ∧
    (cancelResolveName st)._serviceRecords = st._serviceRecords ∧
    (stopDiscoveringService st)._serviceRecords = st._serviceRecords ∧
    cancelResolveName (cancelResolveName st) = cancelResolveName st ∧
    stopDiscoveringService (stopDiscoveringService st) = stopDiscoveringService st ∧
    (isResolvingName st ≠ 0 ↔ st._resolveNames0 ≠ none) ∧
    (isDiscoveringService st ≠ 0 ↔ st._resolveNames1 ≠ none) := by
  refine ⟨rfl, rfl, rfl, rfl, emitted_self st, emitted_self st, rfl, rfl, ⟨rfl, rfl, rfl⟩,
    ⟨rfl, rfl, rfl⟩, rfl, rfl, rfl, rfl, ?_, ?_⟩
  · unfold isResolvingName
    cases st._resolveNames0 <;> simp
  · unfold isDiscoveringService
    cases st._resolveNames1 <;> simp

theorem initQuery_no_callback0 (st : BonjourClass) (name : List Nat) (timeout : Nat)
    (h : st._nameFoundCallback = false) : _initQuery st 0 name timeout = (st, 0) := by
  unfold _initQuery
  simp [h]

theorem initQuery_no_callback1 (st : BonjourClass) (name : List Nat) (timeout : Nat)
    (h : st._serviceFoundCallback = false) : _initQuery st 1 name timeout = (st, 0) := by
  unfold _initQuery
  simp [h]

/-- `resolveName` without a name-found callback: the slot is cleared, one
allocation is taken, nothing else happens. -/
theorem resolveName_no_callback (st : BonjourClass) (name : List Nat) (timeout : Nat)
    (h : st._nameFoundCallback = false) :
    resolveName st name timeout = (afterAllocs (_cancelQuery st 0) 1, 0) := by
  unfold resolveName
  dsimp only
  rw [my_malloc_eq (_cancelQuery st 0)]
  dsimp only
  split
  · rfl
  · exact initQuery_no_callback0 _ _ _ h

/-- `startDiscoveringService` without a service-found callback: the slot is
cleared, one allocation is taken and, when it succeeds, `_resolveServiceProto`
is set. -/
theorem startDiscovering_no_callback (st : BonjourClass) (name : List Nat)
    (proto : MDNSServiceProtocol_t) (timeout : Nat) (h : st._serviceFoundCallback = false) :
    startDiscoveringService st name proto timeout
        = (afterAllocs (_cancelQuery st 1) 1, 0) ∨
    startDiscoveringService st name proto timeout
        = ({ afterAllocs (_cancelQuery st 1) 1 with _resolveServiceProto := proto }, 0) := by
  unfold startDiscoveringService
  dsimp only
  rw [my_malloc_eq (_cancelQuery st 1)]
  dsimp only
  split
  · left; rfl
  · right
    exact initQuery_no_callback1 _ _ _ h

/-- C23: without a name-found callback `resolve_name` returns 0, emits no
datagram, invokes no callback and leaves slot 0 inactive, also when a
resolution was under way before the call; without a service-found callback
`start_service_discovery` does the same for slot 1. -/
theorem C23_no_callback (st : BonjourClass) (name : List Nat) (timeout : Nat)
    (proto : MDNSServiceProtocol_t) :
    (st._nameFoundCallback = false →
      (resolveName st name timeout).2 = 0 ∧
      emitted st (resolveName st name timeout).1 = [] ∧
      (resolveName st name timeout).1.callbacks = st.callbacks ∧
      (resolveName st name timeout).1._resolveNames0 = none ∧
      isResolvingName (resolveName st name timeout).1 = 0) ∧
    (st._serviceFoundCallback = false →
      (startDiscoveringService st name proto timeout).2 = 0 ∧
      emitted st (startDiscoveringService st name proto timeout).1 = [] ∧
      (startDiscoveringService st name proto timeout).1.callbacks = st.callbacks ∧
      (startDiscoveringService st name proto timeout).1._resolveNames1 = none ∧
      isDiscoveringService (startDiscoveringService st name proto timeout).1 = 0) := by
  constructor
  · intro h
    rw [resolveName_no_callback st name timeout h]
    exact ⟨rfl, emitted_self st, rfl, rfl, rfl⟩
  · intro h
    rcases startDiscovering_no_callback st name proto timeout h with h1 | h1 <;> rw [h1] <;>
      exact ⟨rfl, emitted_self st, rfl, rfl, rfl⟩

set_option maxRecDepth 100000 in
/-- An instance of C23: with a resolution of `peer.local` and a discovery of
`_http._tcp.local` under way and both callbacks taken away, `resolveName` and
`startDiscoveringService` return 0, emit nothing and leave their slot
inactive. -/
theorem C23_no_callback_witness :
    isResolvingName noCallbacks = 1 ∧ isDiscoveringService noCallbacks = 1 ∧
    (resolveName noCallbacks (ascii "other") 5000).2 = 0 ∧
    emitted noCallbacks (resolveName noCallbacks (ascii "other") 5000).1 = [] ∧
    isResolvingName (resolveName noCallbacks (ascii "other") 5000).1 = 0 ∧
    (startDiscoveringService noCallbacks (ascii "_ipp")
      MDNSServiceProtocol_t.MDNSServiceTCP 5000).2 = 0 ∧
    isDiscoveringService (startDiscoveringService noCallbacks (ascii "_ipp")
      MDNSServiceProtocol_t.MDNSServiceTCP 5000).1 = 0 := by
  have h := C23_no_callback noCallbacks (ascii "other") 5000 MDNSServiceProtocol_t.MDNSServiceTCP
  have h2 := C23_no_callback noCallbacks (ascii "_ipp") 5000 MDNSServiceProtocol_t.MDNSServiceTCP
  obtain ⟨a1, a2, _, _, a5⟩ := h.1 (by decide)
  obtain ⟨b1, _, _, _, b5⟩ := h2.2 (by decide)
  exact ⟨by decide, by decide, a1, a2, a5, b1, b5⟩


/-! ## C21: `removeAllServiceRecords` twice -/

theorem removeServiceRecord_buffer (st : BonjourClass) (i : Nat)
    (hb : st._writeBuffer = []) : (_removeServiceRecord st i)._writeBuffer = [] := by
  unfold _removeServiceRecord
  split
  · exact hb
  · exact sendMDNSMessage_buffer st none 0
      MDNSPacketType_t.MDNSPacketTypeServiceRecordRelease i

theorem removeServiceRecord_none (st : BonjourClass) (i : Nat) (h : recordAt st i = none) :
    _removeServiceRecord st i = st := by
  unfold _removeServiceRecord
  rw [h]

/-- The datagrams of the loop of `removeAllServiceRecords`, seen through a
projection `π` that, for the one datagram `_removeServiceRecord` sends for a
record `r`, gives `g r`. -/
theorem removeAllLoop_sent {β : Type} (π : Datagram → β) (g : MDNSServiceRecord_t → β)
    (G : MDNSServiceRecord_t → Prop)
    (hstep : ∀ (st : BonjourClass) (i : Nat) (r : MDNSServiceRecord_t),
      recordAt st i = some r → G r → st._writeBuffer = [] →
      ∃ d, (_removeServiceRecord st i).sent = st.sent ++ [d] ∧ π d = g r) :
    ∀ (n i : Nat) (st : BonjourClass), st._writeBuffer = [] →
      (∀ k r, recordAt st k = some r → G r) →
      ∃ ds, (removeAllLoop n i st).sent = st.sent ++ ds ∧
        ds.map π = (List.range' i n).filterMap (fun k => (recordAt st k).map g) := by
  intro n
  induction n with
  | zero =>
    intro i st _ _
    exact ⟨[], by simp [removeAllLoop], rfl⟩
  | succ n ih =>
    intro i st hb hG
    rw [removeAllLoop, List.range'_succ, List.filterMap_cons]
    have hb1 := removeServiceRecord_buffer st i hb
    have htab : ∀ k r, recordAt (_removeServiceRecord st i) k = some r → G r := by
      intro k r hk
      rw [removeServiceRecord_table] at hk
      by_cases hki : k = i
      · rw [if_pos hki] at hk; cases hk
      · rw [if_neg hki] at hk; exact hG k r hk
    obtain ⟨ds, hs, hm⟩ := ih (i + 1) _ hb1 htab
    have hcongr : (List.range' (i + 1) n).filterMap
          (fun k => (recordAt (_removeServiceRecord st i) k).map g)
        = (List.range' (i + 1) n).filterMap (fun k => (recordAt st k).map g) := by
      apply List.filterMap_congr
      intro k hk
      have hki : k ≠ i := by
        have := (List.mem_range'_1.1 hk).1
        omega
      rw [removeServiceRecord_table, if_neg hki]
    rw [hcongr] at hm
    cases hr : recordAt st i with
    | none =>
      rw [removeServiceRecord_none st i hr] at hs ⊢
      exact ⟨ds, hs, by simpa using hm⟩
    | some r =>
      obtain ⟨d, hd, hπ⟩ := hstep st i r hr (hG i r hr) hb
      refine ⟨d :: ds, ?_, ?_⟩
      · rw [hs, hd, List.append_assoc]
        rfl
      · simp only [Option.map_some', List.map_cons, hπ, hm]

theorem removeServiceRecord_header (st : BonjourClass) (i : Nat) (r : MDNSServiceRecord_t)
    (hr : recordAt st i = some r) (hb : st._writeBuffer = []) :
    ∃ d, (_removeServiceRecord st i).sent = st.sent ++ [d] ∧
      (fun d : Datagram => (d.ip, d.port, d.data.take sizeofDNSHeader)) d
        = (mdnsMulticastIPAddr, MDNS_SERVER_PORT,
            (buildHeader 0 MDNSPacketType_t.MDNSPacketTypeServiceRecordRelease).bytes) := by
  rw [removeServiceRecord_some st i r hr]
  obtain ⟨_, body, hs⟩ := sendMDNSMessage_datagram st none 0
    MDNSPacketType_t.MDNSPacketTypeServiceRecordRelease i
  rw [pendingFlush_empty st hb, List.append_nil] at hs
  refine ⟨_, hs, ?_⟩
  simp only [Prod.mk.injEq, true_and]
  exact List.take_left' (headerBytes_length _)

theorem removeAllLoop_empty :
    ∀ (n i : Nat) (st : BonjourClass), (∀ k, recordAt st k = none) →
      removeAllLoop n i st = st := by
  intro n
  induction n with
  | zero => intro i st _; rfl
  | succ n ih =>
    intro i st h
    rw [removeAllLoop, removeServiceRecord_none st i (h i)]
    exact ih (i + 1) st h

theorem filterMap_const_range {β : Type} (p : Nat → Option MDNSServiceRecord_t) (c : β) :
    ∀ l : List Nat, l.filterMap (fun k => (p k).map fun _ => c)
      = (l.filter fun k => (p k).isSome).map fun _ => c := by
  intro l
  induction l with
  | nil => rfl
  | cons a l ih =>
    rw [List.filterMap_cons, List.filter_cons]
    cases h : p a with
    | none => simpa using ih
    | some r => simp [ih]

theorem filterMap_occupied {β : Type} (st : BonjourClass) (g : MDNSServiceRecord_t → β) :
    (List.range NumMDNSServiceRecords).filterMap (fun k => (recordAt st k).map g)
      = (occupiedSlots st).filterMap (fun k => (recordAt st k).map g) := by
  unfold occupiedSlots
  generalize List.range NumMDNSServiceRecords = l
  induction l with
  | nil => rfl
  | cons a l ih =>
    rw [List.filterMap_cons, List.filter_cons]
    cases h : recordAt st a with
    | none => simpa using ih
    | some r => simp [h, ih]

/-- C21: on a table of eight slots with no bytes pending in the send buffer,
`remove_all_services` leaves all slots empty and emits one datagram for every
occupied slot, in slot order, each to the multicast group with the header of a
ServiceRecordRelease and XID 0 (for names the encoder can write: the
ServiceRecordRelease datagram of the slot's record). A second call emits
nothing and leaves the state as the first call left it. -/
theorem C21_remove_all_idempotent (st : BonjourClass)
    (htable : st._serviceRecords.length = NumMDNSServiceRecords)
    (hb : st._writeBuffer = []) :
    (∀ i, recordAt (removeAllServiceRecords st) i = none) ∧
    (emitted st (removeAllServiceRecords st)).map
        (fun d => (d.ip, d.port, d.data.take sizeofDNSHeader))
      = (occupiedSlots st).map (fun _ => (mdnsMulticastIPAddr, MDNS_SERVER_PORT,
          (buildHeader 0 MDNSPacketType_t.MDNSPacketTypeServiceRecordRelease).bytes)) ∧
    (GoodTable st →
      emitted st (removeAllServiceRecords st)
        = (occupiedSlots st).filterMap (fun i => (recordAt st i).map (releaseDatagram 0))) ∧
    removeAllServiceRecords (removeAllServiceRecords st) = removeAllServiceRecords st ∧
    emitted (removeAllServiceRecords st)
      (removeAllServiceRecords (removeAllServiceRecords st)) = [] := by
  have hempty : ∀ i, recordAt (removeAllServiceRecords st) i = none :=
    fun i => removeAll_table st (le_of_eq htable) i
  have hidem : removeAllServiceRecords (removeAllServiceRecords st)
      = removeAllServiceRecords st := by
    conv_lhs => unfold removeAllServiceRecords
    exact removeAllLoop_empty _ _ _ hempty
  refine ⟨hempty, ?_, ?_, hidem, ?_⟩
  · obtain ⟨ds, hs, hm⟩ := removeAllLoop_sent
      (fun d : Datagram => (d.ip, d.port, d.data.take sizeofDNSHeader))
      (fun _ => (mdnsMulticastIPAddr, MDNS_SERVER_PORT,
        (buildHeader 0 MDNSPacketType_t.MDNSPacketTypeServiceRecordRelease).bytes))
      (fun _ => True)
      (fun s i r hr _ hbs => removeServiceRecord_header s i r hr hbs)
      NumMDNSServiceRecords 0 st hb (fun _ _ _ => trivial)
    have he : emitted st (removeAllServiceRecords st) = ds := emitted_append _ _ _ hs
    rw [he, hm, ← List.range_eq_range', filterMap_const_range]
    rfl
  · intro hgood
    obtain ⟨ds, hs, hm⟩ := removeAllLoop_sent (fun d : Datagram => d) (releaseDatagram 0)
      GoodRecord
      (fun s i r hr hg hbs =>
        ⟨releaseDatagram 0 r, by
          rw [removeServiceRecord_some s i r hr]
          exact send_release s none 0 i r hr hg hbs, rfl⟩)
      NumMDNSServiceRecords 0 st hb (fun k r hk => goodTable_recordAt st hgood k r hk)
    have he : emitted st (removeAllServiceRecords st) = ds := emitted_append _ _ _ hs
    rw [he, ← filterMap_occupied, List.range_eq_range']
    simpa using hm
  · rw [hidem]
    exact emitted_self _

set_option maxRecDepth 100000 in
/-- Witness for C21: on the table with `printer` in slot 0 and `web` in slot 1
the first `removeAllServiceRecords()` emits the two ServiceRecordRelease
datagrams of these records, in this order, and empties the table; the second
call changes nothing. -/
theorem C21_remove_all_idempotent_witness :
    twoServicesState._serviceRecords.length = NumMDNSServiceRecords ∧
    twoServicesState._writeBuffer = [] ∧
    occupiedSlots twoServicesState = [0, 1] ∧
    emitted twoServicesState clearedState
      = (occupiedSlots twoServicesState).filterMap
          (fun i => (recordAt twoServicesState i).map (releaseDatagram 0)) ∧
    (emitted twoServicesState clearedState).map (fun d => (d.data.take 12, d.data.length))
      = [([0, 0, 0x84, 0, 0, 0, 0, 1, 0, 0, 0, 0], 60),
         ([0, 0, 0x84, 0, 0, 0, 0, 1, 0, 0, 0, 0], 52)] ∧
    occupiedSlots clearedState = [] ∧
    removeAllServiceRecords clearedState = clearedState := by
  have h := C21_remove_all_idempotent twoServicesState (by decide) (by decide)
  exact ⟨by decide, by decide, by decide, h.2.2.1 (by decide), by decide, by decide, h.2.2.2.1⟩

/-! ## C22: starting a name resolution -/

theorem frame_copyLabel {P : BonjourClass → Prop} (hW : ∀ st d, P st → P (write st d))
    (bufSize : Nat) :
    ∀ (i : Nat) (p1 : List Nat) (p3 len : Nat) (w : Writer), P w.st →
      P (copyLabel bufSize i p1 p3 len w).2.2.st := by
  intro i
  induction i with
  | zero => intro p1 p3 len w h; exact h
  | succ i ih =>
    intro p1 p3 len w h
    rw [copyLabel]
    split
    · exact ih _ _ _ _ (hW _ _ h)
    · exact ih _ _ _ _ h

theorem frame_writeLabels {P : BonjourClass → Prop} (hW : ∀ st d, P st → P (write st d))
    (bufSize : Nat) :
    ∀ (fuel : Nat) (p1 : List Nat) (w : Writer), P w.st →
      P (writeLabels bufSize fuel p1 w).st := by
  intro fuel
  induction fuel with
  | zero => intro p1 w h; exact h
  | succ fuel ih =>
    intro p1 w h
    rw [writeLabels]
    split
    · exact h
    · apply ih
      have hc := frame_copyLabel hW bufSize (scanLabel p1 1 - 1) p1 1 (bufSize - 1)
        { w with buf := w.buf.set 0 ((scanLabel p1 1 - 1) % 256) } h
      split
      · exact hW _ _ hc
      · exact hc

/-- Writing a name changes nothing of the engine but the send buffer. -/
theorem frame_writeDNSName (w : Writer) (name : List Nat) (bufSize zeroTerminate : Nat) :
    { (_writeDNSName w name bufSize zeroTerminate).st with _writeBuffer := [] }
      = { w.st with _writeBuffer := [] } := by
  have hW : ∀ (st : BonjourClass) (d : List Nat),
      { st with _writeBuffer := [] } = { w.st with _writeBuffer := [] } →
      { write st d with _writeBuffer := [] } = { w.st with _writeBuffer := [] } :=
    fun _ _ h => h
  have h1 := frame_writeLabels
    (P := fun s => { s with _writeBuffer := [] } = { w.st with _writeBuffer := [] })
    hW bufSize (name.length + 1) name w rfl
  unfold _writeDNSName
  split
  · exact hW _ _ h1
  · exact h1

theorem beginPacket_frame (st : BonjourClass) (ip : List Nat) (port : Nat) :
    (beginPacket st ip port).now = st.now ∧
    (beginPacket st ip port)._resolveLastSendMillis0 = st._resolveLastSendMillis0 ∧
    (beginPacket st ip port)._resolveLastSendMillis1 = st._resolveLastSendMillis1 := by
  unfold beginPacket
  dsimp only
  split <;> exact ⟨rfl, rfl, rfl⟩

/-- The resend clocks after a NameQuery message for an active slot 0: the
clock of slot 0 is the current time, the clock of slot 1 is as before. -/
theorem sendNameQuery_clocks (st : BonjourClass) (peer : Option (List Nat)) (xid rec : Nat)
    (n : List Nat) (h : st._resolveNames0 = some n) :
    (_sendMDNSMessage st peer xid MDNSPacketType_t.MDNSPacketTypeNameQuery
      rec).1._resolveLastSendMillis0 = st.now ∧
    (_sendMDNSMessage st peer xid MDNSPacketType_t.MDNSPacketTypeNameQuery
      rec).1._resolveLastSendMillis1 = st._resolveLastSendMillis1 := by
  have hn : (bodyWriter st xid MDNSPacketType_t.MDNSPacketTypeNameQuery).st._resolveNames0
      = some n := by
    simpa [bodyWriter, beginPacket_resolveNames0] using h
  have hf := frame_writeDNSName (bodyWriter st xid MDNSPacketType_t.MDNSPacketTypeNameQuery) n
    sizeofDNSHeader 1
  have hb := beginPacket_frame st mdnsMulticastIPAddr MDNS_SERVER_PORT
  rw [sendMDNSMessage_eq]
  simp only [messageBody, writeQueryBody, hn, decide_False, Bool.false_eq_true, if_false,
    reduceCtorEq]
  constructor
  · exact (congrArg BonjourClass.now hf).trans hb.1
  · exact (congrArg BonjourClass._resolveLastSendMillis1 hf).trans hb.2.2

/-- The resend clocks after a ServiceQuery message for an active slot 1. -/
theorem sendServiceQuery_clocks (st : BonjourClass) (peer : Option (List Nat)) (xid rec : Nat)
    (n : List Nat) (h : st._resolveNames1 = some n) :
    (_sendMDNSMessage st peer xid MDNSPacketType_t.MDNSPacketTypeServiceQuery
      rec).1._resolveLastSendMillis1 = st.now ∧
    (_sendMDNSMessage st peer xid MDNSPacketType_t.MDNSPacketTypeServiceQuery
      rec).1._resolveLastSendMillis0 = st._resolveLastSendMillis0 := by
  have hn : (bodyWriter st xid MDNSPacketType_t.MDNSPacketTypeServiceQuery).st._resolveNames1
      = some n := by
    simpa [bodyWriter, beginPacket_resolveNames1] using h
  have hf := frame_writeDNSName (bodyWriter st xid MDNSPacketType_t.MDNSPacketTypeServiceQuery)
    n sizeofDNSHeader 1
  have hb := beginPacket_frame st mdnsMulticastIPAddr MDNS_SERVER_PORT
  rw [sendMDNSMessage_eq]
  simp only [messageBody, writeQueryBody, hn, decide_True, if_true]
  constructor
  · exact (congrArg BonjourClass.now hf).trans hb.1
  · exact (congrArg BonjourClass._resolveLastSendMillis0 hf).trans hb.2.1

/-- The fields of the engine a message leaves as they are. -/
theorem core_fields {s1 s2 : BonjourClass} (h : core s1 = core s2) :
    s1._resolveNames0 = s2._resolveNames0 ∧ s1._resolveNames1 = s2._resolveNames1 ∧
    s1._resolveTimeouts0 = s2._resolveTimeouts0 ∧ s1._resolveTimeouts1 = s2._resolveTimeouts1 ∧
    s1._resolveServiceProto = s2._resolveServiceProto ∧
    s1._nameFoundCallback = s2._nameFoundCallback ∧
    s1._serviceFoundCallback = s2._serviceFoundCallback ∧
    s1._lastAnnounceMillis = s2._lastAnnounceMillis ∧
    s1.callbacks = s2.callbacks ∧ s1.now = s2.now ∧ s1.mallocPlan = s2.mallocPlan := by
  have f : ∀ {α : Type} (π : BonjourClass → α), π (core s1) = π (core s2) :=
    fun π => congrArg π h
  exact ⟨f BonjourClass._resolveNames0, f BonjourClass._resolveNames1,
    f BonjourClass._resolveTimeouts0, f BonjourClass._resolveTimeouts1,
    f BonjourClass._resolveServiceProto, f BonjourClass._nameFoundCallback,
    f BonjourClass._serviceFoundCallback, f BonjourClass._lastAnnounceMillis,
    f BonjourClass.callbacks, f BonjourClass.now, f BonjourClass.mallocPlan⟩

/-- `_initQuery(0, name, timeout)` with slot 0 free and a name-found callback:
the slot and its deadline are set, a NameQuery message is sent, 1 is
returned. -/
theorem initQuery_ok0 (st : BonjourClass) (name : List Nat) (timeout : Nat)
    (hslot : st._resolveNames0 = none) (hcb : st._nameFoundCallback = true) :
    _initQuery st 0 name timeout
      = ((_sendMDNSMessage
          { st with _resolveNames0 := some name,
                    _resolveTimeouts0 :=
                      if timeout ≠ 0 then (st.now + timeout) % 4294967296 else 0 }
          none 0 MDNSPacketType_t.MDNSPacketTypeNameQuery 0).1, 1) := by
  unfold _initQuery
  simp only [if_true, hslot, hcb, Option.isNone_none, and_self]
  rfl

/-- `_initQuery(1, name, timeout)` with slot 1 free and a service-found
callback. -/
theorem initQuery_ok1 (st : BonjourClass) (name : List Nat) (timeout : Nat)
    (hslot : st._resolveNames1 = none) (hcb : st._serviceFoundCallback = true) :
    _initQuery st 1 name timeout
      = ((_sendMDNSMessage
          { st with _resolveNames1 := some name,
                    _resolveTimeouts1 :=
                      if timeout ≠ 0 then (st.now + timeout) % 4294967296 else 0 }
          none 0 MDNSPacketType_t.MDNSPacketTypeServiceQuery 0).1, 1) := by
  unfold _initQuery
  simp only [Nat.one_ne_zero, if_false, hslot, hcb, Option.isNone_none, and_self, if_true]
  rfl

/-- `resolveName` with a name-found callback when the allocation succeeds. -/
theorem resolveName_ok (st : BonjourClass) (name : List Nat) (timeout : Nat)
    (hcb : st._nameFoundCallback = true) (ha : AllocOK st 1) :
    resolveName st name timeout
      = ((_sendMDNSMessage
          { afterAllocs st 1 with
            _resolveNames0 := some (name.take (strlen name) ++ MDNS_TLD),
            _resolveTimeouts0 :=
              if timeout ≠ 0 then (st.now + timeout) % 4294967296 else 0 }
          none 0 MDNSPacketType_t.MDNSPacketTypeNameQuery 0).1, 1) := by
  have hm : my_malloc (_cancelQuery st 0) = (true, afterAllocs (_cancelQuery st 0) 1) :=
    my_malloc_ok (_cancelQuery st 0) 0 1 ha (by decide)
  unfold resolveName
  dsimp only
  rw [hm]
  dsimp only
  rw [if_neg (by decide)]
  exact initQuery_ok0 _ _ _ rfl hcb

/-- What a NameQuery message for the name `n` in slot 0 does to the engine
when no bytes are pending: slot 0 keeps its name and deadline, its resend
clock becomes the current time, everything else but the transport is as it
was, and one datagram goes out. -/
theorem nameQuery_effect (s : BonjourClass) (n : List Nat) (h : s._resolveNames0 = some n)
    (hb : s._writeBuffer = []) :
    (_sendMDNSMessage s none 0 MDNSPacketType_t.MDNSPacketTypeNameQuery 0).1._resolveNames0
      = some n ∧
    (_sendMDNSMessage s none 0 MDNSPacketType_t.MDNSPacketTypeNameQuery 0).1._resolveTimeouts0
      = s._resolveTimeouts0 ∧
    (_sendMDNSMessage s none 0 MDNSPacketType_t.MDNSPacketTypeNameQuery
      0).1._resolveLastSendMillis0 = s.now ∧
    ((_sendMDNSMessage s none 0 MDNSPacketType_t.MDNSPacketTypeNameQuery 0).1._resolveNames1
        = s._resolveNames1 ∧
      (_sendMDNSMessage s none 0 MDNSPacketType_t.MDNSPacketTypeNameQuery 0).1._resolveTimeouts1
        = s._resolveTimeouts1 ∧
      (_sendMDNSMessage s none 0 MDNSPacketType_t.MDNSPacketTypeNameQuery
        0).1._resolveLastSendMillis1 = s._resolveLastSendMillis1 ∧
      (_sendMDNSMessage s none 0 MDNSPacketType_t.MDNSPacketTypeNameQuery
        0).1._resolveServiceProto = s._resolveServiceProto) ∧
    (_sendMDNSMessage s none 0 MDNSPacketType_t.MDNSPacketTypeNameQuery 0).1._serviceRecords
      = s._serviceRecords ∧
    (_sendMDNSMessage s none 0 MDNSPacketType_t.MDNSPacketTypeNameQuery 0).1.callbacks
      = s.callbacks ∧
    (∃ body, emitted s (_sendMDNSMessage s none 0 MDNSPacketType_t.MDNSPacketTypeNameQuery 0).1
      = [{ ip := mdnsMulticastIPAddr, port := MDNS_SERVER_PORT,
           data := (buildHeader 0 MDNSPacketType_t.MDNSPacketTypeNameQuery).bytes ++ body }]) ∧
    (NonEmptyLabels n →
      ∃ junk : List Nat, junk.length = 8 ∧
        emitted s (_sendMDNSMessage s none 0 MDNSPacketType_t.MDNSPacketTypeNameQuery 0).1
          = [{ ip := mdnsMulticastIPAddr, port := MDNS_SERVER_PORT,
               data := ((buildHeader 0 MDNSPacketType_t.MDNSPacketTypeNameQuery).bytes ++
                 (emittedName n 1 ++ ([0x00, 0x01, 0x00, 0x01] ++ junk))).take
                   sizeofWriteBuffer }]) := by
  have hc := core_fields (core_sendMDNSMessage s none 0
    MDNSPacketType_t.MDNSPacketTypeNameQuery 0)
  have hk := sendNameQuery_clocks s none 0 0 n h
  have hs := core_serviceRecords (core_sendMDNSMessage s none 0
    MDNSPacketType_t.MDNSPacketTypeNameQuery 0)
  have hp : pendingFlush s = [] := pendingFlush_empty _ hb
  refine ⟨hc.1.trans h, hc.2.2.1, hk.1, ⟨hc.2.1, hc.2.2.2.1, hk.2, hc.2.2.2.2.1⟩, hs,
    hc.2.2.2.2.2.2.2.2.1, ?_, ?_⟩
  · obtain ⟨_, body, hsent⟩ := sendMDNSMessage_datagram s none 0
      MDNSPacketType_t.MDNSPacketTypeNameQuery 0
    rw [hp, List.append_nil] at hsent
    exact ⟨body, emitted_append _ _ _ hsent⟩
  · intro hwf
    obtain ⟨junk, hj, hsent⟩ := sendQuery_sent s none 0 0
      MDNSPacketType_t.MDNSPacketTypeNameQuery n (Or.inl rfl) h hwf
    rw [hp, List.append_nil] at hsent
    exact ⟨junk, hj, emitted_append _ _ _ hsent⟩

/-- C22: with a name-found callback installed and the allocation succeeding,
`resolve_name(N, T)` returns 1, whatever slot 0 held before. Afterwards slot 0
holds `N` (up to its terminator) followed by `.local`; the deadline is 0 for
`T = 0` and `millis() + T`, in the 32-bit arithmetic of the code, otherwise;
the resend clock of slot 0 is the current time; slot 1, the service table and
the list of callbacks invoked are unchanged; and, the send buffer being empty
on entry, exactly one datagram has been emitted, to the multicast group with
the header of a NameQuery (XID 0, one question), which for a stored name of
non-empty labels is that header, the encoded name, QTYPE A, QCLASS IN and the
eight scratch bytes every question message carries. -/
theorem C22_resolve_name (st : BonjourClass) (name : List Nat) (timeout : Nat)
    (hcb : st._nameFoundCallback = true) (ha : AllocOK st 1) (hb : st._writeBuffer = []) :
    (resolveName st name timeout).2 = 1 ∧
    (resolveName st name timeout).1._resolveNames0
      = some (name.take (strlen name) ++ MDNS_TLD) ∧
    isResolvingName (resolveName st name timeout).1 = 1 ∧
    (resolveName st name timeout).1._resolveTimeouts0
      = (if timeout ≠ 0 then (st.now + timeout) % 4294967296 else 0) ∧
    (resolveName st name timeout).1._resolveLastSendMillis0 = st.now ∧
    ((resolveName st name timeout).1._resolveNames1 = st._resolveNames1 ∧
      (resolveName st name timeout).1._resolveTimeouts1 = st._resolveTimeouts1 ∧
      (resolveName st name timeout).1._resolveLastSendMillis1 = st._resolveLastSendMillis1 ∧
      (resolveName st name timeout).1._resolveServiceProto = st._resolveServiceProto) ∧
    (resolveName st name timeout).1._serviceRecords = st._serviceRecords ∧
    (resolveName st name timeout).1.callbacks = st.callbacks ∧
    (∃ body, emitted st (resolveName st name timeout).1
      = [{ ip := mdnsMulticastIPAddr, port := MDNS_SERVER_PORT,
           data := (buildHeader 0 MDNSPacketType_t.MDNSPacketTypeNameQuery).bytes ++ body }]) ∧
    (NonEmptyLabels (name.take (strlen name) ++ MDNS_TLD) →
      ∃ junk : List Nat, junk.length = 8 ∧
        emitted st (resolveName st name timeout).1
          = [{ ip := mdnsMulticastIPAddr, port := MDNS_SERVER_PORT,
               data := ((buildHeader 0 MDNSPacketType_t.MDNSPacketTypeNameQuery).bytes ++
                 (emittedName (name.take (strlen name) ++ MDNS_TLD) 1 ++
                   ([0x00, 0x01, 0x00, 0x01] ++ junk))).take sizeofWriteBuffer }]) := by
  obtain ⟨h1, h2, h3, h4, h5, h6, h7, h8⟩ := nameQuery_effect
    { afterAllocs st 1 with
      _resolveNames0 := some (name.take (strlen name) ++ MDNS_TLD),
      _resolveTimeouts0 := if timeout ≠ 0 then (st.now + timeout) % 4294967296 else 0 }
    (name.take (strlen name) ++ MDNS_TLD) rfl hb
  rw [resolveName_ok st name timeout hcb ha]
  refine ⟨rfl, h1, ?_, h2, h3, h4, h5, h6, h7, h8⟩
  unfold isResolvingName
  rw [h1]
  rfl

set_option maxRecDepth 100000 in
/-- An instance of C22: `resolveName("peer", 5000)` at the clock value 10000,
while a resolution of `old.local` is under way, returns 1, stores `peer.local`
with the deadline 15000 and the resend clock 10000, and emits one datagram of
36 bytes: header, `peer.local`, QTYPE A, QCLASS IN, eight scratch bytes. -/
theorem C22_resolve_name_witness :
    (resolveName { readyState with _resolveNames0 := some (ascii "old.local") }
      (ascii "peer") 5000).2 = 1 ∧
    (resolveName { readyState with _resolveNames0 := some (ascii "old.local") }
      (ascii "peer") 5000).1._resolveNames0 = some (ascii "peer.local") ∧
    (resolveName { readyState with _resolveNames0 := some (ascii "old.local") }
      (ascii "peer") 5000).1._resolveTimeouts0 = 15000 ∧
    (resolveName { readyState with _resolveNames0 := some (ascii "old.local") }
      (ascii "peer") 5000).1._resolveLastSendMillis0 = 10000 ∧
    emitted { readyState with _resolveNames0 := some (ascii "old.local") }
      (resolveName { readyState with _resolveNames0 := some (ascii "old.local") }
        (ascii "peer") 5000).1
      = [{ ip := [224, 0, 0, 251], port := 5353,
           data := [0, 0, 0, 0, 0, 1, 0, 0, 0, 0, 0, 0,
                    4, 112, 101, 101, 114, 5, 108, 111, 99, 97, 108, 0,
                    0, 1, 0, 1, 97, 108, 0, 0, 0, 0, 0, 0] }] := by
  have h := C22_resolve_name { readyState with _resolveNames0 := some (ascii "old.local") }
    (ascii "peer") 5000 rfl (by decide) rfl
  refine ⟨h.1, by decide, by decide, by decide, by decide⟩

/-! ## What a tick leaves untouched -/

theorem tick_of_message {P : BonjourClass → Prop} (hP : MessageInvariant P)
    (hA : ∀ st plan, P st → P { st with mallocPlan := plan })
    (hC : ∀ st cbs, P st → P { st with callbacks := cbs })
    (h0 : ∀ st n, P st → P { st with _resolveNames0 := n })
    (h1 : ∀ st n, P st → P { st with _resolveNames1 := n }) : TickInvariant P where
  onSend := fun st peer xid type rec h => inv_sendMDNSMessage hP st peer xid type rec h
  onAlloc := hA
  onFault := hP.onFault
  onCallback := hC
  onName0 := h0
  onName1 := h1

theorem scan_ite {P : BonjourClass → Prop} {c : Prop} [Decidable c] {x y : RecordScan}
    (hx : P x.aw.st) (hy : P y.aw.st) : P (if c then x else y).aw.st := by
  split
  · exact hx
  · exact hy

theorem scan_dite {P : BonjourClass → Prop} {c : Prop} [Decidable c] {x y : RecordScan}
    (hx : c → P x.aw.st) (hy : ¬ c → P y.aw.st) : P (if c then x else y).aw.st := by
  split
  · next h => exact hx h
  · next h => exact hy h

theorem walk_my_malloc {P : BonjourClass → Prop} (hP : WalkInvariant P) (st : BonjourClass)
    (h : P st) : P (my_malloc st).2 := by
  rw [my_malloc_snd]
  exact hP.onAlloc _ _ h

theorem walk_finished {P : BonjourClass → Prop} (hP : WalkInvariant P) (st : BonjourClass)
    (ip : List Nat) (hn : ∃ n, st._resolveNames0 = some n) (h : P st) :
    P (_finishedResolvingName st st._resolveNames0 (some ip)) := by
  obtain ⟨n, hn⟩ := hn
  rw [hn]
  exact hP.onFinished st n ip hn h

theorem walk_storePtrName {P : BonjourClass → Prop} (hP : WalkInvariant P) (pkt : List Nat)
    (dataLen : Nat) (s : RecordScan) (h : P s.aw.st) :
    P (storePtrName pkt dataLen s).aw.st := by
  unfold storePtrName
  dsimp only
  split
  · split
    · split
      · exact hP.onFault _ (walk_my_malloc hP _ h)
      · exact walk_my_malloc hP _ h
    · exact walk_my_malloc hP _ h
  · exact h

theorem servNamePos_st (c : Prop) [Decidable c] (s : RecordScan) (v : List Nat) :
    (if c then ({ s with aw := { s.aw with servNamePos := v } } : RecordScan) else s).aw.st
      = s.aw.st := by
  split <;> rfl

/-- The step of the answer walk for resolver target `j` keeps every property
the walk keeps; target 0 is looked at only while slot 0 has a name. -/
theorem walk_answerCase {P : BonjourClass → Prop} (hP : WalkInvariant P) (pkt : List Nat)
    (tLen j : Nat) (a : AnswerCandidate) (s : RecordScan)
    (hs : j = 0 → a.cand.servName.isSome = true → ∃ n, s.aw.st._resolveNames0 = some n)
    (h : P s.aw.st) : P (answerCase pkt tLen j a s).aw.st := by
  have h1 : P (if s.aw.servNamePos.getD j 0 = 0 then
      ({ s with aw := { s.aw with
          servNamePos := s.aw.servNamePos.set j ((s.aw.offset - 4 - tLen) % 256) } } : RecordScan)
      else s).aw.st := scan_ite h h
  unfold answerCase
  dsimp only
  apply scan_dite _ (fun _ => h1)
  intro hhit
  apply scan_ite _ h1
  apply scan_dite (x := _) (y := _)
  · intro hj
    have hx : ∃ n, (if s.aw.servNamePos.getD j 0 = 0 then
        ({ s with aw := { s.aw with
            servNamePos := s.aw.servNamePos.set j ((s.aw.offset - 4 - tLen) % 256) } } :
          RecordScan)
        else s).aw.st._resolveNames0 = some n := by
      rw [servNamePos_st]
      exact hs hj.1 hhit.1
    exact walk_finished hP _ _ hx h1
  · intro _
    apply scan_ite
    · exact walk_storePtrName hP _ _ _ h1
    · exact h1

theorem tick_additionalSRV {P : BonjourClass → Prop} (pkt : List Nat) (f : Nat)
    (s : RecordScan) (h : P s.aw.st) : P (additionalSRV pkt f s).aw.st := by
  unfold additionalSRV
  split
  · exact h
  · dsimp only
    apply scan_ite (x := _) (y := _)
    · exact h
    · exact h

theorem walk_additionalTXT {P : BonjourClass → Prop} (hP : WalkInvariant P) (pkt : List Nat)
    (f : Nat) (s : RecordScan) (h : P s.aw.st) : P (additionalTXT pkt f s).aw.st := by
  unfold additionalTXT
  split
  · exact h
  · dsimp only
    apply scan_ite (x := _) (y := _)
    · apply scan_ite (x := _) (y := _)
      · exact walk_my_malloc hP _ h
      · exact walk_my_malloc hP _ h
    · exact h

theorem tick_additionalA {P : BonjourClass → Prop} (pkt : List Nat) (f : Nat)
    (s : RecordScan) (h : P s.aw.st) : P (additionalA pkt f s).aw.st := by
  unfold additionalA
  split
  · exact h
  · exact h

theorem walk_ite {P : BonjourClass → Prop} {c : Prop} [Decidable c] {x y : AnswerState}
    (hx : P x.st) (hy : P y.st) : P (if c then x else y).st := by
  split
  · exact hx
  · exact hy

theorem chunk_isSome (f : Nat) (chunk : List Nat) (a : AnswerCandidate) :
    (a.chunk f chunk).cand.servName.isSome = a.cand.servName.isSome := by
  unfold AnswerCandidate.chunk matchChunk
  dsimp only
  split
  · cases h : a.cand.servName with
    | none => simp [h]
    | some s => simp
  · rfl

theorem pointer_isSome (b : Nat) (a : AnswerCandidate) :
    (a.pointer b).cand.servName.isSome = a.cand.servName.isSome := by
  unfold AnswerCandidate.pointer
  split <;> rfl

theorem zipWith_isSome (g : Nat → AnswerCandidate → AnswerCandidate)
    (hg : ∀ f a, (g f a).cand.servName.isSome = a.cand.servName.isSome)
    (found : List Nat) (cs : List AnswerCandidate)
    (h : ((List.zipWith g found cs).getD 0 (AnswerCandidate.ofSlot none 0)).cand.servName.isSome
      = true) :
    (cs.getD 0 (AnswerCandidate.ofSlot none 0)).cand.servName.isSome = true := by
  cases found with
  | nil => simp [AnswerCandidate.ofSlot, Candidate.ofName] at h
  | cons f found =>
    cases cs with
    | nil => simp [AnswerCandidate.ofSlot, Candidate.ofName] at h
    | cons a cs =>
      simp only [List.zipWith_cons_cons, List.getD_cons_zero] at h ⊢
      rw [hg] at h
      exact h

theorem chunkLoop_isSome (pkt found : List Nat) :
    ∀ (fuel tr : Nat) (nw : NameWalk),
      ((answerChunkLoop pkt found fuel tr nw).cands.getD 0
        (AnswerCandidate.ofSlot none 0)).cand.servName.isSome = true →
      (nw.cands.getD 0 (AnswerCandidate.ofSlot none 0)).cand.servName.isSome = true := by
  intro fuel
  induction fuel with
  | zero => intro tr nw h; exact h
  | succ fuel ih =>
    intro tr nw h
    rw [answerChunkLoop] at h
    split at h
    · have h2 := ih _ _ h
      exact zipWith_isSome _ (fun f a => chunk_isSome f _ a) found nw.cands h2
    · exact h

/-- Target 0 has a name behind the name loop only if it had one before. -/
theorem nameLoop_isSome (pkt found : List Nat) (q : Bool) :
    ∀ (fuel : Nat) (nw : NameWalk),
      ((answerNameLoop pkt found q fuel nw).cands.getD 0
        (AnswerCandidate.ofSlot none 0)).cand.servName.isSome = true →
      (nw.cands.getD 0 (AnswerCandidate.ofSlot none 0)).cand.servName.isSome = true := by
  intro fuel
  induction fuel with
  | zero => intro nw h; exact h
  | succ fuel ih =>
    intro nw h
    rw [answerNameLoop] at h
    dsimp only at h
    split at h
    · cases hc : nw.cands with
      | nil =>
        rw [hc] at h
        simp [AnswerCandidate.ofSlot, Candidate.ofName] at h
      | cons a cs =>
        rw [hc] at h
        simp only [List.map_cons, List.getD_cons_zero] at h ⊢
        rw [pointer_isSome] at h
        exact h
    · split at h
      · split at h
        · have h2 := ih _ h
          exact h2
        · have h2 := ih _ h
          have h3 : ((answerChunkLoop pkt found _ _ _).cands.getD 0
              (AnswerCandidate.ofSlot none 0)).cand.servName.isSome = true := h2
          have h4 := chunkLoop_isSome pkt found _ _ _ h3
          exact h4
      · exact h

theorem walk_answerBody {P : BonjourClass → Prop} (hP : WalkInvariant P) (pkt : List Nat)
    (qCnt aCnt aaCnt i : Nat) (nw : NameWalk) (aw : AnswerState)
    (hs : (nw.cands.getD 0 (AnswerCandidate.ofSlot none 0)).cand.servName.isSome = true →
      ∃ n, aw.st._resolveNames0 = some n)
    (h : P aw.st) :
    P (answerBody pkt qCnt aCnt aaCnt i nw aw).st := by
  have key : ∀ s0 : RecordScan, s0.aw.st = aw.st →
      P (if i < qCnt + aCnt then
          answerCase pkt nw.tLen 1 (nw.cands.getD 1 (AnswerCandidate.ofSlot none 0))
            (answerCase pkt nw.tLen 0 (nw.cands.getD 0 (AnswerCandidate.ofSlot none 0)) s0)
        else if i ≥ qCnt + aCnt + aaCnt then
          if s0.buf.getD 1 0 = 0x21 then additionalSRV pkt nw.firstNamePtrByte s0
          else if s0.buf.getD 1 0 = 0x10 then additionalTXT pkt nw.firstNamePtrByte s0
          else if s0.buf.getD 1 0 = 0x01 then additionalA pkt nw.firstNamePtrByte s0
          else s0
        else s0).aw.st := by
    intro s0 he
    have h0 : P s0.aw.st := by rw [he]; exact h
    apply scan_ite
    · exact walk_answerCase hP _ _ _ _ _ (fun h1 => absurd h1 (by decide))
        (walk_answerCase hP _ _ _ _ _ (fun _ hsome => by rw [he]; exact hs hsome) h0)
    · apply scan_ite _ h0
      apply scan_ite
      · exact tick_additionalSRV _ _ _ h0
      · apply scan_ite
        · exact walk_additionalTXT hP _ _ _ h0
        · apply scan_ite _ h0
          exact tick_additionalA _ _ _ h0
  unfold answerBody
  dsimp only
  apply walk_ite
  · exact key ⟨{ aw with offset := nw.offset + 4, ptrs := nw.ptrs },
      readBytes pkt nw.offset 4 ++ List.replicate 8 0, false⟩ rfl
  · exact key ⟨{ aw with offset := nw.offset + 4, ptrs := nw.ptrs },
      readBytes pkt nw.offset 4 ++ List.replicate 8 0, false⟩ rfl

theorem ofSlot_servName (name : Option (List Nat)) (pos : Nat) :
    (AnswerCandidate.ofSlot name pos).cand.servName = name := by
  cases name <;> rfl

theorem walk_answerRecord {P : BonjourClass → Prop} (hP : WalkInvariant P) (pkt : List Nat)
    (qCnt aCnt aaCnt i : Nat) (aw : AnswerState) (h : P aw.st) :
    P (answerRecord pkt qCnt aCnt aaCnt i aw).1.st := by
  unfold answerRecord
  dsimp only
  split
  · exact h
  · split
    · exact h
    · apply walk_answerBody hP _ _ _ _ _ _ _ _ h
      intro hsome
      have h2 := nameLoop_isSome pkt aw.recordsFound _ _ _ hsome
      simp only [List.getD_cons_zero, ofSlot_servName] at h2
      cases hn : aw.st._resolveNames0 with
      | none => rw [hn] at h2; cases h2
      | some n => exact ⟨n, rfl⟩

theorem walk_answerLoop {P : BonjourClass → Prop} (hP : WalkInvariant P) (pkt : List Nat)
    (qCnt aCnt aaCnt addCnt : Nat) :
    ∀ (fuel i : Nat) (aw r : AnswerState), P aw.st →
      answerLoop pkt qCnt aCnt aaCnt addCnt fuel i aw = some r → P r.st := by
  intro fuel
  induction fuel with
  | zero =>
    intro i aw r h he
    rw [answerLoop] at he
    split at he
    · cases he
    · cases he
      exact h
  | succ fuel ih =>
    intro i aw r h he
    rw [answerLoop] at he
    split at he
    · dsimp only at he
      split at he
      · cases he
        exact walk_answerRecord hP _ _ _ _ _ _ h
      · exact ih _ _ _ (walk_answerRecord hP _ _ _ _ _ _ h) he
    · cases he
      exact h

theorem deliverService_name1 (typeName : List Nat) (servIPs : List (List Nat))
    (st : BonjourClass) (p : PtrSlot) :
    (deliverService typeName servIPs st p)._resolveNames1 = st._resolveNames1 := by
  unfold deliverService
  split
  · rfl
  · split
    · rfl
    · split <;> rfl

theorem walk_deliverFold {P : BonjourClass → Prop} (hP : WalkInvariant P)
    (name : List Nat) (servIPs : List (List Nat)) :
    ∀ (ptrs : List PtrSlot) (st : BonjourClass), st._resolveNames1 = some name → P st →
      P (ptrs.foldl (deliverService (typeNameOf name) servIPs) st) ∧
      (ptrs.foldl (deliverService (typeNameOf name) servIPs) st)._resolveNames1
        = some name := by
  intro ptrs
  induction ptrs with
  | nil => intro st hn h; exact ⟨h, hn⟩
  | cons p rest ih =>
    intro st hn h
    exact ih _ ((deliverService_name1 _ _ _ _).trans hn) (hP.onDeliver _ _ _ _ hn h)

theorem walk_deliverServices {P : BonjourClass → Prop} (hP : WalkInvariant P)
    (aw : AnswerState) (h : P aw.st) : P (deliverServices aw) := by
  unfold deliverServices
  split
  · exact h
  · next name hn =>
    obtain ⟨h1, h2⟩ := walk_deliverFold hP name aw.servIPs aw.ptrs aw.st hn h
    exact hP.onRestore _ _ h2 h1

/-- Every property kept by the steps of the answer walk is kept by
`processAnswers`. -/
theorem walk_processAnswers {P : BonjourClass → Prop} (hP : WalkInvariant P)
    (st : BonjourClass) (pkt junkPorts junkIPs : List Nat) (fuel : Nat) (r : BonjourClass)
    (h : P st) (he : processAnswers st pkt junkPorts junkIPs fuel = some r) : P r := by
  unfold processAnswers at he
  cases hl : answerLoop pkt (packetQCnt pkt) (packetACnt pkt) (packetAACnt pkt)
      (packetAddCnt pkt) fuel 0 (AnswerState.start st junkPorts junkIPs) with
  | none => rw [hl] at he; cases he
  | some aw =>
    rw [hl] at he
    cases he
    exact walk_deliverServices hP _ (walk_answerLoop hP _ _ _ _ _ _ _ _ _ h hl)

theorem run_eq (st : BonjourClass) (inbound : Option Inbound) (junkPorts junkIPs : List Nat)
    (fuel : Nat) (r : BonjourClass) (h : run st inbound junkPorts junkIPs fuel = some r) :
    ∃ q, _processMDNSQuery st inbound junkPorts junkIPs fuel = some q ∧
      r = runAnnounce (runResolver q.1 st.now) st.now := by
  unfold run at h
  cases hq : _processMDNSQuery st inbound junkPorts junkIPs fuel with
  | none => rw [hq] at h; cases h
  | some q =>
    rw [hq] at h
    cases h
    exact ⟨q, rfl, rfl⟩

/-- A tick without an inbound datagram: the resolver slots and the
re-announcement are served on the engine as it is. -/
theorem run_none (st : BonjourClass) (junkPorts junkIPs : List Nat) (fuel : Nat) :
    run st none junkPorts junkIPs fuel = some (runAnnounce (runResolver st st.now) st.now) :=
  rfl

theorem ans_emit {P : BonjourClass → Prop} (hP : AnswerInvariant P) (w : Writer) (n : Nat) (h : P w.st) :
    P (w.emit n).st :=
  hP.onWrite w.st _ h

theorem ans_store {P : BonjourClass → Prop} (w : Writer) (i : Nat) (b : List Nat) (h : P w.st) :
    P (w.store i b).st := h

theorem ans_crash {P : BonjourClass → Prop} (hP : AnswerInvariant P) (w : Writer) (h : P w.st) : P w.crash.st :=
  hP.onFault w.st h

theorem ans_copyLabel {P : BonjourClass → Prop} (hP : AnswerInvariant P) (bufSize : Nat) :
    ∀ (i : Nat) (p1 : List Nat) (p3 len : Nat) (w : Writer), P w.st →
      P (copyLabel bufSize i p1 p3 len w).2.2.st := by
  intro i
  induction i with
  | zero => intro p1 p3 len w h; exact h
  | succ i ih =>
    intro p1 p3 len w h
    rw [copyLabel]
    split
    · exact ih _ _ _ _ (ans_emit hP _ _ h)
    · exact ih _ _ _ _ h

theorem ans_writeLabels {P : BonjourClass → Prop} (hP : AnswerInvariant P) (bufSize : Nat) :
    ∀ (fuel : Nat) (p1 : List Nat) (w : Writer), P w.st →
      P (writeLabels bufSize fuel p1 w).st := by
  intro fuel
  induction fuel with
  | zero => intro p1 w h; exact h
  | succ fuel ih =>
    intro p1 w h
    rw [writeLabels]
    split
    · exact h
    · apply ih
      have hc := ans_copyLabel hP bufSize (scanLabel p1 1 - 1) p1 1 (bufSize - 1)
        { w with buf := w.buf.set 0 ((scanLabel p1 1 - 1) % 256) } h
      split
      · exact ans_emit hP _ _ hc
      · exact hc

theorem ans_writeDNSName {P : BonjourClass → Prop} (hP : AnswerInvariant P) (w : Writer) (name : List Nat)
    (bufSize zeroTerminate : Nat) (h : P w.st) :
    P (_writeDNSName w name bufSize zeroTerminate).st := by
  have h1 := ans_writeLabels hP bufSize (name.length + 1) name w h
  unfold _writeDNSName
  split
  · exact ans_emit hP { writeLabels bufSize (name.length + 1) name w with
      buf := (writeLabels bufSize (name.length + 1) name w).buf.set 0 0 } 1 h1
  · exact h1

theorem ans_writeMyIPAnswerRecord {P : BonjourClass → Prop} (hP : AnswerInvariant P) (w : Writer) (bufSize : Nat)
    (h : P w.st) : P (_writeMyIPAnswerRecord w bufSize).st := by
  unfold _writeMyIPAnswerRecord
  split
  · exact ans_crash hP w h
  · dsimp only
    apply ans_emit hP
    apply ans_store
    apply ans_store
    apply ans_store
    apply ans_emit hP
    apply ans_store
    exact ans_writeDNSName hP _ _ _ _ h

theorem ans_writeServiceRecordName {P : BonjourClass → Prop} (hP : AnswerInvariant P) (w : Writer)
    (idx bufSize tld : Nat) (h : P w.st) :
    P (_writeServiceRecordName w idx bufSize tld).st := by
  unfold _writeServiceRecordName
  split
  · exact ans_crash hP w h
  · split
    · exact ans_crash hP w h
    · next name _ =>
      have h1 := ans_writeDNSName hP w name bufSize tld h
      dsimp only
      split
      · split
        · exact h1
        · exact ans_writeDNSName hP _ _ _ _ h1
      · exact h1

theorem ans_writeServiceRecordPTR {P : BonjourClass → Prop} (hP : AnswerInvariant P) (w : Writer)
    (idx bufSize ttl : Nat) (h : P w.st) :
    P (_writeServiceRecordPTR w idx bufSize ttl).st := by
  unfold _writeServiceRecordPTR
  have h1 := ans_writeServiceRecordName hP w idx bufSize 1 h
  dsimp only
  split
  · exact ans_crash hP _ h1
  · apply ans_writeServiceRecordName hP
    apply ans_emit hP
    apply ans_store
    apply ans_store
    apply ans_store
    exact h1

theorem ans_writeServiceRecordBody {P : BonjourClass → Prop} (hP : AnswerInvariant P)
    (w : Writer) (idx : Nat) (h : P w.st) : P (writeServiceRecordBody w idx).st := by
  unfold writeServiceRecordBody
  have h1 := ans_writeServiceRecordName hP w idx sizeofDNSHeader 0 h
  dsimp only
  split
  · next r host _ _ =>
    split
    · apply ans_crash hP
      apply ans_writeDNSName hP
      split
      ·
        apply ans_emit hP
        apply ans_store
        apply ans_emit hP
        apply ans_store
        apply ans_store
        apply ans_writeServiceRecordName hP
        apply ans_writeDNSName hP
        apply ans_emit hP
        apply ans_store
        apply ans_store
        apply ans_emit hP
        apply ans_store
        apply ans_store
        apply ans_store
        exact h1
      · apply hP.onWrite
        apply ans_emit hP
        apply ans_store
        apply ans_emit hP
        apply ans_store
        apply ans_store
        apply ans_writeServiceRecordName hP
        apply ans_writeDNSName hP
        apply ans_emit hP
        apply ans_store
        apply ans_store
        apply ans_emit hP
        apply ans_store
        apply ans_store
        apply ans_store
        exact h1
    · apply ans_writeMyIPAnswerRecord hP
      apply ans_writeServiceRecordPTR hP
      apply ans_writeServiceRecordName hP
      apply ans_emit hP
      apply ans_store
      apply ans_store
      apply ans_store
      apply ans_writeDNSName hP
      split
      ·
        apply ans_emit hP
        apply ans_store
        apply ans_emit hP
        apply ans_store
        apply ans_store
        apply ans_writeServiceRecordName hP
        apply ans_writeDNSName hP
        apply ans_emit hP
        apply ans_store
        apply ans_store
        apply ans_emit hP
        apply ans_store
        apply ans_store
        apply ans_store
        exact h1
      · apply hP.onWrite
        apply ans_emit hP
        apply ans_store
        apply ans_emit hP
        apply ans_store
        apply ans_store
        apply ans_writeServiceRecordName hP
        apply ans_writeDNSName hP
        apply ans_emit hP
        apply ans_store
        apply ans_store
        apply ans_emit hP
        apply ans_store
        apply ans_store
        apply ans_store
        exact h1
  · exact ans_crash hP _ h1

theorem ans_writeNoIPv6Body {P : BonjourClass → Prop} (hP : AnswerInvariant P) (w : Writer)
    (h : P w.st) : P (writeNoIPv6Body w).st := by
  unfold writeNoIPv6Body
  split
  · exact ans_crash hP w h
  · dsimp only
    apply ans_writeMyIPAnswerRecord hP
    apply ans_emit hP
    apply ans_store
    apply ans_store
    apply ans_store
    apply ans_store
    exact ans_writeDNSName hP _ _ _ _ h

/-- Every property kept by the steps of an answer message is kept by
`_sendMDNSMessage` for every type but the two questions. -/
theorem ans_sendMDNSMessage {P : BonjourClass → Prop} (hP : AnswerInvariant P)
    (st : BonjourClass) (peer : Option (List Nat)) (xid : Nat) (type : MDNSPacketType_t)
    (rec : Nat) (h1 : type ≠ MDNSPacketType_t.MDNSPacketTypeNameQuery)
    (h2 : type ≠ MDNSPacketType_t.MDNSPacketTypeServiceQuery) (h : P st) :
    P (_sendMDNSMessage st peer xid type rec).1 := by
  rw [sendMDNSMessage_eq]
  apply hP.onEnd
  have hw : P (bodyWriter st xid type).st := hP.onWrite _ _ (hP.onBegin _ _ _ h)
  cases type
  · exact ans_writeMyIPAnswerRecord hP _ _ hw
  · exact ans_writeNoIPv6Body hP _ hw
  · exact ans_writeServiceRecordBody hP _ rec hw
  · exact ans_writeServiceRecordPTR hP _ rec _ _ hw
  · exact absurd rfl h1
  · exact absurd rfl h2

theorem ans_sendAll {P : BonjourClass → Prop} (hP : AnswerInvariant P)
    (peer : Option (List Nat)) (xid : Nat) :
    ∀ (ms : List (MDNSPacketType_t × Nat)) (st : BonjourClass),
      (∀ m ∈ ms, m.1 ≠ MDNSPacketType_t.MDNSPacketTypeNameQuery ∧
        m.1 ≠ MDNSPacketType_t.MDNSPacketTypeServiceQuery) →
      P st → P (sendAll peer xid ms st) := by
  intro ms
  induction ms with
  | nil => intro st _ h; exact h
  | cons m ms ih =>
    intro st hm h
    exact ih _ (fun m2 h2 => hm m2 (List.mem_cons_of_mem _ h2))
      (ans_sendMDNSMessage hP st peer xid m.1 m.2 (hm m (List.mem_cons_self _ _)).1
        (hm m (List.mem_cons_self _ _)).2 h)

/-- The two resend clocks are touched by no step of an answer message. -/
theorem ans_clocks (v : Nat × Nat) :
    AnswerInvariant (fun s => (s._resolveLastSendMillis0, s._resolveLastSendMillis1) = v) where
  onWrite := fun _ _ h => h
  onBegin := fun st ip port h => by
    have hb := beginPacket_frame st ip port
    rw [← h]
    exact Prod.ext hb.2.1 hb.2.2
  onEnd := fun _ h => h
  onFault := fun _ h => h

/-- The re-announcement leaves the resend clocks as they are. -/
theorem runAnnounce_clocks (st : BonjourClass) (now : Nat) :
    (runAnnounce st now)._resolveLastSendMillis0 = st._resolveLastSendMillis0 ∧
    (runAnnounce st now)._resolveLastSendMillis1 = st._resolveLastSendMillis1 := by
  have key : ∀ plan : List Nat,
      (sendAll none 0 (plan.map fun k => (MDNSPacketType_t.MDNSPacketTypeServiceRecord, k))
          st)._resolveLastSendMillis0 = st._resolveLastSendMillis0 ∧
      (sendAll none 0 (plan.map fun k => (MDNSPacketType_t.MDNSPacketTypeServiceRecord, k))
          st)._resolveLastSendMillis1 = st._resolveLastSendMillis1 := by
    intro plan
    have h := ans_sendAll (ans_clocks (st._resolveLastSendMillis0, st._resolveLastSendMillis1))
      none 0 (plan.map fun k => (MDNSPacketType_t.MDNSPacketTypeServiceRecord, k)) st
      (by
        intro m hm
        obtain ⟨k, _, rfl⟩ := List.mem_map.1 hm
        exact ⟨(fun h => nomatch h), (fun h => nomatch h)⟩) rfl
    exact ⟨congrArg Prod.fst h, congrArg Prod.snd h⟩
  rcases runAnnounce_eq st now with h | h
  · rw [h]
    exact ⟨rfl, rfl⟩
  · rw [h]
    exact key _

/-! ## The datagram of a question message -/

theorem copyLabel_buf (bufSize : Nat) :
    ∀ (i : Nat) (p1 : List Nat) (p3 len : Nat) (w1 w2 : Writer), w1.buf = w2.buf →
      (copyLabel bufSize i p1 p3 len w1).1 = (copyLabel bufSize i p1 p3 len w2).1 ∧
      (copyLabel bufSize i p1 p3 len w1).2.1 = (copyLabel bufSize i p1 p3 len w2).2.1 ∧
      (copyLabel bufSize i p1 p3 len w1).2.2.buf = (copyLabel bufSize i p1 p3 len w2).2.2.buf := by
  intro i
  induction i with
  | zero => intro p1 p3 len w1 w2 h; exact ⟨rfl, rfl, h⟩
  | succ i ih =>
    intro p1 p3 len w1 w2 h
    rw [copyLabel, copyLabel]
    try dsimp only
    split
    · apply ih
      show w1.buf.set p3 (cHead p1) = w2.buf.set p3 (cHead p1)
      rw [h]
    · apply ih
      show w1.buf.set p3 (cHead p1) = w2.buf.set p3 (cHead p1)
      rw [h]

theorem writeLabels_buf (bufSize : Nat) :
    ∀ (fuel : Nat) (p1 : List Nat) (w1 w2 : Writer), w1.buf = w2.buf →
      (writeLabels bufSize fuel p1 w1).buf = (writeLabels bufSize fuel p1 w2).buf := by
  intro fuel
  induction fuel with
  | zero => intro p1 w1 w2 h; exact h
  | succ fuel ih =>
    intro p1 w1 w2 h
    rw [writeLabels, writeLabels]
    split
    · exact h
    · try dsimp only
      have hc := copyLabel_buf bufSize (scanLabel p1 1 - 1) p1 1 (bufSize - 1)
        { w1 with buf := w1.buf.set 0 ((scanLabel p1 1 - 1) % 256) }
        { w2 with buf := w2.buf.set 0 ((scanLabel p1 1 - 1) % 256) }
        (by show w1.buf.set 0 _ = w2.buf.set 0 _; rw [h])
      rw [hc.1, hc.2.1]
      apply ih
      split
      · exact hc.2.2
      · exact hc.2.2

/-- The scratch buffer behind a name written by `_writeDNSName` depends on the
scratch buffer before and the name only. -/
theorem writeDNSName_buf (w1 w2 : Writer) (name : List Nat) (bufSize zeroTerminate : Nat)
    (h : w1.buf = w2.buf) :
    (_writeDNSName w1 name bufSize zeroTerminate).buf
      = (_writeDNSName w2 name bufSize zeroTerminate).buf := by
  have h1 := writeLabels_buf bufSize (name.length + 1) name w1 w2 h
  unfold _writeDNSName
  try dsimp only
  split
  · show (writeLabels bufSize (name.length + 1) name w1).buf.set 0 0
      = (writeLabels bufSize (name.length + 1) name w2).buf.set 0 0
    rw [h1]
  · exact h1

/-- The datagram of a question message for a name of non-empty labels, from a
state with no bytes pending: `queryDatagram`, whatever else the engine
holds. -/
theorem sendQuery_datagram (st : BonjourClass) (peer : Option (List Nat)) (rec : Nat)
    (type : MDNSPacketType_t) (name : List Nat)
    (htype : type = MDNSPacketType_t.MDNSPacketTypeNameQuery ∨
      type = MDNSPacketType_t.MDNSPacketTypeServiceQuery)
    (hname : (if type = MDNSPacketType_t.MDNSPacketTypeServiceQuery then st._resolveNames1
      else st._resolveNames0) = some name)
    (hwf : NonEmptyLabels name) (hb : st._writeBuffer = []) :
    (_sendMDNSMessage st peer 0 type rec).1.sent = st.sent ++ [queryDatagram type name] := by
  have h1 := wrote_writeDNSName (bodyWriter st 0 type) name 1 hwf rfl
  have hjunk : (_writeDNSName (bodyWriter st 0 type) name sizeofDNSHeader 1).buf.drop 4
      = queryScratch type name := by
    unfold queryScratch
    rw [writeDNSName_buf (bodyWriter st 0 type)
      { st := BonjourClass.init [] 0, ptr := sizeofDNSHeader,
        buf := (buildHeader 0 type).bytes } name sizeofDNSHeader 1 rfl]
  have hlen : ∀ t : Nat, (([0x00, t, 0x00, 0x01] ++
      (_writeDNSName (bodyWriter st 0 type) name sizeofDNSHeader 1).buf.drop 4 :
        List Nat)).take sizeofDNSHeader
      = [0x00, t, 0x00, 0x01] ++
        (_writeDNSName (bodyWriter st 0 type) name sizeofDNSHeader 1).buf.drop 4 := by
    intro t
    apply List.take_of_length_le
    have := h1.2
    simp only [List.length_append, List.length_cons, List.length_nil, List.length_drop, this]
    decide
  have hp : pendingFlush st = [] := pendingFlush_empty st hb
  unfold queryDatagram
  rw [← hjunk, sendMDNSMessage_eq]
  rcases htype with h | h <;> subst h
  · have hn : (bodyWriter st 0 MDNSPacketType_t.MDNSPacketTypeNameQuery).st._resolveNames0
        = some name := by
      simpa [bodyWriter, beginPacket_resolveNames0] using hname
    simp only [messageBody, writeQueryBody, hn, decide_False, Bool.false_eq_true, if_false,
      endPacket_sent, Writer.emit, Writer.store, poke_query _ _ h1.2, hlen, reduceCtorEq]
    rw [h1.1]
    simp only [bodyWriter, write_write]
    simp [write, beginPacket_sent, beginPacket_buffer, beginPacket_dest, List.append_assoc, hp]
  · have hn : (bodyWriter st 0 MDNSPacketType_t.MDNSPacketTypeServiceQuery).st._resolveNames1
        = some name := by
      simpa [bodyWriter, beginPacket_resolveNames1] using hname
    simp only [messageBody, writeQueryBody, hn, decide_True, if_true,
      endPacket_sent, Writer.emit, Writer.store, poke_query _ _ h1.2, hlen]
    rw [h1.1]
    simp only [bodyWriter, write_write]
    simp [write, beginPacket_sent, beginPacket_buffer, beginPacket_dest, List.append_assoc, hp]

/-! ## The resolver loop of `run()`, step by step -/

theorem runResolver0_none (st : BonjourClass) (now : Nat) (h : st._resolveNames0 = none) :
    runResolver0 st now = st := by
  unfold runResolver0
  rw [h]

theorem runResolver0_some (st : BonjourClass) (now : Nat) (n : List Nat)
    (h : st._resolveNames0 = some n) : runResolver0 st now = expire0 (resend0 st now) now := by
  unfold runResolver0
  rw [h]
  rfl

theorem runResolver1_none (st : BonjourClass) (now : Nat) (h : st._resolveNames1 = none) :
    runResolver1 st now = st := by
  unfold runResolver1
  rw [h]

theorem runResolver1_some (st : BonjourClass) (now : Nat) (n : List Nat)
    (h : st._resolveNames1 = some n) :
    runResolver1 st now = expire1 (resend1 st now) now n := by
  unfold runResolver1
  rw [h]
  rfl

theorem resend0_due (st : BonjourClass) (now : Nat)
    (h : (now + 4294967296 - st._resolveLastSendMillis0) % 4294967296 > 1000) :
    resend0 st now
      = (_sendMDNSMessage st none 0 MDNSPacketType_t.MDNSPacketTypeNameQuery 0).1 := by
  unfold resend0
  exact if_pos h

theorem resend0_idle (st : BonjourClass) (now : Nat)
    (h : (now + 4294967296 - st._resolveLastSendMillis0) % 4294967296 ≤ 1000) :
    resend0 st now = st := by
  unfold resend0
  exact if_neg (by show ¬ _ > 1000; omega)

theorem resend1_due (st : BonjourClass) (now : Nat)
    (h : (now + 4294967296 - st._resolveLastSendMillis1) % 4294967296 > 10000) :
    resend1 st now
      = (_sendMDNSMessage st none 0 MDNSPacketType_t.MDNSPacketTypeServiceQuery 0).1 := by
  unfold resend1
  exact if_pos h

theorem resend1_idle (st : BonjourClass) (now : Nat)
    (h : (now + 4294967296 - st._resolveLastSendMillis1) % 4294967296 ≤ 10000) :
    resend1 st now = st := by
  unfold resend1
  exact if_neg (by show ¬ _ > 10000; omega)

/-- The resend step changes nothing but the transport and the resend
clocks. -/
theorem core_resend0 (st : BonjourClass) (now : Nat) : core (resend0 st now) = core st := by
  unfold resend0
  split
  · exact core_sendMDNSMessage _ _ _ _ _
  · rfl

theorem core_resend1 (st : BonjourClass) (now : Nat) : core (resend1 st now) = core st := by
  unfold resend1
  split
  · exact core_sendMDNSMessage _ _ _ _ _
  · rfl

/-- The timeout step changes nothing but the name of its slot and the list of
callbacks invoked. -/
theorem expire0_shape (s : BonjourClass) (now : Nat) :
    ∃ nm cbs, expire0 s now = { s with _resolveNames0 := nm, callbacks := cbs } := by
  unfold expire0 _finishedResolvingName
  dsimp only
  split
  · split
    · exact ⟨_, _, rfl⟩
    · exact ⟨_, _, rfl⟩
  · exact ⟨s._resolveNames0, s.callbacks, rfl⟩

theorem expire1_shape (s : BonjourClass) (now : Nat) (n : List Nat) :
    ∃ nm cbs, expire1 s now n = { s with _resolveNames1 := nm, callbacks := cbs } := by
  unfold expire1
  dsimp only
  split
  · split
    · exact ⟨_, _, rfl⟩
    · exact ⟨_, _, rfl⟩
  · exact ⟨s._resolveNames1, s.callbacks, rfl⟩

/-- The timeout step of slot 0 past the deadline: the callback, if there is
one, is invoked with the slot's name cut one byte before what
`_findFirstDotFromRight` returns and a `NULL` address; the slot is cleared. -/
theorem expire0_fired (s : BonjourClass) (now : Nat) (n : List Nat)
    (hn : s._resolveNames0 = some n) (h : s._resolveTimeouts0 > 0 ∧ now > s._resolveTimeouts0) :
    (expire0 s now)._resolveNames0 = none ∧
    (expire0 s now).callbacks = s.callbacks ++
      (if s._nameFoundCallback then
        [CallbackEvent.nameFound (some (n.take (findDotLoop n (strlen n) + 1))) none]
       else []) := by
  unfold expire0 _finishedResolvingName
  dsimp only
  rw [if_pos h, hn]
  refine ⟨rfl, ?_⟩
  split
  · rfl
  · simp

theorem expire0_kept (s : BonjourClass) (now : Nat)
    (h : s._resolveTimeouts0 = 0 ∨ now ≤ s._resolveTimeouts0) : expire0 s now = s := by
  unfold expire0
  rw [if_neg (by omega)]

/-- The timeout step of slot 1 past the deadline: the callback, if there is
one, is invoked with the slot's name cut at its first dot, the protocol, and
`NULL`, `NULL`, 0, `NULL`; the slot is cleared. -/
theorem expire1_fired (s : BonjourClass) (now : Nat) (n : List Nat)
    (h : s._resolveTimeouts1 > 0 ∧ now > s._resolveTimeouts1) :
    (expire1 s now n)._resolveNames1 = none ∧
    (expire1 s now n).callbacks = s.callbacks ++
      (if s._serviceFoundCallback then
        [CallbackEvent.serviceFound (typeNameOf n) s._resolveServiceProto none none 0 none]
       else []) := by
  unfold expire1
  dsimp only
  rw [if_pos h]
  refine ⟨rfl, ?_⟩
  split
  · rfl
  · simp

theorem expire1_kept (s : BonjourClass) (now : Nat) (n : List Nat)
    (h : s._resolveTimeouts1 = 0 ∨ now ≤ s._resolveTimeouts1) : expire1 s now n = s := by
  unfold expire1
  rw [if_neg (by omega)]

/-- The pass of the resolver loop for slot 0 leaves slot 1 as it is. -/
theorem runResolver0_slot1 (st : BonjourClass) (now : Nat) :
    (runResolver0 st now)._resolveNames1 = st._resolveNames1 ∧
    (runResolver0 st now)._resolveTimeouts1 = st._resolveTimeouts1 ∧
    (runResolver0 st now)._resolveLastSendMillis1 = st._resolveLastSendMillis1 ∧
    (runResolver0 st now)._resolveServiceProto = st._resolveServiceProto ∧
    (runResolver0 st now)._serviceFoundCallback = st._serviceFoundCallback ∧
    (runResolver0 st now).now = st.now := by
  cases hn : st._resolveNames0 with
  | none =>
    rw [runResolver0_none st now hn]
    exact ⟨rfl, rfl, rfl, rfl, rfl, rfl⟩
  | some n =>
    rw [runResolver0_some st now n hn]
    obtain ⟨nm, cbs, he⟩ := expire0_shape (resend0 st now) now
    rw [he]
    have hc := core_fields (core_resend0 st now)
    refine ⟨hc.2.1, hc.2.2.2.1, ?_, hc.2.2.2.2.1, hc.2.2.2.2.2.2.1, hc.2.2.2.2.2.2.2.2.2.1⟩
    show (resend0 st now)._resolveLastSendMillis1 = st._resolveLastSendMillis1
    unfold resend0
    split
    · exact (sendNameQuery_clocks st none 0 0 n hn).2
    · rfl

/-- The pass of the resolver loop for slot 1 leaves slot 0 as it is. -/
theorem runResolver1_slot0 (st : BonjourClass) (now : Nat) :
    (runResolver1 st now)._resolveNames0 = st._resolveNames0 ∧
    (runResolver1 st now)._resolveTimeouts0 = st._resolveTimeouts0 ∧
    (runResolver1 st now)._resolveLastSendMillis0 = st._resolveLastSendMillis0 := by
  cases hn : st._resolveNames1 with
  | none =>
    rw [runResolver1_none st now hn]
    exact ⟨rfl, rfl, rfl⟩
  | some n =>
    rw [runResolver1_some st now n hn]
    obtain ⟨nm, cbs, he⟩ := expire1_shape (resend1 st now) now n
    rw [he]
    have hc := core_fields (core_resend1 st now)
    refine ⟨hc.1, hc.2.2.1, ?_⟩
    show (resend1 st now)._resolveLastSendMillis0 = st._resolveLastSendMillis0
    unfold resend1
    split
    · exact (sendServiceQuery_clocks st none 0 0 n hn).2
    · rfl

theorem emitted_trans (a b c : BonjourClass) (x y : List Datagram) (h1 : b.sent = a.sent ++ x)
    (h2 : c.sent = b.sent ++ y) : emitted a c = emitted a b ++ emitted b c := by
  rw [emitted_append a b x h1, emitted_append b c y h2]
  apply emitted_append
  rw [h2, h1, List.append_assoc]

/-- The datagrams of the slot-0 pass of the resolver loop: the question for
the slot's name when the slot is active and the resend is due, nothing
otherwise; and the resend clock of the slot behind the pass. -/
theorem runResolver0_sent (st : BonjourClass) (now : Nat) (hb : st._writeBuffer = []) :
    (runResolver0 st now)._writeBuffer = [] ∧
    (st._resolveNames0 = none → runResolver0 st now = st) ∧
    (∀ n, st._resolveNames0 = some n →
      ((now + 4294967296 - st._resolveLastSendMillis0) % 4294967296 > 1000 →
        (∃ body, (runResolver0 st now).sent = st.sent ++
          [{ ip := mdnsMulticastIPAddr, port := MDNS_SERVER_PORT,
             data := (buildHeader 0 MDNSPacketType_t.MDNSPacketTypeNameQuery).bytes ++ body }]) ∧
        (NonEmptyLabels n → (runResolver0 st now).sent
          = st.sent ++ [queryDatagram MDNSPacketType_t.MDNSPacketTypeNameQuery n]) ∧
        (runResolver0 st now)._resolveLastSendMillis0 = st.now) ∧
      ((now + 4294967296 - st._resolveLastSendMillis0) % 4294967296 ≤ 1000 →
        (runResolver0 st now).sent = st.sent ∧
        (runResolver0 st now)._resolveLastSendMillis0 = st._resolveLastSendMillis0)) := by
  refine ⟨?_, runResolver0_none st now, ?_⟩
  · exact (sends_runResolver0 st st now (sends_refl _ st hb)).1
  · intro n hn
    rw [runResolver0_some st now n hn]
    obtain ⟨nm, cbs, he⟩ := expire0_shape (resend0 st now) now
    rw [he]
    constructor
    · intro hdue
      rw [resend0_due st now hdue]
      refine ⟨?_, ?_, (sendNameQuery_clocks st none 0 0 n hn).1⟩
      · obtain ⟨_, body, hs⟩ := sendMDNSMessage_datagram st none 0
          MDNSPacketType_t.MDNSPacketTypeNameQuery 0
        rw [pendingFlush_empty st hb, List.append_nil] at hs
        exact ⟨body, hs⟩
      · intro hwf
        exact sendQuery_datagram st none 0 MDNSPacketType_t.MDNSPacketTypeNameQuery n
          (Or.inl rfl) hn hwf hb
    · intro hidle
      rw [resend0_idle st now hidle]
      exact ⟨rfl, rfl⟩

/-- The datagrams of the slot-1 pass of the resolver loop. -/
theorem runResolver1_sent (st : BonjourClass) (now : Nat) (hb : st._writeBuffer = []) :
    (runResolver1 st now)._writeBuffer = [] ∧
    (st._resolveNames1 = none → runResolver1 st now = st) ∧
    (∀ n, st._resolveNames1 = some n →
      ((now + 4294967296 - st._resolveLastSendMillis1) % 4294967296 > 10000 →
        (∃ body, (runResolver1 st now).sent = st.sent ++
          [{ ip := mdnsMulticastIPAddr, port := MDNS_SERVER_PORT,
             data := (buildHeader 0 MDNSPacketType_t.MDNSPacketTypeServiceQuery).bytes ++
               body }]) ∧
        (NonEmptyLabels n → (runResolver1 st now).sent
          = st.sent ++ [queryDatagram MDNSPacketType_t.MDNSPacketTypeServiceQuery n]) ∧
        (runResolver1 st now)._resolveLastSendMillis1 = st.now) ∧
      ((now + 4294967296 - st._resolveLastSendMillis1) % 4294967296 ≤ 10000 →
        (runResolver1 st now).sent = st.sent ∧
        (runResolver1 st now)._resolveLastSendMillis1 = st._resolveLastSendMillis1)) := by
  refine ⟨?_, runResolver1_none st now, ?_⟩
  · exact (sends_runResolver1 st st now (sends_refl _ st hb)).1
  · intro n hn
    rw [runResolver1_some st now n hn]
    obtain ⟨nm, cbs, he⟩ := expire1_shape (resend1 st now) now n
    rw [he]
    constructor
    · intro hdue
      rw [resend1_due st now hdue]
      refine ⟨?_, ?_, (sendServiceQuery_clocks st none 0 0 n hn).1⟩
      · obtain ⟨_, body, hs⟩ := sendMDNSMessage_datagram st none 0
          MDNSPacketType_t.MDNSPacketTypeServiceQuery 0
        rw [pendingFlush_empty st hb, List.append_nil] at hs
        exact ⟨body, hs⟩
      · intro hwf
        exact sendQuery_datagram st none 0 MDNSPacketType_t.MDNSPacketTypeServiceQuery n
          (Or.inr rfl) hn hwf hb
    · intro hidle
      rw [resend1_idle st now hidle]
      exact ⟨rfl, rfl⟩

/-! ## C25: the resend of the questions -/

/-- `startDiscoveringService` with a service-found callback when the
allocation succeeds. -/
theorem startDiscoveringService_ok (st : BonjourClass) (name : List Nat)
    (proto : MDNSServiceProtocol_t) (timeout : Nat)
    (hcb : st._serviceFoundCallback = true) (ha : AllocOK st 1) :
    startDiscoveringService st name proto timeout
      = ((_sendMDNSMessage
          { afterAllocs st 1 with
            _resolveNames1 :=
              some (name.take (strlen name) ++ (_postfixForProtocol proto).getD []),
            _resolveServiceProto := proto,
            _resolveTimeouts1 :=
              if timeout ≠ 0 then (st.now + timeout) % 4294967296 else 0 }
          none 0 MDNSPacketType_t.MDNSPacketTypeServiceQuery 0).1, 1) := by
  have hm : my_malloc (_cancelQuery st 1) = (true, afterAllocs (_cancelQuery st 1) 1) :=
    my_malloc_ok (_cancelQuery st 1) 0 1 ha (by decide)
  unfold startDiscoveringService
  dsimp only
  rw [hm]
  dsimp only
  rw [if_neg (by decide)]
  exact initQuery_ok1 _ _ _ rfl hcb

/-- C25: in a `run()` tick without an inbound datagram (the send buffer being
empty on entry) the pass for resolver slot 0, when the slot is active, emits
the question for the slot's name exactly when `(now - last_send[0]) mod 2^32`
is above 1000, and then the resend clock of the slot is the current clock
value at the end of the tick; when the difference is at most 1000 the pass
emits nothing and the clock is unchanged. The same holds for slot 1 with
10000. An inactive slot emits nothing. The question is the datagram
`queryDatagram` of the slot's name, which is also the datagram `resolveName`
and `startDiscoveringService` emit for it. The datagrams of the tick are those
of slot 0, of slot 1 and of the re-announcement, in this order. -/
theorem C25_resend (st : BonjourClass) (junkPorts junkIPs : List Nat) (fuel : Nat)
    (hb : st._writeBuffer = []) :
    run st none junkPorts junkIPs fuel
      = some (runAnnounce (runResolver1 (runResolver0 st st.now) st.now) st.now) ∧
    (∀ n, st._resolveNames0 = some n →
      ((st.now + 4294967296 - st._resolveLastSendMillis0) % 4294967296 > 1000 →
        (∃ body, emitted st (runResolver0 st st.now)
          = [{ ip := mdnsMulticastIPAddr, port := MDNS_SERVER_PORT,
               data := (buildHeader 0 MDNSPacketType_t.MDNSPacketTypeNameQuery).bytes ++
                 body }]) ∧
        (NonEmptyLabels n → emitted st (runResolver0 st st.now)
          = [queryDatagram MDNSPacketType_t.MDNSPacketTypeNameQuery n]) ∧
        (runAnnounce (runResolver1 (runResolver0 st st.now) st.now)
          st.now)._resolveLastSendMillis0 = st.now) ∧
      ((st.now + 4294967296 - st._resolveLastSendMillis0) % 4294967296 ≤ 1000 →
        emitted st (runResolver0 st st.now) = [] ∧
        (runAnnounce (runResolver1 (runResolver0 st st.now) st.now)
          st.now)._resolveLastSendMillis0 = st._resolveLastSendMillis0)) ∧
    (∀ n, st._resolveNames1 = some n →
      ((st.now + 4294967296 - st._resolveLastSendMillis1) % 4294967296 > 10000 →
        (∃ body, emitted (runResolver0 st st.now) (runResolver1 (runResolver0 st st.now) st.now)
          = [{ ip := mdnsMulticastIPAddr, port := MDNS_SERVER_PORT,
               data := (buildHeader 0 MDNSPacketType_t.MDNSPacketTypeServiceQuery).bytes ++
                 body }]) ∧
        (NonEmptyLabels n →
          emitted (runResolver0 st st.now) (runResolver1 (runResolver0 st st.now) st.now)
            = [queryDatagram MDNSPacketType_t.MDNSPacketTypeServiceQuery n]) ∧
        (runAnnounce (runResolver1 (runResolver0 st st.now) st.now)
          st.now)._resolveLastSendMillis1 = st.now) ∧
      ((st.now + 4294967296 - st._resolveLastSendMillis1) % 4294967296 ≤ 10000 →
        emitted (runResolver0 st st.now) (runResolver1 (runResolver0 st st.now) st.now) = [] ∧
        (runAnnounce (runResolver1 (runResolver0 st st.now) st.now)
          st.now)._resolveLastSendMillis1 = st._resolveLastSendMillis1)) ∧
    (st._resolveNames0 = none → emitted st (runResolver0 st st.now) = []) ∧
    (st._resolveNames1 = none →
      emitted (runResolver0 st st.now) (runResolver1 (runResolver0 st st.now) st.now) = []) ∧
    emitted st (runAnnounce (runResolver1 (runResolver0 st st.now) st.now) st.now)
      = emitted st (runResolver0 st st.now) ++
        emitted (runResolver0 st st.now) (runResolver1 (runResolver0 st st.now) st.now) ++
        emitted (runResolver1 (runResolver0 st st.now) st.now)
          (runAnnounce (runResolver1 (runResolver0 st st.now) st.now) st.now) ∧
    (∀ (s : BonjourClass) (name : List Nat) (timeout : Nat), s._nameFoundCallback = true →
      AllocOK s 1 → s._writeBuffer = [] → NonEmptyLabels (name.take (strlen name) ++ MDNS_TLD) →
      emitted s (resolveName s name timeout).1
        = [queryDatagram MDNSPacketType_t.MDNSPacketTypeNameQuery
            (name.take (strlen name) ++ MDNS_TLD)]) ∧
    (∀ (s : BonjourClass) (name : List Nat) (proto : MDNSServiceProtocol_t) (timeout : Nat),
      s._serviceFoundCallback = true → AllocOK s 1 → s._writeBuffer = [] →
      NonEmptyLabels (name.take (strlen name) ++ (_postfixForProtocol proto).getD []) →
      emitted s (startDiscoveringService s name proto timeout).1
        = [queryDatagram MDNSPacketType_t.MDNSPacketTypeServiceQuery
            (name.take (strlen name) ++ (_postfixForProtocol proto).getD [])]) := by
  have h0 := runResolver0_sent st st.now hb
  have f01 := runResolver0_slot1 st st.now
  have h1 := runResolver1_sent (runResolver0 st st.now) st.now h0.1
  have f10 := runResolver1_slot0 (runResolver0 st st.now) st.now
  have ca := runAnnounce_clocks (runResolver1 (runResolver0 st st.now) st.now) st.now
  refine ⟨rfl, ?_, ?_, ?_, ?_, ?_, ?_, ?_⟩
  · intro n hn
    obtain ⟨hdue, hidle⟩ := h0.2.2 n hn
    constructor
    · intro hc
      obtain ⟨⟨body, hs⟩, hq, hl⟩ := hdue hc
      refine ⟨⟨body, emitted_append _ _ _ hs⟩, fun hwf => emitted_append _ _ _ (hq hwf), ?_⟩
      rw [ca.1, f10.2.2, hl]
    · intro hc
      obtain ⟨hs, hl⟩ := hidle hc
      refine ⟨emitted_append _ _ _ (by rw [hs, List.append_nil]), ?_⟩
      rw [ca.1, f10.2.2, hl]
  · intro n hn
    obtain ⟨hdue, hidle⟩ := h1.2.2 n (f01.1.trans hn)
    rw [f01.2.2.1] at hdue hidle
    constructor
    · intro hc
      obtain ⟨⟨body, hs⟩, hq, hl⟩ := hdue hc
      refine ⟨⟨body, emitted_append _ _ _ hs⟩, fun hwf => emitted_append _ _ _ (hq hwf), ?_⟩
      rw [ca.2, hl, f01.2.2.2.2.2]
    · intro hc
      obtain ⟨hs, hl⟩ := hidle hc
      refine ⟨emitted_append _ _ _ (by rw [hs, List.append_nil]), ?_⟩
      rw [ca.2, hl]
  · intro hn
    rw [h0.2.1 hn]
    exact emitted_self _
  · intro hn
    rw [h1.2.1 (f01.1.trans hn)]
    exact emitted_self _
  · obtain ⟨_, x, hx, _⟩ := sends_runResolver0 st st st.now (sends_refl _ st hb)
    obtain ⟨_, y, hy, _⟩ := sends_runResolver1 (runResolver0 st st.now) (runResolver0 st st.now)
      st.now (sends_refl _ _ h0.1)
    obtain ⟨_, z, hz, _⟩ := sends_runAnnounce (runResolver1 (runResolver0 st st.now) st.now)
      st.now h1.1
    rw [emitted_trans st (runResolver1 (runResolver0 st st.now) st.now) _ (x ++ y) z
      (by rw [hy, hx, List.append_assoc]) hz,
      emitted_trans st (runResolver0 st st.now) _ x y hx hy]
  · intro s name timeout hcb ha hsb hwf
    rw [resolveName_ok s name timeout hcb ha]
    exact emitted_append _ _ _ (sendQuery_datagram _ none 0
      MDNSPacketType_t.MDNSPacketTypeNameQuery _ (Or.inl rfl) rfl hwf hsb)
  · intro s name proto timeout hcb ha hsb hwf
    rw [startDiscoveringService_ok s name proto timeout hcb ha]
    exact emitted_append _ _ _ (sendQuery_datagram _ none 0
      MDNSPacketType_t.MDNSPacketTypeServiceQuery _ (Or.inr rfl) rfl hwf hsb)

set_option maxRecDepth 100000 in
/-- An instance of C25: after `resolveName("peer", 5000)` at the clock value
10000 a tick at 11100 emits the question for `peer.local` a second time, the
same 36 bytes, and sets the resend clock to 11100; a tick at 11000 emits
nothing. -/
theorem C25_resend_witness :
    (atTime peerResolving 11100)._writeBuffer = [] ∧
    (atTime peerResolving 11100)._resolveNames0 = some (ascii "peer.local") ∧
    (atTime peerResolving 11100)._resolveLastSendMillis0 = 10000 ∧
    emitted (atTime peerResolving 11100) (runResolver0 (atTime peerResolving 11100) 11100)
      = [queryDatagram MDNSPacketType_t.MDNSPacketTypeNameQuery (ascii "peer.local")] ∧
    emitted readyState peerResolving
      = [queryDatagram MDNSPacketType_t.MDNSPacketTypeNameQuery (ascii "peer.local")] ∧
    queryDatagram MDNSPacketType_t.MDNSPacketTypeNameQuery (ascii "peer.local")
      = { ip := [224, 0, 0, 251], port := 5353,
          data := [0, 0, 0, 0, 0, 1, 0, 0, 0, 0, 0, 0,
                   4, 112, 101, 101, 114, 5, 108, 111, 99, 97, 108, 0,
                   0, 1, 0, 1, 97, 108, 0, 0, 0, 0, 0, 0] } ∧
    (runAnnounce (runResolver1 (runResolver0 (atTime peerResolving 11100) 11100) 11100)
      11100)._resolveLastSendMillis0 = 11100 ∧
    emitted (atTime peerResolving 11000) (runResolver0 (atTime peerResolving 11000) 11000)
      = [] := by
  have h := C25_resend (atTime peerResolving 11100) [] [] 0 (by decide)
  have h2 := (h.2.1 (ascii "peer.local") (by decide)).1 (by decide)
  have h3 := C25_resend (atTime peerResolving 11000) [] [] 0 (by decide)
  have h4 := (h3.2.1 (ascii "peer.local") (by decide)).2 (by decide)
  exact ⟨by decide, by decide, by decide, h2.2.1 (by decide),
    h.2.2.2.2.2.2.1 readyState (ascii "peer") 5000 (by decide) (by decide) (by decide)
      (by decide), by decide, h2.2.2, h4.1⟩

/-! ## C26: the timeout of a lookup -/

/-- The search of `_findFirstDotFromRight` on a name with a dot behind its
first byte stops one byte before the rightmost dot. -/
theorem findDotLoop_last (pre T : List Nat) (hpre : pre ≠ [])
    (hnul : ∀ b ∈ pre ++ DOT :: T, b ≠ 0) (hT : DOT ∉ T) :
    findDotLoop (pre ++ DOT :: T) (strlen (pre ++ DOT :: T)) + 1 = pre.length := by
  obtain ⟨d, hd⟩ : ∃ d, pre.length = d + 1 :=
    ⟨pre.length - 1, by have := List.length_pos.mpr hpre; omega⟩
  have hlen : strlen (pre ++ DOT :: T) = (pre ++ DOT :: T).length := strlen_eq_length _ hnul
  have hget : ∀ q, (pre ++ DOT :: T).getD (d + 1 + q) 0 = (DOT :: T).getD q 0 := by
    intro q
    rw [List.getD_eq_getElem?_getD, List.getD_eq_getElem?_getD,
      List.getElem?_append_right (by omega)]
    congr 2
    omega
  have hloop : findDotLoop (pre ++ DOT :: T) (pre ++ DOT :: T).length = d := by
    apply findDotLoop_dot _ d (by simpa using hget 0)
    · simp; omega
    · intro q h1 _
      obtain ⟨k, hk⟩ : ∃ k, q = d + 1 + (k + 1) := ⟨q - d - 2, by omega⟩
      rw [hk, hget]
      simpa using getD_ne_dot_of_not_mem T k hT
  rw [hlen, hloop, hd]

/-- The name `_finishedResolvingName` hands to the callback for the stored
name `N.local`, `N` not empty and without NUL: `N`. -/
theorem finished_name_cut (N : List Nat) (hN : N ≠ []) (hnul : ∀ b ∈ N, b ≠ 0) :
    (N ++ MDNS_TLD).take (findDotLoop (N ++ MDNS_TLD) (strlen (N ++ MDNS_TLD)) + 1) = N := by
  have h := findDotLoop_last N (ascii "local") hN
    (by
      intro b hb
      rcases List.mem_append.1 hb with h1 | h1
      · exact hnul b h1
      · intro hz
        subst hz
        revert h1
        decide)
    (by decide)
  have he : N ++ MDNS_TLD = N ++ DOT :: ascii "local" := rfl
  rw [he, h, List.take_left]

/-- The re-announcement leaves the resolver slots and the list of callbacks
invoked as they are. -/
theorem runAnnounce_resolver (st : BonjourClass) (now : Nat) :
    (runAnnounce st now)._resolveNames0 = st._resolveNames0 ∧
    (runAnnounce st now)._resolveNames1 = st._resolveNames1 ∧
    (runAnnounce st now).callbacks = st.callbacks := by
  rcases runAnnounce_eq st now with h | h
  · rw [h]
    exact ⟨rfl, rfl, rfl⟩
  · rw [h]
    have hc := core_fields (core_sendAll none 0 ((occupiedSlots st).map
      fun k => (MDNSPacketType_t.MDNSPacketTypeServiceRecord, k)) st)
    exact ⟨hc.1, hc.2.1, hc.2.2.2.2.2.2.2.2.1⟩

/-- The slot-0 pass of the resolver loop: the name of the slot and the
callbacks invoked. -/
theorem runResolver0_timeout (st : BonjourClass) (now : Nat) (n : List Nat)
    (hn : st._resolveNames0 = some n) :
    (st._resolveTimeouts0 ≠ 0 ∧ now > st._resolveTimeouts0 →
      (runResolver0 st now)._resolveNames0 = none ∧
      (runResolver0 st now).callbacks = st.callbacks ++
        (if st._nameFoundCallback then
          [CallbackEvent.nameFound (some (n.take (findDotLoop n (strlen n) + 1))) none]
         else [])) ∧
    (st._resolveTimeouts0 = 0 ∨ now ≤ st._resolveTimeouts0 →
      (runResolver0 st now)._resolveNames0 = some n ∧
      (runResolver0 st now).callbacks = st.callbacks) := by
  have hc := core_fields (core_resend0 st now)
  rw [runResolver0_some st now n hn]
  constructor
  · intro h
    have hf := expire0_fired (resend0 st now) now n (hc.1.trans hn)
      (by rw [hc.2.2.1]; exact ⟨Nat.pos_of_ne_zero h.1, h.2⟩)
    rw [hc.2.2.2.2.2.1, hc.2.2.2.2.2.2.2.2.1] at hf
    exact hf
  · intro h
    rw [expire0_kept (resend0 st now) now (by rw [hc.2.2.1]; exact h)]
    exact ⟨hc.1.trans hn, hc.2.2.2.2.2.2.2.2.1⟩

/-- The slot-1 pass of the resolver loop: the name of the slot and the
callbacks invoked. -/
theorem runResolver1_timeout (st : BonjourClass) (now : Nat) (n : List Nat)
    (hn : st._resolveNames1 = some n) :
    (st._resolveTimeouts1 ≠ 0 ∧ now > st._resolveTimeouts1 →
      (runResolver1 st now)._resolveNames1 = none ∧
      (runResolver1 st now).callbacks = st.callbacks ++
        (if st._serviceFoundCallback then
          [CallbackEvent.serviceFound (typeNameOf n) st._resolveServiceProto none none 0 none]
         else [])) ∧
    (st._resolveTimeouts1 = 0 ∨ now ≤ st._resolveTimeouts1 →
      (runResolver1 st now)._resolveNames1 = some n ∧
      (runResolver1 st now).callbacks = st.callbacks) := by
  have hc := core_fields (core_resend1 st now)
  rw [runResolver1_some st now n hn]
  constructor
  · intro h
    have hf := expire1_fired (resend1 st now) now n
      (by rw [hc.2.2.2.1]; exact ⟨Nat.pos_of_ne_zero h.1, h.2⟩)
    rw [hc.2.2.2.2.2.2.1, hc.2.2.2.2.2.2.2.2.1, hc.2.2.2.2.1] at hf
    exact hf
  · intro h
    rw [expire1_kept (resend1 st now) now n (by rw [hc.2.2.2.1]; exact h)]
    exact ⟨hc.2.1.trans hn, hc.2.2.2.2.2.2.2.2.1⟩

/-- C26: a `run()` tick serves the resolver slots, with the clock value `now`
read on entry, behind the inbound datagram (on the engine as it is when there
is none). For an active slot 0 with the name `n`: if the deadline is not 0
and `now` is above it, the name-found callback (if one is installed) is invoked once,
with the name cut at its last dot (`N` for the stored `N.local`) and a `NULL`
address, no other callback is invoked by the pass, and the slot is inactive
at the end of the tick, so that the pass of every later tick does nothing;
if the deadline is 0 or the clock is not above it, the pass invokes no
callback and the slot keeps its name. The same holds for slot 1 with the
service-found callback and the arguments (type name, protocol, `NULL`, `NULL`,
0, `NULL`), the type name being the stored name cut at its first dot. The
callbacks of the tick are those of the two passes. -/
theorem C26_timeout (st : BonjourClass) (now : Nat) :
    (∀ (e : BonjourClass) (inbound : Option Inbound) (junkPorts junkIPs : List Nat)
      (fuel : Nat) (r : BonjourClass), run e inbound junkPorts junkIPs fuel = some r →
      ∃ q, _processMDNSQuery e inbound junkPorts junkIPs fuel = some q ∧
        r = runAnnounce (runResolver1 (runResolver0 q.1 e.now) e.now) e.now) ∧
    (∀ (junkPorts junkIPs : List Nat) (fuel : Nat),
      run st none junkPorts junkIPs fuel
        = some (runAnnounce (runResolver1 (runResolver0 st st.now) st.now) st.now)) ∧
    (∀ n, st._resolveNames0 = some n →
      (st._resolveTimeouts0 ≠ 0 ∧ now > st._resolveTimeouts0 →
        (runResolver0 st now).callbacks = st.callbacks ++
          (if st._nameFoundCallback then
            [CallbackEvent.nameFound (some (n.take (findDotLoop n (strlen n) + 1))) none]
           else []) ∧
        (runAnnounce (runResolver1 (runResolver0 st now) now) now)._resolveNames0
          = none ∧
        ∀ t, runResolver0
            (atTime (runAnnounce (runResolver1 (runResolver0 st now) now) now) t) t
          = atTime (runAnnounce (runResolver1 (runResolver0 st now) now) now) t) ∧
      (st._resolveTimeouts0 = 0 ∨ now ≤ st._resolveTimeouts0 →
        (runResolver0 st now).callbacks = st.callbacks ∧
        (runAnnounce (runResolver1 (runResolver0 st now) now) now)._resolveNames0
          = some n)) ∧
    (∀ n, st._resolveNames1 = some n →
      (st._resolveTimeouts1 ≠ 0 ∧ now > st._resolveTimeouts1 →
        (runResolver1 (runResolver0 st now) now).callbacks
          = (runResolver0 st now).callbacks ++
            (if st._serviceFoundCallback then
              [CallbackEvent.serviceFound (typeNameOf n) st._resolveServiceProto none none 0 none]
             else []) ∧
        (runAnnounce (runResolver1 (runResolver0 st now) now) now)._resolveNames1
          = none ∧
        ∀ t, runResolver1
            (atTime (runAnnounce (runResolver1 (runResolver0 st now) now) now) t) t
          = atTime (runAnnounce (runResolver1 (runResolver0 st now) now) now) t) ∧
      (st._resolveTimeouts1 = 0 ∨ now ≤ st._resolveTimeouts1 →
        (runResolver1 (runResolver0 st now) now).callbacks
          = (runResolver0 st now).callbacks ∧
        (runAnnounce (runResolver1 (runResolver0 st now) now) now)._resolveNames1
          = some n)) ∧
    (st._resolveNames0 = none → (runResolver0 st now).callbacks = st.callbacks) ∧
    (st._resolveNames1 = none →
      (runResolver1 (runResolver0 st now) now).callbacks
        = (runResolver0 st now).callbacks) ∧
    (runAnnounce (runResolver1 (runResolver0 st now) now) now).callbacks
      = (runResolver1 (runResolver0 st now) now).callbacks ∧
    (∀ N : List Nat, N ≠ [] → (∀ b ∈ N, b ≠ 0) →
      (N ++ MDNS_TLD).take (findDotLoop (N ++ MDNS_TLD) (strlen (N ++ MDNS_TLD)) + 1) = N) := by
  have f01 := runResolver0_slot1 st now
  have f10 := runResolver1_slot0 (runResolver0 st now) now
  have fa := runAnnounce_resolver (runResolver1 (runResolver0 st now) now) now
  refine ⟨run_eq, fun _ _ _ => rfl, ?_, ?_, ?_, ?_, fa.2.2, finished_name_cut⟩
  · intro n hn
    obtain ⟨hfire, hkeep⟩ := runResolver0_timeout st now n hn
    constructor
    · intro h
      have hnone : (runAnnounce (runResolver1 (runResolver0 st now) now)
          now)._resolveNames0 = none := by
        rw [fa.1, f10.1]
        exact (hfire h).1
      exact ⟨(hfire h).2, hnone, fun t => runResolver0_none _ t hnone⟩
    · intro h
      refine ⟨(hkeep h).2, ?_⟩
      rw [fa.1, f10.1]
      exact (hkeep h).1
  · intro n hn
    obtain ⟨hfire, hkeep⟩ := runResolver1_timeout (runResolver0 st now) now n
      (f01.1.trans hn)
    rw [f01.2.1, f01.2.2.2.2.1, f01.2.2.2.1] at hfire
    rw [f01.2.1] at hkeep
    constructor
    · intro h
      have hnone : (runAnnounce (runResolver1 (runResolver0 st now) now)
          now)._resolveNames1 = none := by
        rw [fa.2.1]
        exact (hfire h).1
      exact ⟨(hfire h).2, hnone, fun t => runResolver1_none _ t hnone⟩
    · intro h
      refine ⟨(hkeep h).2, ?_⟩
      rw [fa.2.1]
      exact (hkeep h).1
  · intro hn
    rw [runResolver0_none st now hn]
  · intro hn
    rw [runResolver1_none _ now (f01.1.trans hn)]

set_option maxRecDepth 100000 in
/-- An instance of C26: after `resolveName("peer", 5000)` at the clock value
10000 and no response, the tick at 15000 invokes no callback and keeps the
slot; the tick at 15001 invokes the name-found callback with `("peer", NULL)`
and clears the slot; a tick after that invokes nothing. -/
theorem C26_timeout_witness :
    peerResolving._resolveNames0 = some (ascii "peer.local") ∧
    peerResolving._resolveTimeouts0 = 15000 ∧
    run (atTime peerResolving 15000) none [] [] 0
      = some (runAnnounce (runResolver1 (runResolver0 (atTime peerResolving 15000) 15000) 15000)
          15000) ∧
    (runAnnounce (runResolver1 (runResolver0 (atTime peerResolving 15000) 15000) 15000)
      15000).callbacks = [] ∧
    (runAnnounce (runResolver1 (runResolver0 (atTime peerResolving 15000) 15000) 15000)
      15000)._resolveNames0 = some (ascii "peer.local") ∧
    (runAnnounce (runResolver1 (runResolver0 (atTime peerResolving 15001) 15001) 15001)
      15001).callbacks = [CallbackEvent.nameFound (some (ascii "peer")) none] ∧
    (runAnnounce (runResolver1 (runResolver0 (atTime peerResolving 15001) 15001) 15001)
      15001)._resolveNames0 = none ∧
    (runAnnounce (runResolver1 (runResolver0
      (atTime (runAnnounce (runResolver1 (runResolver0 (atTime peerResolving 15001) 15001) 15001)
        15001) 20000) 20000) 20000) 20000).callbacks
      = [CallbackEvent.nameFound (some (ascii "peer")) none] := by
  have h := C26_timeout (atTime peerResolving 15000) 15000
  have h1 := C26_timeout (atTime peerResolving 15001) 15001
  have h2 := (h1.2.2.1 (ascii "peer.local") (by decide)).1 (by decide)
  have h3 := (h.2.2.1 (ascii "peer.local") (by decide)).2 (by decide)
  exact ⟨by decide, by decide, h.2.1 [] [] 0, by decide, h3.2, by decide, h2.2.1, by decide⟩

/-! ## C29: the address handed to the callbacks -/

theorem send_sendAll {P : BonjourClass → Prop}
    (hS : ∀ st peer xid type rec, P st → P (_sendMDNSMessage st peer xid type rec).1)
    (peer : Option (List Nat)) (xid : Nat) :
    ∀ (ms : List (MDNSPacketType_t × Nat)) (st : BonjourClass), P st →
      P (sendAll peer xid ms st) := by
  intro ms
  induction ms with
  | nil => intro st h; exact h
  | cons m ms ih =>
    intro st h
    exact ih _ (hS _ _ _ _ _ h)

/-- Every property kept by the messages and by the steps of the answer walk is
kept by `_processMDNSQuery`. -/
theorem walk_processMDNSQuery {P : BonjourClass → Prop} (hP : WalkInvariant P)
    (hS : ∀ st peer xid type rec, P st → P (_sendMDNSMessage st peer xid type rec).1)
    (st : BonjourClass) (inbound : Option Inbound) (junkPorts junkIPs : List Nat) (fuel : Nat)
    (r : BonjourClass × MDNSError_t) (h : P st)
    (he : _processMDNSQuery st inbound junkPorts junkIPs fuel = some r) : P r.1 := by
  unfold _processMDNSQuery at he
  split at he
  · cases he
    exact h
  · split at he
    · cases he
      exact h
    · dsimp only at he
      split at he
      · cases he
        exact hP.onFault _ (walk_my_malloc hP _ h)
      · split at he
        · cases he
          rw [processQuestions_eq]
          exact send_sendAll hS _ _ _ _ (walk_my_malloc hP _ h)
        · split at he
          · cases hp : processAnswers (my_malloc st).2 _ junkPorts junkIPs fuel with
            | none => rw [hp] at he; cases he
            | some q =>
              rw [hp] at he
              cases he
              exact walk_processAnswers hP _ _ _ _ _ _ (walk_my_malloc hP _ h) hp
          · cases he
            exact walk_my_malloc hP _ h

/-- The delivery of one discovered instance: nothing, or one invocation of the
service-found callback with the instance name and an address. -/
theorem deliverService_event (typeName : List Nat) (servIPs : List (List Nat))
    (st : BonjourClass) (p : PtrSlot) :
    deliverService typeName servIPs st p = st ∨
    ∃ name ip, p.ptrName = some name ∧ findServiceIP p.ptrIP servIPs none = some ip ∧
      deliverService typeName servIPs st p
        = { st with callbacks := st.callbacks ++
            [CallbackEvent.serviceFound typeName st._resolveServiceProto
              (some (name.take (strlen name))) (some ip) p.ptrPort p.servTxt] } := by
  unfold deliverService
  split
  · left; rfl
  · next name hn =>
    split
    · left; rfl
    · next ip hip =>
      split
      · right
        exact ⟨name, ip, hn, hip, rfl⟩
      · left; rfl

/-- The type name cut from the stored name is the service type cut at its
first dot or NUL. -/
theorem typeNameOf_stored (rest : List Nat) :
    ∀ S : List Nat, typeNameOf (S.take (strlen S) ++ DOT :: rest) = typeNameOf S := by
  intro S
  induction S with
  | nil => simp [strlen, typeNameOf]
  | cons b S ih =>
    by_cases hb : b = 0
    · subst hb
      simp [strlen, typeNameOf]
    · simp only [strlen, if_neg hb, List.take_succ_cons, List.cons_append, typeNameOf, ih]

theorem typeNameOf_self :
    ∀ S : List Nat, (∀ b ∈ S, b ≠ 0 ∧ b ≠ DOT) → typeNameOf S = S := by
  intro S
  induction S with
  | nil => intro _; rfl
  | cons b S ih =>
    intro h
    have hb := h b (List.mem_cons_self _ _)
    rw [typeNameOf, if_pos hb, ih (fun c hc => h c (List.mem_cons_of_mem _ hc))]

theorem typeNameOf_eq_self :
    ∀ S : List Nat, typeNameOf S = S → ∀ b ∈ S, b ≠ 0 ∧ b ≠ DOT := by
  intro S
  induction S with
  | nil => intro _ b hb; cases hb
  | cons c S ih =>
    intro h b hb
    rw [typeNameOf] at h
    by_cases hc : c ≠ 0 ∧ c ≠ DOT
    · rw [if_pos hc] at h
      have hS : typeNameOf S = S := (List.cons.inj h).2
      rcases List.mem_cons.1 hb with h1 | h1
      · rw [h1]; exact hc
      · exact ih hS b h1
    · rw [if_neg hc] at h
      cases h

theorem postfix_dot (proto : MDNSServiceProtocol_t) :
    ∃ rest, (_postfixForProtocol proto).getD [] = DOT :: rest ∧ ∀ b ∈ rest, b ≠ 0 := by
  cases proto
  · exact ⟨ascii "_tcp" ++ MDNS_TLD, rfl, by decide⟩
  · exact ⟨ascii "_udp" ++ MDNS_TLD, rfl, by decide⟩

/-- The dot given back behind the callbacks lands where the cut was made, when
the name has a dot and no NUL. -/
theorem restoreDot_fix :
    ∀ L : List Nat, (∀ b ∈ L, b ≠ 0) → DOT ∈ L →
      (typeNameOf L).length < L.length ∧ L.set (typeNameOf L).length DOT = L := by
  intro L
  induction L with
  | nil => intro _ h; cases h
  | cons b L ih =>
    intro hnul hdot
    have hb0 : b ≠ 0 := hnul b (List.mem_cons_self _ _)
    by_cases hb : b = DOT
    · subst hb
      have : ¬ (DOT ≠ 0 ∧ DOT ≠ DOT) := fun h => h.2 rfl
      rw [typeNameOf, if_neg this]
      exact ⟨by simp, rfl⟩
    · have hdot2 : DOT ∈ L := by
        rcases List.mem_cons.1 hdot with h1 | h1
        · exact absurd h1.symm hb
        · exact h1
      obtain ⟨h1, h2⟩ := ih (fun c hc => hnul c (List.mem_cons_of_mem _ hc)) hdot2
      rw [typeNameOf, if_pos ⟨hb0, hb⟩]
      refine ⟨by simpa using h1, ?_⟩
      simp only [List.length_cons, List.set_cons_succ, h2]

theorem restoreDot_eq (L : List Nat) (hnul : ∀ b ∈ L, b ≠ 0) (hdot : DOT ∈ L) :
    restoreDot L = L := by
  obtain ⟨h1, h2⟩ := restoreDot_fix L hnul hdot
  unfold restoreDot
  dsimp only
  rw [if_pos h1, h2]

theorem stored_no_nul (S rest : List Nat) (hrest : ∀ b ∈ rest, b ≠ 0) :
    ∀ b ∈ S.take (strlen S) ++ DOT :: rest, b ≠ 0 := by
  induction S with
  | nil =>
    intro b hb
    simp only [strlen, List.take_nil, List.nil_append, List.mem_cons] at hb
    rcases hb with h | h
    · rw [h]; decide
    · exact hrest b h
  | cons c S ih =>
    by_cases hc : c = 0
    · subst hc
      intro b hb
      simp only [strlen, if_true, List.take_zero, List.nil_append, List.mem_cons] at hb
      rcases hb with h | h
      · rw [h]; decide
      · exact hrest b h
    · intro b hb
      simp only [strlen, if_neg hc, List.take_succ_cons, List.cons_append, List.mem_cons] at hb
      rcases hb with h | h
      · rw [h]; exact hc
      · exact ih b h

/-- While slot 1 holds `name` (a name that gets its dot back where it was cut)
and the protocol `pr`: the slot keeps both, and every invocation of the
service-found callback gets the name cut at its first dot and `pr`. -/
theorem walk_typeProto (base : List CallbackEvent) (name : List Nat)
    (pr : MDNSServiceProtocol_t) (hfix : restoreDot name = name) :
    WalkInvariant (fun s => s._resolveServiceProto = pr ∧ s._resolveNames1 = some name ∧
      ∃ evs, s.callbacks = base ++ evs ∧
        ∀ e ∈ evs, ∀ tp, e.typeProto = some tp → tp = (typeNameOf name, pr)) where
  onAlloc := fun _ _ h => h
  onFault := fun _ h => h
  onFinished := fun st n ip _ h => by
    obtain ⟨hp, hn, evs, he, hall⟩ := h
    unfold _finishedResolvingName
    dsimp only
    split
    · refine ⟨hp, hn, evs ++ [CallbackEvent.nameFound
        (some (n.take (findDotLoop n (strlen n) + 1))) (some ip)], ?_, ?_⟩
      · show st.callbacks ++ _ = _
        rw [he, List.append_assoc]
        rfl
      · intro e hm tp htp
        rcases List.mem_append.1 hm with h1 | h1
        · exact hall e h1 tp htp
        · rw [List.mem_singleton.1 h1] at htp
          cases htp
    · exact ⟨hp, hn, evs, he, hall⟩
  onDeliver := fun st name2 ips p hn2 h => by
    obtain ⟨hp, hn, evs, he, hall⟩ := h
    have hnn : name2 = name := Option.some.inj (hn2.symm.trans hn)
    rcases deliverService_event (typeNameOf name2) ips st p with h1 | ⟨nm, ip, _, _, h1⟩
    · rw [h1]
      exact ⟨hp, hn, evs, he, hall⟩
    · rw [h1]
      refine ⟨hp, hn, evs ++ [CallbackEvent.serviceFound (typeNameOf name2)
        st._resolveServiceProto (some (nm.take (strlen nm))) (some ip) p.ptrPort p.servTxt],
        ?_, ?_⟩
      · show st.callbacks ++ _ = _
        rw [he, List.append_assoc]
      · intro e hm tp htp
        rcases List.mem_append.1 hm with h2 | h2
        · exact hall e h2 tp htp
        · rw [List.mem_singleton.1 h2] at htp
          simp only [CallbackEvent.typeProto, Option.some.injEq] at htp
          rw [← htp, hnn, hp]
  onRestore := fun st name2 hn2 h => by
    obtain ⟨hp, hn, evs, he, hall⟩ := h
    have hnn : name2 = name := Option.some.inj (hn2.symm.trans hn)
    refine ⟨hp, ?_, evs, he, hall⟩
    show some (restoreDot name2) = some name
    rw [hnn, hfix]

/-- C28 (as the code has it): `start_service_discovery(S, proto, timeout)`,
with a service-found callback and the allocation succeeding, stores `S` (up to
its terminator) followed by the protocol postfix, and the protocol. The type
name handed to the callback is that name cut at its first dot, which is `S`
cut at its first dot: it is `S` exactly when `S` holds neither a dot nor a NUL.
While slot 1 holds the stored name, every invocation of the service-found
callback `_processMDNSQuery` makes, whatever the inbound datagram, gets this
type name and `proto`, and the stored name and protocol are as before when
`_processMDNSQuery` returns; the invocation on timeout gets the same type name
and `proto`. -/
theorem C28_type_argument (st : BonjourClass) (S : List Nat) (proto : MDNSServiceProtocol_t)
    (timeout : Nat) (hcb : st._serviceFoundCallback = true) (ha : AllocOK st 1) :
    (startDiscoveringService st S proto timeout).2 = 1 ∧
    (startDiscoveringService st S proto timeout).1._resolveNames1
      = some (S.take (strlen S) ++ (_postfixForProtocol proto).getD []) ∧
    (startDiscoveringService st S proto timeout).1._resolveServiceProto = proto ∧
    typeNameOf (S.take (strlen S) ++ (_postfixForProtocol proto).getD []) = typeNameOf S ∧
    (typeNameOf S = S ↔ ∀ b ∈ S, b ≠ 0 ∧ b ≠ DOT) ∧
    restoreDot (S.take (strlen S) ++ (_postfixForProtocol proto).getD [])
      = S.take (strlen S) ++ (_postfixForProtocol proto).getD [] ∧
    (∀ (e : BonjourClass) (inbound : Option Inbound) (junkPorts junkIPs : List Nat) (fuel : Nat)
      (q : BonjourClass × MDNSError_t),
      e._resolveNames1 = some (S.take (strlen S) ++ (_postfixForProtocol proto).getD []) →
      e._resolveServiceProto = proto →
      _processMDNSQuery e inbound junkPorts junkIPs fuel = some q →
      q.1._resolveNames1 = some (S.take (strlen S) ++ (_postfixForProtocol proto).getD []) ∧
      q.1._resolveServiceProto = proto ∧
      ∃ evs, q.1.callbacks = e.callbacks ++ evs ∧
        ∀ ev ∈ evs, ∀ tp, ev.typeProto = some tp → tp = (typeNameOf S, proto)) ∧
    (∀ (e : BonjourClass) (now : Nat),
      e._resolveNames1 = some (S.take (strlen S) ++ (_postfixForProtocol proto).getD []) →
      e._resolveServiceProto = proto →
      e._resolveTimeouts1 ≠ 0 ∧ now > e._resolveTimeouts1 →
      (runResolver1 e now)._resolveNames1 = none ∧
      (runResolver1 e now).callbacks = e.callbacks ++
        (if e._serviceFoundCallback then
          [CallbackEvent.serviceFound (typeNameOf S) proto none none 0 none]
         else [])) := by
  obtain ⟨rest, hpost, hrest⟩ := postfix_dot proto
  have htype : typeNameOf (S.take (strlen S) ++ (_postfixForProtocol proto).getD [])
      = typeNameOf S := by
    rw [hpost]
    exact typeNameOf_stored rest S
  have hfix : restoreDot (S.take (strlen S) ++ (_postfixForProtocol proto).getD [])
      = S.take (strlen S) ++ (_postfixForProtocol proto).getD [] := by
    rw [hpost]
    exact restoreDot_eq _ (stored_no_nul S rest hrest) (by simp)
  have hc := core_fields (core_sendMDNSMessage
    { afterAllocs st 1 with
      _resolveNames1 := some (S.take (strlen S) ++ (_postfixForProtocol proto).getD []),
      _resolveServiceProto := proto,
      _resolveTimeouts1 := if timeout ≠ 0 then (st.now + timeout) % 4294967296 else 0 }
    none 0 MDNSPacketType_t.MDNSPacketTypeServiceQuery 0)
  refine ⟨?_, ?_, ?_, htype, ⟨typeNameOf_eq_self S, typeNameOf_self S⟩, hfix, ?_, ?_⟩
  · rw [startDiscoveringService_ok st S proto timeout hcb ha]
  · rw [startDiscoveringService_ok st S proto timeout hcb ha]
    exact hc.2.1
  · rw [startDiscoveringService_ok st S proto timeout hcb ha]
    exact hc.2.2.2.2.1
  · intro e inbound junkPorts junkIPs fuel q hn hp hq
    have h := walk_processMDNSQuery (walk_typeProto e.callbacks _ proto hfix)
      (fun s peer xid type rec h => by
        obtain ⟨h1, h2, evs, he, hall⟩ := h
        have hcs := core_fields (core_sendMDNSMessage s peer xid type rec)
        exact ⟨hcs.2.2.2.2.1.trans h1, hcs.2.1.trans h2, evs,
          hcs.2.2.2.2.2.2.2.2.1.trans he, hall⟩)
      e inbound junkPorts junkIPs fuel q ⟨hp, hn, [], by simp, by simp⟩ hq
    obtain ⟨h1, h2, evs, he, hall⟩ := h
    refine ⟨h2, h1, evs, he, ?_⟩
    intro ev hm tp htp
    rw [hall ev hm tp htp, htype]
  · intro e now hn hp hdl
    have h := (runResolver1_timeout e now _ hn).1 hdl
    rw [htype, hp] at h
    exact h

set_option maxRecDepth 100000 in
/-- An instance of C28: `startDiscoveringService("_http", MDNSServiceTCP,
5000)` stores `_http._tcp.local`; the callback for the instance found in
`serviceResponse` and the callback on timeout get the type name `_http` and
the protocol TCP, and the stored name is as before behind the delivery. -/
theorem C28_type_argument_witness :
    readyState._serviceFoundCallback = true ∧ AllocOK readyState 1 ∧
    httpDiscovering._resolveNames1 = some (ascii "_http._tcp.local") ∧
    typeNameOf (ascii "_http._tcp.local") = ascii "_http" ∧
    (run (atTime httpDiscovering 10500) (some ⟨serviceResponse, [10, 0, 0, 9], 5353⟩) [] []
        4).map (fun s => (s.callbacks, s._resolveNames1))
      = some ([CallbackEvent.serviceFound (ascii "_http") MDNSServiceProtocol_t.MDNSServiceTCP
          (some (ascii "MyPrinter")) (some [10, 0, 0, 9]) 9100 (some (9 :: ascii "path=/lpr"))],
        some (ascii "_http._tcp.local")) ∧
    (run (atTime httpDiscovering 15001) none [] [] 0).map (fun s => (s.callbacks, s._resolveNames1))
      = some ([CallbackEvent.serviceFound (ascii "_http") MDNSServiceProtocol_t.MDNSServiceTCP
          none none 0 none], none) := by
  have h := C28_type_argument readyState (ascii "_http") MDNSServiceProtocol_t.MDNSServiceTCP
    5000 (by decide) (by decide)
  exact ⟨by decide, by decide, h.2.1, by decide, by decide, by decide⟩

set_option maxRecDepth 100000 in
/-- Against C28 as stated, for its own witness `S = "_http._tcp"`: the stored
name is `_http._tcp._tcp.local`, and both the callback on timeout and the
callback for a found instance get the type name `_http`, not `S`. -/
theorem C28_counterexample :
    dottedDiscovering._resolveNames1 = some (ascii "_http._tcp._tcp.local") ∧
    (run (atTime dottedDiscovering 15001) none [] [] 0).map (fun s => s.callbacks)
      = some [CallbackEvent.serviceFound (ascii "_http") MDNSServiceProtocol_t.MDNSServiceTCP
          none none 0 none] ∧
    (run (atTime dottedDiscovering 10500) (some ⟨dottedResponse, [10, 0, 0, 9], 5353⟩) [] []
        3).map (fun s => s.callbacks)
      = some [CallbackEvent.serviceFound (ascii "_http") MDNSServiceProtocol_t.MDNSServiceTCP
          (some (ascii "MyPrinter")) (some [10, 0, 0, 9]) 9100 none] ∧
    ascii "_http" ≠ ascii "_http._tcp" := by
  decide

/-! ## C27: the answer for the name of slot 0 -/

/-- The chunk loop of the question walk ends behind the `tr` bytes of the
label. -/
theorem chunkLoop_offset (pkt : List Nat) (asked : List Nat) :
    ∀ (fuel tr off : Nat) (cs : List Candidate), tr ≤ fuel →
      (chunkLoop pkt asked fuel tr off cs).1 = off + tr := by
  intro fuel
  induction fuel with
  | zero =>
    intro tr off cs h
    have h0 : tr = 0 := by omega
    subst h0
    rfl
  | succ fuel ih =>
    intro tr off cs h
    rw [chunkLoop]
    split
    · next hpos =>
      dsimp only
      have hs : sizeofDNSHeader = 12 := rfl
      rw [ih _ _ _ (by rw [hs]; split <;> omega), hs]
      split <;> omega
    · next hz =>
      have h0 : tr = 0 := by omega
      subst h0
      rfl

/-- The chunk loop of the answer walk ends behind the `tr` bytes of the
label and leaves the counters of the name alone. -/
theorem answerChunkLoop_offset (pkt : List Nat) (found : List Nat) :
    ∀ (fuel tr : Nat) (nw : NameWalk), tr ≤ fuel →
      (answerChunkLoop pkt found fuel tr nw).offset = nw.offset + tr ∧
      (answerChunkLoop pkt found fuel tr nw).tLen = nw.tLen ∧
      (answerChunkLoop pkt found fuel tr nw).firstNamePtrByte = nw.firstNamePtrByte := by
  intro fuel
  induction fuel with
  | zero =>
    intro tr nw h
    have h0 : tr = 0 := by omega
    subst h0
    exact ⟨rfl, rfl, rfl⟩
  | succ fuel ih =>
    intro tr nw h
    rw [answerChunkLoop]
    split
    · next hpos =>
      dsimp only
      obtain ⟨h1, h2, h3⟩ := ih (tr - if tr > sizeofDNSHeader then sizeofDNSHeader else tr)
        { nw with offset := nw.offset + (if tr > sizeofDNSHeader then sizeofDNSHeader else tr),
                  cands := List.zipWith (fun f a => a.chunk f
                    (readBytes pkt nw.offset
                      (if tr > sizeofDNSHeader then sizeofDNSHeader else tr))) found nw.cands,
                  ptrs := nw.ptrs.map (PtrSlot.chunk
                    (readBytes pkt nw.offset
                      (if tr > sizeofDNSHeader then sizeofDNSHeader else tr))) }
        (by rw [show sizeofDNSHeader = 12 from rfl]; split <;> omega)
      refine ⟨?_, h2, h3⟩
      rw [h1]
      show nw.offset + _ + _ = _
      rw [show sizeofDNSHeader = 12 from rfl]
      split <;> omega
    · next hz =>
      have h0 : tr = 0 := by omega
      subst h0
      exact ⟨rfl, rfl, rfl⟩

/-- C31 (as the code has it): in both name walks the test on a length byte
`b` is `b > 128`. A byte above 128 (`0x81` to `0xFF`) is taken as the first
byte of a compression pointer: one more byte is read and the name ends. A byte
from 1 to 128 is a literal label of that many bytes, behind which the walk goes
on. The byte 0 ends the name. -/
theorem C31_length_byte (pkt : List Nat) (fuel : Nat) :
    (∀ (asked : List Nat) (off tLen : Nat) (cs : List Candidate),
      (pkt.getD off 0 > 128 →
        labelLoop pkt asked (fuel + 1) off tLen cs
          = (off + 2, tLen + 2, cs.map fun c =>
              if c.servNamePos ≠ 0 ∧ c.servNamePos ≠ pkt.getD (off + 1) 0
              then { c with servMatch := 0 } else c)) ∧
      (0 < pkt.getD off 0 ∧ pkt.getD off 0 ≤ 128 →
        (chunkLoop pkt asked (pkt.getD off 0) (pkt.getD off 0) (off + 1) cs).1
          = off + 1 + pkt.getD off 0 ∧
        labelLoop pkt asked (fuel + 1) off tLen cs
          = labelLoop pkt asked fuel (off + 1 + pkt.getD off 0) (tLen + 1 + pkt.getD off 0)
              (chunkLoop pkt asked (pkt.getD off 0) (pkt.getD off 0) (off + 1) cs).2) ∧
      (pkt.getD off 0 = 0 →
        labelLoop pkt asked (fuel + 1) off tLen cs = (off + 1, tLen + 1, cs))) ∧
    (∀ (found : List Nat) (isQuestion : Bool) (nw : NameWalk),
      (pkt.getD nw.offset 0 > 128 →
        answerNameLoop pkt found isQuestion (fuel + 1) nw
          = { nw with
              offset := nw.offset + 2, tLen := nw.tLen + 2,
              cands := nw.cands.map (AnswerCandidate.pointer (pkt.getD (nw.offset + 1) 0)),
              firstNamePtrByte :=
                if nw.firstNamePtrByte = 0 then pkt.getD (nw.offset + 1) 0
                else nw.firstNamePtrByte }) ∧
      (0 < pkt.getD nw.offset 0 ∧ pkt.getD nw.offset 0 ≤ 128 →
        ∃ nw', nw'.offset = nw.offset + 1 + pkt.getD nw.offset 0 ∧
          answerNameLoop pkt found isQuestion (fuel + 1) nw
            = answerNameLoop pkt found isQuestion fuel nw') ∧
      (pkt.getD nw.offset 0 = 0 →
        answerNameLoop pkt found isQuestion (fuel + 1) nw
          = { nw with offset := nw.offset + 1, tLen := nw.tLen + 1 })) := by
  constructor
  · intro asked off tLen cs
    refine ⟨?_, ?_, ?_⟩
    · intro h
      rw [labelLoop]
      dsimp only
      rw [if_pos h]
    · intro h
      have ho := chunkLoop_offset pkt asked (pkt.getD off 0) (pkt.getD off 0) (off + 1) cs
        (Nat.le_refl _)
      refine ⟨ho, ?_⟩
      rw [labelLoop]
      dsimp only
      rw [if_neg (by omega), if_pos h.1, ho, Nat.add_assoc tLen 1]
    · intro h
      rw [labelLoop]
      dsimp only
      rw [if_neg (by omega), if_neg (by omega)]
  · intro found isQuestion nw
    refine ⟨?_, ?_, ?_⟩
    · intro h
      rw [answerNameLoop]
      dsimp only
      rw [if_pos h]
    · intro h
      rw [answerNameLoop]
      dsimp only
      rw [if_neg (by omega), if_pos h.1]
      cases isQuestion with
      | true =>
        rw [if_pos rfl]
        exact ⟨_, by show nw.offset + 1 + _ = _; rfl, rfl⟩
      | false =>
        rw [if_neg (by decide)]
        refine ⟨_, ?_, rfl⟩
        show (answerChunkLoop pkt found _ _ _).offset = _
        rw [(answerChunkLoop_offset pkt found _ _ _ (Nat.le_refl _)).1]
    · intro h
      rw [answerNameLoop]
      dsimp only
      rw [if_neg (by omega), if_neg (by omega)]

set_option maxRecDepth 100000 in
/-- An instance of C31: in `scenario1Query` the byte 5 at offset 12 is a
literal label, behind which the walk goes on at offset 18; in
`reservedLabelResponse` the byte `0x81` at offset 12 is taken as a pointer by
both walks, which end the name at offset 14. -/
theorem C31_length_byte_witness :
    scenario1Query.getD 12 0 = 5 ∧
    labelLoop scenario1Query [0] 30 12 0 [Candidate.ofName (some (ascii "spark.local"))]
      = labelLoop scenario1Query [0] 29 18 6
          (chunkLoop scenario1Query [0] 5 5 13 [Candidate.ofName (some (ascii "spark.local"))]).2 ∧
    reservedLabelResponse.getD 12 0 = 0x81 ∧
    (labelLoop reservedLabelResponse [0] 30 12 0
      [Candidate.ofName (some (ascii "spark.local"))]).1 = 14 ∧
    (answerNameLoop reservedLabelResponse [0, 0] false 30
      ⟨12, 0, 0, [AnswerCandidate.ofSlot (some (ascii "peer.local")) 0], []⟩).offset = 14 := by
  have h := C31_length_byte scenario1Query 29
  have h2 := C31_length_byte reservedLabelResponse 29
  refine ⟨by decide, ?_, by decide, ?_, ?_⟩
  · exact ((h.1 [0] 12 0 [Candidate.ofName (some (ascii "spark.local"))]).2.1
      (by decide)).2
  · rw [(h2.1 [0] 12 0 [Candidate.ofName (some (ascii "spark.local"))]).1 (by decide)]
  · rw [(h2.2 [0, 0] false
      ⟨12, 0, 0, [AnswerCandidate.ofSlot (some (ascii "peer.local")) 0], []⟩).1 (by decide)]

set_option maxRecDepth 100000 in
/-- Against C31 as stated: the byte `0x81` is below `0xC0`, yet both walks
take it as a compression pointer. The question walk ends the name two bytes
on, at offset 14, where a literal label of 129 bytes would end at offset 142;
and while `peer.local` is being resolved the A record of
`reservedLabelResponse`, whose owner name starts with `0x81`, is accepted as
an answer with a compressed name: the name-found callback gets 10.0.0.99. -/
theorem C31_counterexample :
    reservedLabelResponse.getD 12 0 = 0x81 ∧ 0x81 < 0xC0 ∧
    labelLoop reservedLabelResponse [0] 30 12 0 [Candidate.ofName (some (ascii "spark.local"))]
      = (14, 2, [Candidate.ofName (some (ascii "spark.local"))]) ∧
    (run (atTime peerResolving 10500) (some ⟨reservedLabelResponse, [10, 0, 0, 7], 5353⟩) [] []
        1).map (fun s => (s.callbacks, s._resolveNames0))
      = some ([CallbackEvent.nameFound (some (ascii "peer")) (some [10, 0, 0, 99])], none) := by
  decide


/-! ## The send buffer -/

theorem write_buffer (st : BonjourClass) (data : List Nat)
    (hb : st._writeBuffer.length ≤ sizeofWriteBuffer) :
    writeReturn st data = min data.length (sizeofWriteBuffer - st._writeBuffer.length) ∧
    (write st data)._writeBuffer = st._writeBuffer ++ data.take (writeReturn st data) ∧
    (write st data)._writeBuffer.length = st._writeBuffer.length + writeReturn st data ∧
    (write st data)._writeBuffer.length ≤ sizeofWriteBuffer ∧
    (write st data).sent = st.sent := by
  have hr : writeReturn st data
      = min data.length (sizeofWriteBuffer - st._writeBuffer.length) := by
    unfold writeReturn
    dsimp only
    split <;> omega
  have hw : (write st data)._writeBuffer
      = st._writeBuffer ++ data.take (writeReturn st data) := by
    show st._writeBuffer ++ data.take (sizeofWriteBuffer - st._writeBuffer.length) = _
    rw [hr]
    congr 1
    rw [List.take_eq_take]
    omega
  refine ⟨hr, hw, ?_, ?_, rfl⟩
  · rw [hw, List.length_append, List.length_take, hr]
    omega
  · rw [hw, List.length_append, List.length_take, hr]
    omega

theorem endPacket_buffer (st : BonjourClass) :
    (endPacket st).sent = st.sent ++ [⟨st.udpDest.1, st.udpDest.2, st._writeBuffer⟩] ∧
    (endPacket st)._writeBuffer = [] ∧ (endPacket st).udpDest = st.udpDest :=
  ⟨rfl, rfl, rfl⟩

theorem beginPacket_flush (st : BonjourClass) (ip : List Nat) (port : Nat) :
    (beginPacket st ip port)._writeBuffer = [] ∧
    (beginPacket st ip port).udpDest = (ip, port) ∧
    (beginPacket st ip port).sent = st.sent ++
      (if st._writeBuffer.length > 0 then [⟨st.udpDest.1, st.udpDest.2, st._writeBuffer⟩]
       else []) := by
  unfold beginPacket
  dsimp only
  refine ⟨rfl, rfl, ?_⟩
  split
  · rfl
  · exact (List.append_nil _).symm

/-- One call of the send-buffer methods keeps the offset within the buffer,
and every datagram it hands to the transport is the buffer as it was. -/
theorem bufferCall_step (c : BufferCall) (st : BonjourClass)
    (hb : st._writeBuffer.length ≤ sizeofWriteBuffer) :
    (c.apply st)._writeBuffer.length ≤ sizeofWriteBuffer ∧
    ∃ ds, (c.apply st).sent = st.sent ++ ds ∧ ∀ d ∈ ds, d.data.length ≤ sizeofWriteBuffer := by
  cases c with
  | beginPacket ip port =>
    obtain ⟨h1, _, h3⟩ := beginPacket_flush st ip port
    refine ⟨?_, _, h3, ?_⟩
    · show (beginPacket st ip port)._writeBuffer.length ≤ _
      rw [h1]
      exact Nat.zero_le _
    · intro d hd
      split at hd
      · rw [List.mem_singleton.1 hd]
        exact hb
      · cases hd
  | write data =>
    obtain ⟨_, _, _, h4, h5⟩ := write_buffer st data hb
    exact ⟨h4, [], by rw [List.append_nil]; exact h5, fun d hd => nomatch hd⟩
  | endPacket =>
    refine ⟨Nat.zero_le _, _, (endPacket_buffer st).1, ?_⟩
    intro d hd
    rw [List.mem_singleton.1 hd]
    exact hb

theorem applyCalls_buffer (calls : List BufferCall) :
    ∀ st : BonjourClass, st._writeBuffer.length ≤ sizeofWriteBuffer →
      (applyCalls calls st)._writeBuffer.length ≤ sizeofWriteBuffer ∧
      ∃ ds, (applyCalls calls st).sent = st.sent ++ ds ∧
        ∀ d ∈ ds, d.data.length ≤ sizeofWriteBuffer := by
  induction calls with
  | nil =>
    intro st hb
    exact ⟨hb, [], (List.append_nil _).symm, fun d hd => nomatch hd⟩
  | cons c cs ih =>
    intro st hb
    obtain ⟨h1, ds1, h2, h3⟩ := bufferCall_step c st hb
    obtain ⟨h4, ds2, h5, h6⟩ := ih (c.apply st) h1
    refine ⟨h4, ds1 ++ ds2, ?_, ?_⟩
    · show (applyCalls cs (c.apply st)).sent = _
      rw [h5, h2, List.append_assoc]
    · intro d hd
      rcases List.mem_append.1 hd with h | h
      · exact h3 d h
      · exact h6 d h

/-- C32: from an offset within the buffer (the constructor leaves 0), every
sequence of `beginPacket`, `write` and `endPacket` calls keeps the write
offset within 0..512, and no datagram handed to the transport has more than
512 bytes. `write(buf, len)` copies and returns `min(len, 512 - offset)` bytes
and advances the offset by that amount, sending nothing; `endPacket` hands the
first `offset` bytes to the transport as one datagram and resets the offset;
`beginPacket` first sends the pending bytes, if any, as a datagram to the
destination of the packet before and then starts with the offset 0 and the new
destination. -/
theorem C32_send_buffer (st : BonjourClass)
    (hb : st._writeBuffer.length ≤ sizeofWriteBuffer) :
    sizeofWriteBuffer = 512 ∧
    (∀ calls : List BufferCall,
      (applyCalls calls st)._writeBuffer.length ≤ 512 ∧
      ∀ d ∈ emitted st (applyCalls calls st), d.data.length ≤ 512) ∧
    (∀ data : List Nat,
      writeReturn st data = min data.length (512 - st._writeBuffer.length) ∧
      (write st data)._writeBuffer = st._writeBuffer ++ data.take (writeReturn st data) ∧
      (write st data)._writeBuffer.length = st._writeBuffer.length + writeReturn st data ∧
      emitted st (write st data) = []) ∧
    (emitted st (endPacket st) = [⟨st.udpDest.1, st.udpDest.2, st._writeBuffer⟩] ∧
      (endPacket st)._writeBuffer = []) ∧
    (∀ (ip : List Nat) (port : Nat),
      (beginPacket st ip port)._writeBuffer = [] ∧
      (beginPacket st ip port).udpDest = (ip, port) ∧
      emitted st (beginPacket st ip port)
        = if st._writeBuffer.length > 0 then [⟨st.udpDest.1, st.udpDest.2, st._writeBuffer⟩]
          else []) := by
  refine ⟨rfl, ?_, ?_, ?_, ?_⟩
  · intro calls
    obtain ⟨h1, ds, h2, h3⟩ := applyCalls_buffer calls st hb
    refine ⟨h1, ?_⟩
    intro d hd
    unfold emitted at hd
    rw [h2, List.drop_left] at hd
    exact h3 d hd
  · intro data
    obtain ⟨h1, h2, h3, _, h5⟩ := write_buffer st data hb
    refine ⟨h1, h2, h3, ?_⟩
    unfold emitted
    rw [h5, List.drop_length]
  · refine ⟨?_, rfl⟩
    unfold emitted
    rw [(endPacket_buffer st).1, List.drop_left]
  · intro ip port
    obtain ⟨h1, h2, h3⟩ := beginPacket_flush st ip port
    refine ⟨h1, h2, ?_⟩
    unfold emitted
    rw [h3, List.drop_left]

set_option maxRecDepth 100000 in
/-- An instance of C32: on the engine with an empty buffer, 600 bytes
written, a packet begun, 5 bytes written and the packet ended give two
datagrams, of 512 and of 5 bytes, and the offset 0. -/
theorem C32_send_buffer_witness :
    sparkState._writeBuffer.length ≤ sizeofWriteBuffer ∧
    ((applyCalls [BufferCall.write (List.replicate 600 7),
        BufferCall.beginPacket [224, 0, 0, 251] 5353, BufferCall.write [1, 2, 3, 4, 5],
        BufferCall.endPacket] sparkState)._writeBuffer.length ≤ 512 ∧
      ∀ d ∈ emitted sparkState (applyCalls [BufferCall.write (List.replicate 600 7),
        BufferCall.beginPacket [224, 0, 0, 251] 5353, BufferCall.write [1, 2, 3, 4, 5],
        BufferCall.endPacket] sparkState), d.data.length ≤ 512) ∧
    (emitted sparkState (applyCalls [BufferCall.write (List.replicate 600 7),
        BufferCall.beginPacket [224, 0, 0, 251] 5353, BufferCall.write [1, 2, 3, 4, 5],
        BufferCall.endPacket] sparkState)).map (fun d => d.data.length) = [512, 5] ∧
    writeReturn sparkState (List.replicate 600 7) = 512 :=
  ⟨by decide, (C32_send_buffer sparkState (by decide)).2.1 _, by decide, by decide⟩


/-! ## The bytes the query path reads -/

theorem range'_cons_append (s a b : Nat) :
    s :: (List.range' (s + 1) a ++ List.range' (s + 1 + a) b) = List.range' s (1 + a + b) := by
  rw [List.range'_append_1, show 1 + a + b = (b + a) + 1 from by omega, List.range'_succ]

theorem chunkLoopReads_eq :
    ∀ (fuel tr off : Nat), tr ≤ fuel → chunkLoopReads fuel tr off = List.range' off tr := by
  intro fuel
  induction fuel with
  | zero =>
    intro tr off h
    have h0 : tr = 0 := by omega
    subst h0
    rfl
  | succ fuel ih =>
    intro tr off h
    rw [chunkLoopReads]
    have hs : sizeofDNSHeader = 12 := rfl
    split
    · next hpos =>
      dsimp only
      rw [ih _ _ (by rw [hs]; split <;> omega)]
      unfold readOffsets
      rw [List.range'_append_1]
      congr 1
      rw [hs]
      split <;> omega
    · next hz =>
      have h0 : tr = 0 := by omega
      subst h0
      rfl

/-- The label loop reads the bytes from its start to where it stops, one by
one and nothing else; with fuel it reads at least one byte. -/
theorem labelLoopReads_eq (pkt : List Nat) :
    ∀ (fuel off tLen : Nat) (asked : List Nat) (cs : List Candidate),
      off ≤ (labelLoop pkt asked fuel off tLen cs).1 ∧
      (0 < fuel → off + 1 ≤ (labelLoop pkt asked fuel off tLen cs).1) ∧
      labelLoopReads pkt fuel off
        = List.range' off ((labelLoop pkt asked fuel off tLen cs).1 - off) := by
  intro fuel
  induction fuel with
  | zero =>
    intro off tLen asked cs
    refine ⟨Nat.le_refl _, fun h => absurd h (by decide), ?_⟩
    show [] = List.range' off (off - off)
    rw [Nat.sub_self]
    rfl
  | succ fuel ih =>
    intro off tLen asked cs
    rw [labelLoop, labelLoopReads]
    dsimp only
    by_cases hp : pkt.getD off 0 > 128
    · rw [if_pos hp, if_pos hp]
      refine ⟨by show off ≤ off + 1 + 1; omega, fun _ => by show off + 1 ≤ off + 1 + 1; omega, ?_⟩
      show [off, off + 1] = List.range' off (off + 1 + 1 - off)
      rw [show off + 1 + 1 - off = 2 from by omega]
      rfl
    · rw [if_neg hp, if_neg hp]
      by_cases hl : pkt.getD off 0 > 0
      · rw [if_pos hl, if_pos hl]
        have h1 := chunkLoop_offset pkt asked (pkt.getD off 0) (pkt.getD off 0) (off + 1) cs
          (Nat.le_refl _)
        have h2 := chunkLoop_offset pkt [] (pkt.getD off 0) (pkt.getD off 0) (off + 1) []
          (Nat.le_refl _)
        rw [h1, h2]
        obtain ⟨i1, _, i3⟩ := ih (off + 1 + pkt.getD off 0) (tLen + 1 + pkt.getD off 0) asked
          (chunkLoop pkt asked (pkt.getD off 0) (pkt.getD off 0) (off + 1) cs).2
        refine ⟨by omega, fun _ => by omega, ?_⟩
        rw [i3, chunkLoopReads_eq _ _ _ (Nat.le_refl _), range'_cons_append]
        congr 1
        omega
      · rw [if_neg hl, if_neg hl]
        refine ⟨by show off ≤ off + 1; omega, fun _ => Nat.le_refl _, ?_⟩
        show [off] = List.range' off (off + 1 - off)
        rw [show off + 1 - off = 1 from by omega]
        rfl

theorem questionStepReads_eq (st : BonjourClass) (pkt : List Nat) (ws : WalkState) :
    ws.offset + 5 ≤ (questionStep st pkt ws).offset ∧
    questionStepReads st pkt ws
      = List.range' ws.offset ((questionStep st pkt ws).offset - ws.offset) := by
  obtain ⟨h1, h2, h3⟩ := labelLoopReads_eq pkt (pkt.length + 1) ws.offset 0 ws.recordsAskedFor
    (initCandidates st)
  have h2' := h2 (Nat.succ_pos _)
  have ho : (questionStep st pkt ws).offset
      = (labelLoop pkt ws.recordsAskedFor (pkt.length + 1) ws.offset 0 (initCandidates st)).1
        + 4 := rfl
  refine ⟨by omega, ?_⟩
  unfold questionStepReads readOffsets
  rw [h3, ho]
  obtain ⟨k, hk⟩ : ∃ k, (labelLoop pkt ws.recordsAskedFor (pkt.length + 1) ws.offset 0
      (initCandidates st)).1 = ws.offset + k := ⟨_, (Nat.add_sub_cancel' h1).symm⟩
  rw [hk, Nat.add_sub_cancel_left, List.range'_append_1]
  congr 1
  omega

theorem questionWalkReads_eq (st : BonjourClass) (pkt : List Nat) :
    ∀ (n : Nat) (ws : WalkState),
      ws.offset + 5 * n ≤ (questionWalk st pkt n ws).offset ∧
      questionWalkReads st pkt n ws
        = List.range' ws.offset ((questionWalk st pkt n ws).offset - ws.offset) := by
  intro n
  induction n with
  | zero =>
    intro ws
    refine ⟨Nat.le_refl _, ?_⟩
    show [] = List.range' ws.offset (ws.offset - ws.offset)
    rw [Nat.sub_self]
    rfl
  | succ n ih =>
    intro ws
    obtain ⟨s1, s2⟩ := questionStepReads_eq st pkt ws
    obtain ⟨i1, i2⟩ := ih (questionStep st pkt ws)
    rw [questionWalk, questionWalkReads, s2, i2]
    refine ⟨by omega, ?_⟩
    obtain ⟨a, ha⟩ : ∃ a, (questionStep st pkt ws).offset = ws.offset + a :=
      ⟨_, (Nat.add_sub_cancel' (by omega)).symm⟩
    obtain ⟨b, hb⟩ : ∃ b, (questionWalk st pkt n (questionStep st pkt ws)).offset
        = (questionStep st pkt ws).offset + b := ⟨_, (Nat.add_sub_cancel' (by omega)).symm⟩
    rw [hb, ha, Nat.add_sub_cancel_left, Nat.add_sub_cancel_left, List.range'_append_1]
    congr 1
    omega

/-- The question path invokes no callback. -/
theorem processQuestions_callbacks (st : BonjourClass) (pkt remoteIP : List Nat) :
    (processQuestions st pkt remoteIP).callbacks = st.callbacks := by
  rw [processQuestions_eq]
  exact (core_fields (core_sendAll (some remoteIP) (packetXid pkt) _ st)).2.2.2.2.2.2.2.2.1

/-- C33 (what the code does): the query path reads the datagram buffer without
a test against its length. It reads the twelve bytes of the header and then,
byte by byte, everything up to the offset the question walk ends at, which is
at least `12 + 5 * QDCOUNT`: one byte of name and the four bytes of QTYPE and
QCLASS for every question. The reads stay inside the buffer exactly when that
offset is within the datagram; a datagram shorter than `12 + 5 * QDCOUNT`
bytes has the byte at the datagram length read. No callback is invoked on the
query path. -/
theorem C33_query_reads (st : BonjourClass) (pkt remoteIP : List Nat) :
    queryReads st pkt
      = List.range (questionWalk st pkt (packetQCnt pkt) WalkState.start).offset ∧
    12 + 5 * packetQCnt pkt ≤ (questionWalk st pkt (packetQCnt pkt) WalkState.start).offset ∧
    ((∀ o ∈ queryReads st pkt, o < pkt.length) ↔
      (questionWalk st pkt (packetQCnt pkt) WalkState.start).offset ≤ pkt.length) ∧
    (pkt.length < 12 + 5 * packetQCnt pkt → pkt.length ∈ queryReads st pkt) ∧
    (processQuestions st pkt remoteIP).callbacks = st.callbacks := by
  obtain ⟨h1, h2⟩ := questionWalkReads_eq st pkt (packetQCnt pkt) WalkState.start
  have hs : WalkState.start.offset = 12 := rfl
  rw [hs] at h1 h2
  have hr : queryReads st pkt
      = List.range (questionWalk st pkt (packetQCnt pkt) WalkState.start).offset := by
    unfold queryReads readOffsets
    rw [h2, show sizeofDNSHeader = 12 from rfl]
    obtain ⟨k, hk⟩ : ∃ k, (questionWalk st pkt (packetQCnt pkt) WalkState.start).offset
        = 12 + k := ⟨_, (Nat.add_sub_cancel' (by omega)).symm⟩
    rw [hk, Nat.add_sub_cancel_left, List.range_eq_range']
    have h := List.range'_append_1 0 12 k
    rw [Nat.zero_add] at h
    rw [h, Nat.add_comm]
  refine ⟨hr, h1, ?_, ?_, processQuestions_callbacks st pkt remoteIP⟩
  · rw [hr]
    constructor
    · intro h
      by_contra hc
      have := h pkt.length (List.mem_range.2 (by omega))
      omega
    · intro h o ho
      have := List.mem_range.1 ho
      omega
  · intro h
    rw [hr]
    exact List.mem_range.2 (by omega)

set_option maxRecDepth 100000 in
/-- An instance of C33: `truncatedQuery` has 25 bytes, the header with
QDCOUNT 1 and the name `spark.local` without the four bytes of QTYPE and
QCLASS. The walk reads the offsets 0 to 28, four of them behind the datagram.
With zero bytes there nothing is answered; with the bytes `00 01 00 01` there
the question is answered like the complete one. -/
theorem C33_query_reads_witness :
    truncatedQuery.length = 25 ∧ packetQCnt truncatedQuery = 1 ∧
    queryReads sparkState truncatedQuery = List.range 29 ∧
    25 ∈ queryReads sparkState truncatedQuery ∧
    ¬ (∀ o ∈ queryReads sparkState truncatedQuery, o < truncatedQuery.length) ∧
    emitted sparkState (processQuestions sparkState truncatedQuery [10, 0, 0, 5]) = [] ∧
    emitted sparkState (processQuestions sparkState (truncatedQuery ++ [0, 1, 0, 1]) [10, 0, 0, 5])
      = [myIPAnswerDatagram 0x1234 (ascii "spark.local") [192, 168, 1, 10]] ∧
    (processQuestions sparkState truncatedQuery [10, 0, 0, 5]).callbacks = [] := by
  have h := C33_query_reads sparkState truncatedQuery [10, 0, 0, 5]
  have hoff : (questionWalk sparkState truncatedQuery (packetQCnt truncatedQuery)
      WalkState.start).offset = 29 := by decide
  refine ⟨by decide, by decide, ?_, ?_, ?_, by decide, by decide, h.2.2.2.2⟩
  · rw [h.1, hoff]
  · rw [h.1, hoff]
    decide
  · rw [h.2.2.1, hoff]
    decide


/-! ## The host identity -/

theorem cHead_take_strlen (nm rest : List Nat) (h : cHead nm ≠ 0) :
    cHead (nm.take (strlen nm) ++ rest) = cHead nm := by
  cases nm with
  | nil => exact absurd rfl h
  | cons b l =>
    have hb : b ≠ 0 := h
    simp only [strlen, hb, if_false, List.take_succ_cons, List.cons_append, cHead,
      List.headD_cons]

theorem setBonjourName_ok (st : BonjourClass) (nm : List Nat) (h : cHead nm ≠ 0)
    (ha : AllocOK st 1) :
    setBonjourName st (some nm)
      = ({ afterAllocs st 1 with _bonjourName := some (nm.take (strlen nm) ++ MDNS_TLD) },
          1) := by
  have hm : my_malloc st = (true, afterAllocs st 1) := my_malloc_ok st 0 1 ha (by decide)
  unfold setBonjourName
  dsimp only
  rw [if_neg h, hm]
  rfl

/-- A successful `setBonjourName` leaves a host identity that is not empty. -/
theorem setBonjourName_nonEmpty (st : BonjourClass) (name : Option (List Nat))
    (h : (setBonjourName st name).2 ≠ 0) :
    ∃ nm, name = some nm ∧ cHead nm ≠ 0 ∧
      (setBonjourName st name).1._bonjourName = some (nm.take (strlen nm) ++ MDNS_TLD) ∧
      cHead (nm.take (strlen nm) ++ MDNS_TLD) ≠ 0 := by
  cases name with
  | none => exact absurd rfl h
  | some nm =>
    by_cases hz : cHead nm = 0
    · exfalso
      apply h
      unfold setBonjourName
      dsimp only
      rw [if_pos hz]
    · refine ⟨nm, rfl, hz, ?_, by rw [cHead_take_strlen nm _ hz]; exact hz⟩
      unfold setBonjourName at h ⊢
      dsimp only at h ⊢
      rw [if_neg hz] at h ⊢
      cases hm : (my_malloc st).1 with
      | false =>
        rw [hm] at h
        exact absurd rfl h
      | true => rfl

/-- C34: `set_name(name)` returns 0 and changes nothing when `name` is `NULL`
or empty. Otherwise, the allocation succeeding, it returns 1 and the host
identity is `name` followed by `.local`, whatever it was before; nothing else
of the engine changes. `begin()` without an argument is `begin("myspark")`: it
sets the identity `myspark.local` and returns what the transport's `begin`
returns. After every successful `set_name` or `begin` the identity is the
argument followed by `.local`, a string that is not empty. -/
theorem C34_set_name (st : BonjourClass) :
    setBonjourName st none = (st, 0) ∧
    (∀ nm : List Nat, cHead nm = 0 → setBonjourName st (some nm) = (st, 0)) ∧
    (∀ nm : List Nat, cHead nm ≠ 0 → AllocOK st 1 →
      setBonjourName st (some nm)
        = ({ afterAllocs st 1 with _bonjourName := some (nm.take (strlen nm) ++ MDNS_TLD) },
            1)) ∧
    (∀ udpBegin : Nat, AllocOK st 1 →
      beginDefault st udpBegin
        = ({ afterAllocs st 1 with _bonjourName := some (ascii "myspark.local") }, udpBegin)) ∧
    (∀ name : Option (List Nat), (setBonjourName st name).2 ≠ 0 →
      ∃ nm, name = some nm ∧ cHead nm ≠ 0 ∧
        (setBonjourName st name).1._bonjourName = some (nm.take (strlen nm) ++ MDNS_TLD) ∧
        cHead (nm.take (strlen nm) ++ MDNS_TLD) ≠ 0) ∧
    (∀ (name : Option (List Nat)) (udpBegin : Nat), (begin st name udpBegin).2 ≠ 0 →
      ∃ nm, name = some nm ∧ cHead nm ≠ 0 ∧
        (begin st name udpBegin).1._bonjourName = some (nm.take (strlen nm) ++ MDNS_TLD) ∧
        cHead (nm.take (strlen nm) ++ MDNS_TLD) ≠ 0) := by
  refine ⟨rfl, ?_, ?_, ?_, ?_, ?_⟩
  · intro nm h
    unfold setBonjourName
    dsimp only
    rw [if_pos h]
  · intro nm h ha
    exact setBonjourName_ok st nm h ha
  · intro udpBegin ha
    unfold beginDefault begin
    dsimp only
    rw [setBonjourName_ok st MDNS_DEFAULT_NAME (by decide) ha]
    rfl
  · intro name h
    exact setBonjourName_nonEmpty st name h
  · intro name udpBegin h
    have hs : (setBonjourName st name).2 ≠ 0 := by
      intro hc
      apply h
      unfold begin
      dsimp only
      rw [if_neg (by rw [hc]; decide)]
      exact hc
    obtain ⟨nm, h1, h2, h3, h4⟩ := setBonjourName_nonEmpty st name hs
    refine ⟨nm, h1, h2, ?_, h4⟩
    unfold begin
    dsimp only
    rw [if_pos hs]
    exact h3

set_option maxRecDepth 100000 in
/-- An instance of C34: on the engine named `spark.local`,
`setBonjourName("core")` returns 1 and the identity is `core.local`;
`setBonjourName("")` and `setBonjourName(NULL)` return 0 and leave
`spark.local`; `begin()` gives `myspark.local`. -/
theorem C34_set_name_witness :
    sparkState._bonjourName = some (ascii "spark.local") ∧
    (setBonjourName sparkState (some (ascii "core"))).2 = 1 ∧
    (setBonjourName sparkState (some (ascii "core"))).1._bonjourName
      = some (ascii "core.local") ∧
    setBonjourName sparkState (some []) = (sparkState, 0) ∧
    setBonjourName sparkState none = (sparkState, 0) ∧
    (beginDefault sparkState 1).2 = 1 ∧
    (beginDefault sparkState 1).1._bonjourName = some (ascii "myspark.local") := by
  have h := C34_set_name sparkState
  have h1 := h.2.2.1 (ascii "core") (by decide) (by decide)
  have h2 := h.2.2.2.1 1 (by decide)
  refine ⟨rfl, ?_, ?_, h.2.1 [] rfl, h.1, ?_, ?_⟩
  · rw [h1]
  · rw [h1]
    rfl
  · rw [h2]
  · rw [h2]


/-! ## Label boundaries in the question walk -/

/-- The chunk loop over a label of the question against a candidate whose
name goes on behind the label without a dot: every chunk matches and the
cursor stands behind the bytes of the label. -/
theorem chunkLoop_part (pkt : List Nat) (r T : List Nat) (hr : cHead r ≠ DOT) :
    ∀ (fuel : Nat) (l2 : List Nat) (off : Nat), LabelBytes l2 →
      pkt.drop off = l2 ++ T → l2.length ≤ fuel →
      chunkLoop pkt [0] fuel l2.length off [Candidate.at (l2 ++ r)]
        = (off + l2.length, [Candidate.at r]) := by
  intro fuel
  induction fuel with
  | zero =>
    intro l2 off _ _ hf
    have hl : l2 = [] := List.length_eq_zero.mp (by omega)
    subst hl
    rfl
  | succ fuel ih =>
    intro l2 off hlb hdrop hf
    by_cases hne : l2 = []
    · subst hne
      exact chunkLoop_zero pkt [0] (fuel + 1) off _
    · have hpos : l2.length > 0 := List.length_pos.mpr hne
      have hlen : pkt.length - off = l2.length + T.length := by
        have := congrArg List.length hdrop
        simpa using this
      obtain ⟨ir, hir⟩ : ∃ ir, ir = (if l2.length > sizeofDNSHeader then sizeofDNSHeader
          else l2.length) := ⟨_, rfl⟩
      have hir1 : ir ≤ l2.length := by
        rw [hir]; split <;> omega
      have hir0 : 0 < ir := by
        rw [hir]; split
        · decide
        · omega
      have hchunk : readBytes pkt off ir = l2.take ir := by
        rw [readBytes_eq pkt off ir (by omega), hdrop, List.take_append_of_le_length hir1]
      have hsplit : l2 ++ r = l2.take ir ++ (l2.drop ir ++ r) := by
        rw [← List.append_assoc, List.take_append_drop]
      have hhead : cHead (l2.drop ir ++ r) ≠ DOT := by
        cases hd : l2.drop ir with
        | nil => exact hr
        | cons b t =>
          have hb : b ∈ l2 := List.mem_of_mem_drop (by rw [hd]; exact List.mem_cons_self _ _)
          exact (hlb b hb).2
      rw [chunkLoop, if_pos hpos]
      simp only [← hir, hchunk, List.zipWith_cons_cons, List.zipWith_nil_right]
      rw [hsplit, matchChunk_at, if_neg hhead]
      have hdl : (l2.drop ir).length = l2.length - ir := by simp
      have := ih (l2.drop ir) (off + ir)
        (fun b hb => hlb b (List.mem_of_mem_drop hb))
        (by rw [← List.drop_drop, hdrop, List.drop_append_of_le_length hir1])
        (by omega)
      rw [hdl] at this
      rw [this]
      congr 1
      omega

/-- The label loop over the labels `a :: ls` against the candidate whose name
is `a`, then without a dot the labels `ls` joined by dots: all chunks match,
and the candidate has matched in full at the end of the name. -/
theorem labelLoop_split (pkt T a : List Nat) (ls : List (List Nat)) (fuel off tLen : Nat)
    (hg : GoodLabels (a :: ls)) (hlen : ∀ l ∈ a :: ls, l.length ≤ 128)
    (hdrop : pkt.drop off = wireLabels (a :: ls) ++ 0 :: T) (hf : (a :: ls).length < fuel) :
    labelLoop pkt [0] fuel off tLen [Candidate.at (a ++ joinLabels ls)]
      = (off + (wireLabels (a :: ls)).length + 1, tLen + (wireLabels (a :: ls)).length + 1,
          [Candidate.at []]) := by
  cases fuel with
  | zero => simp at hf
  | succ fuel =>
    have ha := hg a (List.mem_cons_self _ _)
    have ha128 := hlen a (List.mem_cons_self _ _)
    have hpos : a.length > 0 := List.length_pos.mpr ha.1
    have hget : pkt.getD off 0 = a.length := by
      have := congrArg (fun l => l.getD 0 0) hdrop
      simpa [wireLabels, List.getD_eq_getElem?_getD] using this
    have hdrop1 : pkt.drop (off + 1) = a ++ (wireLabels ls ++ 0 :: T) := by
      rw [← List.drop_drop, hdrop]
      simp [wireLabels]
    have hr : cHead (joinLabels ls) ≠ DOT := by
      cases ls with
      | nil => decide
      | cons l ls' =>
        have hl := hg l (List.mem_cons_of_mem _ (List.mem_cons_self _ _))
        rw [cHead_joinLabels l ls' hl.1]
        cases l with
        | nil => exact absurd rfl hl.1
        | cons b t => exact (hl.2 b (List.mem_cons_self _ _)).2
    have hch := chunkLoop_part pkt (joinLabels ls) (wireLabels ls ++ 0 :: T) hr a.length a
      (off + 1) ha.2 hdrop1 (le_refl _)
    rw [labelLoop]
    simp only [hget, if_neg (show ¬ a.length > 128 by omega), if_pos hpos, hch]
    have hdrop2 : pkt.drop (off + 1 + a.length) = wireLabels ls ++ 0 :: T := by
      rw [← List.drop_drop, hdrop1, List.drop_left]
    rw [labelLoop_labels pkt T ls fuel (off + 1 + a.length) (tLen + 1 + a.length)
      (fun x hx => hg x (List.mem_cons_of_mem _ hx))
      (fun x hx => hlen x (List.mem_cons_of_mem _ hx)) hdrop2
      (by simp at hf; omega)]
    simp only [wireLabels, List.length_append, List.length_cons, Prod.mk.injEq, and_true]
    constructor <;> omega

/-- C35 (what the code does): the walk compares the bytes of the wire labels
with the candidate name and steps over a dot of the candidate where one
follows a chunk; where a label of the question ends it makes no test. For
every question name `N` whose first label is `a` and whose other labels are
`ls`, the host whose identity is `a` followed, without a dot, by the labels
`ls` joined by dots is marked as asked for by the question `N A IN`, and the
datagram with this one question is answered with the MyIPAnswer of the host,
although the identity is not `N` when `ls` is not empty (`sp.ark.local` for
the host `spark.local`). -/
theorem C35_label_boundaries (st : BonjourClass) (N a : List Nat) (ls : List (List Nat))
    (x0 x1 f0 f1 n0 n1 n2 n3 n4 n5 : Nat) (rest remoteIP : List Nat)
    (hwf : WellFormedName 128 N) (hsplit : splitLabels N = a :: ls)
    (hhost : st._bonjourName = some (a ++ joinLabels ls))
    (hH : NonEmptyLabels (a ++ joinLabels ls))
    (hclash : NoNameClash st N) (hb : st._writeBuffer = []) :
    (ls ≠ [] → a ++ joinLabels ls ≠ N) ∧
    (questionWalk st
        ([x0, x1, f0, f1, 0, 1, n0, n1, n2, n3, n4, n5] ++ wireName N 1 ++ 0 :: 1 :: 0 :: 1 :: rest)
        1 WalkState.start).recordsAskedFor
      = (List.replicate (NumMDNSServiceRecords + 2) 0).set 0 1 ∧
    emitted st (processQuestions st
        ([x0, x1, f0, f1, 0, 1, n0, n1, n2, n3, n4, n5] ++ wireName N 1 ++ 0 :: 1 :: 0 :: 1 :: rest)
        remoteIP)
      = [myIPAnswerDatagram (x0 * 256 + x1) (a ++ joinLabels ls) st.localIP] := by
  obtain ⟨pkt, hpkt⟩ : ∃ pkt, pkt = [x0, x1, f0, f1, 0, 1, n0, n1, n2, n3, n4, n5] ++
      wireName N 1 ++ 0 :: 1 :: 0 :: 1 :: rest := ⟨_, rfl⟩
  have hq : packetQCnt pkt = 1 := by
    rw [hpkt]
    simp [packetQCnt]
  have hxid : packetXid pkt = x0 * 256 + x1 := by
    rw [hpkt]
    simp [packetXid]
  have hshape : pkt.drop WalkState.start.offset
      = wireLabels (splitLabels N) ++ 0 :: 0 :: 1 :: 0 :: 1 :: rest := by
    rw [hpkt]
    simp [WalkState.start, sizeofDNSHeader, wireName]
  have hgood : GoodLabels (a :: ls) := by
    rw [← hsplit]
    exact goodLabels_of_nonEmpty N (nonEmpty_of_wellFormed hwf)
  have hlens : ∀ l ∈ a :: ls, l.length ≤ 128 := by
    rw [← hsplit]
    exact fun l hl => (hwf.2 l hl).2
  have hc0 : (initCandidates st)[0]? = some (Candidate.ofName (some (a ++ joinLabels ls))) := by
    rw [initCandidates_zero, hhost]
  obtain ⟨c', hrun, _, _, _, hflag, hwants⟩ := questionStep_literal st pkt WalkState.start
    (splitLabels N) 0 1 0 1 rest (fun l hl => hwf.2 l hl) hshape 0 0 _ rfl hc0
  have hplen : (a :: ls).length < pkt.length + 1 := by
    have h1 := congrArg List.length hshape
    have h2 := wireLabels_length_ge (splitLabels N)
    rw [hsplit] at h1 h2
    simp only [List.length_drop, List.length_append, List.length_cons] at h1 h2 ⊢
    omega
  have hown := labelLoop_split pkt (0 :: 1 :: 0 :: 1 :: rest) a ls (pkt.length + 1)
    WalkState.start.offset 0 hgood hlens (by rw [← hsplit]; exact hshape) hplen
  rw [candidate_ofName _ hH.1, hown] at hrun
  cases hrun
  have htf : tailFlags [0, 1, 0, 1] 0 0 (Candidate.at []) = (1, false) := by decide
  rw [htf] at hflag
  have hw := hwants rfl
  rw [htf] at hw
  have hflags : (questionStep st pkt WalkState.start).recordsAskedFor
      = (List.replicate (NumMDNSServiceRecords + 2) 0).set 0 1 := by
    apply List.ext_getElem?
    intro j
    by_cases hj : j < NumMDNSServiceRecords + 2
    · rcases Nat.eq_zero_or_pos j with hj0 | hjpos
      · subst hj0
        rw [hflag]
        rfl
      · have haj : WalkState.start.recordsAskedFor[j]? = some 0 := by
          show (List.replicate (NumMDNSServiceRecords + 2) 0)[j]? = some 0
          rw [List.getElem?_replicate, if_pos hj]
        have hother : (questionStep st pkt WalkState.start).recordsAskedFor[j]? = some 0 := by
          rcases Nat.lt_or_ge j 2 with h2 | h2
          · have hj1 : j = 1 := by omega
            subst hj1
            exact (questionStep_other st pkt WalkState.start N 0 1 0 1 rest hwf hshape 1 0 _ haj
              (initCandidates_one st) hclash.1).1
          · obtain ⟨i, hi⟩ : ∃ i, j = i + 2 := ⟨j - 2, by omega⟩
            subst hi
            exact (questionStep_other st pkt WalkState.start N 0 1 0 1 rest hwf hshape (i + 2) 0 _
              haj (initCandidates_slot st i (by omega)) (noClash_slot st N hclash i)).1
        rw [hother, List.getElem?_set_ne (by omega), List.getElem?_replicate, if_pos hj]
    · rw [List.getElem?_eq_none (by rw [questionStep_length, start_length]; omega),
        List.getElem?_eq_none (by rw [List.length_set, List.length_replicate]; omega)]
  have hwant : (questionStep st pkt WalkState.start).wantsIPv6Addr = 0 := by
    rw [hw]
    rfl
  rw [← hpkt]
  refine ⟨?_, hflags, ?_⟩
  · intro hls hc
    have hj := joinLabels_splitLabels N
    rw [hsplit, joinLabels_cons] at hj
    cases ls with
    | nil => exact hls rfl
    | cons l ls' =>
      rw [← hj] at hc
      have := congrArg List.length hc
      simp [afterLabel] at this
  · rw [processQuestions_eq, hq, hxid]
    show emitted st (sendAll (some remoteIP) (x0 * 256 + x1)
      (respondPlan st (questionStep st pkt WalkState.start).recordsAskedFor
        (questionStep st pkt WalkState.start).wantsIPv6Addr) st) = _
    rw [hflags, hwant, respondPlan_host]
    apply emitted_append
    simp only [sendAll]
    exact send_myIPAnswer st _ _ 0 _ hhost hH hb

set_option maxRecDepth 100000 in
/-- An instance of C35, the two names of the claim: the host `spark.local`
answers the question for `sp.ark.local`, and the host
`abcdefghijkl.mnop.local` answers the question for `abcdefghijklmnop.local`,
whose first label of 16 bytes is compared in chunks of 12 and 4 bytes. -/
theorem C35_label_boundaries_witness :
    splitLabels (ascii "sp.ark.local") = [ascii "sp", ascii "ark", ascii "local"] ∧
    sparkState._bonjourName = some (ascii "spark.local") ∧
    ascii "spark.local" ≠ ascii "sp.ark.local" ∧
    emitted sparkState (processQuestions sparkState splitQuery [10, 0, 0, 5])
      = [myIPAnswerDatagram 0x1234 (ascii "spark.local") [192, 168, 1, 10]] ∧
    emitted dottedHostState (processQuestions dottedHostState longLabelQuery [10, 0, 0, 5])
      = [myIPAnswerDatagram 0x1234 (ascii "abcdefghijkl.mnop.local") [192, 168, 1, 10]] := by
  have h := C35_label_boundaries sparkState (ascii "sp.ark.local") (ascii "sp")
    [ascii "ark", ascii "local"] 0x12 0x34 0 0 0 0 0 0 0 0 [] [10, 0, 0, 5]
    (by decide) (by decide) (by decide) (by decide) (by decide) (by decide)
  exact ⟨by decide, by decide, by decide, h.2.2, by decide⟩


/-! ## The deadline of a lookup -/

theorem resolveName_deadline (st : BonjourClass) (N : List Nat) (T : Nat)
    (hcb : st._nameFoundCallback = true) (ha : AllocOK st 1) :
    (resolveName st N T).1._resolveNames0 = some (N.take (strlen N) ++ MDNS_TLD) ∧
    (resolveName st N T).1._resolveTimeouts0
      = if T ≠ 0 then (st.now + T) % 4294967296 else 0 := by
  rw [resolveName_ok st N T hcb ha]
  have hc := core_fields (core_sendMDNSMessage
    { afterAllocs st 1 with
      _resolveNames0 := some (N.take (strlen N) ++ MDNS_TLD),
      _resolveTimeouts0 := if T ≠ 0 then (st.now + T) % 4294967296 else 0 }
    none 0 MDNSPacketType_t.MDNSPacketTypeNameQuery 0)
  exact ⟨hc.1, hc.2.2.1⟩

theorem startDiscoveringService_deadline (st : BonjourClass) (S : List Nat)
    (proto : MDNSServiceProtocol_t) (T : Nat)
    (hcb : st._serviceFoundCallback = true) (ha : AllocOK st 1) :
    (startDiscoveringService st S proto T).1._resolveNames1
      = some (S.take (strlen S) ++ (_postfixForProtocol proto).getD []) ∧
    (startDiscoveringService st S proto T).1._resolveTimeouts1
      = if T ≠ 0 then (st.now + T) % 4294967296 else 0 := by
  rw [startDiscoveringService_ok st S proto T hcb ha]
  have hc := core_fields (core_sendMDNSMessage
    { afterAllocs st 1 with
      _resolveNames1 := some (S.take (strlen S) ++ (_postfixForProtocol proto).getD []),
      _resolveServiceProto := proto,
      _resolveTimeouts1 := if T ≠ 0 then (st.now + T) % 4294967296 else 0 }
    none 0 MDNSPacketType_t.MDNSPacketTypeServiceQuery 0)
  exact ⟨hc.2.1, hc.2.2.2.1⟩

/-- The slot-0 pass of a tick at the clock value `t` frees the slot exactly
when the deadline is not 0 and `t` is above it. -/
theorem runResolver0_expires (e : BonjourClass) (t : Nat) (n : List Nat)
    (hn : e._resolveNames0 = some n) :
    (runResolver0 (atTime e t) t)._resolveNames0 = none ↔
      (e._resolveTimeouts0 ≠ 0 ∧ t > e._resolveTimeouts0) := by
  have h := runResolver0_timeout (atTime e t) t n hn
  have ht : (atTime e t)._resolveTimeouts0 = e._resolveTimeouts0 := rfl
  rw [ht] at h
  constructor
  · intro hc
    by_contra hd
    have h2 := (h.2 (by omega)).1
    rw [hc] at h2
    cases h2
  · intro hd
    exact (h.1 hd).1

/-- The same for slot 1. -/
theorem runResolver1_expires (e : BonjourClass) (t : Nat) (n : List Nat)
    (hn : e._resolveNames1 = some n) :
    (runResolver1 (atTime e t) t)._resolveNames1 = none ↔
      (e._resolveTimeouts1 ≠ 0 ∧ t > e._resolveTimeouts1) := by
  have h := runResolver1_timeout (atTime e t) t n hn
  have ht : (atTime e t)._resolveTimeouts1 = e._resolveTimeouts1 := rfl
  rw [ht] at h
  constructor
  · intro hc
    by_contra hd
    have h2 := (h.2 (by omega)).1
    rw [hc] at h2
    cases h2
  · intro hd
    exact (h.1 hd).1

/-- A deadline `(now + T) mod 2^32` and the test `deadline != 0 && t >
deadline`, for a clock `now` and a timeout `T` of 32 bits, `T` not 0. -/
theorem deadline_cases (now T d : Nat) (hnow : now < 4294967296) (hT : T ≠ 0)
    (hTlt : T < 4294967296) (hd : d = (now + T) % 4294967296) :
    (now + T < 4294967296 → d ≠ 0 ∧ ∀ t, (d ≠ 0 ∧ t > d) ↔ now + T < t) ∧
    (now + T = 4294967296 → d = 0 ∧ ∀ t, ¬ (d ≠ 0 ∧ t > d)) ∧
    (4294967296 < now + T → ∀ t, now ≤ t → (d ≠ 0 ∧ t > d)) := by
  subst hd
  refine ⟨?_, ?_, ?_⟩
  · intro h
    rw [Nat.mod_eq_of_lt h]
    exact ⟨by omega, fun t => ⟨fun h2 => h2.2, fun h2 => ⟨by omega, h2⟩⟩⟩
  · intro h
    rw [h]
    exact ⟨rfl, fun t h2 => h2.1 rfl⟩
  · intro h t ht
    omega

/-- C36 (what the code does): the deadline stored for a timeout `T` that is
not 0 is `(millis() + T) mod 2^32`. When the sum stays below `2^32` the
deadline is not 0 and the pass of a tick at the clock value `t` frees the slot
exactly when `t` is above `millis() + T`. When the sum is exactly `2^32` the
deadline is 0, the value that stands for no timeout, and no tick ever frees
the slot. When the sum is above `2^32` the deadline is below the clock value of
the call, and the pass of every tick from that clock value on frees the slot,
the first one already, however little time has passed. The same holds for
`start_service_discovery` and slot 1. -/
theorem C36_deadline (st : BonjourClass) (T : Nat) (hnow : st.now < 4294967296) (hT : T ≠ 0)
    (hTlt : T < 4294967296) (ha : AllocOK st 1) :
    (∀ N : List Nat, st._nameFoundCallback = true →
      (resolveName st N T).1._resolveTimeouts0 = (st.now + T) % 4294967296 ∧
      (st.now + T < 4294967296 →
        (resolveName st N T).1._resolveTimeouts0 ≠ 0 ∧
        ∀ t, (runResolver0 (atTime (resolveName st N T).1 t) t)._resolveNames0 = none ↔
          st.now + T < t) ∧
      (st.now + T = 4294967296 →
        (resolveName st N T).1._resolveTimeouts0 = 0 ∧
        ∀ t, (runResolver0 (atTime (resolveName st N T).1 t) t)._resolveNames0 ≠ none) ∧
      (4294967296 < st.now + T →
        ∀ t, st.now ≤ t →
          (runResolver0 (atTime (resolveName st N T).1 t) t)._resolveNames0 = none)) ∧
    (∀ (S : List Nat) (proto : MDNSServiceProtocol_t), st._serviceFoundCallback = true →
      (startDiscoveringService st S proto T).1._resolveTimeouts1 = (st.now + T) % 4294967296 ∧
      (st.now + T < 4294967296 →
        (startDiscoveringService st S proto T).1._resolveTimeouts1 ≠ 0 ∧
        ∀ t, (runResolver1 (atTime (startDiscoveringService st S proto T).1 t) t)._resolveNames1
            = none ↔ st.now + T < t) ∧
      (st.now + T = 4294967296 →
        (startDiscoveringService st S proto T).1._resolveTimeouts1 = 0 ∧
        ∀ t, (runResolver1 (atTime (startDiscoveringService st S proto T).1 t) t)._resolveNames1
            ≠ none) ∧
      (4294967296 < st.now + T →
        ∀ t, st.now ≤ t →
          (runResolver1 (atTime (startDiscoveringService st S proto T).1 t) t)._resolveNames1
            = none)) := by
  constructor
  · intro N hcb
    obtain ⟨hn, hd⟩ := resolveName_deadline st N T hcb ha
    rw [if_pos hT] at hd
    obtain ⟨c1, c2, c3⟩ := deadline_cases st.now T _ hnow hT hTlt hd
    refine ⟨hd, ?_, ?_, ?_⟩
    · intro h
      refine ⟨(c1 h).1, fun t => ?_⟩
      rw [runResolver0_expires _ t _ hn]
      exact (c1 h).2 t
    · intro h
      refine ⟨(c2 h).1, fun t hc => ?_⟩
      rw [runResolver0_expires _ t _ hn] at hc
      exact (c2 h).2 t hc
    · intro h t ht
      rw [runResolver0_expires _ t _ hn]
      exact c3 h t ht
  · intro S proto hcb
    obtain ⟨hn, hd⟩ := startDiscoveringService_deadline st S proto T hcb ha
    rw [if_pos hT] at hd
    obtain ⟨c1, c2, c3⟩ := deadline_cases st.now T _ hnow hT hTlt hd
    refine ⟨hd, ?_, ?_, ?_⟩
    · intro h
      refine ⟨(c1 h).1, fun t => ?_⟩
      rw [runResolver1_expires _ t _ hn]
      exact (c1 h).2 t
    · intro h
      refine ⟨(c2 h).1, fun t hc => ?_⟩
      rw [runResolver1_expires _ t _ hn] at hc
      exact (c2 h).2 t hc
    · intro h t ht
      rw [runResolver1_expires _ t _ hn]
      exact c3 h t ht

set_option maxRecDepth 100000 in
/-- An instance of C36: `resolveName("peer", 5000)` at the clock value
`2^32 - 5000` stores the deadline 0, and neither the tick at `2^32 - 1` nor
the tick at 6000 behind the wrap of the clock, 11000 ms after the call, frees
the slot or invokes the callback; at the clock value `2^32 - 1000` it stores
the deadline 4000, and a tick at the very clock value of the call invokes the
callback with a `NULL` address and frees the slot. -/
theorem C36_deadline_witness :
    lateState.now = 4294962296 ∧ lateState.now + 5000 = 4294967296 ∧
    (resolveName lateState (ascii "peer") 5000).1._resolveTimeouts0 = 0 ∧
    (∀ t, (runResolver0 (atTime (resolveName lateState (ascii "peer") 5000).1 t)
        t)._resolveNames0 ≠ none) ∧
    (run (atTime (resolveName lateState (ascii "peer") 5000).1 4294967295) none [] [] 0).map
        (fun s => (s.callbacks, s._resolveNames0)) = some ([], some (ascii "peer.local")) ∧
    (run (atTime (resolveName lateState (ascii "peer") 5000).1 6000) none [] [] 0).map
        (fun s => (s.callbacks, s._resolveNames0)) = some ([], some (ascii "peer.local")) ∧
    (resolveName laterState (ascii "peer") 5000).1._resolveTimeouts0 = 4000 ∧
    (run (resolveName laterState (ascii "peer") 5000).1 none [] [] 0).map
        (fun s => (s.callbacks, s._resolveNames0))
      = some ([CallbackEvent.nameFound (some (ascii "peer")) none], none) := by
  have h := (C36_deadline lateState 5000 (by decide) (by decide) (by decide) (by decide)).1
    (ascii "peer") (by decide)
  have h2 := h.2.2.1 (by decide)
  exact ⟨by decide, by decide, h2.1, h2.2, by decide, by decide, by decide, by decide⟩


/-! ## The labels the encoder writes, for every name -/

end Bonjour
